import Mathlib

/-!
TCP sliding-window engine (FreeRTOS+TCP, `TCP_WIN`)

A shallow embedding of the receive and transmit window bookkeeping of
`FreeRTOS_TCP_WIN.c`, `TCP_WIN_Reception.c` and `TCP_WIN_Transmission.c`.

Conventions of the embedding:

* `uint32_t` values are natural numbers below `2^32`; every unsigned operation
  reduces modulo `2^32` (`u32add`, `u32sub`, `u32mul`).  `int32_t` values are
  integers; the casts between the two are `toInt32` and `toUInt32`.
* The segment pool `xTCPSegments` is an arena indexed by natural numbers; a
  pointer to a descriptor is its index, `NULL` is `none`.
* A FreeRTOS `List_t` is the list of the indices of its items, head first.  The
  back pointer of a list item to its container is represented by membership:
  `uxListRemove` erases the index from the list that holds it.
* Loops that the C code does not bound carry a `fuel` argument counting loop
  iterations; running out of fuel yields `none`.  A loop over the items of a
  `List_t` that fetches the next item before it runs its body recurses over the
  items the list held on entry.
-/

namespace TCPWin

/-! ## Machine arithmetic -/

/-- Unsigned 32-bit addition. -/
def u32add (a b : Nat) : Nat := (a + b) % 4294967296

/-- Unsigned 32-bit subtraction `a - b`. -/
def u32sub (a b : Nat) : Nat := (a % 4294967296 + (4294967296 - b % 4294967296)) % 4294967296

/-- Unsigned 32-bit multiplication. -/
def u32mul (a b : Nat) : Nat := (a * b) % 4294967296

/-- The cast `( int32_t ) x` of an unsigned 32-bit value (two's complement). -/
def toInt32 (n : Nat) : Int :=
  if n % 4294967296 < 2147483648 then Int.ofNat (n % 4294967296)
  else Int.ofNat (n % 4294967296) - 4294967296

/-- The cast `( uint32_t ) x` of a signed value. -/
def toUInt32 (i : Int) : Nat := (i % 4294967296).toNat

/-- The function `FreeRTOS_min_int32`. -/
def FreeRTOS_min_int32 (a b : Int) : Int := if a ≤ b then a else b

/-- The function `FreeRTOS_min_uint32`. -/
def FreeRTOS_min_uint32 (a b : Nat) : Nat := if a ≤ b then a else b

/-! ## Sequence-number comparison (`FreeRTOS_TCP_WIN.c`, lines 244-335) -/

/-- Test `a <= b`: `( ( b - a ) & 0x80000000U ) == 0U`. -/
def xSequenceLessThanOrEqual (a b : Nat) : Bool :=
  (u32sub b a) &&& 0x80000000 == 0

/-- Test `a < b`: `( ( b - ( a + 1U ) ) & 0x80000000U ) == 0U`. -/
def xSequenceLessThan (a b : Nat) : Bool :=
  (u32sub b (u32add a 1)) &&& 0x80000000 == 0

/-- Test `a > b`: `( ( a - ( b + 1U ) ) & 0x80000000U ) == 0U`. -/
def xSequenceGreaterThan (a b : Nat) : Bool :=
  (u32sub a (u32add b 1)) &&& 0x80000000 == 0

/-- Test `a >= b`: `( ( a - b ) & 0x80000000U ) == 0U`. -/
def xSequenceGreaterThanOrEqual (a b : Nat) : Bool :=
  (u32sub a b) &&& 0x80000000 == 0

/-! ## Data model -/

/-- Modelled from the spec: the declaration of `TCPSegment_t` (its header is not
among the sources).  The fields are the ones the functions read and write:
`xTransmitTimer.uxBorn` is `uxBorn`, the members of `u.bits` are the five flag
fields, and `u.ulFlags = 0` clears all five.  The counters `ucTransmitCount` and
`ucDupAckCount` are 8 bits wide. -/
structure TCPSegment where
  ulSequenceNumber : Nat
  lMaxLength : Int
  lDataLength : Int
  lStreamPos : Int
  uxBorn : Nat
  ucTransmitCount : Nat
  ucDupAckCount : Nat
  bOutstanding : Bool
  bAcked : Bool
  bIsForRx : Bool
deriving DecidableEq, Repr

/-- The three sequence numbers kept for each direction (`pxWindow->rx`, `pxWindow->tx`). -/
structure TCPSequence where
  ulFirstSequenceNumber : Nat
  ulCurrentSequenceNumber : Nat
  ulHighestSequenceNumber : Nat
deriving DecidableEq, Repr

/-- Modelled from the spec: the declaration of `TCPWindow_t` (its header is not
among the sources).  `xSize.ulRxWindowLength` and `xSize.ulTxWindowLength` are the
two window lengths, `u.bits.bHasInit` and `u.bits.bSendFullSize` the flags the
functions use, `pxHeadSegment` is `none` for `NULL`, and the five `List_t`
members are lists of descriptor indices. -/
structure TCPWindow where
  rx : TCPSequence
  tx : TCPSequence
  ulNextTxSequenceNumber : Nat
  ulOurSequenceNumber : Nat
  usMSS : Nat
  usMSSInit : Nat
  lSRTT : Int
  ulRxWindowLength : Nat
  ulTxWindowLength : Nat
  bHasInit : Bool
  bSendFullSize : Bool
  pxHeadSegment : Option Nat
  ulOptionsData : List Nat
  ucOptionLength : Nat
  ulUserDataLength : Nat
  xTxSegments : List Nat
  xRxSegments : List Nat
  xPriorityQueue : List Nat
  xTxQueue : List Nat
  xWaitQueue : List Nat
deriving DecidableEq, Repr

/-- The process-wide pool: the descriptor array `xTCPSegments` and the list of
free descriptors `xSegmentList`. -/
structure Pool where
  xTCPSegments : Nat → TCPSegment
  xSegmentList : List Nat

/-- Byte order of the target (`ipconfigBYTE_ORDER`). -/
inductive ByteOrder where
  | pdFREERTOS_LITTLE_ENDIAN
  | pdFREERTOS_BIG_ENDIAN
deriving DecidableEq, Repr

/-- What the engine takes from its host: the value `xTaskGetTickCount()` returns
during the call, and the configuration constants `portTICK_PERIOD_MS` and
`ipconfigBYTE_ORDER`. -/
structure Host where
  xTickCount : Nat
  portTICK_PERIOD_MS : Nat
  ipconfigBYTE_ORDER : ByteOrder
deriving DecidableEq, Repr

/-- The constant `OPTION_CODE_SINGLE_SACK` (lines 82-86). -/
def OPTION_CODE_SINGLE_SACK (h : Host) : Nat :=
  match h.ipconfigBYTE_ORDER with
  | .pdFREERTOS_BIG_ENDIAN => 0x0101050a
  | .pdFREERTOS_LITTLE_ENDIAN => 0x0a050101

/-- Modelled from the spec: the conversion `FreeRTOS_htonl` to network byte order
(its definition is not among the sources): the identity on a big-endian target,
a reversal of the four bytes on a little-endian one. -/
def FreeRTOS_htonl (h : Host) (x : Nat) : Nat :=
  match h.ipconfigBYTE_ORDER with
  | .pdFREERTOS_BIG_ENDIAN => x % 4294967296
  | .pdFREERTOS_LITTLE_ENDIAN =>
      (x % 256) * 16777216 + (x / 256 % 256) * 65536 + (x / 65536 % 256) * 256 + (x / 16777216 % 256)

/-- The constant `DUPLICATE_ACKS_BEFORE_FAST_RETRANSMIT`. -/
def DUPLICATE_ACKS_BEFORE_FAST_RETRANSMIT : Nat := 3

/-- The constant `MAX_TRANSMIT_COUNT_USING_LARGE_WINDOW`. -/
def MAX_TRANSMIT_COUNT_USING_LARGE_WINDOW : Nat := 4

/-! ## Timers and list primitives -/

/-- The function `ulTimerGetAge`: `( uxNow - uxBorn ) * portTICK_PERIOD_MS`. -/
def ulTimerGetAge (h : Host) (s : TCPSegment) : Nat :=
  u32mul (u32sub h.xTickCount s.uxBorn) h.portTICK_PERIOD_MS

/-- The function `vListInsertFifo`: the item becomes the last one of the list. -/
def vListInsertFifo (l : List Nat) (i : Nat) : List Nat := l ++ [i]

/-- The function `uxListRemove`, on one list. -/
def uxListRemove (l : List Nat) (i : Nat) : List Nat := l.erase i

/-- The function `xTCPWindowPeekHead`. -/
def xTCPWindowPeekHead (l : List Nat) : Option Nat := l.head?

/-- Store descriptor `s` at index `i` of the arena. -/
def Pool.setSegment (p : Pool) (i : Nat) (s : TCPSegment) : Pool :=
  { p with xTCPSegments := Function.update p.xTCPSegments i s }

/-! ## Segment pool (`FreeRTOS_TCP_WIN.c`) -/

/-- The function `xTCPWindowRxFind` (lines 472-497): the first item of `xRxSegments`
whose sequence number is `ulSequenceNumber`. -/
def xTCPWindowRxFind (p : Pool) (w : TCPWindow) (ulSequenceNumber : Nat) : Option Nat :=
  w.xRxSegments.find? (fun i => (p.xTCPSegments i).ulSequenceNumber == ulSequenceNumber)

/-- The function `xTCPWindowNew` (lines 514-576): take the head of `xSegmentList`,
append it to `xRxSegments` or `xTxSegments`, and initialise it. -/
def xTCPWindowNew (h : Host) (p : Pool) (w : TCPWindow) (ulSequenceNumber : Nat)
    (lCount : Int) (xIsForRx : Bool) : Option (Nat × Pool × TCPWindow) :=
  match p.xSegmentList with
  | [] => none
  | i :: rest =>
    let w1 : TCPWindow :=
      if xIsForRx then { w with xRxSegments := vListInsertFifo w.xRxSegments i }
      else { w with xTxSegments := vListInsertFifo w.xTxSegments i }
    let s := p.xTCPSegments i
    let s1 : TCPSegment :=
      { s with
        uxBorn := h.xTickCount
        ucTransmitCount := 0
        ucDupAckCount := 0
        bOutstanding := false
        bAcked := false
        bIsForRx := xIsForRx
        lMaxLength := lCount
        lDataLength := lCount
        ulSequenceNumber := ulSequenceNumber }
    some (i, { xTCPSegments := Function.update p.xTCPSegments i s1, xSegmentList := rest }, w1)

/-- The function `vTCPWindowFree` (lines 697-720): unlink the descriptor from its
queue, clear it, unlink it from its segment list and append it to `xSegmentList`. -/
def vTCPWindowFree (p : Pool) (w : TCPWindow) (i : Nat) : Pool × TCPWindow :=
  let s := p.xTCPSegments i
  let s1 : TCPSegment :=
    { s with
      ulSequenceNumber := 0
      lDataLength := 0
      ucTransmitCount := 0
      ucDupAckCount := 0
      bOutstanding := false
      bAcked := false
      bIsForRx := false }
  let w1 : TCPWindow :=
    { w with
      xPriorityQueue := uxListRemove w.xPriorityQueue i
      xWaitQueue := uxListRemove w.xWaitQueue i
      xTxQueue := uxListRemove w.xTxQueue i
      xTxSegments := uxListRemove w.xTxSegments i
      xRxSegments := uxListRemove w.xRxSegments i }
  ({ xTCPSegments := Function.update p.xTCPSegments i s1,
     xSegmentList := vListInsertFifo (uxListRemove p.xSegmentList i) i }, w1)

/-! ## Reception (`TCP_WIN_Reception.c`) -/

/-- The function `xTCPWindowRxConfirm` (lines 27-80): among the stored segments
with `ulSequenceNumber <= seq < ulSequenceNumber + ulLength`, the one with the
lowest sequence number (the first such one in list order among equals). -/
def xTCPWindowRxConfirm (p : Pool) (w : TCPWindow) (ulSequenceNumber ulLength : Nat) :
    Option Nat :=
  let ulNextSequenceNumber := u32add ulSequenceNumber ulLength
  w.xRxSegments.foldl
    (fun (pxBest : Option Nat) (i : Nat) =>
      let s := p.xTCPSegments i
      if xSequenceGreaterThanOrEqual s.ulSequenceNumber ulSequenceNumber
          && xSequenceLessThan s.ulSequenceNumber ulNextSequenceNumber then
        match pxBest with
        | none => some i
        | some b =>
          if xSequenceLessThan s.ulSequenceNumber (p.xTCPSegments b).ulSequenceNumber then some i
          else some b
      else pxBest)
    none

/-- The `do ... while` loop of `prvTCPWindowRx_ExpectedRX` (lines 107-116): free
every stored segment that starts inside the range just received. -/
def rxConfirmLoop (fuel : Nat) (p : Pool) (w : TCPWindow) (ulSequenceNumber ulLength : Nat) :
    Option (Pool × TCPWindow) :=
  match xTCPWindowRxConfirm p w ulSequenceNumber ulLength with
  | none => some (p, w)
  | some i =>
    match fuel with
    | 0 => none
    | f + 1 =>
      rxConfirmLoop f (vTCPWindowFree p w i).1 (vTCPWindowFree p w i).2 ulSequenceNumber ulLength

/-- The `for( ; ; )` loop of `prvTCPWindowRx_ExpectedRX` (lines 120-134): absorb the
stored segments that follow the current sequence number; the result carries the
final `ulCurrentSequenceNumber`. -/
def rxAbsorbLoop (fuel : Nat) (p : Pool) (w : TCPWindow) (ulCurrentSequenceNumber : Nat) :
    Option (Pool × TCPWindow × Nat) :=
  match xTCPWindowRxFind p w ulCurrentSequenceNumber with
  | none => some (p, w, ulCurrentSequenceNumber)
  | some i =>
    match fuel with
    | 0 => none
    | f + 1 =>
      rxAbsorbLoop f (vTCPWindowFree p w i).1 (vTCPWindowFree p w i).2
        (u32add ulCurrentSequenceNumber (toUInt32 (p.xTCPSegments i).lDataLength))

/-- The function `prvTCPWindowRx_ExpectedRX` (lines 92-156). -/
def prvTCPWindowRx_ExpectedRX (fuel : Nat) (p : Pool) (w : TCPWindow) (ulLength : Nat) :
    Option (Pool × TCPWindow) :=
  let ulSequenceNumber := w.rx.ulCurrentSequenceNumber
  let ulCurrentSequenceNumber := u32add ulSequenceNumber ulLength
  if w.xRxSegments.length ≠ 0 then
    let ulSavedSequenceNumber := ulCurrentSequenceNumber
    match rxConfirmLoop fuel p w ulSequenceNumber ulLength with
    | none => none
    | some (p1, w1) =>
      match rxAbsorbLoop fuel p1 w1 ulCurrentSequenceNumber with
      | none => none
      | some (p2, w2, cur2) =>
        let w3 : TCPWindow :=
          if ulSavedSequenceNumber ≠ cur2 then
            { w2 with ulUserDataLength := u32sub cur2 ulSavedSequenceNumber }
          else w2
        some (p2, { w3 with rx := { w3.rx with ulCurrentSequenceNumber := cur2 } })
  else
    some (p, { w with rx := { w.rx with ulCurrentSequenceNumber := ulCurrentSequenceNumber } })

/-- The first `for( ; ; )` loop of `prvTCPWindowRx_UnexpectedRX` (lines 187-197):
extend `ulLast` over the stored segments that start exactly at it. -/
def rxSackLoop (fuel : Nat) (p : Pool) (w : TCPWindow) (ulLast : Nat) : Option Nat :=
  match xTCPWindowRxFind p w ulLast with
  | none => some ulLast
  | some i =>
    match fuel with
    | 0 => none
    | f + 1 => rxSackLoop f p w (u32add ulLast (toUInt32 (p.xTCPSegments i).lDataLength))

/-- The function `prvTCPWindowRx_UnexpectedRX` (lines 171-267). -/
def prvTCPWindowRx_UnexpectedRX (fuel : Nat) (h : Host) (p : Pool) (w : TCPWindow)
    (ulSequenceNumber ulLength : Nat) : Option (Int × Pool × TCPWindow) :=
  let ulCurrentSequenceNumber := w.rx.ulCurrentSequenceNumber
  match rxSackLoop fuel p w (u32add ulSequenceNumber ulLength) with
  | none => none
  | some ulLast =>
    let w1 : TCPWindow :=
      { w with
        ulOptionsData :=
          [OPTION_CODE_SINGLE_SACK h, FreeRTOS_htonl h ulSequenceNumber, FreeRTOS_htonl h ulLast]
        ucOptionLength := 12 }
    match xTCPWindowRxFind p w1 ulSequenceNumber with
    | some _ => some (-1, p, w1)
    | none =>
      match xTCPWindowNew h p w1 ulSequenceNumber (toInt32 ulLength) true with
      | none => some (-1, p, { w1 with ucOptionLength := 0 })
      | some (_, p2, w2) => some (toInt32 (u32sub ulSequenceNumber ulCurrentSequenceNumber), p2, w2)

/-- The function `lTCPWindowRxCheck` (lines 284-366).  The result is the returned
offset together with the pool and the window after the call. -/
def lTCPWindowRxCheck (fuel : Nat) (h : Host) (p : Pool) (w : TCPWindow)
    (ulSequenceNumber ulLength ulSpace : Nat) : Option (Int × Pool × TCPWindow) :=
  let ulCurrentSequenceNumber := w.rx.ulCurrentSequenceNumber
  let w0 : TCPWindow := { w with ucOptionLength := 0, ulUserDataLength := 0 }
  if ulCurrentSequenceNumber = ulSequenceNumber then
    if ulLength > ulSpace then some (-1, p, w0)
    else
      match prvTCPWindowRx_ExpectedRX fuel p w0 ulLength with
      | none => none
      | some (p1, w1) => some (0, p1, w1)
  else if ulCurrentSequenceNumber = u32add ulSequenceNumber 1 then some (-1, p, w0)
  else
    let ulLast := u32add ulSequenceNumber ulLength
    let lDistance := toInt32 (u32sub ulLast ulCurrentSequenceNumber)
    if lDistance ≤ 0 then some (-1, p, w0)
    else if lDistance > toInt32 ulSpace then some (-1, p, w0)
    else prvTCPWindowRx_UnexpectedRX fuel h p w0 ulSequenceNumber ulLength

/-! ## Transmission (`TCP_WIN_Transmission.c`) -/

/-- The function `lTCPIncrementTxPosition` (lines 29-46). -/
def lTCPIncrementTxPosition (lPosition lMax lCount : Int) : Int :=
  let lReturn := lPosition + lCount
  if lReturn ≥ lMax then lReturn - lMax else lReturn

/-- The function `prvTCPWindowTxAdd_FrontSegment` (lines 64-95); the first
component is `lToWrite`. -/
def prvTCPWindowTxAdd_FrontSegment (p : Pool) (w : TCPWindow) (i : Nat) (lBytesLeft : Int) :
    Int × Pool × TCPWindow :=
  let s := p.xTCPSegments i
  let lToWrite := FreeRTOS_min_int32 lBytesLeft (s.lMaxLength - s.lDataLength)
  let s1 : TCPSegment := { s with lDataLength := s.lDataLength + lToWrite }
  let w1 : TCPWindow := if s1.lDataLength ≥ s1.lMaxLength then { w with pxHeadSegment := none } else w
  let w2 : TCPWindow :=
    { w1 with ulNextTxSequenceNumber := u32add w1.ulNextTxSequenceNumber (toUInt32 lToWrite) }
  (lToWrite, p.setSegment i s1, w2)

/-- The body of the loop of `lTCPWindowTxAdd` once a descriptor `i` has been
obtained (lines 149-172): fill it, queue it in `xTxQueue` and set `pxHeadSegment`.
The first component is `lToWrite`. -/
def txAddLoop_store (p : Pool) (w : TCPWindow) (i : Nat) (lBytesLeft lBufferIndex : Int) :
    Int × Pool × TCPWindow :=
  let s := p.xTCPSegments i
  let lToWrite := FreeRTOS_min_int32 lBytesLeft s.lMaxLength
  let s1 : TCPSegment := { s with lDataLength := lToWrite, lStreamPos := lBufferIndex }
  let w1 : TCPWindow :=
    { w with
      ulNextTxSequenceNumber := u32add w.ulNextTxSequenceNumber (toUInt32 lToWrite)
      xTxQueue := vListInsertFifo w.xTxQueue i
      pxHeadSegment := if s1.lDataLength < s1.lMaxLength then some i else none }
  (lToWrite, p.setSegment i s1, w1)

/-- The `while( lBytesLeft > 0 )` loop of `lTCPWindowTxAdd` (lines 141-185); the
first component of the result is `lDone`. -/
def txAddLoop (fuel : Nat) (h : Host) (p : Pool) (w : TCPWindow)
    (lBytesLeft lBufferIndex lMax lDone : Int) : Option (Int × Pool × TCPWindow) :=
  if lBytesLeft > 0 then
    match fuel with
    | 0 => none
    | f + 1 =>
      match xTCPWindowNew h p w w.ulNextTxSequenceNumber (Int.ofNat w.usMSS) false with
      | none => some (lDone, p, w)
      | some (i, p1, w1) =>
        let r := txAddLoop_store p1 w1 i lBytesLeft lBufferIndex
        txAddLoop f h r.2.1 r.2.2 (lBytesLeft - r.1)
          (lTCPIncrementTxPosition lBufferIndex lMax r.1) lMax (lDone + r.1)
  else some (lDone, p, w)

/-- The function `lTCPWindowTxAdd` (lines 114-188); the first component of the
result is the returned `lDone`. -/
def lTCPWindowTxAdd (fuel : Nat) (h : Host) (p : Pool) (w : TCPWindow)
    (ulLength : Nat) (lPosition lMax : Int) : Option (Int × Pool × TCPWindow) :=
  let lBytesLeft := toInt32 ulLength
  match w.pxHeadSegment with
  | none => txAddLoop fuel h p w lBytesLeft lPosition lMax 0
  | some i =>
    let s := p.xTCPSegments i
    if s.lDataLength < s.lMaxLength ∧ s.bOutstanding = false ∧ s.lDataLength ≠ 0 then
      let r := prvTCPWindowTxAdd_FrontSegment p w i lBytesLeft
      txAddLoop fuel h r.2.1 r.2.2 (lBytesLeft - r.1)
        (lTCPIncrementTxPosition lPosition lMax r.1) lMax (0 + r.1)
    else txAddLoop fuel h p w lBytesLeft lPosition lMax 0

/-- The function `xTCPWindowTxDone` (lines 203-206). -/
def xTCPWindowTxDone (w : TCPWindow) : Bool := w.xTxSegments.isEmpty

/-- The function `prvTCPWindowTxHasSpace` (lines 221-275). -/
def prvTCPWindowTxHasSpace (p : Pool) (w : TCPWindow) (ulWindowSize : Nat) : Bool :=
  match xTCPWindowPeekHead w.xTxQueue with
  | none => false
  | some i =>
    let s := p.xTCPSegments i
    let ulTxOutstanding :=
      if w.tx.ulHighestSequenceNumber ≥ w.tx.ulCurrentSequenceNumber then
        u32sub w.tx.ulHighestSequenceNumber w.tx.ulCurrentSequenceNumber
      else 0
    let ulNettSize := u32sub ulWindowSize (FreeRTOS_min_uint32 ulWindowSize ulTxOutstanding)
    let xHasSpace : Bool := decide (ulNettSize ≥ toUInt32 s.lDataLength)
    if ulTxOutstanding ≠ 0 ∧
        w.ulTxWindowLength < u32add ulTxOutstanding (toUInt32 s.lDataLength) then false
    else xHasSpace

/-- The value of `( uint32_t ) 1U << ucTransmitCount`.  A shift by 32 or more has
no defined value in C; it is taken as the shift reduced to 32 bits, which is 0. -/
def ulShiftLeftOne (ucTransmitCount : Nat) : Nat := (2 ^ ucTransmitCount) % 4294967296

/-- The function `pxTCPWindowTx_GetWaitQueue` (lines 380-418). -/
def pxTCPWindowTx_GetWaitQueue (h : Host) (p : Pool) (w : TCPWindow) :
    Option Nat × Pool × TCPWindow :=
  match w.xWaitQueue with
  | [] => (none, p, w)
  | i :: rest =>
    let s := p.xTCPSegments i
    let ulMaxTime := u32mul (ulShiftLeftOne s.ucTransmitCount) (toUInt32 w.lSRTT)
    if ulTimerGetAge h s > ulMaxTime then
      (some i, p.setSegment i { s with ucDupAckCount := 0 }, { w with xWaitQueue := rest })
    else (none, p, w)

/-- The function `pxTCPWindowTx_GetTXQueue` (lines 434-485). -/
def pxTCPWindowTx_GetTXQueue (p : Pool) (w : TCPWindow) (ulWindowSize : Nat) :
    Option Nat × TCPWindow :=
  match w.xTxQueue with
  | [] => (none, w)
  | i :: rest =>
    let s := p.xTCPSegments i
    if w.bSendFullSize = true ∧ s.lDataLength < s.lMaxLength then (none, w)
    else if prvTCPWindowTxHasSpace p w ulWindowSize = false then (none, w)
    else
      (some i,
        { w with
          xTxQueue := rest
          pxHeadSegment := if w.pxHeadSegment = some i then none else w.pxHeadSegment
          tx := { w.tx with
                  ulHighestSequenceNumber := u32add s.ulSequenceNumber (toUInt32 s.lDataLength) } })

/-- The part of `ulTCPWindowTxGet` that follows the selection (lines 546-585): the
selected segment goes to the tail of the wait queue, is marked outstanding and
counted, and its position and length are reported. -/
def ulTCPWindowTxGet_emit (h : Host) (p : Pool) (w : TCPWindow) (i : Nat) :
    Nat × Option Int × Pool × TCPWindow :=
  let s := p.xTCPSegments i
  let ucTransmitCount := (s.ucTransmitCount + 1) % 256
  let s1 : TCPSegment :=
    { s with bOutstanding := true, ucTransmitCount := ucTransmitCount, uxBorn := h.xTickCount }
  let w1 : TCPWindow := { w with xWaitQueue := vListInsertFifo w.xWaitQueue i }
  let w2 : TCPWindow :=
    if ucTransmitCount = MAX_TRANSMIT_COUNT_USING_LARGE_WINDOW ∧
        w1.ulTxWindowLength > u32mul 2 w1.usMSS then
      { w1 with ulTxWindowLength := (w1.usMSS * 2) % 65536 }
    else w1
  (toUInt32 s1.lDataLength, some s1.lStreamPos, p.setSegment i s1,
    { w2 with ulOurSequenceNumber := s1.ulSequenceNumber })

/-- The function `ulTCPWindowTxGet` (lines 501-588).  The result is the returned
length, the value written to `*plPosition` (`none` when nothing is written), the
pool and the window. -/
def ulTCPWindowTxGet (h : Host) (p : Pool) (w : TCPWindow) (ulWindowSize : Nat) :
    Nat × Option Int × Pool × TCPWindow :=
  let w0 : TCPWindow := { w with ulOurSequenceNumber := w.tx.ulHighestSequenceNumber }
  match w.xPriorityQueue with
  | i :: rest => ulTCPWindowTxGet_emit h p { w0 with xPriorityQueue := rest } i
  | [] =>
    match pxTCPWindowTx_GetWaitQueue h p w0 with
    | (some i, p1, w1) => ulTCPWindowTxGet_emit h p1 w1 i
    | (none, p1, w1) =>
      match pxTCPWindowTx_GetTXQueue p1 w1 ulWindowSize with
      | (some i, w2) => ulTCPWindowTxGet_emit h p1 w2 i
      | (none, w2) => (0, none, p1, w2)

/-! ## Runs of stored segments -/

/-- A run of stored segments: the descriptors of `l`, in this order, cover
adjoining ranges of positive length, the first one starting at `start` (taken
modulo `2^32`). -/
def rxChain (segs : Nat → TCPSegment) : Nat → List Nat → Prop
  | _, [] => True
  | start, i :: rest =>
    (segs i).ulSequenceNumber = start % 4294967296 ∧ 0 < (segs i).lDataLength ∧
      rxChain segs (start + (segs i).lDataLength.toNat) rest

/-- The number of bytes the descriptors of `l` hold together. -/
def rxChainLength (segs : Nat → TCPSegment) (l : List Nat) : Nat :=
  (l.map (fun i => (segs i).lDataLength.toNat)).sum

/-! ## Concrete states

The scenarios of the specification start from a receive sequence number of 1000,
a transmit sequence number of 2000, an MSS of 1460 and a pool of 16 descriptors. -/

/-- A descriptor with every field zero, as `prvCreateSectors` leaves it. -/
def clearedSegment : TCPSegment :=
  { ulSequenceNumber := 0, lMaxLength := 0, lDataLength := 0, lStreamPos := 0, uxBorn := 0,
    ucTransmitCount := 0, ucDupAckCount := 0, bOutstanding := false, bAcked := false,
    bIsForRx := false }

/-- A stored receive segment `[seq, seq + len)`. -/
def rxSegment (seq : Nat) (len : Int) : TCPSegment :=
  { clearedSegment with ulSequenceNumber := seq, lMaxLength := len, lDataLength := len,
                        bIsForRx := true }

/-- A little-endian host at tick 0 with one millisecond per tick. -/
def demoHost : Host :=
  { xTickCount := 0, portTICK_PERIOD_MS := 1, ipconfigBYTE_ORDER := .pdFREERTOS_LITTLE_ENDIAN }

/-- The pool right after `prvCreateSectors`: 16 cleared descriptors, all free. -/
def demoPool : Pool :=
  { xTCPSegments := fun _ => clearedSegment,
    xSegmentList := [0, 1, 2, 3, 4, 5, 6, 7, 8, 9, 10, 11, 12, 13, 14, 15] }

/-- A window that holds no segment, with receive sequence number 1000, transmit
sequence number 2000, MSS 1460, windows of 5840 bytes and a smoothed round-trip time
of 1000 ms, as the scenarios of the specification assume. -/
def demoWindow : TCPWindow :=
  { rx := ⟨1000, 1000, 1000⟩, tx := ⟨2000, 2000, 2000⟩,
    ulNextTxSequenceNumber := 2000, ulOurSequenceNumber := 2000,
    usMSS := 1460, usMSSInit := 1460, lSRTT := 1000,
    ulRxWindowLength := 5840, ulTxWindowLength := 5840,
    bHasInit := true, bSendFullSize := false, pxHeadSegment := none,
    ulOptionsData := [0, 0, 0], ucOptionLength := 0, ulUserDataLength := 0,
    xTxSegments := [], xRxSegments := [], xPriorityQueue := [], xTxQueue := [],
    xWaitQueue := [] }

/-- The pool of scenario S2 after the segment `[1500, 2000)` was stored in descriptor 0. -/
def plugPool : Pool :=
  { xTCPSegments := Function.update (fun _ => clearedSegment) 0 (rxSegment 1500 500),
    xSegmentList := [1, 2, 3, 4, 5, 6, 7, 8, 9, 10, 11, 12, 13, 14, 15] }

/-- The window of scenario S2 after the segment `[1500, 2000)` was stored. -/
def plugWindow : TCPWindow := { demoWindow with xRxSegments := [0] }

/-- A pool in which three stored segments run once around the sequence space:
`[1000 + 2^31, 1000 + 3 * 2^30)`, `[1000 + 3 * 2^30, 1000 + 2^32)` and `[1000, 1001)`. -/
def wrapPool : Pool :=
  { xTCPSegments :=
      Function.update
        (Function.update
          (Function.update (fun _ => clearedSegment) 0 (rxSegment 2147484648 1073741824))
          1 (rxSegment 3221226472 1073741824))
        2 (rxSegment 1000 1),
    xSegmentList := [3, 4, 5, 6, 7, 8, 9, 10, 11, 12, 13, 14, 15] }

/-- The window that stores the three segments of `wrapPool`. -/
def wrapWindow : TCPWindow := { demoWindow with xRxSegments := [0, 1, 2] }

/-- The stored receive segments are non-empty and hold fewer than `2^32` bytes
together, so that a walk along adjoining segments cannot come back to its start. -/
def rxStoreBounded (p : Pool) (w : TCPWindow) : Prop :=
  (∀ i ∈ w.xRxSegments, 0 < toUInt32 (p.xTCPSegments i).lDataLength) ∧
  (w.xRxSegments.map (fun i => toUInt32 (p.xTCPSegments i).lDataLength)).sum < 4294967296

/-- A pool in which descriptor 0 is a transmit segment `[2000, 3460)` at stream
position 0, sent once at tick 0, and descriptor 1 an unsent one `[3460, 4920)`. -/
def retransmitPool : Pool :=
  { xTCPSegments :=
      Function.update
        (Function.update (fun _ => clearedSegment) 0
          { clearedSegment with ulSequenceNumber := 2000, lMaxLength := 1460, lDataLength := 1460,
                                lStreamPos := 0, bOutstanding := true })
        1 { clearedSegment with ulSequenceNumber := 3460, lMaxLength := 1460,
                                lDataLength := 1460, lStreamPos := 1460 },
    xSegmentList := [2, 3, 4, 5, 6, 7, 8, 9, 10, 11, 12, 13, 14, 15] }

/-- The window of `retransmitPool` after descriptor 0 was moved to the priority
queue for a fast retransmission; descriptor 1 waits in `xTxQueue`. -/
def retransmitWindow : TCPWindow :=
  { demoWindow with
    tx := ⟨2000, 2000, 3460⟩, ulNextTxSequenceNumber := 4920,
    xTxSegments := [0, 1], xPriorityQueue := [0], xTxQueue := [1] }
/-! ## Transmission: what can be sent, and acknowledgements (`TCP_WIN_Transmission.c`) -/

/-- The function `xTCPWindowTxHasData` (lines 292-366); the second component is the
value written to `*pulDelay`.  `TickType_t` is taken to be 32 bits wide, as the
result of `ulTimerGetAge` is. -/
def xTCPWindowTxHasData (h : Host) (p : Pool) (w : TCPWindow) (ulWindowSize : Nat) :
    Bool × Nat :=
  match w.xPriorityQueue with
  | _ :: _ => (true, 0)
  | [] =>
    match xTCPWindowPeekHead w.xWaitQueue with
    | some i =>
      let s := p.xTCPSegments i
      let ulSRTT := toUInt32 w.lSRTT
      let ulAge := ulTimerGetAge h s
      let ulMaxAge := u32mul (ulShiftLeftOne s.ucTransmitCount) ulSRTT
      (true, if ulMaxAge > ulAge then u32sub ulMaxAge ulAge else 0)
    | none =>
      match xTCPWindowPeekHead w.xTxQueue with
      | none => (false, 0)
      | some i =>
        let s := p.xTCPSegments i
        if prvTCPWindowTxHasSpace p w ulWindowSize = false then (false, 0)
        else if w.bSendFullSize = true ∧ s.lDataLength < s.lMaxLength then (false, 0)
        else (true, 0)

/-- The constant `winSRTT_INCREMENT_NEW`. -/
def winSRTT_INCREMENT_NEW : Int := 2

/-- The constant `winSRTT_INCREMENT_CURRENT`. -/
def winSRTT_INCREMENT_CURRENT : Int := 6

/-- The constant `winSRTT_DECREMENT_NEW`. -/
def winSRTT_DECREMENT_NEW : Int := 1

/-- The constant `winSRTT_DECREMENT_CURRENT`. -/
def winSRTT_DECREMENT_CURRENT : Int := 7

/-- The constant `winSRTT_CAP_mS`. -/
def winSRTT_CAP_mS : Int := 50

/-- The function `prvTCPWindowTxCheckAck_CalcSRTT` (lines 604-625) for the segment
`s`.  The sums and products are those of the integers (a signed 32-bit overflow has
no defined value in C); the division truncates towards zero. -/
def prvTCPWindowTxCheckAck_CalcSRTT (h : Host) (w : TCPWindow) (s : TCPSegment) : TCPWindow :=
  let mS := toInt32 (ulTimerGetAge h s)
  let lSRTT :=
    if w.lSRTT ≥ mS then
      Int.tdiv (winSRTT_DECREMENT_NEW * mS + winSRTT_DECREMENT_CURRENT * w.lSRTT)
        (winSRTT_DECREMENT_NEW + winSRTT_DECREMENT_CURRENT)
    else
      Int.tdiv (winSRTT_INCREMENT_NEW * mS + winSRTT_INCREMENT_CURRENT * w.lSRTT)
        (winSRTT_INCREMENT_NEW + winSRTT_INCREMENT_CURRENT)
  { w with lSRTT := if lSRTT < winSRTT_CAP_mS then winSRTT_CAP_mS else lSRTT }

/-- The part of the loop body of `prvTCPWindowTxCheckAck` for a segment that is
not yet flagged (lines 726-737): set `bAcked`, and freshen the round-trip time when
the segment was sent once and ends at `ulLast`.  A segment that is flagged already
is left as it is. -/
def txCheckAck_flag (h : Host) (ulLast : Nat) (p : Pool) (w : TCPWindow) (i : Nat) :
    Pool × TCPWindow :=
  let s := p.xTCPSegments i
  if s.bAcked = false then
    (p.setSegment i { s with bAcked := true },
      if s.ucTransmitCount = 1 ∧
          u32add s.ulSequenceNumber (toUInt32 s.lDataLength) = ulLast then
        prvTCPWindowTxCheckAck_CalcSRTT h w s
      else w)
  else (p, w)

/-- The part of the loop body of `prvTCPWindowTxCheckAck` that confirms the segment
`i` (lines 726-770), reached when `ulSequenceNumber` is the segment's sequence
number and the segment is not cut by `ulLast`: flag it, free it when it is at
`tx.ulCurrentSequenceNumber`, else unlink it from its queue when it was not flagged
before (`xDoUnlink`).  The first component is the new `ulBytesConfirmed`. -/
def txCheckAck_confirm (h : Host) (ulLast : Nat) (p : Pool) (w : TCPWindow) (i : Nat)
    (ulSequenceNumber ulBytesConfirmed : Nat) : Nat × Pool × TCPWindow :=
  let s := p.xTCPSegments i
  let ulDataLength := toUInt32 s.lDataLength
  let xDoUnlink : Bool := s.bAcked == false
  let q := txCheckAck_flag h ulLast p w i
  if ulSequenceNumber = q.2.tx.ulCurrentSequenceNumber then
    let w2 : TCPWindow :=
      { q.2 with tx := { q.2.tx with
          ulCurrentSequenceNumber := u32add q.2.tx.ulCurrentSequenceNumber ulDataLength } }
    let r := vTCPWindowFree q.1 w2 i
    (u32add ulBytesConfirmed ulDataLength, r.1, r.2)
  else if xDoUnlink = true then
    (ulBytesConfirmed, q.1,
      { q.2 with
        xPriorityQueue := uxListRemove q.2.xPriorityQueue i
        xTxQueue := uxListRemove q.2.xTxQueue i
        xWaitQueue := uxListRemove q.2.xWaitQueue i })
  else (ulBytesConfirmed, q.1, q.2)

/-- The `while` loop of `prvTCPWindowTxCheckAck` (lines 678-773) over the items of
`xTxSegments` still to be visited.  The iterator is advanced before the body
runs, and the body unlinks no item but the current one, so the loop visits the
items the list held on entry, in their order. -/
def txCheckAckLoop (h : Host) (ulLast : Nat) :
    List Nat → Pool → TCPWindow → Nat → Nat → Nat × Pool × TCPWindow
  | [], p, w, _, ulBytesConfirmed => (ulBytesConfirmed, p, w)
  | i :: rest, p, w, ulSequenceNumber, ulBytesConfirmed =>
    if xSequenceLessThan ulSequenceNumber ulLast = false then (ulBytesConfirmed, p, w)
    else
      let s := p.xTCPSegments i
      if xSequenceGreaterThan ulSequenceNumber s.ulSequenceNumber then
        txCheckAckLoop h ulLast rest p w ulSequenceNumber ulBytesConfirmed
      else if ulSequenceNumber ≠ s.ulSequenceNumber then (ulBytesConfirmed, p, w)
      else
        let ulDataLength := toUInt32 s.lDataLength
        if s.bAcked = false ∧
            xSequenceGreaterThan (u32add s.ulSequenceNumber ulDataLength) ulLast then
          (ulBytesConfirmed, p, w)
        else
          let r := txCheckAck_confirm h ulLast p w i ulSequenceNumber ulBytesConfirmed
          txCheckAckLoop h ulLast rest r.2.1 r.2.2 (u32add ulSequenceNumber ulDataLength) r.1

/-- The function `prvTCPWindowTxCheckAck` (lines 644-776); the first component is
the returned `ulBytesConfirmed`. -/
def prvTCPWindowTxCheckAck (h : Host) (p : Pool) (w : TCPWindow) (ulFirst ulLast : Nat) :
    Nat × Pool × TCPWindow :=
  txCheckAckLoop h ulLast w.xTxSegments p w ulFirst 0

/-- The `while` loop of `prvTCPWindowFastRetransmit` (lines 806-848) over the items
of `xWaitQueue` still to be visited; the iterator is advanced before the current
item is unlinked.  The first component is `ulCount`. -/
def fastRetransmitLoop (ulFirst : Nat) :
    List Nat → Pool → TCPWindow → Nat → Nat × Pool × TCPWindow
  | [], p, w, ulCount => (ulCount, p, w)
  | i :: rest, p, w, ulCount =>
    let s := p.xTCPSegments i
    if s.bAcked = false ∧ xSequenceLessThan s.ulSequenceNumber ulFirst then
      let ucDupAckCount := (s.ucDupAckCount + 1) % 256
      if ucDupAckCount = DUPLICATE_ACKS_BEFORE_FAST_RETRANSMIT then
        fastRetransmitLoop ulFirst rest
          (p.setSegment i { s with ucDupAckCount := ucDupAckCount, ucTransmitCount := 0 })
          { w with
            xWaitQueue := uxListRemove w.xWaitQueue i
            xPriorityQueue := vListInsertFifo w.xPriorityQueue i }
          (u32add ulCount 1)
      else
        fastRetransmitLoop ulFirst rest (p.setSegment i { s with ucDupAckCount := ucDupAckCount })
          w ulCount
    else fastRetransmitLoop ulFirst rest p w ulCount

/-- The function `prvTCPWindowFastRetransmit` (lines 791-851); the first component
is the returned `ulCount`. -/
def prvTCPWindowFastRetransmit (p : Pool) (w : TCPWindow) (ulFirst : Nat) :
    Nat × Pool × TCPWindow :=
  fastRetransmitLoop ulFirst w.xWaitQueue p w 0

/-- The function `ulTCPWindowTxAck` (lines 866-885). -/
def ulTCPWindowTxAck (h : Host) (p : Pool) (w : TCPWindow) (ulSequenceNumber : Nat) :
    Nat × Pool × TCPWindow :=
  let ulFirstSequence := w.tx.ulCurrentSequenceNumber
  if xSequenceLessThanOrEqual ulSequenceNumber ulFirstSequence then (0, p, w)
  else prvTCPWindowTxCheckAck h p w ulFirstSequence ulSequenceNumber

/-- The function `ulTCPWindowTxSack` (lines 902-925). -/
def ulTCPWindowTxSack (h : Host) (p : Pool) (w : TCPWindow) (ulFirst ulLast : Nat) :
    Nat × Pool × TCPWindow :=
  let r := prvTCPWindowTxCheckAck h p w ulFirst ulLast
  let r2 := prvTCPWindowFastRetransmit r.2.1 r.2.2 ulFirst
  (r.1, r2.2.1, r2.2.2)

/-! ## The pool and the life of a window (`FreeRTOS_TCP_WIN.c`) -/

/-- The function `prvCreateSectors` (lines 421-457) for a pool of
`ipconfigTCP_WIN_SEG_COUNT = N` descriptors.  `xAllocated` tells whether
`pvPortMallocLarge` returns memory.  The first component of the result tells
whether `xTCPSegments` is set (not `NULL`) afterwards; on success every descriptor
is zero and the free list holds the indices `0 .. N - 1` in this order, on failure
the free list is empty. -/
def prvCreateSectors (N : Nat) (xAllocated : Bool) (p : Pool) : Bool × Pool :=
  if xAllocated then
    (true,
      { xTCPSegments := fun _ => clearedSegment,
        xSegmentList := (List.range N).foldl vListInsertFifo [] })
  else (false, { p with xSegmentList := [] })

/-- The function `vTCPWindowInit` (lines 825-879).  `u.ulFlags = 0U` clears the
flags, and the casts `( uint16_t ) ulMSS` keep the low 16 bits. -/
def vTCPWindowInit (w : TCPWindow) (ulAckNumber ulSequenceNumber ulMSS : Nat) : TCPWindow :=
  let w1 : TCPWindow := { w with bHasInit := true, bSendFullSize := false }
  let w2 : TCPWindow :=
    if ulMSS ≠ 0 then
      let w2a : TCPWindow :=
        if w1.usMSSInit ≠ 0 then { w1 with usMSSInit := ulMSS % 65536 } else w1
      if ulMSS < w2a.usMSS ∨ w2a.usMSS = 0 then
        { w2a with
          ulRxWindowLength := u32mul (w2a.ulRxWindowLength / ulMSS) ulMSS
          usMSS := ulMSS % 65536 }
      else w2a
    else w1
  { w2 with
    lSRTT := 500
    rx := ⟨ulAckNumber, ulAckNumber, ulAckNumber⟩
    tx := ⟨ulSequenceNumber, ulSequenceNumber, ulSequenceNumber⟩
    ulNextTxSequenceNumber := ulSequenceNumber
    ulOurSequenceNumber := ulSequenceNumber }

/-- The function `vTCPWindowCreate` (lines 779-814) on the memory `w` of a window.
`xTCPSegmentsSet` tells whether `xTCPSegments` is set; when it is not, the pool is
created first.  The result is the new state of `xTCPSegments`, the pool and the
window. -/
def vTCPWindowCreate (N : Nat) (xAllocated xTCPSegmentsSet : Bool) (p : Pool) (w : TCPWindow)
    (ulRxWindowLength ulTxWindowLength ulAckNumber ulSequenceNumber ulMSS : Nat) :
    (Bool × Pool) × TCPWindow :=
  let g : Bool × Pool :=
    if xTCPSegmentsSet = false then prvCreateSectors N xAllocated p else (xTCPSegmentsSet, p)
  let w1 : TCPWindow :=
    { w with
      xTxSegments := [], xRxSegments := [], xPriorityQueue := [], xTxQueue := [],
      xWaitQueue := [],
      ulRxWindowLength := ulRxWindowLength, ulTxWindowLength := ulTxWindowLength }
  (g, vTCPWindowInit w1 ulAckNumber ulSequenceNumber ulMSS)

/-- The `while` loop of `vTCPWindowDestroy` (lines 756-760) for one of the two
segment lists, `xRxSegments` when `xIsRx` and `xTxSegments` otherwise: free the head
of the list as long as there is one. -/
def destroyLoop (xIsRx : Bool) : Nat → Pool → TCPWindow → Option (Pool × TCPWindow)
  | fuel, p, w =>
    match (if xIsRx then w.xRxSegments else w.xTxSegments) with
    | [] => some (p, w)
    | i :: _ =>
      match fuel with
      | 0 => none
      | f + 1 => destroyLoop xIsRx f (vTCPWindowFree p w i).1 (vTCPWindowFree p w i).2

/-- The function `vTCPWindowDestroy` (lines 733-763): the first round empties
`xTxSegments`, the second one `xRxSegments`.  The lists of a window of the model
are initialised lists. -/
def vTCPWindowDestroy (fuel : Nat) (p : Pool) (w : TCPWindow) : Option (Pool × TCPWindow) :=
  match destroyLoop false fuel p w with
  | none => none
  | some (p1, w1) => destroyLoop true fuel p1 w1

/-! ## Concrete transmit states -/

/-- A pool in which descriptor 0 is an unsent transmit segment `[2000, 3460)` at
stream position 0, as `lTCPWindowTxAdd` makes it from `demoPool` for 1460 bytes. -/
def queuedPool : Pool :=
  { xTCPSegments :=
      Function.update (fun _ => clearedSegment) 0
        { clearedSegment with ulSequenceNumber := 2000, lMaxLength := 1460, lDataLength := 1460 },
    xSegmentList := [1, 2, 3, 4, 5, 6, 7, 8, 9, 10, 11, 12, 13, 14, 15] }

/-- The window of `queuedPool`: descriptor 0 waits in `xTxQueue`, nothing was sent. -/
def queuedWindow : TCPWindow :=
  { demoWindow with ulNextTxSequenceNumber := 3460, xTxSegments := [0], xTxQueue := [0] }

/-- The window of `retransmitPool` while descriptor 0, sent at tick 0, waits for its
acknowledgement at the head of `xWaitQueue`; descriptor 1 waits in `xTxQueue`. -/
def waitingWindow : TCPWindow :=
  { retransmitWindow with xPriorityQueue := [], xWaitQueue := [0] }

/-- The pool `retransmitPool` after descriptor 0 was sent 22 times. -/
def backoffPool : Pool :=
  retransmitPool.setSegment 0 { retransmitPool.xTCPSegments 0 with ucTransmitCount := 22 }

/-- The window `waitingWindow` with a smoothed round-trip time of 1024 ms. -/
def backoffWindow : TCPWindow := { waitingWindow with lSRTT := 1024 }

/-- The queued transmit segments form a run: the descriptors of `xTxSegments` are
distinct and not in the free list, and in list order they cover adjoining ranges of
positive length, fewer than `2^32` bytes together, the first one starting at the
32-bit value `tx.ulCurrentSequenceNumber`. -/
def txStoreChained (p : Pool) (w : TCPWindow) : Prop :=
  w.tx.ulCurrentSequenceNumber < 4294967296 ∧
  rxChain p.xTCPSegments w.tx.ulCurrentSequenceNumber w.xTxSegments ∧
  rxChainLength p.xTCPSegments w.xTxSegments < 4294967296 ∧
  w.xTxSegments.Nodup ∧ (∀ i ∈ w.xTxSegments, i ∉ p.xSegmentList)

/-- The pool of `retransmitPool` after both segments, descriptor 0 for
`[2000, 3460)` and descriptor 1 for `[3460, 4920)`, were sent once at tick 0. -/
def sentPool : Pool :=
  { xTCPSegments :=
      Function.update
        (Function.update (fun _ => clearedSegment) 0
          { clearedSegment with ulSequenceNumber := 2000, lMaxLength := 1460, lDataLength := 1460,
                                lStreamPos := 0, ucTransmitCount := 1, bOutstanding := true })
        1 { clearedSegment with ulSequenceNumber := 3460, lMaxLength := 1460,
                                lDataLength := 1460, lStreamPos := 1460, ucTransmitCount := 1,
                                bOutstanding := true },
    xSegmentList := [2, 3, 4, 5, 6, 7, 8, 9, 10, 11, 12, 13, 14, 15] }

/-- The window of `sentPool`: both segments wait for their acknowledgement. -/
def sentWindow : TCPWindow :=
  { demoWindow with
    tx := ⟨2000, 2000, 4920⟩, ulNextTxSequenceNumber := 4920,
    xTxSegments := [0, 1], xWaitQueue := [0, 1] }

/-- The run that starts from the fresh window `demoWindow`, queues 2920 bytes with
`lTCPWindowTxAdd`, sends the two segments `[2000, 3460)` and `[3460, 4920)` with two
calls of `ulTCPWindowTxGet`, and then takes the selective acknowledgement of
`[3460, 4920)`; the result of that last call. -/
def sackedRun : Nat × Pool × TCPWindow :=
  match lTCPWindowTxAdd 2 demoHost demoPool demoWindow 2920 0 65536 with
  | none => (0, demoPool, demoWindow)
  | some a =>
    let g1 := ulTCPWindowTxGet demoHost a.2.1 a.2.2 65535
    let g2 := ulTCPWindowTxGet demoHost g1.2.2.1 g1.2.2.2 65535
    ulTCPWindowTxSack demoHost g2.2.2.1 g2.2.2.2 3460 4920

/-- A descriptor counts a duplicate acknowledgement for a selective acknowledgement
that starts at `ulFirst`: it is not flagged as acknowledged and its sequence number
is before `ulFirst`. -/
def countsDupAck (segs : Nat → TCPSegment) (ulFirst : Nat) (i : Nat) : Bool :=
  (segs i).bAcked == false && xSequenceLessThan (segs i).ulSequenceNumber ulFirst

/-- A descriptor is due for a fast retransmission: it counts a duplicate
acknowledgement, and that is its third one. -/
def dueForFastRetransmit (segs : Nat → TCPSegment) (ulFirst : Nat) (i : Nat) : Bool :=
  countsDupAck segs ulFirst i && ((segs i).ucDupAckCount + 1) % 256 == 3

/-- The descriptor `a` is a transmit segment that waits for its acknowledgement:
`xTxSegments` holds distinct descriptors that form a run of fewer than `2^31` bytes
from the 32-bit value `tx.ulCurrentSequenceNumber`, `a` is one of them, it is in the
wait queue, which holds no descriptor twice, and it is not flagged as
acknowledged. -/
def awaitsAck (p : Pool) (w : TCPWindow) (a : Nat) : Prop :=
  w.tx.ulCurrentSequenceNumber < 4294967296 ∧
  rxChain p.xTCPSegments w.tx.ulCurrentSequenceNumber w.xTxSegments ∧
  rxChainLength p.xTCPSegments w.xTxSegments < 2147483648 ∧
  w.xTxSegments.Nodup ∧ a ∈ w.xTxSegments ∧ a ∈ w.xWaitQueue ∧ w.xWaitQueue.Nodup ∧
  (p.xTCPSegments a).bAcked = false

/-- Three selective acknowledgements of `[3460, 4920)` in a row, at tick 0. -/
def sackThrice (p : Pool) (w : TCPWindow) : Nat × Pool × TCPWindow :=
  let r1 := ulTCPWindowTxSack demoHost p w 3460 4920
  let r2 := ulTCPWindowTxSack demoHost r1.2.1 r1.2.2 3460 4920
  ulTCPWindowTxSack demoHost r2.2.1 r2.2.2 3460 4920

/-- The run that starts from `sentWindow`, takes three selective acknowledgements of
`[3460, 4920)`, which move descriptor 0 to the priority queue, and then sends
descriptor 0 again with `ulTCPWindowTxGet`; the result of that last call. -/
def resentRun : Nat × Option Int × Pool × TCPWindow :=
  ulTCPWindowTxGet demoHost (sackThrice sentPool sentWindow).2.1
    (sackThrice sentPool sentWindow).2.2 65535

/-! ## Several windows over one pool -/

/-- The descriptors a window holds: those of `xTxSegments` and of `xRxSegments`. -/
def heldSegments (w : TCPWindow) : List Nat := w.xTxSegments ++ w.xRxSegments

/-- The state of the engine: whether `xTCPSegments` is set, the pool, and the
windows that were created. -/
structure System where
  xTCPSegmentsSet : Bool
  pool : Pool
  windows : List TCPWindow

/-- Every descriptor in a list of the system: the free list, then the segment lists
of each window. -/
def System.allSegments (s : System) : List Nat :=
  s.pool.xSegmentList ++ (s.windows.map heldSegments).flatten

/-- One call of the interface, with any arguments, on a system with a pool of `N`
descriptors: `vTCPWindowCreate` on the memory `w0` of a fresh window, which joins
the windows of the system, or a call of `lTCPWindowTxAdd`, `ulTCPWindowTxGet`,
`ulTCPWindowTxAck`, `ulTCPWindowTxSack`, `lTCPWindowRxCheck` or `vTCPWindowDestroy`
on the window number `k`.  A call that runs out of fuel makes no step. -/
inductive Step (N : Nat) : System → System → Prop
  | window_create (s : System) (xAllocated : Bool) (w0 : TCPWindow)
      (ulRxWindowLength ulTxWindowLength ulAckNumber ulSequenceNumber ulMSS : Nat) :
      Step N s
        { xTCPSegmentsSet :=
            (vTCPWindowCreate N xAllocated s.xTCPSegmentsSet s.pool w0 ulRxWindowLength
              ulTxWindowLength ulAckNumber ulSequenceNumber ulMSS).1.1
          pool :=
            (vTCPWindowCreate N xAllocated s.xTCPSegmentsSet s.pool w0 ulRxWindowLength
              ulTxWindowLength ulAckNumber ulSequenceNumber ulMSS).1.2
          windows := s.windows ++
            [(vTCPWindowCreate N xAllocated s.xTCPSegmentsSet s.pool w0 ulRxWindowLength
              ulTxWindowLength ulAckNumber ulSequenceNumber ulMSS).2] }
  | tx_add (s : System) (k : Nat) (w : TCPWindow) (fuel : Nat) (h : Host) (ulLength : Nat)
      (lPosition lMax : Int) (r : Int × Pool × TCPWindow) :
      s.windows[k]? = some w →
      lTCPWindowTxAdd fuel h s.pool w ulLength lPosition lMax = some r →
      Step N s { s with pool := r.2.1, windows := s.windows.set k r.2.2 }
  | tx_get (s : System) (k : Nat) (w : TCPWindow) (h : Host) (ulWindowSize : Nat) :
      s.windows[k]? = some w →
      Step N s
        { s with
          pool := (ulTCPWindowTxGet h s.pool w ulWindowSize).2.2.1
          windows := s.windows.set k (ulTCPWindowTxGet h s.pool w ulWindowSize).2.2.2 }
  | tx_ack (s : System) (k : Nat) (w : TCPWindow) (h : Host) (ulSequenceNumber : Nat) :
      s.windows[k]? = some w →
      Step N s
        { s with
          pool := (ulTCPWindowTxAck h s.pool w ulSequenceNumber).2.1
          windows := s.windows.set k (ulTCPWindowTxAck h s.pool w ulSequenceNumber).2.2 }
  | tx_sack (s : System) (k : Nat) (w : TCPWindow) (h : Host) (ulFirst ulLast : Nat) :
      s.windows[k]? = some w →
      Step N s
        { s with
          pool := (ulTCPWindowTxSack h s.pool w ulFirst ulLast).2.1
          windows := s.windows.set k (ulTCPWindowTxSack h s.pool w ulFirst ulLast).2.2 }
  | rx_check (s : System) (k : Nat) (w : TCPWindow) (fuel : Nat) (h : Host)
      (ulSequenceNumber ulLength ulSpace : Nat) (r : Int × Pool × TCPWindow) :
      s.windows[k]? = some w →
      lTCPWindowRxCheck fuel h s.pool w ulSequenceNumber ulLength ulSpace = some r →
      Step N s { s with pool := r.2.1, windows := s.windows.set k r.2.2 }
  | window_destroy (s : System) (k : Nat) (w : TCPWindow) (fuel : Nat) (r : Pool × TCPWindow) :
      s.windows[k]? = some w →
      vTCPWindowDestroy fuel s.pool w = some r →
      Step N s { s with pool := r.1, windows := s.windows.set k r.2 }

/-- The states of the engine that can be reached from the initialisation of the
pool, `prvCreateSectors` with a successful allocation and no window yet, by calls
of the interface. -/
inductive Reachable (N : Nat) : System → Prop
  | pool_init (p0 : Pool) :
      Reachable N
        { xTCPSegmentsSet := (prvCreateSectors N true p0).1
          pool := (prvCreateSectors N true p0).2
          windows := [] }
  | step (s s' : System) : Reachable N s → Step N s s' → Reachable N s'

/-- The system after the initialisation of a pool of 16 descriptors and the
creation of one window with receive sequence number 1000, transmit sequence number
2000, MSS 1460 and windows of 5840 bytes. -/
def createdSystem : System :=
  { xTCPSegmentsSet :=
      (vTCPWindowCreate 16 true (prvCreateSectors 16 true demoPool).1
        (prvCreateSectors 16 true demoPool).2 demoWindow 5840 5840 1000 2000 1460).1.1
    pool :=
      (vTCPWindowCreate 16 true (prvCreateSectors 16 true demoPool).1
        (prvCreateSectors 16 true demoPool).2 demoWindow 5840 5840 1000 2000 1460).1.2
    windows := [] ++
      [(vTCPWindowCreate 16 true (prvCreateSectors 16 true demoPool).1
        (prvCreateSectors 16 true demoPool).2 demoWindow 5840 5840 1000 2000 1460).2] }

/-- The result of `lTCPWindowTxAdd` for 2920 bytes on the window of `createdSystem`. -/
def busyTxAdd : Int × Pool × TCPWindow :=
  (lTCPWindowTxAdd 2 demoHost createdSystem.pool
      (vTCPWindowCreate 16 true (prvCreateSectors 16 true demoPool).1
        (prvCreateSectors 16 true demoPool).2 demoWindow 5840 5840 1000 2000 1460).2
      2920 0 65536).getD (0, demoPool, demoWindow)

/-- The result of `lTCPWindowRxCheck` for the segment `[1500, 2000)`, which is out of
order, after `busyTxAdd`. -/
def busyRxCheck : Int × Pool × TCPWindow :=
  (lTCPWindowRxCheck 1 demoHost busyTxAdd.2.1 busyTxAdd.2.2 1500 500 10000).getD
    (0, demoPool, demoWindow)

/-- The system `createdSystem` after its window has queued 2920 bytes for
transmission and stored the received segment `[1500, 2000)`. -/
def busySystem : System :=
  { ({ createdSystem with
        pool := busyTxAdd.2.1, windows := createdSystem.windows.set 0 busyTxAdd.2.2 } : System) with
    pool := busyRxCheck.2.1
    windows :=
      ({ createdSystem with
          pool := busyTxAdd.2.1
          windows := createdSystem.windows.set 0 busyTxAdd.2.2 } : System).windows.set 0
        busyRxCheck.2.2 }

/-! ## Concrete states: large segments, a segment being filled -/

/-- A pool in which descriptor 0 is a transmit segment `[2000, 42000)` of 40000
bytes that was sent three times, the last time at tick 0. -/
def jumboPool : Pool :=
  { xTCPSegments :=
      Function.update (fun _ => clearedSegment) 0
        { clearedSegment with ulSequenceNumber := 2000, lMaxLength := 40000,
                              lDataLength := 40000, ucTransmitCount := 3, bOutstanding := true },
    xSegmentList := [1, 2, 3, 4, 5, 6, 7, 8, 9, 10, 11, 12, 13, 14, 15] }

/-- The window of `jumboPool`: an MSS of 40000, a transmit window of 100000 bytes,
and descriptor 0 waiting for its acknowledgement. -/
def jumboWindow : TCPWindow :=
  { demoWindow with
    usMSS := 40000, usMSSInit := 40000, ulTxWindowLength := 100000,
    tx := ⟨2000, 2000, 42000⟩, ulNextTxSequenceNumber := 42000,
    xTxSegments := [0], xWaitQueue := [0] }

/-- The pool and the window that `vTCPWindowCreate` makes, before any pool exists,
for windows of 5840 bytes, the receive sequence number 1000, the transmit sequence
number 2000 and an MSS of 1460. -/
def createdState : (Bool × Pool) × TCPWindow :=
  vTCPWindowCreate 16 true false demoPool demoWindow 5840 5840 1000 2000 1460

/-- The result of `lTCPWindowRxCheck` on `createdState` for an empty segment at the
sequence number 1500, which is out of order and in the window. -/
def emptySegmentRun : Int × Pool × TCPWindow :=
  (lTCPWindowRxCheck 0 demoHost createdState.1.2 createdState.2 1500 0 10000).getD
    (0, demoPool, demoWindow)

/-- The result of `lTCPWindowTxAdd` for 100 bytes on `createdState`: descriptor 0
holds the segment `[2000, 2100)`, which is not full, and is the head segment. -/
def topUpRun : Int × Pool × TCPWindow :=
  (lTCPWindowTxAdd 1 demoHost createdState.1.2 createdState.2 100 0 65536).getD
    (0, demoPool, demoWindow)

/-! ## The selective acknowledgement as bytes -/

/-- The descriptor `s'` covers the same range as `s` and has the same capacity. -/
def sameExtent (s s' : TCPSegment) : Prop :=
  s'.ulSequenceNumber = s.ulSequenceNumber ∧ s'.lDataLength = s.lDataLength ∧
    s'.lMaxLength = s.lMaxLength

/-- The transmit side of a window is well formed.  The MSS is a positive 16-bit
value; the descriptors of `xTxSegments` are distinct and not in the free list, which
holds no descriptor twice; in list order they cover adjoining ranges of positive
length from the 32-bit value `tx.ulCurrentSequenceNumber` to
`ulNextTxSequenceNumber`, none longer than its capacity, which is the MSS; the free
list and `xTxSegments` hold at most 65536 descriptors together; and `pxHeadSegment`
is null, or the last descriptor of `xTxSegments`, or a descriptor that was freed and
holds no bytes. -/
def txWellFormed (p : Pool) (w : TCPWindow) : Prop :=
  w.tx.ulCurrentSequenceNumber < 4294967296 ∧
  rxChain p.xTCPSegments w.tx.ulCurrentSequenceNumber w.xTxSegments ∧
  w.ulNextTxSequenceNumber
    = (w.tx.ulCurrentSequenceNumber + rxChainLength p.xTCPSegments w.xTxSegments)
        % 4294967296 ∧
  (∀ i ∈ w.xTxSegments,
    (p.xTCPSegments i).lDataLength ≤ (p.xTCPSegments i).lMaxLength ∧
      (p.xTCPSegments i).lMaxLength = (w.usMSS : Int)) ∧
  0 < w.usMSS ∧ w.usMSS < 65536 ∧
  w.xTxSegments.Nodup ∧ p.xSegmentList.Nodup ∧ (∀ i ∈ w.xTxSegments, i ∉ p.xSegmentList) ∧
  p.xSegmentList.length + w.xTxSegments.length ≤ 65536 ∧
  (∀ i, w.pxHeadSegment = some i →
    (p.xTCPSegments i).lDataLength = 0 ∨ w.xTxSegments.getLast? = some i)

/-- The states of a pool and one window that can be reached from `vTCPWindowCreate`
by calls of `lTCPWindowTxAdd`, `ulTCPWindowTxGet`, `ulTCPWindowTxAck` and
`ulTCPWindowTxSack` on that window.  The window is created on memory without a head
segment, with an MSS that is positive and fits in 16 bits and a 32-bit sequence
number, over a pool whose free list holds distinct descriptors, at most 65536; the
lengths given to `lTCPWindowTxAdd` are below `2^31`.  A call that runs out of fuel
makes no step. -/
inductive TxReachable : Pool → TCPWindow → Prop
  | window_create (N : Nat) (xAllocated xTCPSegmentsSet : Bool) (p : Pool) (w0 : TCPWindow)
      (ulRxWindowLength ulTxWindowLength ulAckNumber ulSequenceNumber ulMSS : Nat) :
      w0.pxHeadSegment = none →
      (vTCPWindowCreate N xAllocated xTCPSegmentsSet p w0 ulRxWindowLength ulTxWindowLength
        ulAckNumber ulSequenceNumber ulMSS).1.2.xSegmentList.Nodup →
      (vTCPWindowCreate N xAllocated xTCPSegmentsSet p w0 ulRxWindowLength ulTxWindowLength
        ulAckNumber ulSequenceNumber ulMSS).1.2.xSegmentList.length ≤ 65536 →
      0 < (vTCPWindowCreate N xAllocated xTCPSegmentsSet p w0 ulRxWindowLength ulTxWindowLength
        ulAckNumber ulSequenceNumber ulMSS).2.usMSS →
      (vTCPWindowCreate N xAllocated xTCPSegmentsSet p w0 ulRxWindowLength ulTxWindowLength
        ulAckNumber ulSequenceNumber ulMSS).2.usMSS < 65536 →
      ulSequenceNumber < 4294967296 →
      TxReachable
        (vTCPWindowCreate N xAllocated xTCPSegmentsSet p w0 ulRxWindowLength ulTxWindowLength
          ulAckNumber ulSequenceNumber ulMSS).1.2
        (vTCPWindowCreate N xAllocated xTCPSegmentsSet p w0 ulRxWindowLength ulTxWindowLength
          ulAckNumber ulSequenceNumber ulMSS).2
  | tx_add (p : Pool) (w : TCPWindow) (fuel : Nat) (h : Host) (ulLength : Nat)
      (lPosition lMax : Int) (r : Int × Pool × TCPWindow) :
      TxReachable p w → ulLength < 2147483648 →
      lTCPWindowTxAdd fuel h p w ulLength lPosition lMax = some r →
      TxReachable r.2.1 r.2.2
  | tx_get (p : Pool) (w : TCPWindow) (h : Host) (ulWindowSize : Nat) :
      TxReachable p w →
      TxReachable (ulTCPWindowTxGet h p w ulWindowSize).2.2.1
        (ulTCPWindowTxGet h p w ulWindowSize).2.2.2
  | tx_ack (p : Pool) (w : TCPWindow) (h : Host) (ulSequenceNumber : Nat) :
      TxReachable p w →
      TxReachable (ulTCPWindowTxAck h p w ulSequenceNumber).2.1
        (ulTCPWindowTxAck h p w ulSequenceNumber).2.2
  | tx_sack (p : Pool) (w : TCPWindow) (h : Host) (ulFirst ulLast : Nat) :
      TxReachable p w →
      TxReachable (ulTCPWindowTxSack h p w ulFirst ulLast).2.1
        (ulTCPWindowTxSack h p w ulFirst ulLast).2.2

/-- Window memory that is all zero: no head segment, an MSS of 0, empty lists. -/
def zeroWindow : TCPWindow :=
  { rx := ⟨0, 0, 0⟩, tx := ⟨0, 0, 0⟩, ulNextTxSequenceNumber := 0, ulOurSequenceNumber := 0,
    usMSS := 0, usMSSInit := 0, lSRTT := 0, ulRxWindowLength := 0, ulTxWindowLength := 0,
    bHasInit := false, bSendFullSize := false, pxHeadSegment := none,
    ulOptionsData := [0, 0, 0], ucOptionLength := 0, ulUserDataLength := 0,
    xTxSegments := [], xRxSegments := [], xPriorityQueue := [], xTxQueue := [],
    xWaitQueue := [] }

/-- The run that creates a window on `zeroWindow` with an MSS of 0 and the transmit
sequence number 2000, over a new pool of 2 descriptors, and then calls
`lTCPWindowTxAdd` for one byte; the result of that call. -/
def zeroMssRun : Int × Pool × TCPWindow :=
  (lTCPWindowTxAdd 3 demoHost
      (vTCPWindowCreate 2 true false demoPool zeroWindow 5840 5840 1000 2000 0).1.2
      (vTCPWindowCreate 2 true false demoPool zeroWindow 5840 5840 1000 2000 0).2
      1 0 65536).getD (0, demoPool, demoWindow)

/-- The run that goes on from `topUpRun`, where descriptor 0 holds `[2000, 2100)`, with
`lTCPWindowTxAdd` for `2^32 - 100` bytes and then for 50 bytes; the result of the last
call. -/
def sharedSeqRun : Int × Pool × TCPWindow :=
  match lTCPWindowTxAdd 0 demoHost topUpRun.2.1 topUpRun.2.2 4294967196 100 65536 with
  | none => (0, demoPool, demoWindow)
  | some a => (lTCPWindowTxAdd 1 demoHost a.2.1 a.2.2 50 0 65536).getD (0, demoPool, demoWindow)

/-! ## The queues of a window -/

/-- The descriptors in the three queues of a window: the priority queue, the wait
queue and `xTxQueue`. -/
def queueItems (w : TCPWindow) : List Nat :=
  w.xPriorityQueue ++ w.xWaitQueue ++ w.xTxQueue

/-- The queues of a window are linked as the list items of the descriptors allow: no
descriptor is in two queues or twice in one, and every descriptor in a queue is in
`xTxSegments`. -/
def queuesLinked (w : TCPWindow) : Prop :=
  (queueItems w).Nodup ∧ ∀ i ∈ queueItems w, i ∈ w.xTxSegments

/-- The descriptor as `vTCPWindowFree` leaves it: sequence number, length and flags
are cleared. -/
def freedSegment (s : TCPSegment) : TCPSegment :=
  { s with
    ulSequenceNumber := 0
    lDataLength := 0
    ucTransmitCount := 0
    ucDupAckCount := 0
    bOutstanding := false
    bAcked := false
    bIsForRx := false }

/-! ## The selection of `ulTCPWindowTxGet`, and states for it -/

/-- The value of `pxSegment` in `ulTCPWindowTxGet` when the selection is over (lines
513-543): the head of the priority queue, else the head of the wait queue when its
timer has expired, else the head of `xTxQueue` when it may be sent; `none` is
`NULL`. -/
def ulTCPWindowTxGet_select (h : Host) (p : Pool) (w : TCPWindow) (ulWindowSize : Nat) :
    Option Nat :=
  let w0 : TCPWindow := { w with ulOurSequenceNumber := w.tx.ulHighestSequenceNumber }
  match w.xPriorityQueue with
  | i :: _ => some i
  | [] =>
    match pxTCPWindowTx_GetWaitQueue h p w0 with
    | (some i, _, _) => some i
    | (none, p1, w1) => (pxTCPWindowTx_GetTXQueue p1 w1 ulWindowSize).1

/-- The pool `retransmitPool` after descriptor 0 was sent 255 times. -/
def wornPool : Pool :=
  retransmitPool.setSegment 0 { retransmitPool.xTCPSegments 0 with ucTransmitCount := 255 }

/-- The first transmission of the segment `[2000, 3460)` of `queuedWindow`, at tick 0:
the result of `ulTCPWindowTxGet`. -/
def sentOnceRun : Nat × Option Int × Pool × TCPWindow :=
  ulTCPWindowTxGet demoHost queuedPool queuedWindow 65535

/-! ## Moving the transmit side along the sequence space -/

/-- The pool in which the sequence number of every descriptor of `xTxSegments` of `w`
is moved by `k`, modulo `2^32`. -/
def shiftTxPool (k : Nat) (p : Pool) (w : TCPWindow) : Pool :=
  { p with
    xTCPSegments := fun i =>
      if i ∈ w.xTxSegments then
        { p.xTCPSegments i with
          ulSequenceNumber := u32add (p.xTCPSegments i).ulSequenceNumber k }
      else p.xTCPSegments i }

/-- The window in which the three transmit sequence numbers and
`ulNextTxSequenceNumber` are moved by `k`, modulo `2^32`. -/
def shiftTxWindow (k : Nat) (w : TCPWindow) : TCPWindow :=
  { w with
    tx := ⟨u32add w.tx.ulFirstSequenceNumber k, u32add w.tx.ulCurrentSequenceNumber k,
            u32add w.tx.ulHighestSequenceNumber k⟩
    ulNextTxSequenceNumber := u32add w.ulNextTxSequenceNumber k }

/-- The first transmission after `busyTxAdd`, which queued the segments `[2000, 3460)`
and `[3460, 4920)`: the result of `ulTCPWindowTxGet` at tick 0, which emits the first
one. -/
def halfSentRun : Nat × Option Int × Pool × TCPWindow :=
  ulTCPWindowTxGet demoHost busyTxAdd.2.1 busyTxAdd.2.2 65535

/-! ## Concrete receive runs -/

/-- The first step of `nestedRun`: `lTCPWindowRxCheck` on `createdState`, whose receive
sequence number is 1000, for the segment `[1100, 1300)`, which is stored. -/
def nestedStoreOuter : Int × Pool × TCPWindow :=
  (lTCPWindowRxCheck 0 demoHost createdState.1.2 createdState.2 1100 200 10000).getD
    (0, demoPool, demoWindow)

/-- The second step of `nestedRun`: the segment `[1150, 1200)`, which lies inside the
stored one, is stored too. -/
def nestedStoreInner : Int × Pool × TCPWindow :=
  (lTCPWindowRxCheck 0 demoHost nestedStoreOuter.2.1 nestedStoreOuter.2.2 1150 50 10000).getD
    (0, demoPool, demoWindow)

/-- The run that stores `[1100, 1300)` and `[1150, 1200)` and then receives the segment
`[1000, 1100)`, which is the expected one: the result of that last call. -/
def nestedRun : Int × Pool × TCPWindow :=
  (lTCPWindowRxCheck 1 demoHost nestedStoreInner.2.1 nestedStoreInner.2.2 1000 100 10000).getD
    (0, demoPool, demoWindow)

/-! ## Concrete transmit runs: a fast retransmission, an acknowledgement at the edge -/

/-- The second transmission after `halfSentRun`: `ulTCPWindowTxGet` at tick 0 emits the
segment `[3460, 4920)`. -/
def bothSentRun : Nat × Option Int × Pool × TCPWindow :=
  ulTCPWindowTxGet demoHost halfSentRun.2.2.1 halfSentRun.2.2.2 65535

/-- Three selective acknowledgements of `[3460, 4920)` after `bothSentRun`: the segment
`[2000, 3460)` is moved to the priority queue for a fast retransmission. -/
def thriceSackedRun : Nat × Pool × TCPWindow :=
  sackThrice bothSentRun.2.2.1 bothSentRun.2.2.2

/-- The fast retransmission after `thriceSackedRun`: `ulTCPWindowTxGet` at tick 0 emits
the segment `[2000, 3460)` for the second time. -/
def resentAgainRun : Nat × Option Int × Pool × TCPWindow :=
  ulTCPWindowTxGet demoHost thriceSackedRun.2.1 thriceSackedRun.2.2 65535

/-- The acknowledgement of the retransmitted segment after `resentAgainRun`:
`ulTCPWindowTxAck` for the sequence number 3460 at tick 100. -/
def resampledRun : Nat × Pool × TCPWindow :=
  ulTCPWindowTxAck { demoHost with xTickCount := 100 } resentAgainRun.2.2.1
    resentAgainRun.2.2.2 3460

/-- One selective acknowledgement of `[3460, 4920)` after `bothSentRun`. -/
def edgeSackedRun : Nat × Pool × TCPWindow :=
  ulTCPWindowTxSack demoHost bothSentRun.2.2.1 bothSentRun.2.2.2 3460 4920

/-- The acknowledgement of the sequence number 3460 after `edgeSackedRun`. -/
def edgeAckedRun : Nat × Pool × TCPWindow :=
  ulTCPWindowTxAck demoHost edgeSackedRun.2.1 edgeSackedRun.2.2 3460

/-! ## What `pxHeadSegment` refers to -/

/-- The descriptors of `xTxQueue` were never sent: their transmit count is 0 and they
are not outstanding. -/
def queueUnsent (p : Pool) (w : TCPWindow) : Prop :=
  ∀ j ∈ w.xTxQueue,
    (p.xTCPSegments j).ucTransmitCount = 0 ∧ (p.xTCPSegments j).bOutstanding = false

/-- What `pxHeadSegment` refers to, when it is not null: a descriptor that is not
outstanding and in neither the wait queue nor the priority queue, and that is the last
descriptor of `xTxSegments`, holding some bytes but not full, or else a descriptor of
the free list that holds no bytes. -/
def headSound (p : Pool) (w : TCPWindow) : Prop :=
  ∀ i, w.pxHeadSegment = some i →
    (p.xTCPSegments i).bOutstanding = false ∧ i ∉ w.xWaitQueue ∧ i ∉ w.xPriorityQueue ∧
    ((w.xTxSegments.getLast? = some i ∧ 0 < (p.xTCPSegments i).lDataLength ∧
        (p.xTCPSegments i).lDataLength < (p.xTCPSegments i).lMaxLength) ∨
      (i ∈ p.xSegmentList ∧ (p.xTCPSegments i).lDataLength = 0))

/-- The transmit side of a window is sound: it is well formed, its queues are linked, no
descriptor is both free and held, the descriptors of `xTxQueue` were never sent, and
`pxHeadSegment` is accounted for. -/
def txSound (p : Pool) (w : TCPWindow) : Prop :=
  txWellFormed p w ∧ queuesLinked w ∧ (p.xSegmentList ++ heldSegments w).Nodup ∧
    queueUnsent p w ∧ headSound p w

/-! ## Two windows on one pool, the first with an acknowledged head segment -/

/-- The system after the initialisation of a pool of 2 descriptors and the creation of
one window with receive sequence number 1000, transmit sequence number 2000, MSS 1460
and windows of 5840 bytes. -/
def pairCreated : System :=
  { xTCPSegmentsSet :=
      (vTCPWindowCreate 2 true (prvCreateSectors 2 true demoPool).1
        (prvCreateSectors 2 true demoPool).2 demoWindow 5840 5840 1000 2000 1460).1.1
    pool :=
      (vTCPWindowCreate 2 true (prvCreateSectors 2 true demoPool).1
        (prvCreateSectors 2 true demoPool).2 demoWindow 5840 5840 1000 2000 1460).1.2
    windows := [] ++
      [(vTCPWindowCreate 2 true (prvCreateSectors 2 true demoPool).1
        (prvCreateSectors 2 true demoPool).2 demoWindow 5840 5840 1000 2000 1460).2] }

/-- The result of `lTCPWindowTxAdd` for 100 bytes on the window of `pairCreated`. -/
def pairFirstAdd : Int × Pool × TCPWindow :=
  (lTCPWindowTxAdd 1 demoHost pairCreated.pool
      (vTCPWindowCreate 2 true (prvCreateSectors 2 true demoPool).1
        (prvCreateSectors 2 true demoPool).2 demoWindow 5840 5840 1000 2000 1460).2
      100 0 65536).getD (0, demoPool, demoWindow)

/-- The system `pairCreated` after its window has queued 100 bytes. -/
def pairAdded : System :=
  { pairCreated with
    pool := pairFirstAdd.2.1, windows := pairCreated.windows.set 0 pairFirstAdd.2.2 }

/-- The system `pairAdded` after `ulTCPWindowTxAck` for the sequence number 2100 on its
window, which acknowledges the 100 bytes before they were sent. -/
def pairAcked : System :=
  { pairAdded with
    pool := (ulTCPWindowTxAck demoHost pairAdded.pool pairFirstAdd.2.2 2100).2.1
    windows :=
      pairAdded.windows.set 0 (ulTCPWindowTxAck demoHost pairAdded.pool pairFirstAdd.2.2 2100).2.2 }

/-- The system `pairAcked` after the creation of a second window, with receive sequence
number 5000, transmit sequence number 7000, MSS 1460 and windows of 5840 bytes. -/
def pairSecond : System :=
  { xTCPSegmentsSet :=
      (vTCPWindowCreate 2 true pairAcked.xTCPSegmentsSet pairAcked.pool demoWindow 5840 5840
        5000 7000 1460).1.1
    pool :=
      (vTCPWindowCreate 2 true pairAcked.xTCPSegmentsSet pairAcked.pool demoWindow 5840 5840
        5000 7000 1460).1.2
    windows := pairAcked.windows ++
      [(vTCPWindowCreate 2 true pairAcked.xTCPSegmentsSet pairAcked.pool demoWindow 5840 5840
        5000 7000 1460).2] }

/-- The result of `lTCPWindowTxAdd` for 1560 bytes on the second window of
`pairSecond`: a segment of 1460 bytes and one of 100 bytes. -/
def pairSecondAdd : Int × Pool × TCPWindow :=
  (lTCPWindowTxAdd 2 demoHost pairSecond.pool
      (vTCPWindowCreate 2 true pairAcked.xTCPSegmentsSet pairAcked.pool demoWindow 5840 5840
        5000 7000 1460).2
      1560 0 65536).getD (0, demoPool, demoWindow)

/-- The system `pairSecond` after its second window has queued 1560 bytes. -/
def pairRelent : System :=
  { pairSecond with
    pool := pairSecondAdd.2.1, windows := pairSecond.windows.set 1 pairSecondAdd.2.2 }

/-- The result of `lTCPWindowTxAdd` for 50 bytes on the first window of `pairRelent`,
which is as `ulTCPWindowTxAck` left it. -/
def pairStaleAdd : Int × Pool × TCPWindow :=
  (lTCPWindowTxAdd 0 demoHost pairRelent.pool
      (ulTCPWindowTxAck demoHost pairAdded.pool pairFirstAdd.2.2 2100).2.2
      50 100 65536).getD (0, demoPool, demoWindow)

/-- The system `pairRelent` after its first window has taken 50 bytes. -/
def pairStale : System :=
  { pairRelent with
    pool := pairStaleAdd.2.1, windows := pairRelent.windows.set 0 pairStaleAdd.2.2 }

/-! ## Arithmetic lemmas -/

theorem and_highbit_eq_zero_iff (x : Nat) (hx : x < 4294967296) :
    (x &&& 0x80000000 == 0) = decide (x < 2147483648) := by
  have h31 : (2147483648 : Nat) = 2 ^ 31 := by norm_num
  have key : x &&& 2147483648 = 0 ↔ x < 2147483648 := by
    constructor
    · intro h0
      by_contra hge
      have hb : x.testBit 31 = true := by
        rw [Nat.testBit_to_div_mod]
        simp only [decide_eq_true_eq]
        omega
      have : (x &&& 2147483648).testBit 31 = true := by
        rw [Nat.testBit_and, hb, h31, Nat.testBit_two_pow_self]; rfl
      rw [h0] at this
      simp at this
    · intro hlt
      apply Nat.eq_of_testBit_eq
      intro i
      rw [Nat.testBit_and, h31, Nat.testBit_two_pow, Nat.zero_testBit]
      by_cases hi : 31 = i
      · subst hi
        rw [Nat.testBit_lt_two_pow (by omega)]; rfl
      · simp [hi]
  by_cases hlt : x < 2147483648
  · simp [hlt, key.mpr hlt]
  · have : ¬ (x &&& 2147483648 = 0) := fun h => hlt (key.mp h)
    simp [hlt, this]

theorem u32sub_lt (a b : Nat) : u32sub a b < 4294967296 := by
  unfold u32sub; omega

theorem u32add_lt (a b : Nat) : u32add a b < 4294967296 := by
  unfold u32add; omega

theorem xSequenceLessThanOrEqual_eq (a b : Nat) :
    xSequenceLessThanOrEqual a b = decide (u32sub b a < 2147483648) :=
  and_highbit_eq_zero_iff _ (u32sub_lt _ _)

theorem xSequenceGreaterThanOrEqual_eq (a b : Nat) :
    xSequenceGreaterThanOrEqual a b = decide (u32sub a b < 2147483648) :=
  and_highbit_eq_zero_iff _ (u32sub_lt a b)

theorem xSequenceLessThan_eq (a b : Nat) :
    xSequenceLessThan a b = decide (u32sub b (u32add a 1) < 2147483648) :=
  and_highbit_eq_zero_iff _ (u32sub_lt _ _)

theorem xSequenceGreaterThan_eq (a b : Nat) :
    xSequenceGreaterThan a b = decide (u32sub a (u32add b 1) < 2147483648) :=
  and_highbit_eq_zero_iff _ (u32sub_lt _ _)

theorem toUInt32_of_nonneg {x : Int} (h0 : 0 ≤ x) (h1 : x.toNat < 4294967296) :
    toUInt32 x = x.toNat := by
  unfold toUInt32
  have : x % 4294967296 = x := Int.emod_eq_of_lt h0 (by omega)
  rw [this]

theorem toInt32_of_lt {n : Nat} (h : n < 2147483648) : toInt32 n = (n : Int) := by
  unfold toInt32
  have h1 : n % 4294967296 = n := Nat.mod_eq_of_lt (by omega)
  rw [h1, if_pos h]
  rfl

/-! ## The stored receive segments -/

theorem find?_unique {P : Nat → Bool} {c : Nat} :
    ∀ (l : List Nat), c ∈ l → P c = true → (∀ x ∈ l, P x = true → x = c) →
      l.find? P = some c := by
  intro l
  induction l with
  | nil => intro h; cases h
  | cons x xs ih =>
    intro hc hP hu
    by_cases hx : P x = true
    · have := hu x (List.mem_cons_self _ _) hx
      subst this
      simp [List.find?, hx]
    · have hxc : c ≠ x := by
        intro h; subst h; exact hx hP
      have hc2 : c ∈ xs := by
        rcases List.mem_cons.mp hc with h | h
        · exact absurd h hxc
        · exact h
      have hxf : P x = false := by simpa using hx
      simp only [List.find?, hxf]
      exact ih hc2 hP (fun y hy => hu y (List.mem_cons_of_mem _ hy))

theorem xTCPWindowRxConfirm_mem {p : Pool} {w : TCPWindow} {seq len i : Nat}
    (h : xTCPWindowRxConfirm p w seq len = some i) : i ∈ w.xRxSegments := by
  unfold xTCPWindowRxConfirm at h
  have aux : ∀ (l : List Nat) (init : Option Nat) (f : Option Nat → Nat → Option Nat),
      (∀ b x, f b x = b ∨ f b x = some x) →
      l.foldl f init = some i → init = some i ∨ i ∈ l := by
    intro l
    induction l with
    | nil => intro init f _ h; exact Or.inl h
    | cons x xs ih =>
      intro init f hf h
      rw [List.foldl_cons] at h
      rcases ih (f init x) f hf h with h1 | h1
      · rcases hf init x with h2 | h2
        · left; rw [← h2]; exact h1
        · right; rw [h2] at h1; injection h1 with h1; subst h1; exact List.mem_cons_self _ _
      · right; exact List.mem_cons_of_mem _ h1
  refine (aux _ _ _ ?_ h).elim (fun h1 => by cases h1) id
  intro b x
  dsimp only
  split
  · cases b with
    | none => right; rfl
    | some b => dsimp only; split <;> simp
  · left; rfl

theorem xTCPWindowRxConfirm_none {p : Pool} {w : TCPWindow} {seq len : Nat}
    (hall : ∀ i ∈ w.xRxSegments,
      (xSequenceGreaterThanOrEqual (p.xTCPSegments i).ulSequenceNumber seq
        && xSequenceLessThan (p.xTCPSegments i).ulSequenceNumber (u32add seq len)) = false) :
    xTCPWindowRxConfirm p w seq len = none := by
  unfold xTCPWindowRxConfirm
  generalize w.xRxSegments = l at hall
  induction l with
  | nil => rfl
  | cons x xs ih =>
    rw [List.foldl_cons]
    have hx := hall x (List.mem_cons_self _ _)
    simp only [hx]
    exact ih (fun i hi => hall i (List.mem_cons_of_mem _ hi))

theorem xTCPWindowRxFind_mem {p : Pool} {w : TCPWindow} {seq i : Nat}
    (h : xTCPWindowRxFind p w seq = some i) : i ∈ w.xRxSegments :=
  List.mem_of_find?_eq_some h

theorem xTCPWindowRxFind_seq {p : Pool} {w : TCPWindow} {seq i : Nat}
    (h : xTCPWindowRxFind p w seq = some i) : (p.xTCPSegments i).ulSequenceNumber = seq := by
  have := List.find?_some h
  simpa using this

theorem vTCPWindowFree_rx_length {p : Pool} {w : TCPWindow} {i : Nat} (hi : i ∈ w.xRxSegments) :
    (vTCPWindowFree p w i).2.xRxSegments.length + 1 = w.xRxSegments.length := by
  simp only [vTCPWindowFree, uxListRemove]
  rw [List.length_erase_of_mem hi]
  have : 0 < w.xRxSegments.length := List.length_pos_of_mem hi
  omega

/-! ## The loops of the in-order path -/

theorem rxConfirmLoop_frame (seq len : Nat) (fuel : Nat) :
    ∀ (p : Pool) (w : TCPWindow) (p1 : Pool) (w1 : TCPWindow),
      rxConfirmLoop fuel p w seq len = some (p1, w1) →
        w1.rx = w.rx ∧ w1.ulUserDataLength = w.ulUserDataLength ∧
        w1.xRxSegments.length ≤ w.xRxSegments.length := by
  induction fuel with
  | zero =>
    intro p w p1 w1 hr
    cases hc : xTCPWindowRxConfirm p w seq len with
    | none =>
      simp only [rxConfirmLoop, hc, Option.some.injEq, Prod.mk.injEq] at hr
      obtain ⟨_, rfl⟩ := hr
      exact ⟨rfl, rfl, le_refl _⟩
    | some i => simp [rxConfirmLoop, hc] at hr
  | succ f ih =>
    intro p w p1 w1 hr
    cases hc : xTCPWindowRxConfirm p w seq len with
    | none =>
      simp only [rxConfirmLoop, hc, Option.some.injEq, Prod.mk.injEq] at hr
      obtain ⟨_, rfl⟩ := hr
      exact ⟨rfl, rfl, le_refl _⟩
    | some i =>
      rw [rxConfirmLoop, hc] at hr
      obtain ⟨h1, h2, h3⟩ := ih _ _ _ _ hr
      have hl := vTCPWindowFree_rx_length (p := p) (xTCPWindowRxConfirm_mem hc)
      exact ⟨h1, h2, by omega⟩

theorem rxConfirmLoop_total (seq len : Nat) (fuel : Nat) :
    ∀ (p : Pool) (w : TCPWindow), w.xRxSegments.length ≤ fuel →
      ∃ p1 w1, rxConfirmLoop fuel p w seq len = some (p1, w1) := by
  induction fuel with
  | zero =>
    intro p w hlen
    cases hc : xTCPWindowRxConfirm p w seq len with
    | none => exact ⟨p, w, by simp [rxConfirmLoop, hc]⟩
    | some i =>
      have := List.length_pos_of_mem (xTCPWindowRxConfirm_mem hc)
      omega
  | succ f ih =>
    intro p w hlen
    cases hc : xTCPWindowRxConfirm p w seq len with
    | none => exact ⟨p, w, by simp [rxConfirmLoop, hc]⟩
    | some i =>
      have hl := vTCPWindowFree_rx_length (p := p) (xTCPWindowRxConfirm_mem hc)
      obtain ⟨p1, w1, h1⟩ := ih (vTCPWindowFree p w i).1 (vTCPWindowFree p w i).2 (by omega)
      exact ⟨p1, w1, by rw [rxConfirmLoop, hc]; exact h1⟩

theorem rxAbsorbLoop_frame (fuel : Nat) :
    ∀ (p : Pool) (w : TCPWindow) (cur : Nat) (p1 : Pool) (w1 : TCPWindow) (cur1 : Nat),
      rxAbsorbLoop fuel p w cur = some (p1, w1, cur1) → cur < 4294967296 →
        cur1 < 4294967296 ∧ w1.rx = w.rx ∧ w1.ulUserDataLength = w.ulUserDataLength := by
  induction fuel with
  | zero =>
    intro p w cur p1 w1 cur1 hr hcur
    cases hc : xTCPWindowRxFind p w cur with
    | none =>
      simp only [rxAbsorbLoop, hc, Option.some.injEq, Prod.mk.injEq] at hr
      obtain ⟨_, rfl, rfl⟩ := hr
      exact ⟨hcur, rfl, rfl⟩
    | some i => simp [rxAbsorbLoop, hc] at hr
  | succ f ih =>
    intro p w cur p1 w1 cur1 hr hcur
    cases hc : xTCPWindowRxFind p w cur with
    | none =>
      simp only [rxAbsorbLoop, hc, Option.some.injEq, Prod.mk.injEq] at hr
      obtain ⟨_, rfl, rfl⟩ := hr
      exact ⟨hcur, rfl, rfl⟩
    | some i =>
      rw [rxAbsorbLoop, hc] at hr
      dsimp only at hr
      obtain ⟨h1, h2, h3⟩ := ih _ _ _ _ _ _ hr (u32add_lt _ _)
      exact ⟨h1, h2, h3⟩

theorem rxAbsorbLoop_total (fuel : Nat) :
    ∀ (p : Pool) (w : TCPWindow) (cur : Nat), w.xRxSegments.length ≤ fuel →
      ∃ p1 w1 cur1, rxAbsorbLoop fuel p w cur = some (p1, w1, cur1) := by
  induction fuel with
  | zero =>
    intro p w cur hlen
    cases hc : xTCPWindowRxFind p w cur with
    | none => exact ⟨p, w, cur, by simp [rxAbsorbLoop, hc]⟩
    | some i =>
      have := List.length_pos_of_mem (xTCPWindowRxFind_mem hc)
      omega
  | succ f ih =>
    intro p w cur hlen
    cases hc : xTCPWindowRxFind p w cur with
    | none => exact ⟨p, w, cur, by simp [rxAbsorbLoop, hc]⟩
    | some i =>
      have hl := vTCPWindowFree_rx_length (p := p) (xTCPWindowRxFind_mem hc)
      obtain ⟨p1, w1, cur1, h1⟩ :=
        ih (vTCPWindowFree p w i).1 (vTCPWindowFree p w i).2
          (u32add cur (toUInt32 (p.xTCPSegments i).lDataLength)) (by omega)
      exact ⟨p1, w1, cur1, by rw [rxAbsorbLoop, hc]; exact h1⟩

theorem prvTCPWindowRx_ExpectedRX_spec (fuel : Nat) (p : Pool) (w : TCPWindow) (ulLength : Nat)
    (p1 : Pool) (w1 : TCPWindow)
    (hr : prvTCPWindowRx_ExpectedRX fuel p w ulLength = some (p1, w1))
    (hudl : w.ulUserDataLength = 0) :
    w1.rx.ulCurrentSequenceNumber
        = (w.rx.ulCurrentSequenceNumber + ulLength + w1.ulUserDataLength) % 4294967296 ∧
      (w.xRxSegments = [] → w1.ulUserDataLength = 0) := by
  by_cases hemp : w.xRxSegments = []
  · simp only [prvTCPWindowRx_ExpectedRX, hemp, List.length_nil, ne_eq, not_true_eq_false,
      if_false, Option.some.injEq, Prod.mk.injEq] at hr
    obtain ⟨_, rfl⟩ := hr
    exact ⟨by simp [u32add, hudl], fun _ => hudl⟩
  · have hne : w.xRxSegments.length ≠ 0 := by
      intro h0; exact hemp (List.length_eq_zero.mp h0)
    simp only [prvTCPWindowRx_ExpectedRX, hne, ne_eq, not_false_eq_true, if_true] at hr
    cases hc : rxConfirmLoop fuel p w w.rx.ulCurrentSequenceNumber ulLength with
    | none => simp [hc] at hr
    | some r1 =>
      obtain ⟨pa, wa⟩ := r1
      simp only [hc] at hr
      cases ha : rxAbsorbLoop fuel pa wa (u32add w.rx.ulCurrentSequenceNumber ulLength) with
      | none => simp [ha] at hr
      | some r2 =>
        obtain ⟨pb, wb, cur2⟩ := r2
        simp only [ha, Option.some.injEq, Prod.mk.injEq] at hr
        obtain ⟨_, rfl⟩ := hr
        obtain ⟨_, hu1, _⟩ := rxConfirmLoop_frame _ _ _ _ _ _ _ hc
        obtain ⟨hcur2, _, hu2⟩ := rxAbsorbLoop_frame _ _ _ _ _ _ _ ha (u32add_lt _ _)
        refine ⟨?_, fun he => absurd he hemp⟩
        by_cases hsame : u32add w.rx.ulCurrentSequenceNumber ulLength = cur2
        · simp only [hsame, not_true_eq_false, if_false]
          show cur2 = _
          rw [hu2, hu1, hudl, ← hsame]; simp [u32add]
        · simp only [hsame, not_false_eq_true, if_true]
          show cur2 = (w.rx.ulCurrentSequenceNumber + ulLength
              + u32sub cur2 (u32add w.rx.ulCurrentSequenceNumber ulLength)) % 4294967296
          unfold u32sub u32add
          omega

theorem prvTCPWindowRx_ExpectedRX_total (fuel : Nat) (p : Pool) (w : TCPWindow) (ulLength : Nat)
    (hfuel : w.xRxSegments.length ≤ fuel) :
    ∃ p1 w1, prvTCPWindowRx_ExpectedRX fuel p w ulLength = some (p1, w1) := by
  by_cases hemp : w.xRxSegments = []
  · simp only [prvTCPWindowRx_ExpectedRX, hemp, List.length_nil, ne_eq, not_true_eq_false,
      if_false]
    exact ⟨_, _, rfl⟩
  · have hne : w.xRxSegments.length ≠ 0 := by
      intro h0; exact hemp (List.length_eq_zero.mp h0)
    obtain ⟨p1, w1, hc⟩ :=
      rxConfirmLoop_total w.rx.ulCurrentSequenceNumber ulLength fuel p w hfuel
    obtain ⟨_, _, hlen1⟩ := rxConfirmLoop_frame _ _ _ _ _ _ _ hc
    obtain ⟨p2, w2, cur2, ha⟩ :=
      rxAbsorbLoop_total fuel p1 w1 (u32add w.rx.ulCurrentSequenceNumber ulLength) (by omega)
    simp only [prvTCPWindowRx_ExpectedRX, hne, ne_eq, not_false_eq_true, if_true, hc, ha]
    exact ⟨_, _, rfl⟩

/-! ## Reception: in-order segments -/

/-- Claim C1.  A segment that starts at `rx.ulCurrentSequenceNumber`: when it is
longer than the free space the call returns -1 and changes nothing but the two
fields it resets (so `rx.ulCurrentSequenceNumber` and `xRxSegments` are as before);
otherwise it returns 0 and the new `rx.ulCurrentSequenceNumber` is the old one plus
`ulLength` plus `ulUserDataLength` modulo `2^32`, where `ulUserDataLength` is 0 if
`xRxSegments` was empty.  The call completes for every fuel not below the number
of stored segments. -/
theorem C1_rx_check_in_order (fuel : Nat) (h : Host) (p : Pool) (w : TCPWindow)
    (ulLength ulSpace : Nat) (hfuel : w.xRxSegments.length ≤ fuel) :
    (ulLength > ulSpace →
      lTCPWindowRxCheck fuel h p w w.rx.ulCurrentSequenceNumber ulLength ulSpace
        = some (-1, p, { w with ucOptionLength := 0, ulUserDataLength := 0 })) ∧
    (ulLength ≤ ulSpace →
      ∃ p1 w1,
        lTCPWindowRxCheck fuel h p w w.rx.ulCurrentSequenceNumber ulLength ulSpace
          = some (0, p1, w1) ∧
        w1.rx.ulCurrentSequenceNumber
          = (w.rx.ulCurrentSequenceNumber + ulLength + w1.ulUserDataLength) % 4294967296 ∧
        (w.xRxSegments = [] → w1.ulUserDataLength = 0)) := by
  constructor
  · intro hgt
    simp [lTCPWindowRxCheck, hgt]
  · intro hle
    have hng : ¬ ulLength > ulSpace := by omega
    obtain ⟨p1, w1, he⟩ :=
      prvTCPWindowRx_ExpectedRX_total fuel p
        { w with ucOptionLength := 0, ulUserDataLength := 0 } ulLength hfuel
    obtain ⟨hcur, hz⟩ := prvTCPWindowRx_ExpectedRX_spec _ _ _ _ _ _ he rfl
    refine ⟨p1, w1, ?_, hcur, hz⟩
    simp [lTCPWindowRxCheck, hng, he]

/-- Witness of C1 on scenario S2: the window stores `[1500, 2000)` and the call
for `[1000, 1500)` runs with fuel 1. -/
theorem C1_rx_check_in_order_witness :
    plugWindow.xRxSegments.length ≤ 1 ∧
    ((500 > 10000 →
      lTCPWindowRxCheck 1 demoHost plugPool plugWindow plugWindow.rx.ulCurrentSequenceNumber
          500 10000
        = some (-1, plugPool, { plugWindow with ucOptionLength := 0, ulUserDataLength := 0 })) ∧
    (500 ≤ 10000 →
      ∃ p1 w1,
        lTCPWindowRxCheck 1 demoHost plugPool plugWindow plugWindow.rx.ulCurrentSequenceNumber
            500 10000
          = some (0, p1, w1) ∧
        w1.rx.ulCurrentSequenceNumber
          = (plugWindow.rx.ulCurrentSequenceNumber + 500 + w1.ulUserDataLength) % 4294967296 ∧
        (plugWindow.xRxSegments = [] → w1.ulUserDataLength = 0))) :=
  ⟨by decide, C1_rx_check_in_order 1 demoHost plugPool plugWindow 500 10000 (by decide)⟩

/-! ## Reception: a stored run is absorbed -/

theorem rxChain_offset (segs : Nat → TCPSegment) :
    ∀ (l : List Nat) (start : Nat), rxChain segs start l →
      ∀ j ∈ l, ∃ d, (segs j).ulSequenceNumber = (start + d) % 4294967296 ∧
        0 < (segs j).lDataLength ∧
        d + (segs j).lDataLength.toNat ≤ rxChainLength segs l := by
  intro l
  induction l with
  | nil => intro _ _ j hj; cases hj
  | cons c rest ih =>
    intro start hch j hj
    obtain ⟨h1, h2, h3⟩ := hch
    rcases List.mem_cons.mp hj with h | h
    · subst h
      refine ⟨0, by simpa using h1, h2, ?_⟩
      simp [rxChainLength]
    · obtain ⟨d, hd1, hd2, hd3⟩ := ih _ h3 j h
      refine ⟨(segs c).lDataLength.toNat + d, ?_, hd2, ?_⟩
      · rw [hd1]; congr 1; omega
      · simp only [rxChainLength, List.map_cons, List.sum_cons] at hd3 ⊢
        omega

theorem rxAbsorbLoop_chain (segs0 : Nat → TCPSegment) :
    ∀ (chain : List Nat) (fuel : Nat) (p : Pool) (w : TCPWindow) (start : Nat),
      chain.length ≤ fuel → w.xRxSegments.Perm chain → chain.Nodup →
      (∀ i ∈ chain, p.xTCPSegments i = segs0 i) → (∀ i ∈ chain, i ∉ p.xSegmentList) →
      rxChain segs0 start chain → rxChainLength segs0 chain < 4294967296 →
      ∃ p1 w1, rxAbsorbLoop fuel p w (start % 4294967296)
          = some (p1, w1, (start + rxChainLength segs0 chain) % 4294967296) ∧
        w1.xRxSegments = [] ∧ p1.xSegmentList = p.xSegmentList ++ chain ∧
        w1.rx = w.rx ∧ w1.ulUserDataLength = w.ulUserDataLength := by
  intro chain
  induction chain with
  | nil =>
    intro fuel p w start _ hperm _ _ _ _ _
    have hnil : w.xRxSegments = [] := List.Perm.eq_nil hperm
    refine ⟨p, w, ?_, hnil, by simp, rfl, rfl⟩
    cases fuel <;> simp [rxAbsorbLoop, xTCPWindowRxFind, hnil, rxChainLength]
  | cons c rest ih =>
    intro fuel p w start hfuel hperm hnd hsegs hfree hch htot
    obtain ⟨hseq, hpos, hrest⟩ := hch
    have hcnot : c ∉ rest := (List.nodup_cons.mp hnd).1
    have htot2 : (segs0 c).lDataLength.toNat + rxChainLength segs0 rest < 4294967296 := by
      simpa [rxChainLength] using htot
    have hcmem : c ∈ w.xRxSegments := hperm.mem_iff.mpr (List.mem_cons_self _ _)
    have hfind : xTCPWindowRxFind p w (start % 4294967296) = some c := by
      unfold xTCPWindowRxFind
      apply find?_unique _ hcmem
      · rw [hsegs c (List.mem_cons_self _ _), hseq]; simp
      · intro x hx hPx
        rcases List.mem_cons.mp (hperm.mem_iff.mp hx) with h | h
        · exact h
        · exfalso
          obtain ⟨d, hd1, hd2, hd3⟩ := rxChain_offset segs0 rest _ hrest x h
          rw [hsegs x (List.mem_cons_of_mem _ h), hd1] at hPx
          have hPx2 : (start + (segs0 c).lDataLength.toNat + d) % 4294967296
              = start % 4294967296 := by simpa using hPx
          have : 0 < (segs0 x).lDataLength.toNat := by omega
          have : 0 < (segs0 c).lDataLength.toNat := by omega
          omega
    cases fuel with
    | zero => simp at hfuel
    | succ f =>
      have hcur : u32add (start % 4294967296) (toUInt32 (p.xTCPSegments c).lDataLength)
          = (start + (segs0 c).lDataLength.toNat) % 4294967296 := by
        rw [hsegs c (List.mem_cons_self _ _), toUInt32_of_nonneg (le_of_lt hpos) (by omega)]
        unfold u32add; omega
      obtain ⟨p1, w1, h1, h2, h3, h4, h5⟩ :=
        ih f (vTCPWindowFree p w c).1 (vTCPWindowFree p w c).2
          (start + (segs0 c).lDataLength.toNat)
          (by simpa using hfuel)
          (by
            have := hperm.erase c
            simpa [vTCPWindowFree, uxListRemove] using this)
          (List.nodup_cons.mp hnd).2
          (by
            intro i hi
            have hic : i ≠ c := fun h => hcnot (h ▸ hi)
            simp only [vTCPWindowFree]
            rw [Function.update_noteq hic]
            exact hsegs i (List.mem_cons_of_mem _ hi))
          (by
            intro i hi hmem
            have hic : i ≠ c := fun h => hcnot (h ▸ hi)
            simp only [vTCPWindowFree, vListInsertFifo, uxListRemove, List.mem_append,
              List.mem_singleton] at hmem
            rcases hmem with hm | hm
            · exact hfree i (List.mem_cons_of_mem _ hi) (List.mem_of_mem_erase hm)
            · exact hic hm)
          hrest (by omega)
      refine ⟨p1, w1, ?_, h2, ?_, ?_, ?_⟩
      · rw [rxAbsorbLoop, hfind]
        simp only
        rw [hcur, h1]
        simp only [rxChainLength, List.map_cons, List.sum_cons]
        congr 3
        omega
      · rw [h3]
        simp only [vTCPWindowFree, vListInsertFifo, uxListRemove]
        rw [List.erase_of_not_mem (hfree c (List.mem_cons_self _ _))]
        simp
      · rw [h4]; rfl
      · rw [h5]; rfl

/-- Claim C2 (amended).  When `xRxSegments` holds exactly a run of `k >= 1`
stored segments of positive length that starts at `rx.ulCurrentSequenceNumber +
ulLength`, and `ulLength` plus the length of the run stays below `2^32`, the call
for the missing segment returns 0, sets `ulUserDataLength` to the length of the
run, moves `rx.ulCurrentSequenceNumber` to the end of the run, empties
`xRxSegments` and appends the `k` descriptors to the free list.  `xRxSegments` may
hold the run in any order; its descriptors are distinct and none of them is in the
free list, as for the items of FreeRTOS lists. -/
theorem C2_rx_check_plug (fuel : Nat) (h : Host) (p : Pool) (w : TCPWindow) (chain : List Nat)
    (ulLength ulSpace : Nat)
    (hfuel : chain.length ≤ fuel)
    (hperm : w.xRxSegments.Perm chain) (hne : chain ≠ []) (hnd : chain.Nodup)
    (hfree : ∀ i ∈ chain, i ∉ p.xSegmentList)
    (hch : rxChain p.xTCPSegments (w.rx.ulCurrentSequenceNumber + ulLength) chain)
    (hlen : 0 < ulLength) (hsp : ulLength ≤ ulSpace)
    (hbound : ulLength + rxChainLength p.xTCPSegments chain < 4294967296) :
    ∃ p1 w1,
      lTCPWindowRxCheck fuel h p w w.rx.ulCurrentSequenceNumber ulLength ulSpace
        = some (0, p1, w1) ∧
      w1.ulUserDataLength = rxChainLength p.xTCPSegments chain ∧
      w1.rx.ulCurrentSequenceNumber
        = (w.rx.ulCurrentSequenceNumber + ulLength + rxChainLength p.xTCPSegments chain)
            % 4294967296 ∧
      w1.xRxSegments = [] ∧
      p1.xSegmentList = p.xSegmentList ++ chain := by
  have hng : ¬ ulLength > ulSpace := by omega
  have hlen0 : w.xRxSegments.length ≠ 0 := by
    intro h0
    have : w.xRxSegments = [] := List.length_eq_zero.mp h0
    rw [this] at hperm
    exact hne (List.Perm.nil_eq hperm).symm
  have htotpos : 0 < rxChainLength p.xTCPSegments chain := by
    cases chain with
    | nil => exact absurd rfl hne
    | cons c rest =>
      have := hch.2.1
      simp only [rxChainLength, List.map_cons, List.sum_cons]
      omega
  have hconf : xTCPWindowRxConfirm p { w with ucOptionLength := 0, ulUserDataLength := 0 }
      w.rx.ulCurrentSequenceNumber ulLength = none := by
    apply xTCPWindowRxConfirm_none
    intro i hi
    obtain ⟨d, hd1, hd2, hd3⟩ :=
      rxChain_offset p.xTCPSegments chain _ hch i (hperm.mem_iff.mp hi)
    rw [xSequenceGreaterThanOrEqual_eq, xSequenceLessThan_eq, hd1]
    by_contra hcon
    simp only [Bool.and_eq_false_imp, decide_eq_true_eq, decide_eq_false_iff_not, not_forall,
      not_not, exists_prop] at hcon
    obtain ⟨hc1, hc2⟩ := hcon
    simp only [u32sub, u32add] at hc1 hc2
    have : 0 < (p.xTCPSegments i).lDataLength.toNat := by omega
    omega
  obtain ⟨p1, w1, ha, hrx, hfl, hrxs, hudl⟩ :=
    rxAbsorbLoop_chain p.xTCPSegments chain fuel p
      { w with ucOptionLength := 0, ulUserDataLength := 0 }
      (w.rx.ulCurrentSequenceNumber + ulLength) hfuel hperm hnd (fun _ _ => rfl) hfree hch
      (by omega)
  have hdiff : ¬ (u32add w.rx.ulCurrentSequenceNumber ulLength
      = (w.rx.ulCurrentSequenceNumber + ulLength + rxChainLength p.xTCPSegments chain)
          % 4294967296) := by
    unfold u32add; omega
  refine ⟨p1, { w1 with
      ulUserDataLength :=
        u32sub ((w.rx.ulCurrentSequenceNumber + ulLength + rxChainLength p.xTCPSegments chain)
          % 4294967296) (u32add w.rx.ulCurrentSequenceNumber ulLength)
      rx := { w1.rx with ulCurrentSequenceNumber :=
        (w.rx.ulCurrentSequenceNumber + ulLength + rxChainLength p.xTCPSegments chain)
          % 4294967296 } }, ?_, ?_, rfl, hrx, hfl⟩
  · have ha2 : rxAbsorbLoop fuel p { w with ucOptionLength := 0, ulUserDataLength := 0 }
        (u32add w.rx.ulCurrentSequenceNumber ulLength) = _ := ha
    simp [lTCPWindowRxCheck, hng, prvTCPWindowRx_ExpectedRX, hlen0, rxConfirmLoop, hconf, ha2,
      hdiff]
  · show u32sub _ _ = _
    unfold u32sub u32add
    omega

/-- Witness of C2 on scenario S2: descriptor 0 stores `[1500, 2000)` and the
segment `[1000, 1500)` arrives. -/
theorem C2_rx_check_plug_witness :
    ([0] : List Nat).length ≤ 1 ∧ plugWindow.xRxSegments.Perm [0] ∧
    rxChain plugPool.xTCPSegments (plugWindow.rx.ulCurrentSequenceNumber + 500) [0] ∧
    500 + rxChainLength plugPool.xTCPSegments [0] < 4294967296 ∧
    ∃ p1 w1,
      lTCPWindowRxCheck 1 demoHost plugPool plugWindow plugWindow.rx.ulCurrentSequenceNumber
          500 10000 = some (0, p1, w1) ∧
      w1.ulUserDataLength = rxChainLength plugPool.xTCPSegments [0] ∧
      w1.rx.ulCurrentSequenceNumber
        = (plugWindow.rx.ulCurrentSequenceNumber + 500 + rxChainLength plugPool.xTCPSegments [0])
            % 4294967296 ∧
      w1.xRxSegments = [] ∧
      p1.xSegmentList = plugPool.xSegmentList ++ [0] :=
  ⟨by decide, List.Perm.refl _, ⟨by decide, by decide, trivial⟩, by decide,
    C2_rx_check_plug 1 demoHost plugPool plugWindow [0] 500 10000 (by decide)
      (List.Perm.refl _) (by decide) (by decide) (by decide)
      ⟨by decide, by decide, trivial⟩ (by decide) (by decide) (by decide)⟩

/-- Claim C2 as stated fails when the run wraps around the sequence space.  In
`wrapWindow` the three stored segments form a run that starts at `1000 + 2^31`,
right after an arriving segment `[1000, 1000 + 2^31)`, and their lengths add up to
`2^31 + 1`; the call returns 0 but reports `ulUserDataLength = 2^31` and leaves
`rx.ulCurrentSequenceNumber` at 1000 instead of 1001, the end of the last segment. -/
theorem C2_counterexample :
    wrapWindow.rx.ulCurrentSequenceNumber = 1000 ∧ wrapWindow.xRxSegments = [0, 1, 2] ∧
    (wrapPool.xTCPSegments 0).ulSequenceNumber = u32add 1000 2147483648 ∧
    (wrapPool.xTCPSegments 1).ulSequenceNumber
      = u32add (wrapPool.xTCPSegments 0).ulSequenceNumber
          (toUInt32 (wrapPool.xTCPSegments 0).lDataLength) ∧
    (wrapPool.xTCPSegments 2).ulSequenceNumber
      = u32add (wrapPool.xTCPSegments 1).ulSequenceNumber
          (toUInt32 (wrapPool.xTCPSegments 1).lDataLength) ∧
    0 < (wrapPool.xTCPSegments 0).lDataLength ∧ 0 < (wrapPool.xTCPSegments 1).lDataLength ∧
    0 < (wrapPool.xTCPSegments 2).lDataLength ∧
    rxChainLength wrapPool.xTCPSegments [0, 1, 2] = 2147483649 ∧
    u32add (wrapPool.xTCPSegments 2).ulSequenceNumber
      (toUInt32 (wrapPool.xTCPSegments 2).lDataLength) = 1001 ∧
    (lTCPWindowRxCheck 3 demoHost wrapPool wrapWindow 1000 2147483648 2147483648).map
      (fun r => (r.1, r.2.2.ulUserDataLength, r.2.2.rx.ulCurrentSequenceNumber))
      = some (0, 2147483648, 1000) := by
  decide

/-! ## Reception: out-of-order segments -/

/-- Claim C3 fails for a segment that starts before `rx.ulCurrentSequenceNumber` and
ends after it.  With `rx.ulCurrentSequenceNumber = 1000`, an empty `xRxSegments`
and free descriptors, the call for `[900, 1100)` with 10000 bytes of space stores
the segment in descriptor 0 and returns -100, which is neither -1, nor 0, nor a
positive offset. -/
theorem C3_overlapping_segment_returns_negative_offset :
    demoWindow.rx.ulCurrentSequenceNumber = 1000 ∧ demoWindow.xRxSegments = [] ∧
    (lTCPWindowRxCheck 0 demoHost demoPool demoWindow 900 200 10000).map
      (fun r => (r.1, r.2.2.xRxSegments, (r.2.1.xTCPSegments 0).ulSequenceNumber,
        (r.2.1.xTCPSegments 0).lDataLength, r.2.2.ucOptionLength))
      = some (-100, [0], 900, 200, 12) := by
  decide

/-- Claim C4 fails for a free space of `2^31` or more.  With
`rx.ulCurrentSequenceNumber = 1000` and free descriptors, the segment `[1500, 2000)`
has distance `1000`, which is not above the free space `2^31`; the call nevertheless
returns -1, leaves `ucOptionLength = 0` and stores nothing, because the space is
compared as `( int32_t ) ulSpace`, here `-2^31`. -/
theorem C4_large_space_rejects_segment_in_window :
    demoWindow.rx.ulCurrentSequenceNumber = 1000 ∧ demoPool.xSegmentList ≠ [] ∧
    toInt32 (u32sub (u32add 1500 500) 1000) = 1000 ∧ (1000 : Nat) ≤ 2147483648 ∧
    toInt32 2147483648 = -2147483648 ∧
    (lTCPWindowRxCheck 0 demoHost demoPool demoWindow 1500 500 2147483648).map
      (fun r => (r.1, r.2.2.ucOptionLength, r.2.2.xRxSegments)) = some (-1, 0, []) := by
  decide

/-! ## Completion of the SACK scan -/

theorem sum_filter_step (f : Nat → Nat) (P Q : Nat → Bool) (i : Nat)
    (hPi : P i = true) (hQi : Q i = false) (hQP : ∀ x, Q x = true → P x = true) :
    ∀ l : List Nat, i ∈ l →
      ((l.filter Q).map f).sum + f i ≤ ((l.filter P).map f).sum := by
  have mono : ∀ l : List Nat, ((l.filter Q).map f).sum ≤ ((l.filter P).map f).sum := by
    intro l
    induction l with
    | nil => simp
    | cons a l ih =>
      by_cases hq : Q a = true
      · simp [List.filter_cons, hq, hQP a hq, ih]
      · have hq2 : Q a = false := by simpa using hq
        by_cases hp : P a = true
        · simp only [List.filter_cons, hq2, hp, if_true, List.map_cons, List.sum_cons]
          simp only [Bool.false_eq_true, if_false]
          omega
        · have hp2 : P a = false := by simpa using hp
          simp only [List.filter_cons, hq2, hp2, Bool.false_eq_true, if_false]
          exact ih
  intro l
  induction l with
  | nil => intro h; cases h
  | cons a l ih =>
    intro hmem
    by_cases hai : a = i
    · subst hai
      have := mono l
      simp only [List.filter_cons, hQi, hPi, if_true, Bool.false_eq_true, if_false,
        List.map_cons, List.sum_cons]
      omega
    · have hil : i ∈ l := by
        rcases List.mem_cons.mp hmem with h | h
        · exact absurd h.symm hai
        · exact h
      have ih2 := ih hil
      by_cases hq : Q a = true
      · simp only [List.filter_cons, hq, hQP a hq, if_true, List.map_cons, List.sum_cons]
        omega
      · have hq2 : Q a = false := by simpa using hq
        by_cases hp : P a = true
        · simp only [List.filter_cons, hq2, hp, if_true, Bool.false_eq_true, if_false,
            List.map_cons, List.sum_cons]
          omega
        · have hp2 : P a = false := by simpa using hp
          simp only [List.filter_cons, hq2, hp2, Bool.false_eq_true, if_false]
          exact ih2

theorem rxSackLoop_total_aux (p : Pool) (w : TCPWindow) (x0 : Nat)
    (hpos : ∀ i ∈ w.xRxSegments, 0 < toUInt32 (p.xTCPSegments i).lDataLength) (fuel : Nat) :
    ∀ (x D : Nat), D < 4294967296 → x = (x0 + D) % 4294967296 →
      D + ((w.xRxSegments.filter
            (fun i => decide (D ≤ u32sub (p.xTCPSegments i).ulSequenceNumber x0))).map
            (fun i => toUInt32 (p.xTCPSegments i).lDataLength)).sum < 4294967296 →
      (w.xRxSegments.filter
          (fun i => decide (D ≤ u32sub (p.xTCPSegments i).ulSequenceNumber x0))).length ≤ fuel →
      ∃ last, rxSackLoop fuel p w x = some last := by
  induction fuel with
  | zero =>
    intro x D hD hx hsum hlen
    cases hc : xTCPWindowRxFind p w x with
    | none => exact ⟨x, by simp [rxSackLoop, hc]⟩
    | some i =>
      exfalso
      have hmem := xTCPWindowRxFind_mem hc
      have hseq := xTCPWindowRxFind_seq hc
      have hoff : u32sub (p.xTCPSegments i).ulSequenceNumber x0 = D := by
        rw [hseq, hx]; unfold u32sub; omega
      have : i ∈ w.xRxSegments.filter
          (fun i => decide (D ≤ u32sub (p.xTCPSegments i).ulSequenceNumber x0)) := by
        rw [List.mem_filter]; exact ⟨hmem, by simp [hoff]⟩
      have := List.length_pos_of_mem this
      omega
  | succ f ih =>
    intro x D hD hx hsum hlen
    cases hc : xTCPWindowRxFind p w x with
    | none => exact ⟨x, by simp [rxSackLoop, hc]⟩
    | some i =>
      have hmem := xTCPWindowRxFind_mem hc
      have hseq := xTCPWindowRxFind_seq hc
      have hoff : u32sub (p.xTCPSegments i).ulSequenceNumber x0 = D := by
        rw [hseq, hx]; unfold u32sub; omega
      have hL := hpos i hmem
      have hPi : (fun j => decide (D ≤ u32sub (p.xTCPSegments j).ulSequenceNumber x0)) i
          = true := by simp [hoff]
      have hQi : (fun j => decide (D + toUInt32 (p.xTCPSegments i).lDataLength
          ≤ u32sub (p.xTCPSegments j).ulSequenceNumber x0)) i = false := by
        simp only [hoff, decide_eq_false_iff_not]; omega
      have hQP : ∀ j, (fun j => decide (D + toUInt32 (p.xTCPSegments i).lDataLength
          ≤ u32sub (p.xTCPSegments j).ulSequenceNumber x0)) j = true →
          (fun j => decide (D ≤ u32sub (p.xTCPSegments j).ulSequenceNumber x0)) j = true := by
        intro j hj
        simp only [decide_eq_true_eq] at hj ⊢
        omega
      have hs1 := sum_filter_step (fun j => toUInt32 (p.xTCPSegments j).lDataLength)
        _ _ i hPi hQi hQP w.xRxSegments hmem
      beta_reduce at hs1
      have hs2 := sum_filter_step (fun _ => 1) _ _ i hPi hQi hQP w.xRxSegments hmem
      simp only [List.map_const', List.sum_replicate, smul_eq_mul, mul_one] at hs2
      obtain ⟨last, hlast⟩ := ih (u32add x (toUInt32 (p.xTCPSegments i).lDataLength))
        (D + toUInt32 (p.xTCPSegments i).lDataLength) (by omega)
        (by rw [hx]; unfold u32add; omega) (by omega) (by omega)
      exact ⟨last, by rw [rxSackLoop, hc]; exact hlast⟩

theorem rxSackLoop_total (fuel : Nat) (p : Pool) (w : TCPWindow) (x0 : Nat)
    (hx0 : x0 < 4294967296) (hb : rxStoreBounded p w) (hfuel : w.xRxSegments.length ≤ fuel) :
    ∃ last, rxSackLoop fuel p w x0 = some last := by
  have hall : w.xRxSegments.filter
      (fun i => decide (0 ≤ u32sub (p.xTCPSegments i).ulSequenceNumber x0)) = w.xRxSegments := by
    rw [List.filter_eq_self]; intro a _; simp
  apply rxSackLoop_total_aux p w x0 hb.1 fuel x0 0 (by omega) (by omega)
  · rw [hall]; have := hb.2; omega
  · rw [hall]; exact hfuel

/-! ## Reception: pool exhaustion -/

/-- The window test of `lTCPWindowRxCheck` for a free space below `2^31`: an
out-of-order segment of positive distance is refused with `ucOptionLength = 0`
when the distance exceeds the space, and is otherwise handled with the SACK option
populated, provided a descriptor is free. -/
theorem lTCPWindowRxCheck_window_test (fuel : Nat) (h : Host) (p : Pool) (w : TCPWindow)
    (seq len space : Nat)
    (hne : w.rx.ulCurrentSequenceNumber ≠ seq)
    (hka : w.rx.ulCurrentSequenceNumber ≠ u32add seq 1)
    (hd : 0 < toInt32 (u32sub (u32add seq len) w.rx.ulCurrentSequenceNumber))
    (hsp : space < 2147483648) (hpool : p.xSegmentList ≠ [])
    (hb : rxStoreBounded p w) (hfuel : w.xRxSegments.length ≤ fuel) :
    ((space : Int) < toInt32 (u32sub (u32add seq len) w.rx.ulCurrentSequenceNumber) →
      lTCPWindowRxCheck fuel h p w seq len space
        = some (-1, p, { w with ucOptionLength := 0, ulUserDataLength := 0 })) ∧
    (toInt32 (u32sub (u32add seq len) w.rx.ulCurrentSequenceNumber) ≤ (space : Int) →
      ∃ r p1 w1, lTCPWindowRxCheck fuel h p w seq len space = some (r, p1, w1) ∧
        w1.ucOptionLength = 12) := by
  have hnd : ¬ toInt32 (u32sub (u32add seq len) w.rx.ulCurrentSequenceNumber) ≤ 0 := by omega
  constructor
  · intro hfar
    have hfar2 : toInt32 (u32sub (u32add seq len) w.rx.ulCurrentSequenceNumber)
        > toInt32 space := by rw [toInt32_of_lt hsp]; exact hfar
    simp only [lTCPWindowRxCheck, hne, hka, hnd, hfar2, if_false, if_true]
  · intro hin
    have hin2 : ¬ toInt32 (u32sub (u32add seq len) w.rx.ulCurrentSequenceNumber)
        > toInt32 space := by rw [toInt32_of_lt hsp]; omega
    obtain ⟨last, hlast⟩ := rxSackLoop_total fuel p
      { w with ucOptionLength := 0, ulUserDataLength := 0 }
      (u32add seq len) (u32add_lt _ _) hb hfuel
    simp only [lTCPWindowRxCheck, hne, hka, hnd, hin2, if_false, prvTCPWindowRx_UnexpectedRX,
      hlast]
    split
    · exact ⟨_, _, _, rfl, rfl⟩
    · cases hfl : p.xSegmentList with
      | nil => exact absurd hfl hpool
      | cons i rest =>
        simp only [xTCPWindowNew, hfl, if_true]
        exact ⟨_, _, _, rfl, rfl⟩

/-! ## Reception: the effect of one call on `rx.ulCurrentSequenceNumber` -/

theorem prvTCPWindowRx_UnexpectedRX_cases (fuel : Nat) (h : Host) (p : Pool) (w : TCPWindow)
    (seq len : Nat) (r : Int) (p1 : Pool) (w1 : TCPWindow)
    (hr : prvTCPWindowRx_UnexpectedRX fuel h p w seq len = some (r, p1, w1)) :
    w1.rx = w.rx ∧
      (r = -1 ∨ r = toInt32 (u32sub seq w.rx.ulCurrentSequenceNumber)) := by
  unfold prvTCPWindowRx_UnexpectedRX at hr
  cases hs : rxSackLoop fuel p w (u32add seq len) with
  | none => simp [hs] at hr
  | some last =>
    simp only [hs] at hr
    split at hr
    · simp only [Option.some.injEq, Prod.mk.injEq] at hr
      obtain ⟨rfl, _, rfl⟩ := hr
      exact ⟨rfl, Or.inl rfl⟩
    · split at hr
      · simp only [Option.some.injEq, Prod.mk.injEq] at hr
        obtain ⟨rfl, _, rfl⟩ := hr
        exact ⟨rfl, Or.inl rfl⟩
      · rename_i i p2 w2 hnew
        simp only [Option.some.injEq, Prod.mk.injEq] at hr
        obtain ⟨rfl, rfl, rfl⟩ := hr
        refine ⟨?_, Or.inr rfl⟩
        unfold xTCPWindowNew at hnew
        split at hnew
        · simp at hnew
        · simp only [if_true, Option.some.injEq, Prod.mk.injEq] at hnew
          obtain ⟨_, _, rfl⟩ := hnew
          rfl

theorem lTCPWindowRxCheck_cases (fuel : Nat) (h : Host) (p : Pool) (w : TCPWindow)
    (seq len space : Nat) (r : Int) (p1 : Pool) (w1 : TCPWindow)
    (hr : lTCPWindowRxCheck fuel h p w seq len space = some (r, p1, w1)) :
    (w.rx.ulCurrentSequenceNumber = seq ∧ r = 0 ∧
        w1.rx.ulCurrentSequenceNumber
          = (w.rx.ulCurrentSequenceNumber + len + w1.ulUserDataLength) % 4294967296) ∨
    (w1.rx = w.rx ∧
      (r = -1 ∨ (w.rx.ulCurrentSequenceNumber ≠ seq ∧
        r = toInt32 (u32sub seq w.rx.ulCurrentSequenceNumber)))) := by
  unfold lTCPWindowRxCheck at hr
  by_cases heq : w.rx.ulCurrentSequenceNumber = seq
  · simp only [heq, if_true] at hr
    by_cases hsp : len > space
    · simp only [hsp, if_true, Option.some.injEq, Prod.mk.injEq] at hr
      obtain ⟨rfl, _, rfl⟩ := hr
      exact Or.inr ⟨rfl, Or.inl rfl⟩
    · simp only [hsp, if_false] at hr
      cases he : prvTCPWindowRx_ExpectedRX fuel p
          { w with ucOptionLength := 0, ulUserDataLength := 0 } len with
      | none => simp [he] at hr
      | some res =>
        obtain ⟨pa, wa⟩ := res
        simp only [he, Option.some.injEq, Prod.mk.injEq] at hr
        obtain ⟨rfl, rfl, rfl⟩ := hr
        exact Or.inl ⟨heq, rfl, (prvTCPWindowRx_ExpectedRX_spec _ _ _ _ _ _ he rfl).1⟩
  · simp only [heq, if_false] at hr
    split at hr
    · simp only [Option.some.injEq, Prod.mk.injEq] at hr
      obtain ⟨rfl, _, rfl⟩ := hr
      exact Or.inr ⟨rfl, Or.inl rfl⟩
    · split at hr
      · simp only [Option.some.injEq, Prod.mk.injEq] at hr
        obtain ⟨rfl, _, rfl⟩ := hr
        exact Or.inr ⟨rfl, Or.inl rfl⟩
      · split at hr
        · simp only [Option.some.injEq, Prod.mk.injEq] at hr
          obtain ⟨rfl, _, rfl⟩ := hr
          exact Or.inr ⟨rfl, Or.inl rfl⟩
        · obtain ⟨h1, h2⟩ := prvTCPWindowRx_UnexpectedRX_cases _ _ _ _ _ _ _ _ _ hr
          refine Or.inr ⟨h1, ?_⟩
          rcases h2 with h2 | h2
          · exact Or.inl h2
          · exact Or.inr ⟨heq, h2⟩

theorem lTCPWindowRxCheck_total (fuel : Nat) (h : Host) (p : Pool) (w : TCPWindow)
    (seq len space : Nat) (hfuel : w.xRxSegments.length ≤ fuel)
    (hb : w.rx.ulCurrentSequenceNumber ≠ seq → rxStoreBounded p w) :
    ∃ res, lTCPWindowRxCheck fuel h p w seq len space = some res := by
  unfold lTCPWindowRxCheck
  by_cases heq : w.rx.ulCurrentSequenceNumber = seq
  · simp only [heq, if_true]
    split
    · exact ⟨_, rfl⟩
    · obtain ⟨p1, w1, he⟩ := prvTCPWindowRx_ExpectedRX_total fuel p
        { w with ucOptionLength := 0, ulUserDataLength := 0 } len hfuel
      rw [he]; exact ⟨_, rfl⟩
  · simp only [heq, if_false]
    split
    · exact ⟨_, rfl⟩
    · split
      · exact ⟨_, rfl⟩
      · split
        · exact ⟨_, rfl⟩
        · obtain ⟨last, hlast⟩ := rxSackLoop_total fuel p
            { w with ucOptionLength := 0, ulUserDataLength := 0 }
            (u32add seq len) (u32add_lt _ _) (hb heq) hfuel
          simp only [prvTCPWindowRx_UnexpectedRX, hlast]
          split
          · exact ⟨_, rfl⟩
          · split
            · exact ⟨_, rfl⟩
            · exact ⟨_, rfl⟩

/-- Claim C6 (amended).  Whenever a call returns, `rx.ulCurrentSequenceNumber`
after it is greater than or equal to the one before it in half-space order,
provided a call that returns 0 delivered fewer than `2^31` bytes (`ulLength` plus
`ulUserDataLength`); and it is unchanged unless the call returns 0.  The call does
return, for every fuel not below the number of stored segments, when the segment
is the expected one, and otherwise when the stored segments are non-empty and
shorter than `2^32` bytes together. -/
theorem C6_rx_current_monotone (fuel : Nat) (h : Host) (p : Pool) (w : TCPWindow)
    (ulSequenceNumber ulLength ulSpace : Nat) :
    (∀ (r : Int) (p1 : Pool) (w1 : TCPWindow),
      lTCPWindowRxCheck fuel h p w ulSequenceNumber ulLength ulSpace = some (r, p1, w1) →
      (r = 0 → ulLength + w1.ulUserDataLength < 2147483648) →
        xSequenceGreaterThanOrEqual w1.rx.ulCurrentSequenceNumber w.rx.ulCurrentSequenceNumber
          = true ∧
        (r ≠ 0 → w1.rx.ulCurrentSequenceNumber = w.rx.ulCurrentSequenceNumber)) ∧
    (w.xRxSegments.length ≤ fuel →
      (w.rx.ulCurrentSequenceNumber ≠ ulSequenceNumber → rxStoreBounded p w) →
      ∃ res, lTCPWindowRxCheck fuel h p w ulSequenceNumber ulLength ulSpace = some res) := by
  refine ⟨?_, lTCPWindowRxCheck_total fuel h p w ulSequenceNumber ulLength ulSpace⟩
  intro r p1 w1 hr hsmall
  rcases lTCPWindowRxCheck_cases _ _ _ _ _ _ _ _ _ _ hr with ⟨_, h0, hcur⟩ | ⟨hrx, _⟩
  · have hs := hsmall h0
    refine ⟨?_, fun hne => absurd h0 hne⟩
    rw [xSequenceGreaterThanOrEqual_eq, hcur]
    simp only [decide_eq_true_eq, u32sub]
    omega
  · refine ⟨?_, fun _ => by rw [hrx]⟩
    rw [xSequenceGreaterThanOrEqual_eq, hrx]
    simp only [decide_eq_true_eq, u32sub]
    omega

/-- Witness of C6 on scenario S1: the segment `[1000, 1500)` arrives in order. -/
theorem C6_rx_current_monotone_witness :
    lTCPWindowRxCheck 0 demoHost demoPool demoWindow 1000 500 10000
      = some (0, demoPool,
          { demoWindow with rx := { demoWindow.rx with ulCurrentSequenceNumber := 1500 } }) ∧
    xSequenceGreaterThanOrEqual 1500 demoWindow.rx.ulCurrentSequenceNumber = true ∧
    ∃ res, lTCPWindowRxCheck 0 demoHost demoPool demoWindow 1000 500 10000 = some res :=
  ⟨rfl,
    ((C6_rx_current_monotone 0 demoHost demoPool demoWindow 1000 500 10000).1 0 demoPool
      { demoWindow with rx := { demoWindow.rx with ulCurrentSequenceNumber := 1500 } }
      rfl (fun _ => by decide)).1,
    (C6_rx_current_monotone 0 demoHost demoPool demoWindow 1000 500 10000).2 (by decide)
      (fun hne => absurd rfl hne)⟩

/-- Claim C6 as stated fails for a segment of `2^31` bytes: with
`rx.ulCurrentSequenceNumber = 1000` and nothing stored, the call for
`[1000, 1000 + 2^31)` returns 0 and moves `rx.ulCurrentSequenceNumber` to
`1000 + 2^31`, which is not greater than or equal to 1000 in half-space order. -/
theorem C6_counterexample :
    (lTCPWindowRxCheck 0 demoHost demoPool demoWindow 1000 2147483648 2147483648).map
      (fun r => (r.1, r.2.2.rx.ulCurrentSequenceNumber)) = some (0, 2147484648) ∧
    xSequenceGreaterThanOrEqual 2147484648 demoWindow.rx.ulCurrentSequenceNumber = false := by
  decide

/-! ## Reception: delivering a segment twice -/

/-- Claim C7 (amended).  If a call with 32-bit arguments returns 0 and delivered
at least one byte and fewer than `2^31` bytes (`ulLength` plus `ulUserDataLength`),
then the same call on the resulting state returns -1 for every fuel, and changes
nothing but the two fields it resets: `rx.ulCurrentSequenceNumber` is as after the
first call. -/
theorem C7_redelivery_rejected (fuel fuel2 : Nat) (h : Host) (p : Pool) (w : TCPWindow)
    (ulSequenceNumber ulLength ulSpace : Nat) (p1 : Pool) (w1 : TCPWindow)
    (hseq : ulSequenceNumber < 4294967296) (hcur : w.rx.ulCurrentSequenceNumber < 4294967296)
    (hret : lTCPWindowRxCheck fuel h p w ulSequenceNumber ulLength ulSpace = some (0, p1, w1))
    (hpos : 0 < ulLength + w1.ulUserDataLength)
    (hsmall : ulLength + w1.ulUserDataLength < 2147483648) :
    lTCPWindowRxCheck fuel2 h p1 w1 ulSequenceNumber ulLength ulSpace
      = some (-1, p1, { w1 with ucOptionLength := 0, ulUserDataLength := 0 }) := by
  rcases lTCPWindowRxCheck_cases _ _ _ _ _ _ _ _ _ _ hret with ⟨heq, _, hc⟩ | ⟨_, h2⟩
  · have hne : ¬ (w1.rx.ulCurrentSequenceNumber = ulSequenceNumber) := by
      rw [hc, heq]; omega
    unfold lTCPWindowRxCheck
    simp only [hne, if_false]
    split
    · rfl
    · have hd : toInt32 (u32sub (u32add ulSequenceNumber ulLength)
          w1.rx.ulCurrentSequenceNumber) ≤ 0 := by
        rw [hc, heq]
        unfold toInt32 u32sub u32add
        split
        · rename_i hlt
          have : w1.ulUserDataLength = 0 := by omega
          simp only [Int.ofNat_eq_coe]
          omega
        · simp only [Int.ofNat_eq_coe]
          omega
      simp only [hd, if_true]
  · rcases h2 with h2 | ⟨hne, h2⟩
    · cases h2
    · exfalso
      have h3 : toInt32 (u32sub ulSequenceNumber w.rx.ulCurrentSequenceNumber) = 0 := h2.symm
      unfold toInt32 u32sub at h3
      split at h3
      · simp only [Int.ofNat_eq_coe] at h3
        omega
      · simp only [Int.ofNat_eq_coe] at h3
        omega

/-- Witness of C7 on scenario S3: `[1000, 1500)` is delivered, then delivered again. -/
theorem C7_redelivery_rejected_witness :
    lTCPWindowRxCheck 0 demoHost demoPool demoWindow 1000 500 10000
      = some (0, demoPool,
          { demoWindow with rx := { demoWindow.rx with ulCurrentSequenceNumber := 1500 } }) ∧
    lTCPWindowRxCheck 0 demoHost demoPool
        { demoWindow with rx := { demoWindow.rx with ulCurrentSequenceNumber := 1500 } }
        1000 500 10000
      = some (-1, demoPool,
          { ({ demoWindow with rx := { demoWindow.rx with ulCurrentSequenceNumber := 1500 } }
              : TCPWindow) with ucOptionLength := 0, ulUserDataLength := 0 }) :=
  ⟨rfl, C7_redelivery_rejected 0 0 demoHost demoPool demoWindow 1000 500 10000 demoPool
    { demoWindow with rx := { demoWindow.rx with ulCurrentSequenceNumber := 1500 } }
    (by decide) (by decide) rfl (by decide) (by decide)⟩

/-- Claim C7 as stated fails for an empty segment: with
`rx.ulCurrentSequenceNumber = 1000` the call for `(1000, 0, 10000)` returns 0 and
leaves the state as it is, so that the same call returns 0 again, not -1. -/
theorem C7_counterexample :
    lTCPWindowRxCheck 0 demoHost demoPool demoWindow 1000 0 10000
      = some (0, demoPool, demoWindow) ∧
    (lTCPWindowRxCheck 0 demoHost demoPool demoWindow 1000 0 10000).map (fun r => r.1)
      ≠ some (-1) :=
  ⟨rfl, by decide⟩

/-! ## Transmission: adding data -/

theorem ceil_div_le_iff (a b c : Nat) (hb : 0 < b) : (a + b - 1) / b ≤ c ↔ a ≤ c * b := by
  rw [Nat.div_le_iff_le_mul_add_pred hb]
  constructor
  · intro h1
    have : b * c = c * b := Nat.mul_comm _ _
    omega
  · intro h1
    have : b * c = c * b := Nat.mul_comm _ _
    omega

/-- One iteration of the loop of `lTCPWindowTxAdd` when the free list is
`i :: rest`: what `xTCPWindowNew` and the body leave behind. -/
theorem txAddLoop_iteration (h : Host) (p : Pool) (w : TCPWindow) (i : Nat) (rest : List Nat)
    (left idx : Int) (hfl : p.xSegmentList = i :: rest) :
    ∃ pN wN, xTCPWindowNew h p w w.ulNextTxSequenceNumber (Int.ofNat w.usMSS) false
        = some (i, pN, wN) ∧
      (txAddLoop_store pN wN i left idx).1 = FreeRTOS_min_int32 left (Int.ofNat w.usMSS) ∧
      (txAddLoop_store pN wN i left idx).2.1.xSegmentList = rest ∧
      (∀ j, j ≠ i → (txAddLoop_store pN wN i left idx).2.1.xTCPSegments j = p.xTCPSegments j) ∧
      ((txAddLoop_store pN wN i left idx).2.1.xTCPSegments i).ulSequenceNumber
        = w.ulNextTxSequenceNumber ∧
      ((txAddLoop_store pN wN i left idx).2.1.xTCPSegments i).lMaxLength = Int.ofNat w.usMSS ∧
      ((txAddLoop_store pN wN i left idx).2.1.xTCPSegments i).lDataLength
        = FreeRTOS_min_int32 left (Int.ofNat w.usMSS) ∧
      ((txAddLoop_store pN wN i left idx).2.1.xTCPSegments i).lStreamPos = idx ∧
      (txAddLoop_store pN wN i left idx).2.2.usMSS = w.usMSS ∧
      (txAddLoop_store pN wN i left idx).2.2.ulNextTxSequenceNumber
        = u32add w.ulNextTxSequenceNumber
            (toUInt32 (FreeRTOS_min_int32 left (Int.ofNat w.usMSS))) ∧
      (txAddLoop_store pN wN i left idx).2.2.xTxSegments = w.xTxSegments ++ [i] ∧
      (txAddLoop_store pN wN i left idx).2.2.xTxQueue = w.xTxQueue ++ [i] ∧
      (txAddLoop_store pN wN i left idx).2.2.pxHeadSegment
        = (if FreeRTOS_min_int32 left (Int.ofNat w.usMSS) < Int.ofNat w.usMSS then some i
           else none) := by
  simp only [xTCPWindowNew, hfl, Bool.false_eq_true, if_false]
  refine ⟨_, _, rfl, ?_⟩
  simp only [txAddLoop_store, Pool.setSegment, Function.update_same, Function.update_idem,
    Bool.false_eq_true, if_false, vListInsertFifo]
  refine ⟨trivial, trivial, ?_, trivial, trivial, trivial, trivial, trivial, trivial, trivial,
    trivial, trivial⟩
  intro j hj
  rw [Function.update_noteq hj]

theorem txAddLoop_succ (h : Host) (p : Pool) (w : TCPWindow) (f : Nat)
    (left idx lMax done : Int) (hpos : left > 0) (i : Nat) (pN : Pool) (wN : TCPWindow)
    (hnew : xTCPWindowNew h p w w.ulNextTxSequenceNumber (Int.ofNat w.usMSS) false
      = some (i, pN, wN)) :
    txAddLoop (f + 1) h p w left idx lMax done
      = txAddLoop f h (txAddLoop_store pN wN i left idx).2.1
          (txAddLoop_store pN wN i left idx).2.2
          (left - (txAddLoop_store pN wN i left idx).1)
          (lTCPIncrementTxPosition idx lMax (txAddLoop_store pN wN i left idx).1) lMax
          (done + (txAddLoop_store pN wN i left idx).1) := by
  rw [txAddLoop]
  simp only [hpos, if_true, hnew]

theorem txAddLoop_accepts (h : Host) (lMax : Int) (fuel : Nat) :
    ∀ (p : Pool) (w : TCPWindow) (lBytesLeft lBufferIndex lDone : Int),
      0 < w.usMSS → w.ulNextTxSequenceNumber < 4294967296 →
      lBytesLeft < 2147483648 → lBytesLeft.toNat ≤ fuel →
      ∃ r p1 w1, txAddLoop fuel h p w lBytesLeft lBufferIndex lMax lDone = some (r, p1, w1) ∧
        lDone ≤ r ∧ r ≤ lDone + max lBytesLeft 0 ∧
        w1.ulNextTxSequenceNumber
          = (w.ulNextTxSequenceNumber + (r - lDone).toNat) % 4294967296 ∧
        (lBytesLeft ≤ ((p.xSegmentList.length * w.usMSS : Nat) : Int) →
          r = lDone + max lBytesLeft 0) ∧
        (r < lDone + lBytesLeft → p1.xSegmentList = []) := by
  induction fuel with
  | zero =>
    intro p w left idx done hmss hnext hlt hfuel
    have hle : ¬ (left > 0) := by omega
    refine ⟨done, p, w, by simp [txAddLoop, hle], le_refl _, by omega, ?_, ?_, ?_⟩
    · simp only [sub_self, Int.toNat_zero, Nat.add_zero]; omega
    · intro _; omega
    · intro hh; omega
  | succ f ih =>
    intro p w left idx done hmss hnext hlt hfuel
    by_cases hpos : left > 0
    · cases hfl : p.xSegmentList with
      | nil =>
        refine ⟨done, p, w, by simp [txAddLoop, hpos, xTCPWindowNew, hfl], le_refl _,
          by omega, ?_, ?_, ?_⟩
        · simp only [sub_self, Int.toNat_zero, Nat.add_zero]; omega
        · intro hh
          simp only [List.length_nil, Nat.zero_mul, Nat.cast_zero] at hh
          omega
        · intro _; exact hfl
      | cons i rest =>
        obtain ⟨pN, wN, hnew, e1, e2, _, _, _, _, _, e3, e4, _, _, _⟩ :=
          txAddLoop_iteration h p w i rest left idx hfl
        have htw1 : 0 < FreeRTOS_min_int32 left (Int.ofNat w.usMSS) := by
          unfold FreeRTOS_min_int32; simp only [Int.ofNat_eq_coe]; split <;> omega
        have htw2 : FreeRTOS_min_int32 left (Int.ofNat w.usMSS) ≤ left := by
          unfold FreeRTOS_min_int32; simp only [Int.ofNat_eq_coe]; split <;> omega
        have htu : toUInt32 (FreeRTOS_min_int32 left (Int.ofNat w.usMSS))
            = (FreeRTOS_min_int32 left (Int.ofNat w.usMSS)).toNat :=
          toUInt32_of_nonneg (le_of_lt htw1) (by omega)
        obtain ⟨r, p1, w1, hres, h1, h2, h3, h4, h5⟩ :=
          ih (txAddLoop_store pN wN i left idx).2.1 (txAddLoop_store pN wN i left idx).2.2
            (left - (txAddLoop_store pN wN i left idx).1)
            (lTCPIncrementTxPosition idx lMax (txAddLoop_store pN wN i left idx).1)
            (done + (txAddLoop_store pN wN i left idx).1)
            (by rw [e3]; exact hmss) (by rw [e4]; exact u32add_lt _ _)
            (by rw [e1]; omega) (by rw [e1]; omega)
        rw [e1] at h1 h2 h3 h4 h5
        rw [e2, e3] at h4
        rw [e4, htu] at h3
        have hstep := txAddLoop_succ h p w f left idx lMax done hpos i pN wN hnew
        refine ⟨r, p1, w1, hstep.trans hres, by omega, by omega, ?_, ?_, ?_⟩
        · rw [h3]; unfold u32add
          omega
        · intro hcap
          have hcap2 : ((((i :: rest).length * w.usMSS : Nat)) : Int)
              = ((rest.length * w.usMSS : Nat) : Int) + (w.usMSS : Int) := by
            simp only [List.length_cons]; push_cast; ring
          rw [hcap2] at hcap
          have hnn : (0 : Int) ≤ ((rest.length * w.usMSS : Nat) : Int) := Int.ofNat_nonneg _
          have hih := h4 (by
            unfold FreeRTOS_min_int32
            simp only [Int.ofNat_eq_coe]
            split <;> omega)
          omega
        · intro hlt2
          exact h5 (by omega)
    · refine ⟨done, p, w, by simp [txAddLoop, hpos], le_refl _, by omega, ?_, ?_, ?_⟩
      · simp only [sub_self, Int.toNat_zero, Nat.add_zero]; omega
      · intro _; omega
      · intro hh; omega

theorem prvTCPWindowTxAdd_FrontSegment_spec (p : Pool) (w : TCPWindow) (i : Nat) (left : Int) :
    (prvTCPWindowTxAdd_FrontSegment p w i left).1
        = FreeRTOS_min_int32 left ((p.xTCPSegments i).lMaxLength - (p.xTCPSegments i).lDataLength) ∧
      (prvTCPWindowTxAdd_FrontSegment p w i left).2.1.xSegmentList = p.xSegmentList ∧
      (prvTCPWindowTxAdd_FrontSegment p w i left).2.2.usMSS = w.usMSS ∧
      (prvTCPWindowTxAdd_FrontSegment p w i left).2.2.ulNextTxSequenceNumber
        = u32add w.ulNextTxSequenceNumber
            (toUInt32 (prvTCPWindowTxAdd_FrontSegment p w i left).1) := by
  simp only [prvTCPWindowTxAdd_FrontSegment, Pool.setSegment]
  refine ⟨trivial, trivial, ?_, ?_⟩ <;> split <;> rfl

/-- Claim C8.  For a window with `usMSS > 0` and a length below `2^31`,
`lTCPWindowTxAdd` returns `r` with `0 <= r <= ulLength` and `ulNextTxSequenceNumber`
advanced by `r` modulo `2^32`; `r` is `ulLength` when the free list holds at
least `ceil(ulLength / usMSS)` descriptors, and `r < ulLength` only if the free
list is empty afterwards.  The call completes for every fuel not below `ulLength`. -/
theorem C8_tx_add_accepts (fuel : Nat) (h : Host) (p : Pool) (w : TCPWindow)
    (ulLength : Nat) (lPosition lMax : Int)
    (hmss : 0 < w.usMSS) (hnext : w.ulNextTxSequenceNumber < 4294967296)
    (hlen : ulLength < 2147483648) (hfuel : ulLength ≤ fuel) :
    ∃ r p1 w1, lTCPWindowTxAdd fuel h p w ulLength lPosition lMax = some (r, p1, w1) ∧
      0 ≤ r ∧ r ≤ (ulLength : Int) ∧
      w1.ulNextTxSequenceNumber = (w.ulNextTxSequenceNumber + r.toNat) % 4294967296 ∧
      ((ulLength + w.usMSS - 1) / w.usMSS ≤ p.xSegmentList.length → r = (ulLength : Int)) ∧
      (r < (ulLength : Int) → p1.xSegmentList = []) := by
  have hplain : ∃ r p1 w1,
      txAddLoop fuel h p w (toInt32 ulLength) lPosition lMax 0 = some (r, p1, w1) ∧
      0 ≤ r ∧ r ≤ (ulLength : Int) ∧
      w1.ulNextTxSequenceNumber = (w.ulNextTxSequenceNumber + r.toNat) % 4294967296 ∧
      ((ulLength + w.usMSS - 1) / w.usMSS ≤ p.xSegmentList.length → r = (ulLength : Int)) ∧
      (r < (ulLength : Int) → p1.xSegmentList = []) := by
    obtain ⟨r, p1, w1, hres, h1, h2, h3, h4, h5⟩ :=
      txAddLoop_accepts h lMax fuel p w (toInt32 ulLength) lPosition 0 hmss hnext
        (by rw [toInt32_of_lt hlen]; omega) (by rw [toInt32_of_lt hlen]; omega)
    rw [toInt32_of_lt hlen] at h2 h4 h5
    refine ⟨r, p1, w1, hres, h1, by omega, ?_, ?_, ?_⟩
    · rw [h3]; simp
    · intro hc
      rw [ceil_div_le_iff _ _ _ hmss] at hc
      have := h4 (by exact_mod_cast hc)
      omega
    · intro hlt; exact h5 (by omega)
  unfold lTCPWindowTxAdd
  cases hhead : w.pxHeadSegment with
  | none => exact hplain
  | some i =>
    simp only
    split
    · rename_i hcond
      obtain ⟨f1, f2, f3, f4⟩ := prvTCPWindowTxAdd_FrontSegment_spec p w i (toInt32 ulLength)
      rw [toInt32_of_lt hlen] at f1 f2 f3 f4 ⊢
      have hr0a : 0 ≤ (prvTCPWindowTxAdd_FrontSegment p w i (ulLength : Int)).1 := by
        rw [f1]; unfold FreeRTOS_min_int32; split <;> omega
      have hr0b : (prvTCPWindowTxAdd_FrontSegment p w i (ulLength : Int)).1 ≤ (ulLength : Int) := by
        rw [f1]; unfold FreeRTOS_min_int32; split <;> omega
      obtain ⟨r, p1, w1, hres, h1, h2, h3, h4, h5⟩ :=
        txAddLoop_accepts h lMax fuel
          (prvTCPWindowTxAdd_FrontSegment p w i (ulLength : Int)).2.1
          (prvTCPWindowTxAdd_FrontSegment p w i (ulLength : Int)).2.2
          ((ulLength : Int) - (prvTCPWindowTxAdd_FrontSegment p w i (ulLength : Int)).1)
          (lTCPIncrementTxPosition lPosition lMax
            (prvTCPWindowTxAdd_FrontSegment p w i (ulLength : Int)).1)
          (0 + (prvTCPWindowTxAdd_FrontSegment p w i (ulLength : Int)).1)
          (by rw [f3]; exact hmss) (by rw [f4]; exact u32add_lt _ _) (by omega) (by omega)
      rw [f2, f3] at h4
      rw [f4, toUInt32_of_nonneg hr0a (by omega)] at h3
      refine ⟨r, p1, w1, hres, by omega, by omega, ?_, ?_, ?_⟩
      · rw [h3]; unfold u32add; omega
      · intro hc
        rw [ceil_div_le_iff _ _ _ hmss] at hc
        have hc2 : (ulLength : Int) ≤ ((p.xSegmentList.length * w.usMSS : Nat) : Int) := by
          exact_mod_cast hc
        have := h4 (by omega)
        omega
      · intro hlt; exact h5 (by omega)
    · exact hplain

/-- Witness of C8 on scenario S4: 3000 bytes are added to the fresh window. -/
theorem C8_tx_add_accepts_witness :
    0 < demoWindow.usMSS ∧ demoWindow.ulNextTxSequenceNumber < 4294967296 ∧
    ∃ r p1 w1, lTCPWindowTxAdd 3000 demoHost demoPool demoWindow 3000 0 65536 = some (r, p1, w1) ∧
      0 ≤ r ∧ r ≤ ((3000 : Nat) : Int) ∧
      w1.ulNextTxSequenceNumber
        = (demoWindow.ulNextTxSequenceNumber + r.toNat) % 4294967296 ∧
      ((3000 + demoWindow.usMSS - 1) / demoWindow.usMSS ≤ demoPool.xSegmentList.length →
        r = ((3000 : Nat) : Int)) ∧
      (r < ((3000 : Nat) : Int) → p1.xSegmentList = []) :=
  ⟨by decide, by decide,
    C8_tx_add_accepts 3000 demoHost demoPool demoWindow 3000 0 65536 (by decide) (by decide)
      (by decide) (by decide)⟩

/-! ## Transmission: segmentation -/

/-- Claim C10.  When `xPriorityQueue` is not empty, `ulTCPWindowTxGet` takes its
head `i`, whatever the peer window, the tick count and `lSRTT` are: the priority
queue loses its head, `i` is appended to the tail of `xWaitQueue` (so that a head
of `xWaitQueue` stays the head), `xTxQueue` is unchanged, the returned length is
`( uint32_t ) lDataLength` of `i` (which is `lDataLength` when that is not
negative) and `*plPosition` is its `lStreamPos`. -/
theorem C10_tx_get_priority_first (h : Host) (p : Pool) (w : TCPWindow) (ulWindowSize : Nat)
    (i : Nat) (rest : List Nat) (hprio : w.xPriorityQueue = i :: rest) :
    (ulTCPWindowTxGet h p w ulWindowSize).1 = toUInt32 (p.xTCPSegments i).lDataLength ∧
    (0 ≤ (p.xTCPSegments i).lDataLength → (p.xTCPSegments i).lDataLength < 4294967296 →
      ((ulTCPWindowTxGet h p w ulWindowSize).1 : Int) = (p.xTCPSegments i).lDataLength) ∧
    (ulTCPWindowTxGet h p w ulWindowSize).2.1 = some (p.xTCPSegments i).lStreamPos ∧
    (ulTCPWindowTxGet h p w ulWindowSize).2.2.2.xPriorityQueue = rest ∧
    (ulTCPWindowTxGet h p w ulWindowSize).2.2.2.xWaitQueue = w.xWaitQueue ++ [i] ∧
    (∀ a, w.xWaitQueue.head? = some a →
      (ulTCPWindowTxGet h p w ulWindowSize).2.2.2.xWaitQueue.head? = some a) ∧
    (ulTCPWindowTxGet h p w ulWindowSize).2.2.2.xTxQueue = w.xTxQueue := by
  have hlists : (ulTCPWindowTxGet h p w ulWindowSize).2.2.2.xPriorityQueue = rest ∧
      (ulTCPWindowTxGet h p w ulWindowSize).2.2.2.xWaitQueue = w.xWaitQueue ++ [i] ∧
      (ulTCPWindowTxGet h p w ulWindowSize).2.2.2.xTxQueue = w.xTxQueue := by
    simp only [ulTCPWindowTxGet, hprio, ulTCPWindowTxGet_emit, vListInsertFifo]
    split <;> exact ⟨rfl, rfl, rfl⟩
  have hret : (ulTCPWindowTxGet h p w ulWindowSize).1
      = toUInt32 (p.xTCPSegments i).lDataLength := by
    simp only [ulTCPWindowTxGet, hprio, ulTCPWindowTxGet_emit]
  refine ⟨hret, ?_, ?_, hlists.1, hlists.2.1, ?_, hlists.2.2⟩
  · intro h0 h1
    rw [hret, toUInt32_of_nonneg h0 (by omega)]
    omega
  · simp only [ulTCPWindowTxGet, hprio, ulTCPWindowTxGet_emit]
  · intro a ha
    rw [hlists.2.1]
    cases hw : w.xWaitQueue with
    | nil => rw [hw] at ha; cases ha
    | cons b bs => rw [hw] at ha; simpa using ha

/-- Witness of C10 on scenario S5: descriptor 0 is in the priority queue and the
peer window is 0. -/
theorem C10_tx_get_priority_first_witness :
    retransmitWindow.xPriorityQueue = [0] ∧
    (ulTCPWindowTxGet demoHost retransmitPool retransmitWindow 0).1
      = toUInt32 (retransmitPool.xTCPSegments 0).lDataLength ∧
    (0 ≤ (retransmitPool.xTCPSegments 0).lDataLength →
      (retransmitPool.xTCPSegments 0).lDataLength < 4294967296 →
      ((ulTCPWindowTxGet demoHost retransmitPool retransmitWindow 0).1 : Int)
        = (retransmitPool.xTCPSegments 0).lDataLength) ∧
    (ulTCPWindowTxGet demoHost retransmitPool retransmitWindow 0).2.1
      = some (retransmitPool.xTCPSegments 0).lStreamPos ∧
    (ulTCPWindowTxGet demoHost retransmitPool retransmitWindow 0).2.2.2.xPriorityQueue = [] ∧
    (ulTCPWindowTxGet demoHost retransmitPool retransmitWindow 0).2.2.2.xWaitQueue
      = retransmitWindow.xWaitQueue ++ [0] ∧
    (∀ a, retransmitWindow.xWaitQueue.head? = some a →
      (ulTCPWindowTxGet demoHost retransmitPool retransmitWindow 0).2.2.2.xWaitQueue.head?
        = some a) ∧
    (ulTCPWindowTxGet demoHost retransmitPool retransmitWindow 0).2.2.2.xTxQueue
      = retransmitWindow.xTxQueue :=
  ⟨rfl, C10_tx_get_priority_first demoHost retransmitPool retransmitWindow 0 0 [] rfl⟩

/-! ## Sequence-number order -/

/-- Claim C19, amended: for 32-bit `a` and `b` that are not exactly `2^31` apart,
exactly one of `xSequenceLessThan a b`, `a = b` and `xSequenceGreaterThan a b`
holds, `xSequenceLessThanOrEqual a b` holds iff `xSequenceLessThan a b` or `a = b`,
and `xSequenceGreaterThanOrEqual a b` holds iff `xSequenceGreaterThan a b` or
`a = b`. -/
theorem C19_sequence_order (a b : Nat) (ha : a < 4294967296) (hb : b < 4294967296)
    (hd : u32sub b a ≠ 2147483648) :
    ((xSequenceLessThan a b = true ∧ a ≠ b ∧ xSequenceGreaterThan a b = false) ∨
      (xSequenceLessThan a b = false ∧ a = b ∧ xSequenceGreaterThan a b = false) ∨
      (xSequenceLessThan a b = false ∧ a ≠ b ∧ xSequenceGreaterThan a b = true)) ∧
    (xSequenceLessThanOrEqual a b = true ↔ (xSequenceLessThan a b = true ∨ a = b)) ∧
    (xSequenceGreaterThanOrEqual a b = true ↔ (xSequenceGreaterThan a b = true ∨ a = b)) := by
  rw [xSequenceLessThan_eq, xSequenceGreaterThan_eq, xSequenceLessThanOrEqual_eq,
    xSequenceGreaterThanOrEqual_eq]
  simp only [u32sub, u32add, decide_eq_true_eq, decide_eq_false_iff_not] at hd ⊢
  omega

/-- The order of claim C19 at `a = 1000`, `b = 2000`: `a` is less than `b`. -/
theorem C19_sequence_order_witness :
    u32sub 2000 1000 ≠ 2147483648 ∧
    ((xSequenceLessThan 1000 2000 = true ∧ 1000 ≠ 2000 ∧
        xSequenceGreaterThan 1000 2000 = false) ∨
      (xSequenceLessThan 1000 2000 = false ∧ 1000 = 2000 ∧
        xSequenceGreaterThan 1000 2000 = false) ∨
      (xSequenceLessThan 1000 2000 = false ∧ 1000 ≠ 2000 ∧
        xSequenceGreaterThan 1000 2000 = true)) ∧
    (xSequenceLessThanOrEqual 1000 2000 = true ↔
      (xSequenceLessThan 1000 2000 = true ∨ 1000 = 2000)) ∧
    (xSequenceGreaterThanOrEqual 1000 2000 = true ↔
      (xSequenceGreaterThan 1000 2000 = true ∨ 1000 = 2000)) :=
  ⟨by decide, C19_sequence_order 1000 2000 (by decide) (by decide) (by decide)⟩

/-- Claim C19 as stated fails for values `2^31` apart: for `a = 0` and
`b = 2^31` both `xSequenceLessThan a b` and `xSequenceGreaterThan a b` hold, while
`xSequenceLessThanOrEqual a b` and `xSequenceGreaterThanOrEqual a b` do not. -/
theorem C19_counterexample :
    xSequenceLessThan 0 2147483648 = true ∧ xSequenceGreaterThan 0 2147483648 = true ∧
    ¬ (xSequenceLessThanOrEqual 0 2147483648 = true ↔
        (xSequenceLessThan 0 2147483648 = true ∨ 0 = 2147483648)) ∧
    ¬ (xSequenceGreaterThanOrEqual 0 2147483648 = true ↔
        (xSequenceGreaterThan 0 2147483648 = true ∨ 0 = 2147483648)) := by
  decide

/-! ## Round-trip time -/

/-- Claim C17: when the measured age `m` and the smoothed round-trip time `srtt`
are non-negative and the 32-bit sums `m + 7 * srtt` and `2 * m + 6 * srtt` do not
overflow, `prvTCPWindowTxCheckAck_CalcSRTT` changes nothing but `lSRTT`, which
becomes `max 50 ((m + 7 * srtt) / 8)` when `srtt >= m` and
`max 50 ((2 * m + 6 * srtt) / 8)` otherwise, with the division of natural numbers;
so it is at least 50 afterwards, and it is a 32-bit value. -/
theorem C17_calc_srtt (h : Host) (w : TCPWindow) (s : TCPSegment) (m srtt : Nat)
    (hm : toInt32 (ulTimerGetAge h s) = (m : Int)) (hs : w.lSRTT = (srtt : Int))
    (hdec : m + 7 * srtt < 2147483648) (hinc : 2 * m + 6 * srtt < 2147483648) :
    prvTCPWindowTxCheckAck_CalcSRTT h w s =
      { w with lSRTT := ((if srtt ≥ m then max 50 ((m + 7 * srtt) / 8)
                          else max 50 ((2 * m + 6 * srtt) / 8) : Nat) : Int) } ∧
    50 ≤ (prvTCPWindowTxCheckAck_CalcSRTT h w s).lSRTT ∧
    (prvTCPWindowTxCheckAck_CalcSRTT h w s).lSRTT < 2147483648 := by
  have key : (prvTCPWindowTxCheckAck_CalcSRTT h w s).lSRTT =
      ((if srtt ≥ m then max 50 ((m + 7 * srtt) / 8)
        else max 50 ((2 * m + 6 * srtt) / 8) : Nat) : Int) := by
    simp only [prvTCPWindowTxCheckAck_CalcSRTT, hm, hs, winSRTT_DECREMENT_NEW,
      winSRTT_DECREMENT_CURRENT, winSRTT_INCREMENT_NEW, winSRTT_INCREMENT_CURRENT,
      winSRTT_CAP_mS]
    have e1 : Int.tdiv (1 * (m : Int) + 7 * (srtt : Int)) (1 + 7) = (((m + 7 * srtt) / 8 : Nat) : Int) := by
      rw [Int.tdiv_eq_ediv (by omega) (by omega)]; omega
    have e2 : Int.tdiv (2 * (m : Int) + 6 * (srtt : Int)) (2 + 6) = (((2 * m + 6 * srtt) / 8 : Nat) : Int) := by
      rw [Int.tdiv_eq_ediv (by omega) (by omega)]; omega
    rw [e1, e2]
    by_cases hge : srtt ≥ m
    · have hge2 : (srtt : Int) ≥ (m : Int) := by omega
      simp only [hge, hge2, if_true]
      by_cases hc : (m + 7 * srtt) / 8 < 50
      · have hc2 : (((m + 7 * srtt) / 8 : Nat) : Int) < 50 := by omega
        rw [if_pos hc2, max_eq_left (by omega)]; rfl
      · have hc2 : ¬ (((m + 7 * srtt) / 8 : Nat) : Int) < 50 := by omega
        rw [if_neg hc2, max_eq_right (by omega)]
    · have hge2 : ¬ (srtt : Int) ≥ (m : Int) := by omega
      simp only [hge, hge2, if_false]
      by_cases hc : (2 * m + 6 * srtt) / 8 < 50
      · have hc2 : (((2 * m + 6 * srtt) / 8 : Nat) : Int) < 50 := by omega
        rw [if_pos hc2, max_eq_left (by omega)]; rfl
      · have hc2 : ¬ (((2 * m + 6 * srtt) / 8 : Nat) : Int) < 50 := by omega
        rw [if_neg hc2, max_eq_right (by omega)]
  refine ⟨?_, ?_, ?_⟩
  · rw [← key]; rfl
  · rw [key]
    split
    · exact Int.ofNat_le.mpr (le_max_left _ _)
    · exact Int.ofNat_le.mpr (le_max_left _ _)
  · rw [key]
    split
    · have hlt : max 50 ((m + 7 * srtt) / 8) < 2147483648 := max_lt (by omega) (by omega)
      exact_mod_cast hlt
    · have hlt : max 50 ((2 * m + 6 * srtt) / 8) < 2147483648 := max_lt (by omega) (by omega)
      exact_mod_cast hlt

/-- The example of claim C17: from `srtt = 50` a sample of 400 ms gives 137, and
from 137 a sample of 20 ms gives 122. -/
theorem C17_calc_srtt_witness :
    (prvTCPWindowTxCheckAck_CalcSRTT { demoHost with xTickCount := 400 }
        { demoWindow with lSRTT := 50 } clearedSegment).lSRTT = 137 ∧
    (prvTCPWindowTxCheckAck_CalcSRTT { demoHost with xTickCount := 20 }
        { demoWindow with lSRTT := 137 } clearedSegment).lSRTT = 122 ∧
    50 ≤ (prvTCPWindowTxCheckAck_CalcSRTT { demoHost with xTickCount := 400 }
        { demoWindow with lSRTT := 50 } clearedSegment).lSRTT :=
  ⟨congrArg TCPWindow.lSRTT
      (C17_calc_srtt { demoHost with xTickCount := 400 } { demoWindow with lSRTT := 50 }
        clearedSegment 400 50 (by decide) rfl (by decide) (by decide)).1,
    by decide,
    (C17_calc_srtt { demoHost with xTickCount := 400 } { demoWindow with lSRTT := 50 }
        clearedSegment 400 50 (by decide) rfl (by decide) (by decide)).2.1⟩

/-! ## Room at the peer -/

/-- Claim C12, amended: with a head `i` of `xTxQueue` and 32-bit values,
`prvTCPWindowTxHasSpace` returns true iff `nett >= len` and either nothing is
outstanding or `ulTxWindowLength >= outstanding + len`, where `len` is the head's
length, `outstanding` is `tx.highest - tx.current` when `tx.highest >= tx.current`
and 0 otherwise, and `nett = ulWindowSize - min ulWindowSize outstanding`; it
returns false when `xTxQueue` is empty. -/
theorem C12_tx_has_space (p : Pool) (w : TCPWindow) (ulWindowSize : Nat)
    (hws : ulWindowSize < 4294967296)
    (hhi : w.tx.ulHighestSequenceNumber < 4294967296) :
    (w.xTxQueue = [] → prvTCPWindowTxHasSpace p w ulWindowSize = false) ∧
    (∀ i rest, w.xTxQueue = i :: rest →
      let len := toUInt32 (p.xTCPSegments i).lDataLength
      let outstanding :=
        if w.tx.ulHighestSequenceNumber ≥ w.tx.ulCurrentSequenceNumber then
          w.tx.ulHighestSequenceNumber - w.tx.ulCurrentSequenceNumber
        else 0
      let nett := ulWindowSize - min ulWindowSize outstanding
      (prvTCPWindowTxHasSpace p w ulWindowSize = true ↔
        (nett ≥ len ∧ (outstanding = 0 ∨ w.ulTxWindowLength ≥ outstanding + len)))) := by
  constructor
  · intro hq
    simp [prvTCPWindowTxHasSpace, xTCPWindowPeekHead, hq]
  · intro i rest hq
    have hlen : toUInt32 (p.xTCPSegments i).lDataLength < 4294967296 := by
      unfold toUInt32; omega
    simp only [prvTCPWindowTxHasSpace, xTCPWindowPeekHead, hq, List.head?_cons,
      FreeRTOS_min_uint32, u32sub, u32add]
    generalize toUInt32 (p.xTCPSegments i).lDataLength = len at hlen ⊢
    generalize w.tx.ulHighestSequenceNumber = hi at hhi ⊢
    generalize w.tx.ulCurrentSequenceNumber = cur
    generalize w.ulTxWindowLength = txlen
    by_cases hge : hi ≥ cur
    · simp only [hge, if_true]
      have e1 : (hi % 4294967296 + (4294967296 - cur % 4294967296)) % 4294967296 = hi - cur := by
        omega
      rw [e1]
      by_cases hle : ulWindowSize ≤ hi - cur
      · have hmin : min ulWindowSize (hi - cur) = ulWindowSize := min_eq_left hle
        simp only [hle, if_true, hmin]
        split <;> simp only [decide_eq_true_eq, Bool.false_eq_true, false_iff] <;> omega
      · have hmin : min ulWindowSize (hi - cur) = hi - cur := min_eq_right (by omega)
        simp only [hle, if_false, hmin]
        split <;> simp only [decide_eq_true_eq, Bool.false_eq_true, false_iff] <;> omega
    · simp only [hge, if_false]
      have hmin : min ulWindowSize 0 = 0 := Nat.min_zero _
      have hz : (if ulWindowSize ≤ 0 then ulWindowSize else 0) = 0 := by split <;> omega
      simp only [hmin, hz, true_or, and_true]
      split <;> simp only [decide_eq_true_eq, Bool.false_eq_true, false_iff] <;> omega

/-- Claim C12 (amended) at `queuedWindow` with `ulTxWindowLength = 1000` and a peer
window of 65535 bytes: nothing is outstanding, and the head of 1460 bytes may be
sent. -/
theorem C12_tx_has_space_witness :
    prvTCPWindowTxHasSpace queuedPool { queuedWindow with ulTxWindowLength := 1000 } 65535
      = true :=
  ((C12_tx_has_space queuedPool { queuedWindow with ulTxWindowLength := 1000 } 65535
      (by decide) (by decide)).2 0 [] rfl).mpr (by decide)

/-- Claim C12 as stated fails when nothing is outstanding: in `queuedWindow` with
`ulTxWindowLength = 1000` the head holds 1460 bytes, `outstanding = 0` and
`nett = 65535`, so `ulTxWindowLength >= outstanding + len` is false, yet the
function returns true. -/
theorem C12_counterexample :
    ({ queuedWindow with ulTxWindowLength := 1000 } : TCPWindow).xTxQueue = [0] ∧
    toUInt32 (queuedPool.xTCPSegments 0).lDataLength = 1460 ∧
    ({ queuedWindow with ulTxWindowLength := 1000 } : TCPWindow).tx.ulHighestSequenceNumber
      = ({ queuedWindow with ulTxWindowLength := 1000 } : TCPWindow).tx.ulCurrentSequenceNumber ∧
    ¬ (({ queuedWindow with ulTxWindowLength := 1000 } : TCPWindow).ulTxWindowLength
        ≥ 0 + 1460) ∧
    prvTCPWindowTxHasSpace queuedPool { queuedWindow with ulTxWindowLength := 1000 } 65535
      = true := by
  decide

/-! ## Retransmission time-out -/

/-- The 32-bit product `( 1U << ucTransmitCount ) * ( uint32_t ) lSRTT` is the
product of the integers when that is below `2^32`. -/
theorem ulMaxTime_exact (ucTransmitCount : Nat) (lSRTT : Int) (hs : 0 ≤ lSRTT)
    (hno : 2 ^ ucTransmitCount * lSRTT.toNat < 4294967296) :
    u32mul (ulShiftLeftOne ucTransmitCount) (toUInt32 lSRTT) = 2 ^ ucTransmitCount * lSRTT.toNat := by
  have hpos : 0 < 2 ^ ucTransmitCount := pow_pos (by decide) _
  rcases Nat.eq_zero_or_pos lSRTT.toNat with h0 | h1
  · have hz : lSRTT = 0 := by omega
    subst hz
    simp [u32mul, toUInt32]
  · have hlt : lSRTT.toNat < 4294967296 :=
      lt_of_le_of_lt (Nat.le_mul_of_pos_left _ hpos) hno
    have hpow : 2 ^ ucTransmitCount < 4294967296 :=
      lt_of_le_of_lt (Nat.le_mul_of_pos_right _ h1) hno
    have e1 : toUInt32 lSRTT = lSRTT.toNat := by
      unfold toUInt32; omega
    rw [e1]
    unfold u32mul ulShiftLeftOne
    rw [Nat.mod_eq_of_lt hpow, Nat.mod_eq_of_lt hno]

/-- With an empty priority queue `ulTCPWindowTxGet` tries the wait queue, then the
transmit queue. -/
theorem ulTCPWindowTxGet_of_priority_empty (h : Host) (p : Pool) (w : TCPWindow)
    (ulWindowSize : Nat) (hprio : w.xPriorityQueue = []) :
    ulTCPWindowTxGet h p w ulWindowSize =
      (match pxTCPWindowTx_GetWaitQueue h p
          { w with ulOurSequenceNumber := w.tx.ulHighestSequenceNumber } with
        | (some i, p1, w1) => ulTCPWindowTxGet_emit h p1 w1 i
        | (none, p1, w1) =>
          match pxTCPWindowTx_GetTXQueue p1 w1 ulWindowSize with
          | (some i, w2) => ulTCPWindowTxGet_emit h p1 w2 i
          | (none, w2) => (0, none, p1, w2)) := by
  unfold ulTCPWindowTxGet
  split
  · rename_i heq
    rw [hprio] at heq
    cases heq
  · rfl

/-- The two outcomes of `pxTCPWindowTx_GetWaitQueue` for a wait queue with head `i`. -/
theorem pxTCPWindowTx_GetWaitQueue_head (h : Host) (p : Pool) (w : TCPWindow) (i : Nat)
    (rest : List Nat) (hwait : w.xWaitQueue = i :: rest) :
    pxTCPWindowTx_GetWaitQueue h p w =
      if ulTimerGetAge h (p.xTCPSegments i)
          > u32mul (ulShiftLeftOne (p.xTCPSegments i).ucTransmitCount) (toUInt32 w.lSRTT) then
        (some i, p.setSegment i { p.xTCPSegments i with ucDupAckCount := 0 },
          { w with xWaitQueue := rest })
      else (none, p, w) := by
  unfold pxTCPWindowTx_GetWaitQueue
  split
  · rename_i heq
    rw [hwait] at heq
    cases heq
  · rename_i j tl heq
    rw [hwait] at heq
    cases heq
    rfl

/-- The two outcomes of `pxTCPWindowTx_GetTXQueue`: nothing is selected and the
window is as before, or the head of `xTxQueue` is selected; the wait queue is
never touched. -/
theorem pxTCPWindowTx_GetTXQueue_cases (p : Pool) (w : TCPWindow) (ulWindowSize : Nat) :
    pxTCPWindowTx_GetTXQueue p w ulWindowSize = (none, w) ∨
    ∃ j w2, w.xTxQueue.head? = some j ∧ w2.xWaitQueue = w.xWaitQueue ∧
      pxTCPWindowTx_GetTXQueue p w ulWindowSize = (some j, w2) := by
  cases hq : w.xTxQueue with
  | nil =>
    left
    simp only [pxTCPWindowTx_GetTXQueue, hq]
  | cons j tl =>
    by_cases h1 : w.bSendFullSize = true ∧
        (p.xTCPSegments j).lDataLength < (p.xTCPSegments j).lMaxLength
    · left
      simp only [pxTCPWindowTx_GetTXQueue, hq, h1, and_self, if_true]
    · by_cases h2 : prvTCPWindowTxHasSpace p w ulWindowSize = false
      · left
        simp only [pxTCPWindowTx_GetTXQueue, hq, h1, h2, if_true, if_false]
      · right
        refine ⟨j,
          { w with
            xTxQueue := tl
            pxHeadSegment := if w.pxHeadSegment = some j then none else w.pxHeadSegment
            tx := { w.tx with
                    ulHighestSequenceNumber :=
                      u32add (p.xTCPSegments j).ulSequenceNumber
                        (toUInt32 (p.xTCPSegments j).lDataLength) } }, rfl, rfl, ?_⟩
        simp only [pxTCPWindowTx_GetTXQueue, hq, h1, h2, if_false, Bool.true_eq_false]

/-- The function `pxTCPWindowTx_GetTXQueue` changes no segment list of the window. -/
theorem pxTCPWindowTx_GetTXQueue_lists (p : Pool) (w : TCPWindow) (ulWindowSize : Nat) :
    heldSegments (pxTCPWindowTx_GetTXQueue p w ulWindowSize).2 = heldSegments w := by
  rcases pxTCPWindowTx_GetTXQueue_cases p w ulWindowSize with hq | ⟨j, w2, -, -, hq⟩
  · rw [hq]
  · cases hl : w.xTxQueue with
    | nil => simp only [pxTCPWindowTx_GetTXQueue, hl]
    | cons i tl =>
      simp only [pxTCPWindowTx_GetTXQueue, hl]
      split
      · rfl
      · split <;> rfl

/-- Claim C11, amended: with an empty priority queue, a head `i` of the wait queue,
a non-negative `lSRTT` and a product `2^ucTransmitCount * lSRTT` below `2^32`, the
wait-queue step of `ulTCPWindowTxGet` selects `i` iff its age exceeds that product.
When it does, `ulTCPWindowTxGet` emits `i` with `ucDupAckCount` reset to 0 and moves
it to the tail of the wait queue; when it does not, the step changes nothing, and
`ulTCPWindowTxGet` leaves the wait queue as it was, up to a segment of `xTxQueue`
that it sends and appends. -/
theorem C11_tx_get_wait_queue (h : Host) (p : Pool) (w : TCPWindow) (ulWindowSize i : Nat)
    (rest : List Nat) (hprio : w.xPriorityQueue = []) (hwait : w.xWaitQueue = i :: rest)
    (hs : 0 ≤ w.lSRTT)
    (hno : 2 ^ (p.xTCPSegments i).ucTransmitCount * w.lSRTT.toNat < 4294967296) :
    let s := p.xTCPSegments i
    let w0 : TCPWindow := { w with ulOurSequenceNumber := w.tx.ulHighestSequenceNumber }
    let r := ulTCPWindowTxGet h p w ulWindowSize
    ((pxTCPWindowTx_GetWaitQueue h p w0).1 = some i ↔
      ulTimerGetAge h s > 2 ^ s.ucTransmitCount * w.lSRTT.toNat) ∧
    (ulTimerGetAge h s > 2 ^ s.ucTransmitCount * w.lSRTT.toNat →
      r = ulTCPWindowTxGet_emit h (p.setSegment i { s with ucDupAckCount := 0 })
            { w0 with xWaitQueue := rest } i ∧
      (r.2.2.1.xTCPSegments i).ucDupAckCount = 0 ∧
      r.1 = toUInt32 s.lDataLength ∧ r.2.1 = some s.lStreamPos ∧
      r.2.2.2.xWaitQueue = rest ++ [i]) ∧
    (¬ ulTimerGetAge h s > 2 ^ s.ucTransmitCount * w.lSRTT.toNat →
      pxTCPWindowTx_GetWaitQueue h p w0 = (none, p, w0) ∧
      (r.2.2.2.xWaitQueue = i :: rest ∨
        ∃ j, w.xTxQueue.head? = some j ∧ r.1 = toUInt32 (p.xTCPSegments j).lDataLength ∧
          r.2.2.2.xWaitQueue = i :: rest ++ [j])) := by
  intro s w0 r
  have hmax : u32mul (ulShiftLeftOne s.ucTransmitCount) (toUInt32 w0.lSRTT)
      = 2 ^ s.ucTransmitCount * w.lSRTT.toNat := ulMaxTime_exact _ _ hs hno
  have hsel := pxTCPWindowTx_GetWaitQueue_head h p w0 i rest hwait
  have hr : r = (match pxTCPWindowTx_GetWaitQueue h p w0 with
      | (some i, p1, w1) => ulTCPWindowTxGet_emit h p1 w1 i
      | (none, p1, w1) =>
        match pxTCPWindowTx_GetTXQueue p1 w1 ulWindowSize with
        | (some i, w2) => ulTCPWindowTxGet_emit h p1 w2 i
        | (none, w2) => (0, none, p1, w2)) :=
    ulTCPWindowTxGet_of_priority_empty h p w ulWindowSize hprio
  rw [hmax] at hsel
  by_cases hage : ulTimerGetAge h s > 2 ^ s.ucTransmitCount * w.lSRTT.toNat
  · rw [if_pos hage] at hsel
    rw [hsel] at hr
    refine ⟨⟨fun _ => hage, fun _ => by rw [hsel]⟩, fun _ => ⟨hr, ?_, ?_, ?_, ?_⟩,
      fun hn => absurd hage hn⟩
    · rw [hr]; simp [ulTCPWindowTxGet_emit, Pool.setSegment]
    · rw [hr]; simp [ulTCPWindowTxGet_emit, Pool.setSegment, s]
    · rw [hr]; simp [ulTCPWindowTxGet_emit, Pool.setSegment, s]
    · rw [hr]; simp only [ulTCPWindowTxGet_emit, vListInsertFifo]
      split <;> rfl
  · rw [if_neg hage] at hsel
    rw [hsel] at hr
    refine ⟨⟨fun hsome => absurd hsome (by rw [hsel]; exact fun hc => by cases hc),
        fun hh => absurd hh hage⟩,
      fun hh => absurd hh hage, fun _ => ⟨hsel, ?_⟩⟩
    rcases pxTCPWindowTx_GetTXQueue_cases p w0 ulWindowSize with hq | ⟨j, w2, hj, hw2, hq⟩
    · left
      replace hr : r = (match pxTCPWindowTx_GetTXQueue p w0 ulWindowSize with
          | (some j, w2) => ulTCPWindowTxGet_emit h p w2 j
          | (none, w2) => (0, none, p, w2)) := hr
      rw [hr, hq]
      exact hwait
    · right
      replace hr : r = (match pxTCPWindowTx_GetTXQueue p w0 ulWindowSize with
          | (some j, w2) => ulTCPWindowTxGet_emit h p w2 j
          | (none, w2) => (0, none, p, w2)) := hr
      rw [hq] at hr
      refine ⟨j, hj, ?_, ?_⟩
      · rw [hr]; simp [ulTCPWindowTxGet_emit]
      · have hw2q : w2.xWaitQueue = i :: rest := hw2.trans hwait
        rw [hr]
        simp only [ulTCPWindowTxGet_emit, vListInsertFifo]
        split <;> simp only [hw2q]

/-- Claim C11 (amended) at `waitingWindow`, whose wait-queue head was sent at tick 0
with `ucTransmitCount = 0` and `lSRTT = 1000`: at tick 1001 its age exceeds
`2^0 * 1000`, it is selected, emitted with `ucDupAckCount = 0` and moved to the tail
of the wait queue. -/
theorem C11_tx_get_wait_queue_witness :
    waitingWindow.xPriorityQueue = [] ∧ waitingWindow.xWaitQueue = [0] ∧
    ulTimerGetAge { demoHost with xTickCount := 1001 } (retransmitPool.xTCPSegments 0)
      > 2 ^ (retransmitPool.xTCPSegments 0).ucTransmitCount * waitingWindow.lSRTT.toNat ∧
    ((ulTCPWindowTxGet { demoHost with xTickCount := 1001 } retransmitPool waitingWindow
        65535).2.2.1.xTCPSegments 0).ucDupAckCount = 0 ∧
    (ulTCPWindowTxGet { demoHost with xTickCount := 1001 } retransmitPool waitingWindow
        65535).1 = toUInt32 (retransmitPool.xTCPSegments 0).lDataLength ∧
    (ulTCPWindowTxGet { demoHost with xTickCount := 1001 } retransmitPool waitingWindow
        65535).2.1 = some (retransmitPool.xTCPSegments 0).lStreamPos ∧
    (ulTCPWindowTxGet { demoHost with xTickCount := 1001 } retransmitPool waitingWindow
        65535).2.2.2.xWaitQueue = [] ++ [0] :=
  ⟨rfl, rfl, by decide,
    ((C11_tx_get_wait_queue { demoHost with xTickCount := 1001 } retransmitPool waitingWindow
      65535 0 [] rfl rfl (by decide) (by decide)).2.1 (by decide)).2⟩

/-- Claim C11 as stated fails where it says that the wait queue is left unchanged
when its head is not selected: in `waitingWindow` at tick 0 the head, descriptor 0,
is not yet due (its age 0 does not exceed `2^0 * 1000`) and the wait-queue step
selects nothing, but `ulTCPWindowTxGet` then sends descriptor 1 from `xTxQueue` and
appends it, so that the wait queue changes from `[0]` to `[0, 1]`. -/
theorem C11_counterexample :
    waitingWindow.xPriorityQueue = [] ∧ waitingWindow.xWaitQueue = [0] ∧
    ¬ (ulTimerGetAge demoHost (retransmitPool.xTCPSegments 0)
        > 2 ^ (retransmitPool.xTCPSegments 0).ucTransmitCount * waitingWindow.lSRTT.toNat) ∧
    (pxTCPWindowTx_GetWaitQueue demoHost retransmitPool
        { waitingWindow with
          ulOurSequenceNumber := waitingWindow.tx.ulHighestSequenceNumber }).1 = none ∧
    (ulTCPWindowTxGet demoHost retransmitPool waitingWindow 65535).1 = 1460 ∧
    (ulTCPWindowTxGet demoHost retransmitPool waitingWindow 65535).2.2.2.xWaitQueue = [0, 1] ∧
    (ulTCPWindowTxGet demoHost retransmitPool waitingWindow 65535).2.2.2.xWaitQueue
      ≠ waitingWindow.xWaitQueue := by
  decide

/-- The time-out of the wait queue wraps around: in `backoffWindow` the head was
sent 22 times and `lSRTT` is 1024, so the time-out is `2^22 * 1024 = 2^32` ms; the
32-bit product is 0, and one millisecond after the last transmission the segment
is selected and sent again. -/
theorem pxTCPWindowTx_GetWaitQueue_backoff_wraps :
    backoffWindow.xPriorityQueue = [] ∧ backoffWindow.xWaitQueue = [0] ∧
    (backoffPool.xTCPSegments 0).ucTransmitCount = 22 ∧ backoffWindow.lSRTT = 1024 ∧
    ulTimerGetAge { demoHost with xTickCount := 1 } (backoffPool.xTCPSegments 0) = 1 ∧
    2 ^ (backoffPool.xTCPSegments 0).ucTransmitCount * backoffWindow.lSRTT.toNat = 4294967296 ∧
    (pxTCPWindowTx_GetWaitQueue { demoHost with xTickCount := 1 } backoffPool
        { backoffWindow with
          ulOurSequenceNumber := backoffWindow.tx.ulHighestSequenceNumber }).1 = some 0 ∧
    (ulTCPWindowTxGet { demoHost with xTickCount := 1 } backoffPool backoffWindow 65535).1
      = 1460 ∧
    (ulTCPWindowTxGet { demoHost with xTickCount := 1 } backoffPool backoffWindow 65535).2.1
      = some 0 := by
  decide

/-! ## Data to send, and when -/

/-- What `xTCPWindowTxHasData` computes.  It returns true iff the priority queue or
the wait queue is non-empty, or `xTxQueue` has a head for which the peer has space
and which is full when `bSendFullSize` is set.  The delay is 0 unless the priority
queue is empty and the wait queue has a head; then, for a non-negative `lSRTT` and a
product `2^ucTransmitCount * lSRTT` below `2^32`, it is that product minus the age of
the head, or 0 when the age is larger. -/
theorem xTCPWindowTxHasData_spec (h : Host) (p : Pool) (w : TCPWindow) (ulWindowSize : Nat) :
    ((xTCPWindowTxHasData h p w ulWindowSize).1 = true ↔
      (w.xPriorityQueue ≠ [] ∨ w.xWaitQueue ≠ [] ∨
        ∃ j, w.xTxQueue.head? = some j ∧ prvTCPWindowTxHasSpace p w ulWindowSize = true ∧
          (w.bSendFullSize = false ∨
            ¬ (p.xTCPSegments j).lDataLength < (p.xTCPSegments j).lMaxLength))) ∧
    ((w.xPriorityQueue ≠ [] ∨ w.xWaitQueue = []) →
      (xTCPWindowTxHasData h p w ulWindowSize).2 = 0) ∧
    (∀ i rest, w.xPriorityQueue = [] → w.xWaitQueue = i :: rest → 0 ≤ w.lSRTT →
      2 ^ (p.xTCPSegments i).ucTransmitCount * w.lSRTT.toNat < 4294967296 →
      (xTCPWindowTxHasData h p w ulWindowSize).2 =
        2 ^ (p.xTCPSegments i).ucTransmitCount * w.lSRTT.toNat
          - ulTimerGetAge h (p.xTCPSegments i)) := by
  cases hprio : w.xPriorityQueue with
  | cons a l =>
    simp [xTCPWindowTxHasData, hprio]
  | nil =>
    cases hwait : w.xWaitQueue with
    | cons i rest =>
      refine ⟨by simp [xTCPWindowTxHasData, hprio, hwait, xTCPWindowPeekHead],
        fun hc => by rcases hc with hc | hc <;> simp at hc, ?_⟩
      intro i' rest' _ hcons hs hno
      cases hcons
      have hmax := ulMaxTime_exact _ _ hs hno
      simp only [xTCPWindowTxHasData, hprio, hwait, xTCPWindowPeekHead, List.head?_cons, hmax]
      have hage : ulTimerGetAge h (p.xTCPSegments i) < 4294967296 := by
        unfold ulTimerGetAge u32mul; omega
      generalize ulTimerGetAge h (p.xTCPSegments i) = age at hage ⊢
      generalize 2 ^ (p.xTCPSegments i).ucTransmitCount * w.lSRTT.toNat = m at hno ⊢
      split
      · unfold u32sub; omega
      · omega
    | nil =>
      refine ⟨?_, fun _ => ?_, fun i rest _ hc => by cases hc⟩
      · cases htx : w.xTxQueue with
        | nil => simp [xTCPWindowTxHasData, hprio, hwait, htx, xTCPWindowPeekHead]
        | cons j tl =>
          simp only [xTCPWindowTxHasData, hprio, hwait, htx, xTCPWindowPeekHead,
            List.head?_cons, List.head?_nil]
          cases hsp : prvTCPWindowTxHasSpace p w ulWindowSize
          · simp
          · cases hfs : w.bSendFullSize
            · simp
            · simp only [true_and, Bool.true_eq_false, if_false, reduceCtorEq, false_or,
                exists_eq_left']
              split <;> simp_all
      · simp only [xTCPWindowTxHasData, hprio, hwait, xTCPWindowPeekHead, List.head?_nil]
        split
        · rfl
        · split
          · rfl
          · split <;> rfl

/-- Claim C13 fails at a head of the wait queue that was sent 22 times with
`lSRTT = 1024`: one millisecond after its last transmission the claim gives the
delay `2^22 * 1024 - 1 = 4294967295`, and `xTCPWindowTxHasData` reports the delay
0, because the 32-bit product `( 1U << 22 ) * 1024` is 0. -/
theorem C13_delay_wraps :
    backoffWindow.xPriorityQueue = [] ∧ backoffWindow.xWaitQueue = [0] ∧
    (backoffPool.xTCPSegments 0).ucTransmitCount = 22 ∧ backoffWindow.lSRTT = 1024 ∧
    ulTimerGetAge { demoHost with xTickCount := 1 } (backoffPool.xTCPSegments 0) = 1 ∧
    2 ^ (backoffPool.xTCPSegments 0).ucTransmitCount * backoffWindow.lSRTT.toNat
      - ulTimerGetAge { demoHost with xTickCount := 1 } (backoffPool.xTCPSegments 0)
      = 4294967295 ∧
    xTCPWindowTxHasData { demoHost with xTickCount := 1 } backoffPool backoffWindow 65535
      = (true, 0) := by
  decide

/-! ## Acknowledgements: the walk along `xTxSegments` -/

/-- The loop of `prvTCPWindowTxCheckAck` stops at once when `ulSequenceNumber` is not
before `ulLast`. -/
theorem txCheckAckLoop_stop (h : Host) (ulLast : Nat) (l : List Nat) (p : Pool)
    (w : TCPWindow) (c b : Nat) (hc : xSequenceLessThan c ulLast = false) :
    txCheckAckLoop h ulLast l p w c b = (b, p, w) := by
  cases l with
  | nil => rfl
  | cons i rest => simp only [txCheckAckLoop, hc, if_true]

/-- One step of the loop of `prvTCPWindowTxCheckAck`, spelled out. -/
theorem txCheckAckLoop_cons (h : Host) (ulLast : Nat) (i : Nat) (rest : List Nat) (p : Pool)
    (w : TCPWindow) (c b : Nat) (hc : xSequenceLessThan c ulLast = true) :
    txCheckAckLoop h ulLast (i :: rest) p w c b =
      if xSequenceGreaterThan c (p.xTCPSegments i).ulSequenceNumber = true then
        txCheckAckLoop h ulLast rest p w c b
      else if c ≠ (p.xTCPSegments i).ulSequenceNumber then (b, p, w)
      else if (p.xTCPSegments i).bAcked = false ∧
          xSequenceGreaterThan (u32add (p.xTCPSegments i).ulSequenceNumber
            (toUInt32 (p.xTCPSegments i).lDataLength)) ulLast = true then (b, p, w)
      else
        txCheckAckLoop h ulLast rest (txCheckAck_confirm h ulLast p w i c b).2.1
          (txCheckAck_confirm h ulLast p w i c b).2.2
          (u32add c (toUInt32 (p.xTCPSegments i).lDataLength))
          (txCheckAck_confirm h ulLast p w i c b).1 := by
  simp only [txCheckAckLoop, hc, Bool.true_eq_false, if_false]

/-- Flagging a segment changes the window in `lSRTT` only, and the pool in the flag
`bAcked` of that segment only. -/
theorem txCheckAck_flag_frame (h : Host) (ulLast : Nat) (p : Pool) (w : TCPWindow) (i : Nat) :
    let q := txCheckAck_flag h ulLast p w i
    q.2 = { w with lSRTT := q.2.lSRTT } ∧
    q.1.xSegmentList = p.xSegmentList ∧
    q.1.xTCPSegments i = { p.xTCPSegments i with bAcked := true } ∧
    (∀ j, j ≠ i → q.1.xTCPSegments j = p.xTCPSegments j) := by
  intro q
  have hq : q = txCheckAck_flag h ulLast p w i := rfl
  unfold txCheckAck_flag at hq
  by_cases ha : (p.xTCPSegments i).bAcked = false
  · simp only [ha, if_true] at hq
    by_cases hs : (p.xTCPSegments i).ucTransmitCount = 1 ∧
        u32add (p.xTCPSegments i).ulSequenceNumber (toUInt32 (p.xTCPSegments i).lDataLength)
          = ulLast
    · rw [if_pos hs] at hq
      rw [hq]
      refine ⟨rfl, rfl, ?_, ?_⟩
      · simp [Pool.setSegment]
      · intro j hj
        simp [Pool.setSegment, Function.update, hj]
    · rw [if_neg hs] at hq
      rw [hq]
      refine ⟨rfl, rfl, ?_, ?_⟩
      · simp [Pool.setSegment]
      · intro j hj
        simp [Pool.setSegment, Function.update, hj]
  · simp only [ha, if_false] at hq
    rw [hq]
    have ht : (p.xTCPSegments i).bAcked = true := by simpa using ha
    refine ⟨rfl, rfl, ?_, fun _ _ => rfl⟩
    show p.xTCPSegments i = _
    rw [← ht]

/-- A segment confirmed at `tx.ulCurrentSequenceNumber` is freed: its length is
added to `ulBytesConfirmed` and to `tx.ulCurrentSequenceNumber`, it leaves the
lists of the window and joins the free list, and no other descriptor changes. -/
theorem txCheckAck_confirm_free (h : Host) (ulLast : Nat) (p : Pool) (w : TCPWindow)
    (i c b : Nat) (hc : c = w.tx.ulCurrentSequenceNumber) :
    let r := txCheckAck_confirm h ulLast p w i c b
    r.1 = u32add b (toUInt32 (p.xTCPSegments i).lDataLength) ∧
    r.2.2.tx.ulCurrentSequenceNumber
      = u32add w.tx.ulCurrentSequenceNumber (toUInt32 (p.xTCPSegments i).lDataLength) ∧
    r.2.1.xSegmentList = p.xSegmentList.erase i ++ [i] ∧
    r.2.2.xTxSegments = w.xTxSegments.erase i ∧
    r.2.2.xRxSegments = w.xRxSegments.erase i ∧
    r.2.2.xPriorityQueue = w.xPriorityQueue.erase i ∧
    r.2.2.xTxQueue = w.xTxQueue.erase i ∧
    r.2.2.xWaitQueue = w.xWaitQueue.erase i ∧
    r.2.2.ulNextTxSequenceNumber = w.ulNextTxSequenceNumber ∧
    (∀ j, j ≠ i → r.2.1.xTCPSegments j = p.xTCPSegments j) := by
  intro r
  obtain ⟨f1, f2, _, f4⟩ := txCheckAck_flag_frame h ulLast p w i
  have hc2 : c = (txCheckAck_flag h ulLast p w i).2.tx.ulCurrentSequenceNumber := by
    rw [f1]; exact hc
  have hr : r = txCheckAck_confirm h ulLast p w i c b := rfl
  unfold txCheckAck_confirm at hr
  simp only [if_pos hc2] at hr
  rw [hr]
  simp only [vTCPWindowFree, uxListRemove, vListInsertFifo, f2]
  refine ⟨trivial, ?_, trivial, ?_, ?_, ?_, ?_, ?_, ?_, ?_⟩
  · rw [f1]
  · rw [f1]
  · rw [f1]
  · rw [f1]
  · rw [f1]
  · rw [f1]
  · rw [f1]
  · intro j hj
    simp only [Function.update, hj, dif_neg, not_false_eq_true]
    exact f4 j hj

/-- A segment confirmed elsewhere than at `tx.ulCurrentSequenceNumber` is flagged and
stays in `xTxSegments`: nothing is freed, `tx` and the segment lists are as before,
and no other descriptor changes. -/
theorem txCheckAck_confirm_keep (h : Host) (ulLast : Nat) (p : Pool) (w : TCPWindow)
    (i c b : Nat) (hc : c ≠ w.tx.ulCurrentSequenceNumber) :
    let r := txCheckAck_confirm h ulLast p w i c b
    r.1 = b ∧
    r.2.2.tx = w.tx ∧
    r.2.1.xSegmentList = p.xSegmentList ∧
    r.2.2.xTxSegments = w.xTxSegments ∧
    r.2.2.xRxSegments = w.xRxSegments ∧
    r.2.2.xPriorityQueue
      = (if (p.xTCPSegments i).bAcked = false then w.xPriorityQueue.erase i
         else w.xPriorityQueue) ∧
    r.2.2.xTxQueue
      = (if (p.xTCPSegments i).bAcked = false then w.xTxQueue.erase i else w.xTxQueue) ∧
    r.2.2.xWaitQueue
      = (if (p.xTCPSegments i).bAcked = false then w.xWaitQueue.erase i else w.xWaitQueue) ∧
    r.2.2.ulNextTxSequenceNumber = w.ulNextTxSequenceNumber ∧
    r.2.1.xTCPSegments i = { p.xTCPSegments i with bAcked := true } ∧
    (∀ j, j ≠ i → r.2.1.xTCPSegments j = p.xTCPSegments j) := by
  intro r
  obtain ⟨f1, f2, f3, f4⟩ := txCheckAck_flag_frame h ulLast p w i
  have hc2 : ¬ c = (txCheckAck_flag h ulLast p w i).2.tx.ulCurrentSequenceNumber := by
    rw [f1]; exact hc
  have hr : r = txCheckAck_confirm h ulLast p w i c b := rfl
  unfold txCheckAck_confirm at hr
  simp only [if_neg hc2] at hr
  by_cases ha : (p.xTCPSegments i).bAcked = false
  · simp only [ha, beq_self_eq_true, if_true] at hr
    rw [hr]
    simp only [uxListRemove, ha, if_true]
    refine ⟨trivial, ?_, f2, ?_, ?_, ?_, ?_, ?_, ?_, f3, f4⟩ <;> rw [f1]
  · have ht : (p.xTCPSegments i).bAcked = true := by simpa using ha
    simp only [ht, Bool.true_eq_false, if_false] at hr
    have hr2 : r = (b, (txCheckAck_flag h ulLast p w i).1, (txCheckAck_flag h ulLast p w i).2) := by
      rw [hr]; rfl
    rw [hr2]
    simp only [ht, Bool.true_eq_false, if_false]
    refine ⟨trivial, ?_, f2, ?_, ?_, ?_, ?_, ?_, ?_, f3, f4⟩ <;> rw [f1]

/-- The bytes confirmed by the loop of `prvTCPWindowTxCheckAck` are the bytes by
which `tx.ulCurrentSequenceNumber` advances, modulo `2^32`. -/
theorem txCheckAckLoop_lockstep (h : Host) (ulLast : Nat) :
    ∀ (l : List Nat) (p : Pool) (w : TCPWindow) (c b : Nat), b < 4294967296 →
      (txCheckAckLoop h ulLast l p w c b).1 < 4294967296 ∧
      u32sub (txCheckAckLoop h ulLast l p w c b).1 b
        = u32sub (txCheckAckLoop h ulLast l p w c b).2.2.tx.ulCurrentSequenceNumber
            w.tx.ulCurrentSequenceNumber := by
  intro l
  induction l with
  | nil =>
    intro p w c b hb
    refine ⟨hb, ?_⟩
    simp only [txCheckAckLoop, u32sub]
    omega
  | cons i rest ih =>
    intro p w c b hb
    have hstop : (b < 4294967296) ∧ u32sub b b
        = u32sub w.tx.ulCurrentSequenceNumber w.tx.ulCurrentSequenceNumber := by
      refine ⟨hb, ?_⟩
      simp only [u32sub]
      omega
    cases hlt : xSequenceLessThan c ulLast with
    | false => rw [txCheckAckLoop_stop h ulLast _ p w c b hlt]; exact hstop
    | true =>
      rw [txCheckAckLoop_cons h ulLast i rest p w c b hlt]
      split
      · exact ih p w c b hb
      · split
        · exact hstop
        · split
          · exact hstop
          · by_cases hc : c = w.tx.ulCurrentSequenceNumber
            · obtain ⟨g1, g2, -⟩ := txCheckAck_confirm_free h ulLast p w i c b hc
              have hb1 : (txCheckAck_confirm h ulLast p w i c b).1 < 4294967296 := by
                rw [g1]; exact u32add_lt _ _
              obtain ⟨i1, i2⟩ := ih (txCheckAck_confirm h ulLast p w i c b).2.1
                (txCheckAck_confirm h ulLast p w i c b).2.2
                (u32add c (toUInt32 (p.xTCPSegments i).lDataLength)) _ hb1
              refine ⟨i1, ?_⟩
              simp only [u32sub, u32add] at i2 g1 g2 ⊢
              omega
            · obtain ⟨g1, g2, -⟩ := txCheckAck_confirm_keep h ulLast p w i c b hc
              have hb1 : (txCheckAck_confirm h ulLast p w i c b).1 < 4294967296 := by
                rw [g1]; exact hb
              obtain ⟨i1, i2⟩ := ih (txCheckAck_confirm h ulLast p w i c b).2.1
                (txCheckAck_confirm h ulLast p w i c b).2.2
                (u32add c (toUInt32 (p.xTCPSegments i).lDataLength)) _ hb1
              refine ⟨i1, ?_⟩
              simp only [u32sub] at i2 g1 g2 ⊢
              rw [g2] at i2
              omega

/-- The descriptors freed by the loop of `prvTCPWindowTxCheckAck`.  When the visited
descriptors are distinct and not in the free list, there is a list `freed` of
visited descriptors, in their order, that the loop appends to the free list and
removes from `xTxSegments`, and `ulBytesConfirmed` grows by the sum of their
lengths modulo `2^32`. -/
theorem txCheckAckLoop_freed (h : Host) (ulLast : Nat) :
    ∀ (l : List Nat) (p : Pool) (w : TCPWindow) (c b : Nat), b < 4294967296 → l.Nodup →
      (∀ i ∈ l, i ∉ p.xSegmentList) →
      ∃ freed : List Nat, freed.Sublist l ∧
        (txCheckAckLoop h ulLast l p w c b).2.1.xSegmentList = p.xSegmentList ++ freed ∧
        (txCheckAckLoop h ulLast l p w c b).2.2.xTxSegments = w.xTxSegments.diff freed ∧
        (txCheckAckLoop h ulLast l p w c b).1
          = (b + (freed.map (fun i => toUInt32 (p.xTCPSegments i).lDataLength)).sum)
              % 4294967296 := by
  intro l
  induction l with
  | nil =>
    intro p w c b hb _ _
    refine ⟨[], List.Sublist.refl _, ?_, ?_, ?_⟩
    · simp [txCheckAckLoop]
    · simp [txCheckAckLoop]
    · simp only [txCheckAckLoop, List.map_nil, List.sum_nil]; omega
  | cons i rest ih =>
    intro p w c b hb hnd hfree
    have hstop : ∃ freed : List Nat, freed.Sublist (i :: rest) ∧
        p.xSegmentList = p.xSegmentList ++ freed ∧
        w.xTxSegments = w.xTxSegments.diff freed ∧
        b = (b + (freed.map (fun i => toUInt32 (p.xTCPSegments i).lDataLength)).sum)
              % 4294967296 := by
      refine ⟨[], List.nil_sublist _, by simp, by simp, ?_⟩
      simp only [List.map_nil, List.sum_nil]; omega
    have hnd2 : rest.Nodup := (List.nodup_cons.mp hnd).2
    have hi : i ∉ rest := (List.nodup_cons.mp hnd).1
    cases hlt : xSequenceLessThan c ulLast with
    | false => rw [txCheckAckLoop_stop h ulLast _ p w c b hlt]; exact hstop
    | true =>
      rw [txCheckAckLoop_cons h ulLast i rest p w c b hlt]
      split
      · obtain ⟨freed, s1, s2, s3, s4⟩ := ih p w c b hb hnd2
          (fun j hj => hfree j (List.mem_cons_of_mem _ hj))
        exact ⟨freed, s1.trans (List.sublist_cons_self _ _), s2, s3, s4⟩
      · split
        · exact hstop
        · split
          · exact hstop
          · by_cases hc : c = w.tx.ulCurrentSequenceNumber
            · obtain ⟨g1, -, g3, g4, -, -, -, -, -, g10⟩ :=
                txCheckAck_confirm_free h ulLast p w i c b hc
              have hb1 : (txCheckAck_confirm h ulLast p w i c b).1 < 4294967296 := by
                rw [g1]; exact u32add_lt _ _
              have hif : i ∉ p.xSegmentList := hfree i (List.mem_cons_self _ _)
              rw [List.erase_of_not_mem hif] at g3
              obtain ⟨freed, s1, s2, s3, s4⟩ := ih (txCheckAck_confirm h ulLast p w i c b).2.1
                (txCheckAck_confirm h ulLast p w i c b).2.2
                (u32add c (toUInt32 (p.xTCPSegments i).lDataLength)) _ hb1 hnd2
                (fun j hj => by
                  rw [g3]
                  intro hm
                  rcases List.mem_append.mp hm with hm | hm
                  · exact hfree j (List.mem_cons_of_mem _ hj) hm
                  · have hji : j = i := by simpa using hm
                    exact hi (hji ▸ hj))
              refine ⟨i :: freed, s1.cons₂ i, ?_, ?_, ?_⟩
              · rw [s2, g3]; simp
              · rw [s3, g4]; simp [List.diff_cons]
              · rw [s4, g1]
                have hmap : freed.map (fun j =>
                      toUInt32 ((txCheckAck_confirm h ulLast p w i c b).2.1.xTCPSegments j).lDataLength)
                    = freed.map (fun j => toUInt32 (p.xTCPSegments j).lDataLength) := by
                  apply List.map_congr_left
                  intro j hj
                  have hji : j ≠ i := fun e => hi (e ▸ s1.subset hj)
                  rw [g10 j hji]
                rw [hmap]
                simp only [List.map_cons, List.sum_cons, u32add]
                omega
            · obtain ⟨g1, -, g3, g4, -, -, -, -, -, -, g11⟩ :=
                txCheckAck_confirm_keep h ulLast p w i c b hc
              have hb1 : (txCheckAck_confirm h ulLast p w i c b).1 < 4294967296 := by
                rw [g1]; exact hb
              obtain ⟨freed, s1, s2, s3, s4⟩ := ih (txCheckAck_confirm h ulLast p w i c b).2.1
                (txCheckAck_confirm h ulLast p w i c b).2.2
                (u32add c (toUInt32 (p.xTCPSegments i).lDataLength)) _ hb1 hnd2
                (fun j hj => by rw [g3]; exact hfree j (List.mem_cons_of_mem _ hj))
              refine ⟨freed, s1.trans (List.sublist_cons_self _ _), ?_, ?_, ?_⟩
              · rw [s2, g3]
              · rw [s3, g4]
              · rw [s4, g1]
                have hmap : freed.map (fun j =>
                      toUInt32 ((txCheckAck_confirm h ulLast p w i c b).2.1.xTCPSegments j).lDataLength)
                    = freed.map (fun j => toUInt32 (p.xTCPSegments j).lDataLength) := by
                  apply List.map_congr_left
                  intro j hj
                  have hji : j ≠ i := fun e => hi (e ▸ s1.subset hj)
                  rw [g11 j hji]
                rw [hmap]

/-- The loop of `prvTCPWindowFastRetransmit` moves descriptors between the wait queue
and the priority queue and changes the counters `ucDupAckCount` and
`ucTransmitCount`; the free list, the segment lists, the sequence numbers and every
other field of a descriptor stay as they are. -/
theorem fastRetransmitLoop_frame (ulFirst : Nat) :
    ∀ (l : List Nat) (p : Pool) (w : TCPWindow) (n : Nat),
      let r := fastRetransmitLoop ulFirst l p w n
      r.2.1.xSegmentList = p.xSegmentList ∧
      r.2.2.tx = w.tx ∧ r.2.2.rx = w.rx ∧
      r.2.2.xTxSegments = w.xTxSegments ∧ r.2.2.xRxSegments = w.xRxSegments ∧
      r.2.2.xTxQueue = w.xTxQueue ∧
      r.2.2.ulNextTxSequenceNumber = w.ulNextTxSequenceNumber ∧
      (∀ j, r.2.1.xTCPSegments j
        = { p.xTCPSegments j with
            ucDupAckCount := (r.2.1.xTCPSegments j).ucDupAckCount
            ucTransmitCount := (r.2.1.xTCPSegments j).ucTransmitCount }) ∧
      (∀ j, j ∉ l → r.2.1.xTCPSegments j = p.xTCPSegments j) := by
  intro l
  induction l with
  | nil =>
    intro p w n
    exact ⟨rfl, rfl, rfl, rfl, rfl, rfl, rfl, fun _ => rfl, fun _ _ => rfl⟩
  | cons i rest ih =>
    intro p w n
    simp only [fastRetransmitLoop]
    split
    · split
      · obtain ⟨a1, a2, a3, a4, a5, a6, a7, a8, a9⟩ := ih
          (p.setSegment i { p.xTCPSegments i with
            ucDupAckCount := ((p.xTCPSegments i).ucDupAckCount + 1) % 256
            ucTransmitCount := 0 })
          { w with
            xWaitQueue := uxListRemove w.xWaitQueue i
            xPriorityQueue := vListInsertFifo w.xPriorityQueue i }
          (u32add n 1)
        refine ⟨a1, a2, a3, a4, a5, a6, a7, ?_, ?_⟩
        · intro j
          rw [a8 j]
          by_cases hj : j = i
          · subst hj; simp [Pool.setSegment]
          · simp [Pool.setSegment, Function.update, hj]
        · intro j hj
          rw [a9 j (fun hm => hj (List.mem_cons_of_mem _ hm))]
          have hji : j ≠ i := fun e => hj (e ▸ List.mem_cons_self _ _)
          simp [Pool.setSegment, Function.update, hji]
      · obtain ⟨a1, a2, a3, a4, a5, a6, a7, a8, a9⟩ := ih
          (p.setSegment i { p.xTCPSegments i with
            ucDupAckCount := ((p.xTCPSegments i).ucDupAckCount + 1) % 256 })
          w n
        refine ⟨a1, a2, a3, a4, a5, a6, a7, ?_, ?_⟩
        · intro j
          rw [a8 j]
          by_cases hj : j = i
          · subst hj; simp [Pool.setSegment]
          · simp [Pool.setSegment, Function.update, hj]
        · intro j hj
          rw [a9 j (fun hm => hj (List.mem_cons_of_mem _ hm))]
          have hji : j ≠ i := fun e => hj (e ▸ List.mem_cons_self _ _)
          simp [Pool.setSegment, Function.update, hji]
    · obtain ⟨a1, a2, a3, a4, a5, a6, a7, a8, a9⟩ := ih p w n
      exact ⟨a1, a2, a3, a4, a5, a6, a7, a8,
        fun j hj => a9 j (fun hm => hj (List.mem_cons_of_mem _ hm))⟩

/-- The loop of `prvTCPWindowTxCheckAck` frees nothing when no visited descriptor
has the sequence number `tx.ulCurrentSequenceNumber`. -/
theorem txCheckAckLoop_no_free (h : Host) (ulLast : Nat) :
    ∀ (l : List Nat) (p : Pool) (w : TCPWindow) (c b : Nat),
      (∀ i ∈ l, (p.xTCPSegments i).ulSequenceNumber ≠ w.tx.ulCurrentSequenceNumber) →
      (txCheckAckLoop h ulLast l p w c b).1 = b ∧
      (txCheckAckLoop h ulLast l p w c b).2.2.tx = w.tx ∧
      (txCheckAckLoop h ulLast l p w c b).2.1.xSegmentList = p.xSegmentList ∧
      (txCheckAckLoop h ulLast l p w c b).2.2.xTxSegments = w.xTxSegments ∧
      (txCheckAckLoop h ulLast l p w c b).2.2.xRxSegments = w.xRxSegments := by
  intro l
  induction l with
  | nil => intro p w c b _; exact ⟨rfl, rfl, rfl, rfl, rfl⟩
  | cons i rest ih =>
    intro p w c b hne
    cases hlt : xSequenceLessThan c ulLast with
    | false => rw [txCheckAckLoop_stop h ulLast _ p w c b hlt]; exact ⟨rfl, rfl, rfl, rfl, rfl⟩
    | true =>
      rw [txCheckAckLoop_cons h ulLast i rest p w c b hlt]
      split
      · exact ih p w c b (fun j hj => hne j (List.mem_cons_of_mem _ hj))
      · split
        · exact ⟨rfl, rfl, rfl, rfl, rfl⟩
        · split
          · exact ⟨rfl, rfl, rfl, rfl, rfl⟩
          · rename_i hcs _
            have hcs2 : c = (p.xTCPSegments i).ulSequenceNumber := by
              by_contra hx; exact hcs hx
            have hc : c ≠ w.tx.ulCurrentSequenceNumber := by
              rw [hcs2]; exact hne i (List.mem_cons_self _ _)
            obtain ⟨g1, g2, g3, g4, g5, -, -, -, -, g10, g11⟩ :=
              txCheckAck_confirm_keep h ulLast p w i c b hc
            obtain ⟨i1, i2, i3, i4, i5⟩ := ih (txCheckAck_confirm h ulLast p w i c b).2.1
              (txCheckAck_confirm h ulLast p w i c b).2.2
              (u32add c (toUInt32 (p.xTCPSegments i).lDataLength))
              (txCheckAck_confirm h ulLast p w i c b).1
              (fun j hj => by
                rw [g2]
                by_cases hji : j = i
                · subst hji; rw [g10]; exact hne j (List.mem_cons_self _ _)
                · rw [g11 j hji]; exact hne j (List.mem_cons_of_mem _ hj))
            exact ⟨i1.trans g1, i2.trans g2, i3.trans g3, i4.trans g4, i5.trans g5⟩

/-! ## Bytes retired by an acknowledgement -/

/-- In a run of segments shorter than `2^32` bytes every length is its own 32-bit
value, and the 32-bit lengths add up to the length of the run. -/
theorem rxChain_lengths (segs : Nat → TCPSegment) :
    ∀ (l : List Nat) (start : Nat), rxChain segs start l →
      rxChainLength segs l < 4294967296 →
      (l.map (fun i => toUInt32 (segs i).lDataLength)).sum = rxChainLength segs l := by
  intro l
  induction l with
  | nil => intro _ _ _; rfl
  | cons i rest ih =>
    intro start hch hlen
    obtain ⟨-, h2, h3⟩ := hch
    have hsplit : rxChainLength segs (i :: rest)
        = (segs i).lDataLength.toNat + rxChainLength segs rest := by
      simp [rxChainLength]
    rw [hsplit] at hlen ⊢
    have e1 : toUInt32 (segs i).lDataLength = (segs i).lDataLength.toNat := by
      unfold toUInt32; omega
    simp only [List.map_cons, List.sum_cons, e1]
    rw [ih _ h3 (by omega)]

/-- In a run of segments shorter than `2^32` bytes no segment but the first one has
the sequence number of the start. -/
theorem rxChain_tail_ne_start (segs : Nat → TCPSegment) (i : Nat) (rest : List Nat)
    (start : Nat) (hch : rxChain segs start (i :: rest))
    (hlen : rxChainLength segs (i :: rest) < 4294967296) :
    ∀ j ∈ rest, (segs j).ulSequenceNumber ≠ start := by
  intro j hj
  obtain ⟨-, h2, h3⟩ := hch
  obtain ⟨d, e1, e2, e3⟩ := rxChain_offset segs rest _ h3 j hj
  have hsplit : rxChainLength segs (i :: rest)
      = (segs i).lDataLength.toNat + rxChainLength segs rest := by
    simp [rxChainLength]
  rw [hsplit] at hlen
  rw [e1]
  omega

/-- An acknowledgement that is not after `tx.ulCurrentSequenceNumber` is ignored. -/
theorem ulTCPWindowTxAck_old (h : Host) (p : Pool) (w : TCPWindow) (seq : Nat)
    (hle : xSequenceLessThanOrEqual seq w.tx.ulCurrentSequenceNumber = true) :
    ulTCPWindowTxAck h p w seq = (0, p, w) := by
  simp only [ulTCPWindowTxAck, hle, if_true]

/-- An acknowledgement after `tx.ulCurrentSequenceNumber` starts the walk there. -/
theorem ulTCPWindowTxAck_new (h : Host) (p : Pool) (w : TCPWindow) (seq : Nat)
    (hle : xSequenceLessThanOrEqual seq w.tx.ulCurrentSequenceNumber = false) :
    ulTCPWindowTxAck h p w seq
      = prvTCPWindowTxCheckAck h p w w.tx.ulCurrentSequenceNumber seq := by
  simp only [ulTCPWindowTxAck, hle, Bool.false_eq_true, if_false]

/-- Claim C14: `ulTCPWindowTxAck` returns 0 and changes nothing when the
acknowledged number is not after `tx.ulCurrentSequenceNumber`; the value returned by
`ulTCPWindowTxAck` and by `ulTCPWindowTxSack` is the advance of
`tx.ulCurrentSequenceNumber` modulo `2^32`; when the queued segments form a run
(`txStoreChained`), that value is the sum of the lengths of the descriptors the call
moved from `xTxSegments` to the free list, and `ulTCPWindowTxSack` for a range that
does not start at `tx.ulCurrentSequenceNumber` returns 0, frees nothing and leaves
`tx.ulCurrentSequenceNumber` as it is. -/
theorem C14_tx_ack_bytes (h : Host) (p : Pool) (w : TCPWindow) :
    (∀ seq, xSequenceLessThanOrEqual seq w.tx.ulCurrentSequenceNumber = true →
      ulTCPWindowTxAck h p w seq = (0, p, w)) ∧
    (∀ seq, (ulTCPWindowTxAck h p w seq).1
      = u32sub (ulTCPWindowTxAck h p w seq).2.2.tx.ulCurrentSequenceNumber
          w.tx.ulCurrentSequenceNumber) ∧
    (∀ first last, (ulTCPWindowTxSack h p w first last).1
      = u32sub (ulTCPWindowTxSack h p w first last).2.2.tx.ulCurrentSequenceNumber
          w.tx.ulCurrentSequenceNumber) ∧
    (txStoreChained p w →
      (∀ seq, ∃ freed : List Nat, freed.Sublist w.xTxSegments ∧
        (ulTCPWindowTxAck h p w seq).2.1.xSegmentList = p.xSegmentList ++ freed ∧
        (ulTCPWindowTxAck h p w seq).2.2.xTxSegments = w.xTxSegments.diff freed ∧
        (ulTCPWindowTxAck h p w seq).1
          = (freed.map (fun i => toUInt32 (p.xTCPSegments i).lDataLength)).sum) ∧
      (∀ first last, ∃ freed : List Nat, freed.Sublist w.xTxSegments ∧
        (ulTCPWindowTxSack h p w first last).2.1.xSegmentList = p.xSegmentList ++ freed ∧
        (ulTCPWindowTxSack h p w first last).2.2.xTxSegments = w.xTxSegments.diff freed ∧
        (ulTCPWindowTxSack h p w first last).1
          = (freed.map (fun i => toUInt32 (p.xTCPSegments i).lDataLength)).sum) ∧
      (∀ first last, first ≠ w.tx.ulCurrentSequenceNumber →
        (ulTCPWindowTxSack h p w first last).1 = 0 ∧
        (ulTCPWindowTxSack h p w first last).2.1.xSegmentList = p.xSegmentList ∧
        (ulTCPWindowTxSack h p w first last).2.2.xTxSegments = w.xTxSegments ∧
        (ulTCPWindowTxSack h p w first last).2.2.tx.ulCurrentSequenceNumber
          = w.tx.ulCurrentSequenceNumber)) := by
  have hzero : u32sub w.tx.ulCurrentSequenceNumber w.tx.ulCurrentSequenceNumber = 0 := by
    unfold u32sub; omega
  -- the walk, started with nothing confirmed
  have hwalk : ∀ first last,
      (prvTCPWindowTxCheckAck h p w first last).1
        = u32sub (prvTCPWindowTxCheckAck h p w first last).2.2.tx.ulCurrentSequenceNumber
            w.tx.ulCurrentSequenceNumber := by
    intro first last
    obtain ⟨a1, a2⟩ := txCheckAckLoop_lockstep h last w.xTxSegments p w first 0 (by decide)
    unfold prvTCPWindowTxCheckAck
    rw [← a2]
    unfold u32sub
    omega
  have hfreed : txStoreChained p w → ∀ first last, ∃ freed : List Nat,
      freed.Sublist w.xTxSegments ∧
      (prvTCPWindowTxCheckAck h p w first last).2.1.xSegmentList = p.xSegmentList ++ freed ∧
      (prvTCPWindowTxCheckAck h p w first last).2.2.xTxSegments = w.xTxSegments.diff freed ∧
      (prvTCPWindowTxCheckAck h p w first last).1
        = (freed.map (fun i => toUInt32 (p.xTCPSegments i).lDataLength)).sum := by
    intro ⟨_, hch, hlen, hnd, hfl⟩ first last
    obtain ⟨freed, s1, s2, s3, s4⟩ :=
      txCheckAckLoop_freed h last w.xTxSegments p w first 0 (by decide) hnd hfl
    refine ⟨freed, s1, s2, s3, ?_⟩
    unfold prvTCPWindowTxCheckAck
    rw [s4]
    have hle : (freed.map (fun i => toUInt32 (p.xTCPSegments i).lDataLength)).sum
        ≤ (w.xTxSegments.map (fun i => toUInt32 (p.xTCPSegments i).lDataLength)).sum :=
      List.Sublist.sum_le_sum (s1.map _) (fun _ _ => Nat.zero_le _)
    rw [rxChain_lengths _ _ _ hch hlen] at hle
    omega
  refine ⟨?_, ?_, ?_, ?_⟩
  · intro seq hle
    exact ulTCPWindowTxAck_old h p w seq hle
  · intro seq
    cases hle : xSequenceLessThanOrEqual seq w.tx.ulCurrentSequenceNumber with
    | true => rw [ulTCPWindowTxAck_old h p w seq hle]; exact hzero.symm
    | false => rw [ulTCPWindowTxAck_new h p w seq hle]; exact hwalk _ _
  · intro first last
    obtain ⟨-, a2, -⟩ := fastRetransmitLoop_frame first
      (prvTCPWindowTxCheckAck h p w first last).2.2.xWaitQueue
      (prvTCPWindowTxCheckAck h p w first last).2.1
      (prvTCPWindowTxCheckAck h p w first last).2.2 0
    show (prvTCPWindowTxCheckAck h p w first last).1 = _
    rw [hwalk first last]
    unfold ulTCPWindowTxSack prvTCPWindowFastRetransmit
    simp only [a2]
  · intro hwf
    refine ⟨?_, ?_, ?_⟩
    · intro seq
      cases hle : xSequenceLessThanOrEqual seq w.tx.ulCurrentSequenceNumber with
      | true =>
        rw [ulTCPWindowTxAck_old h p w seq hle]
        exact ⟨[], List.nil_sublist _, by simp, by simp, by simp⟩
      | false => rw [ulTCPWindowTxAck_new h p w seq hle]; exact hfreed hwf _ _
    · intro first last
      obtain ⟨freed, s1, s2, s3, s4⟩ := hfreed hwf first last
      obtain ⟨a1, -, -, a4, -⟩ := fastRetransmitLoop_frame first
        (prvTCPWindowTxCheckAck h p w first last).2.2.xWaitQueue
        (prvTCPWindowTxCheckAck h p w first last).2.1
        (prvTCPWindowTxCheckAck h p w first last).2.2 0
      refine ⟨freed, s1, ?_, ?_, s4⟩
      · rw [← s2]; exact a1
      · rw [← s3]; exact a4
    · intro first last hne
      obtain ⟨hcur, hch, hlen, hnd, hfl⟩ := hwf
      have hnone : (prvTCPWindowTxCheckAck h p w first last).1 = 0 ∧
          (prvTCPWindowTxCheckAck h p w first last).2.2.tx = w.tx ∧
          (prvTCPWindowTxCheckAck h p w first last).2.1.xSegmentList = p.xSegmentList ∧
          (prvTCPWindowTxCheckAck h p w first last).2.2.xTxSegments = w.xTxSegments := by
        unfold prvTCPWindowTxCheckAck
        cases hl : w.xTxSegments with
        | nil => exact ⟨rfl, rfl, rfl, hl.symm ▸ rfl⟩
        | cons i rest =>
          rw [hl] at hch hlen
          have htail := rxChain_tail_ne_start _ i rest _ hch hlen
          have hhead : (p.xTCPSegments i).ulSequenceNumber = w.tx.ulCurrentSequenceNumber := by
            rw [hch.1]; exact Nat.mod_eq_of_lt hcur
          cases hlt : xSequenceLessThan first last with
          | false =>
            rw [txCheckAckLoop_stop h last _ p w first 0 hlt]
            exact ⟨rfl, rfl, rfl, hl⟩
          | true =>
            rw [txCheckAckLoop_cons h last i rest p w first 0 hlt]
            split
            · obtain ⟨i1, i2, i3, i4, -⟩ := txCheckAckLoop_no_free h last rest p w first 0 htail
              exact ⟨i1, i2, i3, i4.trans hl⟩
            · rw [if_pos (by rw [hhead]; exact hne)]
              exact ⟨rfl, rfl, rfl, hl⟩
      obtain ⟨n1, n2, n3, n4⟩ := hnone
      obtain ⟨a1, a2, -, a4, -⟩ := fastRetransmitLoop_frame first
        (prvTCPWindowTxCheckAck h p w first last).2.2.xWaitQueue
        (prvTCPWindowTxCheckAck h p w first last).2.1
        (prvTCPWindowTxCheckAck h p w first last).2.2 0
      refine ⟨n1, a1.trans n3, a4.trans n4, ?_⟩
      show (fastRetransmitLoop first _ _ _ 0).2.2.tx.ulCurrentSequenceNumber = _
      rw [a2, n2]

/-- Claim C14 at `sentWindow`, where `[2000, 3460)` and `[3460, 4920)` wait for
their acknowledgement: the acknowledgement of 2000 changes nothing, the one of 3460
returns the advance of `tx.ulCurrentSequenceNumber`, which is 1460, and the
selective acknowledgement of `[3460, 4920)` returns 0 and frees nothing. -/
theorem C14_tx_ack_bytes_witness :
    txStoreChained sentPool sentWindow ∧
    xSequenceLessThanOrEqual 2000 sentWindow.tx.ulCurrentSequenceNumber = true ∧
    (3460 : Nat) ≠ sentWindow.tx.ulCurrentSequenceNumber ∧
    ulTCPWindowTxAck demoHost sentPool sentWindow 2000 = (0, sentPool, sentWindow) ∧
    (ulTCPWindowTxAck demoHost sentPool sentWindow 3460).1
      = u32sub (ulTCPWindowTxAck demoHost sentPool sentWindow 3460).2.2.tx.ulCurrentSequenceNumber
          sentWindow.tx.ulCurrentSequenceNumber ∧
    (ulTCPWindowTxAck demoHost sentPool sentWindow 3460).1 = 1460 ∧
    ((ulTCPWindowTxSack demoHost sentPool sentWindow 3460 4920).1 = 0 ∧
      (ulTCPWindowTxSack demoHost sentPool sentWindow 3460 4920).2.1.xSegmentList
        = sentPool.xSegmentList ∧
      (ulTCPWindowTxSack demoHost sentPool sentWindow 3460 4920).2.2.xTxSegments
        = sentWindow.xTxSegments ∧
      (ulTCPWindowTxSack demoHost sentPool sentWindow 3460 4920).2.2.tx.ulCurrentSequenceNumber
        = sentWindow.tx.ulCurrentSequenceNumber) :=
  ⟨⟨by decide, ⟨by decide, by decide, by decide, by decide, trivial⟩, by decide, by decide,
      by decide⟩,
    by decide, by decide,
    (C14_tx_ack_bytes demoHost sentPool sentWindow).1 2000 (by decide),
    (C14_tx_ack_bytes demoHost sentPool sentWindow).2.1 3460,
    by decide,
    ((C14_tx_ack_bytes demoHost sentPool sentWindow).2.2.2
      ⟨by decide, ⟨by decide, by decide, by decide, by decide, trivial⟩, by decide, by decide,
        by decide⟩).2.2 3460 4920 (by decide)⟩

/-! ## Progress of the cumulative acknowledgement -/

/-- The loop of `prvTCPWindowTxCheckAck`, started at `tx.ulCurrentSequenceNumber`
with `b` bytes confirmed, over distinct descriptors that are not flagged and have
lengths below `2^31`: when `ulLast` lies `D` bytes, at most `2^31`, after the
sequence number `old` at which the walk began, the walk confirms at most `D` bytes
and `tx.ulCurrentSequenceNumber` is `old` plus the bytes confirmed. -/
theorem txCheckAckLoop_bounded (h : Host) (ulLast old D : Nat)
    (hD : D ≤ 2147483648) (hlast : ulLast = (old + D) % 4294967296) :
    ∀ (l : List Nat) (p : Pool) (w : TCPWindow) (b : Nat),
      w.tx.ulCurrentSequenceNumber = (old + b) % 4294967296 → b ≤ D → l.Nodup →
      (∀ i ∈ l, (p.xTCPSegments i).bAcked = false ∧ 0 ≤ (p.xTCPSegments i).lDataLength ∧
        (p.xTCPSegments i).lDataLength < 2147483648) →
      ∃ b', b ≤ b' ∧ b' ≤ D ∧
        (txCheckAckLoop h ulLast l p w w.tx.ulCurrentSequenceNumber b).1 = b' ∧
        (txCheckAckLoop h ulLast l p w w.tx.ulCurrentSequenceNumber b).2.2.tx.ulCurrentSequenceNumber
          = (old + b') % 4294967296 := by
  intro l
  induction l with
  | nil => intro p w b hcur hb _ _; exact ⟨b, le_refl _, hb, rfl, hcur⟩
  | cons i rest ih =>
    intro p w b hcur hb hnd hseg
    have hnd2 : rest.Nodup := (List.nodup_cons.mp hnd).2
    have hi : i ∉ rest := (List.nodup_cons.mp hnd).1
    cases hlt : xSequenceLessThan w.tx.ulCurrentSequenceNumber ulLast with
    | false =>
      rw [txCheckAckLoop_stop h ulLast _ p w _ b hlt]
      exact ⟨b, le_refl _, hb, rfl, hcur⟩
    | true =>
      rw [txCheckAckLoop_cons h ulLast i rest p w _ b hlt]
      split
      · exact ih p w b hcur hb hnd2 (fun j hj => hseg j (List.mem_cons_of_mem _ hj))
      · split
        · exact ⟨b, le_refl _, hb, rfl, hcur⟩
        · split
          · exact ⟨b, le_refl _, hb, rfl, hcur⟩
          · rename_i hcs hcut
            have hcs2 : w.tx.ulCurrentSequenceNumber = (p.xTCPSegments i).ulSequenceNumber := by
              by_contra hx; exact hcs hx
            obtain ⟨ha, hl0, hl1⟩ := hseg i (List.mem_cons_self _ _)
            have hgt : xSequenceGreaterThan (u32add (p.xTCPSegments i).ulSequenceNumber
                (toUInt32 (p.xTCPSegments i).lDataLength)) ulLast = false := by
              cases hg : xSequenceGreaterThan (u32add (p.xTCPSegments i).ulSequenceNumber
                (toUInt32 (p.xTCPSegments i).lDataLength)) ulLast with
              | false => rfl
              | true => exact absurd ⟨ha, hg⟩ hcut
            have hlen : toUInt32 (p.xTCPSegments i).lDataLength
                = (p.xTCPSegments i).lDataLength.toNat := by
              unfold toUInt32; omega
            have hlenlt : (p.xTCPSegments i).lDataLength.toNat < 2147483648 := by omega
            rw [xSequenceGreaterThan_eq, ← hcs2, hlen] at hgt
            rw [xSequenceLessThan_eq] at hlt
            simp only [decide_eq_false_iff_not, decide_eq_true_eq] at hgt hlt
            generalize (p.xTCPSegments i).lDataLength.toNat = len at hlen hlenlt hgt
            have hsum : b + len ≤ D := by
              simp only [u32sub, u32add] at hgt hlt
              omega
            obtain ⟨g1, g2, -, -, -, -, -, -, -, g10⟩ :=
              txCheckAck_confirm_free h ulLast p w i w.tx.ulCurrentSequenceNumber b rfl
            rw [hlen] at g1 g2
            have hb1 : (txCheckAck_confirm h ulLast p w i w.tx.ulCurrentSequenceNumber b).1
                = b + len := by
              rw [g1]; unfold u32add; omega
            have hc1 : (txCheckAck_confirm h ulLast p w i
                w.tx.ulCurrentSequenceNumber b).2.2.tx.ulCurrentSequenceNumber
                  = (old + (b + len)) % 4294967296 := by
              rw [g2]; unfold u32add; omega
            have hcursor : u32add w.tx.ulCurrentSequenceNumber
                (toUInt32 (p.xTCPSegments i).lDataLength)
                  = (txCheckAck_confirm h ulLast p w i
                      w.tx.ulCurrentSequenceNumber b).2.2.tx.ulCurrentSequenceNumber := by
              rw [g2, hlen]
            rw [hcursor, hb1]
            obtain ⟨b', k1, k2, k3, k4⟩ := ih
              (txCheckAck_confirm h ulLast p w i w.tx.ulCurrentSequenceNumber b).2.1
              (txCheckAck_confirm h ulLast p w i w.tx.ulCurrentSequenceNumber b).2.2
              (b + len) hc1 hsum hnd2
              (fun j hj => by
                have hji : j ≠ i := fun e => hi (e ▸ hj)
                rw [g10 j hji]
                exact hseg j (List.mem_cons_of_mem _ hj))
            exact ⟨b', by omega, k2, k3, k4⟩

/-- Claim C15, amended: when `xTxSegments` holds distinct descriptors with lengths
in `0 .. 2^31 - 1`, none of them flagged as acknowledged, and `ulTCPWindowTxAck` for
the 32-bit number `s` returns a non-zero value, then `tx.ulCurrentSequenceNumber`
after the call is greater than before and less than or equal to `s`, in half-space
order. -/
theorem C15_tx_ack_progress (h : Host) (p : Pool) (w : TCPWindow) (s : Nat)
    (hs : s < 4294967296) (hcur : w.tx.ulCurrentSequenceNumber < 4294967296)
    (hnd : w.xTxSegments.Nodup)
    (hseg : ∀ i ∈ w.xTxSegments, (p.xTCPSegments i).bAcked = false ∧
      0 ≤ (p.xTCPSegments i).lDataLength ∧ (p.xTCPSegments i).lDataLength < 2147483648)
    (hret : (ulTCPWindowTxAck h p w s).1 ≠ 0) :
    xSequenceGreaterThan (ulTCPWindowTxAck h p w s).2.2.tx.ulCurrentSequenceNumber
      w.tx.ulCurrentSequenceNumber = true ∧
    xSequenceLessThanOrEqual (ulTCPWindowTxAck h p w s).2.2.tx.ulCurrentSequenceNumber s
      = true := by
  cases hle : xSequenceLessThanOrEqual s w.tx.ulCurrentSequenceNumber with
  | true =>
    rw [ulTCPWindowTxAck_old h p w s hle] at hret
    exact absurd rfl hret
  | false =>
    rw [ulTCPWindowTxAck_new h p w s hle] at hret ⊢
    unfold prvTCPWindowTxCheckAck at hret ⊢
    rw [xSequenceLessThanOrEqual_eq] at hle
    simp only [decide_eq_false_iff_not] at hle
    have hD : u32sub s w.tx.ulCurrentSequenceNumber ≤ 2147483648 := by
      simp only [u32sub] at hle ⊢; omega
    have hlast : s = (w.tx.ulCurrentSequenceNumber + u32sub s w.tx.ulCurrentSequenceNumber)
        % 4294967296 := by
      simp only [u32sub]; omega
    obtain ⟨b', -, k2, k3, k4⟩ := txCheckAckLoop_bounded h s w.tx.ulCurrentSequenceNumber
      (u32sub s w.tx.ulCurrentSequenceNumber) hD hlast w.xTxSegments p w 0
      (by omega) (Nat.zero_le _) hnd hseg
    rw [k3] at hret
    rw [k4, xSequenceGreaterThan_eq, xSequenceLessThanOrEqual_eq]
    simp only [decide_eq_true_eq]
    generalize u32sub s w.tx.ulCurrentSequenceNumber = D at hD hlast k2
    simp only [u32sub, u32add]
    omega

/-- Claim C15 (amended) at `sentWindow`: the acknowledgement of 3460 returns 1460 and
moves `tx.ulCurrentSequenceNumber` from 2000 to 3460. -/
theorem C15_tx_ack_progress_witness :
    (ulTCPWindowTxAck demoHost sentPool sentWindow 3460).1 ≠ 0 ∧
    (ulTCPWindowTxAck demoHost sentPool sentWindow 3460).2.2.tx.ulCurrentSequenceNumber = 3460 ∧
    xSequenceGreaterThan
      (ulTCPWindowTxAck demoHost sentPool sentWindow 3460).2.2.tx.ulCurrentSequenceNumber
      sentWindow.tx.ulCurrentSequenceNumber = true ∧
    xSequenceLessThanOrEqual
      (ulTCPWindowTxAck demoHost sentPool sentWindow 3460).2.2.tx.ulCurrentSequenceNumber 3460
      = true :=
  ⟨by decide, by decide,
    C15_tx_ack_progress demoHost sentPool sentWindow 3460 (by decide) (by decide) (by decide)
      (by decide) (by decide)⟩

/-- Claim C15 as stated fails after a selective acknowledgement.  From the fresh
window, `lTCPWindowTxAdd` queues `[2000, 3460)` and `[3460, 4920)`, two calls of
`ulTCPWindowTxGet` send them, and `ulTCPWindowTxSack` for `[3460, 4920)` flags the
second one (`sackedRun`).  Then `ulTCPWindowTxAck` for 3461 frees the first segment,
finds the flagged one at `tx.ulCurrentSequenceNumber` and frees it too: it returns
2920 and leaves `tx.ulCurrentSequenceNumber = 4920`, which is after 3461. -/
theorem C15_counterexample :
    (lTCPWindowTxAdd 2 demoHost demoPool demoWindow 2920 0 65536).isSome = true ∧
    sackedRun.2.2.tx.ulCurrentSequenceNumber = 2000 ∧
    sackedRun.2.2.xTxSegments = [0, 1] ∧
    (ulTCPWindowTxAck demoHost sackedRun.2.1 sackedRun.2.2 3461).1 = 2920 ∧
    (ulTCPWindowTxAck demoHost sackedRun.2.1 sackedRun.2.2 3461).2.2.tx.ulCurrentSequenceNumber
      = 4920 ∧
    xSequenceLessThanOrEqual
      (ulTCPWindowTxAck demoHost sackedRun.2.1 sackedRun.2.2 3461).2.2.tx.ulCurrentSequenceNumber
      3461 = false := by
  decide

/-! ## A cumulative acknowledgement retires whole segments -/

/-- The loop of `prvTCPWindowTxCheckAck` on a run of unflagged segments that starts
at `tx.ulCurrentSequenceNumber`, for an acknowledgement `d` bytes after the start:
it frees the `k` leading segments that end at or before the acknowledged number,
where `k` is as large as can be, and leaves the other ones as they are. -/
theorem txCheckAckLoop_chain (h : Host) (segs0 : Nat → TCPSegment) :
    ∀ (l : List Nat) (p : Pool) (w : TCPWindow) (start d b : Nat),
      w.tx.ulCurrentSequenceNumber = start % 4294967296 → w.xTxSegments = l →
      (∀ j ∈ l, p.xTCPSegments j = segs0 j) → rxChain segs0 start l →
      rxChainLength segs0 l < 2147483648 → d ≤ 2147483648 →
      b + rxChainLength segs0 l < 4294967296 → l.Nodup →
      (∀ j ∈ l, j ∉ p.xSegmentList) → (∀ j ∈ l, (segs0 j).bAcked = false) →
      ∃ k, k ≤ l.length ∧ rxChainLength segs0 (l.take k) ≤ d ∧
        (k < l.length → d < rxChainLength segs0 (l.take (k + 1))) ∧
        (txCheckAckLoop h ((start + d) % 4294967296) l p w (start % 4294967296) b).1
          = b + rxChainLength segs0 (l.take k) ∧
        (txCheckAckLoop h ((start + d) % 4294967296) l p w
            (start % 4294967296) b).2.2.tx.ulCurrentSequenceNumber
          = (start + rxChainLength segs0 (l.take k)) % 4294967296 ∧
        (txCheckAckLoop h ((start + d) % 4294967296) l p w
            (start % 4294967296) b).2.2.xTxSegments = l.drop k ∧
        (txCheckAckLoop h ((start + d) % 4294967296) l p w
            (start % 4294967296) b).2.1.xSegmentList = p.xSegmentList ++ l.take k ∧
        (∀ j ∈ l.drop k,
          (txCheckAckLoop h ((start + d) % 4294967296) l p w
            (start % 4294967296) b).2.1.xTCPSegments j = segs0 j) := by
  intro l
  induction l with
  | nil =>
    intro p w start d b hcur hl _ _ _ _ _ _ _ _
    refine ⟨0, le_refl _, Nat.zero_le _, fun hk => absurd hk (by simp), ?_, ?_, ?_, ?_, ?_⟩
    · simp [txCheckAckLoop, rxChainLength]
    · simp [txCheckAckLoop, rxChainLength, hcur]
    · simp [txCheckAckLoop, hl]
    · simp [txCheckAckLoop]
    · intro j hj; simp at hj
  | cons i rest ih =>
    intro p w start d b hcur hl hsegs hch hT hd hb hnd hfl hna
    obtain ⟨c1, c2, c3⟩ := hch
    have hnd2 : rest.Nodup := (List.nodup_cons.mp hnd).2
    have hi : i ∉ rest := (List.nodup_cons.mp hnd).1
    have hpi : p.xTCPSegments i = segs0 i := hsegs i (List.mem_cons_self _ _)
    have hsplit : rxChainLength segs0 (i :: rest)
        = (segs0 i).lDataLength.toNat + rxChainLength segs0 rest := by
      simp [rxChainLength]
    have htake1 : ∀ k, rxChainLength segs0 ((i :: rest).take (k + 1))
        = (segs0 i).lDataLength.toNat + rxChainLength segs0 (rest.take k) := by
      intro k; simp [rxChainLength]
    rw [hsplit] at hT hb
    have hlen : toUInt32 (segs0 i).lDataLength = (segs0 i).lDataLength.toNat := by
      unfold toUInt32; omega
    have hstop : ∀ (hlt : d < (segs0 i).lDataLength.toNat ∨ d = 0),
        ∃ k, k ≤ (i :: rest).length ∧ rxChainLength segs0 ((i :: rest).take k) ≤ d ∧
        (k < (i :: rest).length → d < rxChainLength segs0 ((i :: rest).take (k + 1))) ∧
        b = b + rxChainLength segs0 ((i :: rest).take k) ∧
        w.tx.ulCurrentSequenceNumber
          = (start + rxChainLength segs0 ((i :: rest).take k)) % 4294967296 ∧
        w.xTxSegments = (i :: rest).drop k ∧
        p.xSegmentList = p.xSegmentList ++ (i :: rest).take k ∧
        (∀ j ∈ (i :: rest).drop k, p.xTCPSegments j = segs0 j) := by
      intro hlt
      refine ⟨0, Nat.zero_le _, by simp [rxChainLength], fun _ => ?_, by simp [rxChainLength],
        by simp [rxChainLength, hcur], by simp [hl], by simp, fun j hj => hsegs j (by simpa using hj)⟩
      rw [htake1 0]
      simp only [List.take_zero, rxChainLength, List.map_nil, List.sum_nil]
      omega
    cases hlt : xSequenceLessThan (start % 4294967296) ((start + d) % 4294967296) with
    | false =>
      rw [txCheckAckLoop_stop h _ _ p w _ b hlt]
      apply hstop
      right
      rw [xSequenceLessThan_eq] at hlt
      simp only [decide_eq_false_iff_not, u32sub, u32add] at hlt
      omega
    | true =>
      rw [txCheckAckLoop_cons h _ i rest p w _ b hlt]
      rw [hpi, c1]
      have hngt : xSequenceGreaterThan (start % 4294967296) (start % 4294967296) = false := by
        rw [xSequenceGreaterThan_eq]
        simp only [decide_eq_false_iff_not, u32sub, u32add]
        omega
      rw [if_neg (by rw [hngt]; exact Bool.false_ne_true), if_neg (by simp)]
      rw [xSequenceLessThan_eq] at hlt
      simp only [decide_eq_true_eq, u32sub, u32add] at hlt
      by_cases hcut : d < (segs0 i).lDataLength.toNat
      · have hgt : xSequenceGreaterThan (u32add (start % 4294967296)
            (toUInt32 (segs0 i).lDataLength)) ((start + d) % 4294967296) = true := by
          rw [xSequenceGreaterThan_eq, hlen]
          simp only [decide_eq_true_eq, u32sub, u32add]
          omega
        rw [if_pos ⟨hna i (List.mem_cons_self _ _), hgt⟩]
        exact hstop (Or.inl hcut)
      · have hgt : xSequenceGreaterThan (u32add (start % 4294967296)
            (toUInt32 (segs0 i).lDataLength)) ((start + d) % 4294967296) = false := by
          rw [xSequenceGreaterThan_eq, hlen]
          simp only [decide_eq_false_iff_not, u32sub, u32add]
          omega
        rw [if_neg (by rw [hgt]; simp)]
        obtain ⟨g1, g2, g3, g4, -, -, -, -, -, g10⟩ :=
          txCheckAck_confirm_free h ((start + d) % 4294967296) p w i (start % 4294967296) b
            hcur.symm
        rw [hpi, hlen] at g1 g2
        have hif : i ∉ p.xSegmentList := hfl i (List.mem_cons_self _ _)
        rw [List.erase_of_not_mem hif] at g3
        rw [hl, List.erase_cons_head] at g4
        have hb1 : (txCheckAck_confirm h ((start + d) % 4294967296) p w i
            (start % 4294967296) b).1 = b + (segs0 i).lDataLength.toNat := by
          rw [g1]; unfold u32add; omega
        have hc1 : (txCheckAck_confirm h ((start + d) % 4294967296) p w i
            (start % 4294967296) b).2.2.tx.ulCurrentSequenceNumber
              = (start + (segs0 i).lDataLength.toNat) % 4294967296 := by
          rw [g2, hcur]; unfold u32add; omega
        have hcursor : u32add (start % 4294967296) (toUInt32 (segs0 i).lDataLength)
            = (start + (segs0 i).lDataLength.toNat) % 4294967296 := by
          rw [hlen]; unfold u32add; omega
        have hlast : (start + d) % 4294967296
            = (start + (segs0 i).lDataLength.toNat + (d - (segs0 i).lDataLength.toNat))
                % 4294967296 := by
          congr 1; omega
        rw [hcursor, hb1, hlast]
        obtain ⟨k, k1, k2, k3, k4, k5, k6, k7, k8⟩ := ih
          (txCheckAck_confirm h ((start + d) % 4294967296) p w i (start % 4294967296) b).2.1
          (txCheckAck_confirm h ((start + d) % 4294967296) p w i (start % 4294967296) b).2.2
          (start + (segs0 i).lDataLength.toNat) (d - (segs0 i).lDataLength.toNat)
          (b + (segs0 i).lDataLength.toNat) hc1 g4
          (fun j hj => by
            have hji : j ≠ i := fun e => hi (e ▸ hj)
            rw [g10 j hji]; exact hsegs j (List.mem_cons_of_mem _ hj))
          c3 (by omega) (by omega) (by omega) hnd2
          (fun j hj => by
            rw [g3]
            intro hm
            rcases List.mem_append.mp hm with hm | hm
            · exact hfl j (List.mem_cons_of_mem _ hj) hm
            · have hji : j = i := by simpa using hm
              exact hi (hji ▸ hj))
          (fun j hj => hna j (List.mem_cons_of_mem _ hj))
        rw [← hlast] at k4 k5 k6 k7 k8 ⊢
        refine ⟨k + 1, by simpa using k1, ?_, ?_, ?_, ?_, ?_, ?_, ?_⟩
        · rw [htake1 k]; omega
        · intro hk
          rw [htake1 (k + 1)]
          have := k3 (by simpa using hk)
          omega
        · rw [k4, htake1 k]; omega
        · rw [k5, htake1 k]; congr 1; omega
        · rw [k6]; rfl
        · rw [k7, g3]; simp
        · intro j hj
          exact k8 j (by simpa using hj)

/-- Claim C16: let the segments of `xTxSegments` be distinct, not free, not flagged
as acknowledged, and form a run of fewer than `2^31` bytes from
`tx.ulCurrentSequenceNumber` to `ulNextTxSequenceNumber`.  Then for an
acknowledgement `d` bytes after `tx.ulCurrentSequenceNumber`, with `0 < d` and `d`
at most the length of the run, `ulTCPWindowTxAck` frees the `k` leading segments
that end at or before the acknowledged number, and only those; it returns their
length together, `tx.ulCurrentSequenceNumber` advances by that length, and the
other segments, the partly covered one among them, stay in `xTxSegments` as they
were.  The acknowledgement of `ulNextTxSequenceNumber` returns the length of the run
and makes `xTCPWindowTxDone` true. -/
theorem C16_cumulative_ack_whole_segments (h : Host) (p : Pool) (w : TCPWindow)
    (hcur : w.tx.ulCurrentSequenceNumber < 4294967296)
    (hch : rxChain p.xTCPSegments w.tx.ulCurrentSequenceNumber w.xTxSegments)
    (hT : rxChainLength p.xTCPSegments w.xTxSegments < 2147483648)
    (hnd : w.xTxSegments.Nodup) (hfl : ∀ i ∈ w.xTxSegments, i ∉ p.xSegmentList)
    (hna : ∀ i ∈ w.xTxSegments, (p.xTCPSegments i).bAcked = false)
    (hnext : w.ulNextTxSequenceNumber
      = (w.tx.ulCurrentSequenceNumber + rxChainLength p.xTCPSegments w.xTxSegments)
          % 4294967296) :
    (∀ d, 0 < d → d ≤ rxChainLength p.xTCPSegments w.xTxSegments →
      ∃ k, k ≤ w.xTxSegments.length ∧
        rxChainLength p.xTCPSegments (w.xTxSegments.take k) ≤ d ∧
        (k < w.xTxSegments.length →
          d < rxChainLength p.xTCPSegments (w.xTxSegments.take (k + 1))) ∧
        (ulTCPWindowTxAck h p w ((w.tx.ulCurrentSequenceNumber + d) % 4294967296)).1
          = rxChainLength p.xTCPSegments (w.xTxSegments.take k) ∧
        (ulTCPWindowTxAck h p w
            ((w.tx.ulCurrentSequenceNumber + d) % 4294967296)).2.2.tx.ulCurrentSequenceNumber
          = (w.tx.ulCurrentSequenceNumber
              + rxChainLength p.xTCPSegments (w.xTxSegments.take k)) % 4294967296 ∧
        (ulTCPWindowTxAck h p w
            ((w.tx.ulCurrentSequenceNumber + d) % 4294967296)).2.2.xTxSegments
          = w.xTxSegments.drop k ∧
        (ulTCPWindowTxAck h p w
            ((w.tx.ulCurrentSequenceNumber + d) % 4294967296)).2.1.xSegmentList
          = p.xSegmentList ++ w.xTxSegments.take k ∧
        (∀ j ∈ w.xTxSegments.drop k,
          (ulTCPWindowTxAck h p w
            ((w.tx.ulCurrentSequenceNumber + d) % 4294967296)).2.1.xTCPSegments j
            = p.xTCPSegments j)) ∧
    ((ulTCPWindowTxAck h p w w.ulNextTxSequenceNumber).1
        = rxChainLength p.xTCPSegments w.xTxSegments ∧
      xTCPWindowTxDone (ulTCPWindowTxAck h p w w.ulNextTxSequenceNumber).2.2 = true) := by
  have hpart : ∀ d, 0 < d → d ≤ rxChainLength p.xTCPSegments w.xTxSegments →
      ∃ k, k ≤ w.xTxSegments.length ∧
        rxChainLength p.xTCPSegments (w.xTxSegments.take k) ≤ d ∧
        (k < w.xTxSegments.length →
          d < rxChainLength p.xTCPSegments (w.xTxSegments.take (k + 1))) ∧
        (ulTCPWindowTxAck h p w ((w.tx.ulCurrentSequenceNumber + d) % 4294967296)).1
          = rxChainLength p.xTCPSegments (w.xTxSegments.take k) ∧
        (ulTCPWindowTxAck h p w
            ((w.tx.ulCurrentSequenceNumber + d) % 4294967296)).2.2.tx.ulCurrentSequenceNumber
          = (w.tx.ulCurrentSequenceNumber
              + rxChainLength p.xTCPSegments (w.xTxSegments.take k)) % 4294967296 ∧
        (ulTCPWindowTxAck h p w
            ((w.tx.ulCurrentSequenceNumber + d) % 4294967296)).2.2.xTxSegments
          = w.xTxSegments.drop k ∧
        (ulTCPWindowTxAck h p w
            ((w.tx.ulCurrentSequenceNumber + d) % 4294967296)).2.1.xSegmentList
          = p.xSegmentList ++ w.xTxSegments.take k ∧
        (∀ j ∈ w.xTxSegments.drop k,
          (ulTCPWindowTxAck h p w
            ((w.tx.ulCurrentSequenceNumber + d) % 4294967296)).2.1.xTCPSegments j
            = p.xTCPSegments j) := by
    intro d hd0 hdT
    have hle : xSequenceLessThanOrEqual ((w.tx.ulCurrentSequenceNumber + d) % 4294967296)
        w.tx.ulCurrentSequenceNumber = false := by
      rw [xSequenceLessThanOrEqual_eq]
      simp only [decide_eq_false_iff_not, u32sub]
      omega
    rw [ulTCPWindowTxAck_new h p w _ hle]
    unfold prvTCPWindowTxCheckAck
    have hmod : w.tx.ulCurrentSequenceNumber % 4294967296 = w.tx.ulCurrentSequenceNumber :=
      Nat.mod_eq_of_lt hcur
    obtain ⟨k, k1, k2, k3, k4, k5, k6, k7, k8⟩ := txCheckAckLoop_chain h p.xTCPSegments
      w.xTxSegments p w w.tx.ulCurrentSequenceNumber d 0 hmod.symm rfl (fun _ _ => rfl) hch hT
      (by omega) (by omega) hnd hfl hna
    rw [hmod] at k4 k5 k6 k7 k8
    exact ⟨k, k1, k2, k3, by rw [k4]; omega, k5, k6, k7, k8⟩
  refine ⟨hpart, ?_⟩
  rcases Nat.eq_zero_or_pos (rxChainLength p.xTCPSegments w.xTxSegments) with h0 | hpos
  · have hnil : w.xTxSegments = [] := by
      cases hl : w.xTxSegments with
      | nil => rfl
      | cons i rest =>
        rw [hl] at hch h0
        obtain ⟨-, c2, -⟩ := hch
        simp only [rxChainLength, List.map_cons, List.sum_cons] at h0
        omega
    have hle : xSequenceLessThanOrEqual w.ulNextTxSequenceNumber
        w.tx.ulCurrentSequenceNumber = true := by
      rw [hnext, h0, xSequenceLessThanOrEqual_eq]
      simp only [decide_eq_true_eq, u32sub]
      omega
    rw [ulTCPWindowTxAck_old h p w _ hle, h0]
    exact ⟨rfl, by simp [xTCPWindowTxDone, hnil]⟩
  · obtain ⟨k, k1, k2, k3, k4, -, k6, -, -⟩ := hpart _ hpos (le_refl _)
    rw [← hnext] at k4 k6
    have hmono : ∀ n, rxChainLength p.xTCPSegments (w.xTxSegments.take n)
        ≤ rxChainLength p.xTCPSegments w.xTxSegments := by
      intro n
      exact List.Sublist.sum_le_sum ((List.take_sublist n _).map _) (fun _ _ => Nat.zero_le _)
    have hk : k = w.xTxSegments.length := by
      rcases Nat.lt_or_ge k w.xTxSegments.length with hlt | hge
      · have := k3 hlt
        have := hmono (k + 1)
        omega
      · omega
    rw [hk, List.take_length] at k4
    rw [hk, List.drop_length] at k6
    exact ⟨k4, by simp [xTCPWindowTxDone, k6]⟩

/-- Claim C16 at `sentWindow`, whose segments are `[2000, 3460)` and `[3460, 4920)`:
the acknowledgement of 4000 frees the first segment only and returns 1460, and the
acknowledgement of 4920 returns all 2920 bytes and leaves nothing to send. -/
theorem C16_cumulative_ack_whole_segments_witness :
    rxChain sentPool.xTCPSegments sentWindow.tx.ulCurrentSequenceNumber sentWindow.xTxSegments ∧
    rxChainLength sentPool.xTCPSegments sentWindow.xTxSegments = 2920 ∧
    sentWindow.ulNextTxSequenceNumber = 4920 ∧
    (ulTCPWindowTxAck demoHost sentPool sentWindow 4000).1 = 1460 ∧
    (ulTCPWindowTxAck demoHost sentPool sentWindow 4000).2.2.xTxSegments = [1] ∧
    ((ulTCPWindowTxAck demoHost sentPool sentWindow 4000).2.1.xTCPSegments 1).bAcked = false ∧
    ((ulTCPWindowTxAck demoHost sentPool sentWindow sentWindow.ulNextTxSequenceNumber).1
        = rxChainLength sentPool.xTCPSegments sentWindow.xTxSegments ∧
      xTCPWindowTxDone
        (ulTCPWindowTxAck demoHost sentPool sentWindow sentWindow.ulNextTxSequenceNumber).2.2
        = true) :=
  ⟨⟨by decide, by decide, by decide, by decide, trivial⟩, by decide, by decide, by decide,
    by decide, by decide,
    (C16_cumulative_ack_whole_segments demoHost sentPool sentWindow (by decide)
      ⟨by decide, by decide, by decide, by decide, trivial⟩ (by decide) (by decide) (by decide)
      (by decide) (by decide)).2⟩

/-! ## Fast retransmission -/

/-- What the loop of `prvTCPWindowFastRetransmit` does to the queues and to the visited
descriptors, when the wait queue holds no descriptor twice: the descriptors that
are due leave the wait queue and join the priority queue, in their order; a
descriptor that counts a duplicate acknowledgement has `ucDupAckCount` incremented
modulo 256 and, when it is due, `ucTransmitCount` set to 0; the other ones are as
before. -/
theorem fastRetransmitLoop_spec (ulFirst : Nat) (segs0 : Nat → TCPSegment) :
    ∀ (l : List Nat) (p : Pool) (w : TCPWindow) (pre : List Nat) (n : Nat),
      w.xWaitQueue = pre ++ l → (pre ++ l).Nodup → (∀ j ∈ l, p.xTCPSegments j = segs0 j) →
      (fastRetransmitLoop ulFirst l p w n).2.2
        = { w with
            xWaitQueue := pre ++ l.filter (fun j => !dueForFastRetransmit segs0 ulFirst j)
            xPriorityQueue := w.xPriorityQueue ++ l.filter (dueForFastRetransmit segs0 ulFirst) } ∧
      (∀ j ∈ l, countsDupAck segs0 ulFirst j = true →
        (fastRetransmitLoop ulFirst l p w n).2.1.xTCPSegments j
          = { segs0 j with
              ucDupAckCount := ((segs0 j).ucDupAckCount + 1) % 256
              ucTransmitCount :=
                if dueForFastRetransmit segs0 ulFirst j = true then 0
                else (segs0 j).ucTransmitCount }) ∧
      (∀ j ∈ l, countsDupAck segs0 ulFirst j = false →
        (fastRetransmitLoop ulFirst l p w n).2.1.xTCPSegments j = segs0 j) := by
  intro l
  induction l with
  | nil =>
    intro p w pre n hw _ _
    refine ⟨?_, fun j hj => absurd hj (List.not_mem_nil j),
      fun j hj => absurd hj (List.not_mem_nil j)⟩
    simp only [fastRetransmitLoop, List.filter_nil, List.append_nil]
    rw [← List.append_nil pre, ← hw]
  | cons i rest ih =>
    intro p w pre n hw hnd hsegs
    have hpi : p.xTCPSegments i = segs0 i := hsegs i (List.mem_cons_self _ _)
    have hnd' : (pre ++ [i] ++ rest).Nodup := by simpa using hnd
    have hirest : i ∉ rest := by
      have := (List.nodup_append.mp hnd).2.1
      exact (List.nodup_cons.mp this).1
    have hipre : i ∉ pre := by
      intro hm
      exact (List.nodup_append.mp hnd).2.2 hm (List.mem_cons_self _ _)
    have hframe := fun p' w' n' => (fastRetransmitLoop_frame ulFirst rest p' w' n').2.2.2.2.2.2.2.2
    by_cases hel : countsDupAck segs0 ulFirst i = true
    · have hel2 : (segs0 i).bAcked = false ∧
          xSequenceLessThan (segs0 i).ulSequenceNumber ulFirst = true := by
        simpa [countsDupAck] using hel
      by_cases hdue : ((segs0 i).ucDupAckCount + 1) % 256 = 3
      · have hdue2 : dueForFastRetransmit segs0 ulFirst i = true := by
          simp [dueForFastRetransmit, hel, hdue]
        have hstep : fastRetransmitLoop ulFirst (i :: rest) p w n
            = fastRetransmitLoop ulFirst rest
                (p.setSegment i { segs0 i with
                  ucDupAckCount := ((segs0 i).ucDupAckCount + 1) % 256
                  ucTransmitCount := 0 })
                { w with
                  xWaitQueue := uxListRemove w.xWaitQueue i
                  xPriorityQueue := vListInsertFifo w.xPriorityQueue i }
                (u32add n 1) := by
          simp only [fastRetransmitLoop, hpi, hel2, and_self, if_true, hdue,
            DUPLICATE_ACKS_BEFORE_FAST_RETRANSMIT]
        rw [hstep]
        have hwq : uxListRemove w.xWaitQueue i = pre ++ rest := by
          rw [hw]
          unfold uxListRemove
          rw [List.erase_append_right _ hipre, List.erase_cons_head]
        obtain ⟨i1, i2, i3⟩ := ih
          (p.setSegment i { segs0 i with
            ucDupAckCount := ((segs0 i).ucDupAckCount + 1) % 256
            ucTransmitCount := 0 })
          { w with
            xWaitQueue := uxListRemove w.xWaitQueue i
            xPriorityQueue := vListInsertFifo w.xPriorityQueue i }
          pre (u32add n 1) hwq
          (by
            have := hnd
            rw [List.nodup_append] at this ⊢
            exact ⟨this.1, (List.nodup_cons.mp this.2.1).2,
              fun a ha hb => this.2.2 ha (List.mem_cons_of_mem _ hb)⟩)
          (fun j hj => by
            have hji : j ≠ i := fun e => hirest (e ▸ hj)
            simp only [Pool.setSegment, Function.update, hji, dif_neg, not_false_eq_true]
            exact hsegs j (List.mem_cons_of_mem _ hj))
        refine ⟨?_, ?_, ?_⟩
        · rw [i1]
          simp [List.filter_cons, hdue2, vListInsertFifo]
        · intro j hj hcj
          rcases List.mem_cons.mp hj with e | hm
          · subst e
            rw [hframe _ _ _ j hirest]
            simp [Pool.setSegment, hdue2]
          · exact i2 j hm hcj
        · intro j hj hcj
          rcases List.mem_cons.mp hj with e | hm
          · subst e; rw [hel] at hcj; cases hcj
          · exact i3 j hm hcj
      · have hdue2 : dueForFastRetransmit segs0 ulFirst i = false := by
          simp [dueForFastRetransmit, hel, hdue]
        have hstep : fastRetransmitLoop ulFirst (i :: rest) p w n
            = fastRetransmitLoop ulFirst rest
                (p.setSegment i { segs0 i with
                  ucDupAckCount := ((segs0 i).ucDupAckCount + 1) % 256 })
                w n := by
          simp only [fastRetransmitLoop, hpi, hel2, and_self, if_true, hdue, if_false,
            DUPLICATE_ACKS_BEFORE_FAST_RETRANSMIT]
        rw [hstep]
        obtain ⟨i1, i2, i3⟩ := ih
          (p.setSegment i { segs0 i with
            ucDupAckCount := ((segs0 i).ucDupAckCount + 1) % 256 })
          w (pre ++ [i]) n (by rw [hw]; simp) hnd'
          (fun j hj => by
            have hji : j ≠ i := fun e => hirest (e ▸ hj)
            simp only [Pool.setSegment, Function.update, hji, dif_neg, not_false_eq_true]
            exact hsegs j (List.mem_cons_of_mem _ hj))
        refine ⟨?_, ?_, ?_⟩
        · rw [i1]
          simp [List.filter_cons, hdue2]
        · intro j hj hcj
          rcases List.mem_cons.mp hj with e | hm
          · subst e
            rw [hframe _ _ _ j hirest]
            simp [Pool.setSegment, hdue2]
          · exact i2 j hm hcj
        · intro j hj hcj
          rcases List.mem_cons.mp hj with e | hm
          · subst e; rw [hel] at hcj; cases hcj
          · exact i3 j hm hcj
    · have hel1 : countsDupAck segs0 ulFirst i = false := by simpa using hel
      have hdue2 : dueForFastRetransmit segs0 ulFirst i = false := by
        simp [dueForFastRetransmit, hel1]
      have hel2 : ¬ ((segs0 i).bAcked = false ∧
          xSequenceLessThan (segs0 i).ulSequenceNumber ulFirst = true) := by
        simpa [countsDupAck] using hel1
      have hstep : fastRetransmitLoop ulFirst (i :: rest) p w n
          = fastRetransmitLoop ulFirst rest p w n := by
        simp only [fastRetransmitLoop, hpi, hel2, if_false]
      rw [hstep]
      obtain ⟨i1, i2, i3⟩ := ih p w (pre ++ [i]) n (by rw [hw]; simp) hnd'
        (fun j hj => hsegs j (List.mem_cons_of_mem _ hj))
      refine ⟨?_, ?_, ?_⟩
      · rw [i1]
        simp [List.filter_cons, hdue2]
      · intro j hj hcj
        rcases List.mem_cons.mp hj with e | hm
        · subst e; rw [hel1] at hcj; cases hcj
        · exact i2 j hm hcj
      · intro j hj hcj
        rcases List.mem_cons.mp hj with e | hm
        · subst e
          rw [hframe _ _ _ j hirest]
          exact hpi
        · exact i3 j hm hcj

/-- A walk of `prvTCPWindowTxCheckAck` that starts after the segment `a`.  Let no
visited descriptor have the sequence number `tx.ulCurrentSequenceNumber`, let the
walk be `σ` bytes after `ulFirst`, let `ulFirst` be after the sequence number of `a`
by at most `2^31`, and let the visited descriptors be distinct and hold fewer than
`2^31` bytes together with `σ`.  Then the walk leaves `a` as it is and in the wait
queue, removes descriptors from the wait queue without reordering it, and changes
no field of any descriptor but `bAcked`. -/
theorem txCheckAckLoop_below (h : Host) (ulLast ulFirst a : Nat) :
    ∀ (l : List Nat) (p : Pool) (w : TCPWindow) (c b σ : Nat),
      (∀ j ∈ l, (p.xTCPSegments j).ulSequenceNumber ≠ w.tx.ulCurrentSequenceNumber) →
      c = (ulFirst + σ) % 4294967296 →
      σ + (l.map (fun j => toUInt32 (p.xTCPSegments j).lDataLength)).sum < 2147483648 →
      1 ≤ u32sub ulFirst (p.xTCPSegments a).ulSequenceNumber →
      u32sub ulFirst (p.xTCPSegments a).ulSequenceNumber ≤ 2147483648 → l.Nodup →
      (txCheckAckLoop h ulLast l p w c b).2.1.xTCPSegments a = p.xTCPSegments a ∧
      (a ∈ w.xWaitQueue → a ∈ (txCheckAckLoop h ulLast l p w c b).2.2.xWaitQueue) ∧
      (txCheckAckLoop h ulLast l p w c b).2.2.xWaitQueue.Sublist w.xWaitQueue ∧
      (∀ j, (txCheckAckLoop h ulLast l p w c b).2.1.xTCPSegments j
        = { p.xTCPSegments j with
            bAcked := ((txCheckAckLoop h ulLast l p w c b).2.1.xTCPSegments j).bAcked }) := by
  intro l
  induction l with
  | nil =>
    intro p w c b σ _ _ _ _ _ _
    exact ⟨rfl, fun ha => ha, List.Sublist.refl _, fun _ => rfl⟩
  | cons i rest ih =>
    intro p w c b σ hne hc hσ hδ1 hδ2 hnd
    have hnd2 : rest.Nodup := (List.nodup_cons.mp hnd).2
    have hi : i ∉ rest := (List.nodup_cons.mp hnd).1
    simp only [List.map_cons, List.sum_cons] at hσ
    have hstop : p.xTCPSegments a = p.xTCPSegments a ∧
        (a ∈ w.xWaitQueue → a ∈ w.xWaitQueue) ∧ w.xWaitQueue.Sublist w.xWaitQueue ∧
        (∀ j, p.xTCPSegments j
          = { p.xTCPSegments j with bAcked := (p.xTCPSegments j).bAcked }) :=
      ⟨rfl, fun ha => ha, List.Sublist.refl _, fun _ => rfl⟩
    cases hlt : xSequenceLessThan c ulLast with
    | false => rw [txCheckAckLoop_stop h ulLast _ p w c b hlt]; exact hstop
    | true =>
      rw [txCheckAckLoop_cons h ulLast i rest p w c b hlt]
      split
      · exact ih p w c b σ (fun j hj => hne j (List.mem_cons_of_mem _ hj)) hc (by omega)
          hδ1 hδ2 hnd2
      · split
        · exact hstop
        · split
          · exact hstop
          · rename_i hcs _
            have hcs2 : c = (p.xTCPSegments i).ulSequenceNumber := by
              by_contra hx; exact hcs hx
            have hcur : c ≠ w.tx.ulCurrentSequenceNumber := by
              rw [hcs2]; exact hne i (List.mem_cons_self _ _)
            have hia : i ≠ a := by
              intro e
              subst e
              rw [← hcs2, hc] at hδ1 hδ2
              simp only [u32sub] at hδ1 hδ2
              omega
            obtain ⟨-, g2, -, -, -, -, -, g8, -, g10, g11⟩ :=
              txCheckAck_confirm_keep h ulLast p w i c b hcur
            obtain ⟨i1, i2, i3, i4⟩ := ih (txCheckAck_confirm h ulLast p w i c b).2.1
              (txCheckAck_confirm h ulLast p w i c b).2.2
              (u32add c (toUInt32 (p.xTCPSegments i).lDataLength))
              (txCheckAck_confirm h ulLast p w i c b).1
              (σ + toUInt32 (p.xTCPSegments i).lDataLength)
              (fun j hj => by
                have hji : j ≠ i := fun e => hi (e ▸ hj)
                rw [g2, g11 j hji]; exact hne j (List.mem_cons_of_mem _ hj))
              (by rw [hc]; unfold u32add; omega)
              (by
                have hmap : rest.map (fun j =>
                      toUInt32 ((txCheckAck_confirm h ulLast p w i c b).2.1.xTCPSegments j).lDataLength)
                    = rest.map (fun j => toUInt32 (p.xTCPSegments j).lDataLength) := by
                  apply List.map_congr_left
                  intro j hj
                  have hji : j ≠ i := fun e => hi (e ▸ hj)
                  rw [g11 j hji]
                rw [hmap]; omega)
              (by rw [g11 a (Ne.symm hia)]; exact hδ1)
              (by rw [g11 a (Ne.symm hia)]; exact hδ2) hnd2
            have hsub : (txCheckAck_confirm h ulLast p w i c b).2.2.xWaitQueue.Sublist
                w.xWaitQueue := by
              rw [g8]
              split
              · exact List.erase_sublist _ _
              · exact List.Sublist.refl _
            refine ⟨i1.trans (g11 a (Ne.symm hia)), fun ha => i2 ?_, i3.trans hsub, ?_⟩
            · rw [g8]
              split
              · exact (List.mem_erase_of_ne (Ne.symm hia)).mpr ha
              · exact ha
            · intro j
              rw [i4 j]
              by_cases hji : j = i
              · subst hji; rw [g10]
              · rw [g11 j hji]

/-- A run of segments depends on the sequence numbers and the lengths only. -/
theorem rxChain_congr (segs segs' : Nat → TCPSegment) :
    ∀ (l : List Nat) (start : Nat),
      (∀ j ∈ l, (segs' j).ulSequenceNumber = (segs j).ulSequenceNumber ∧
        (segs' j).lDataLength = (segs j).lDataLength) →
      rxChain segs start l → rxChain segs' start l ∧
        rxChainLength segs' l = rxChainLength segs l := by
  intro l
  induction l with
  | nil => intro _ _ _; exact ⟨trivial, rfl⟩
  | cons i rest ih =>
    intro start heq hch
    obtain ⟨c1, c2, c3⟩ := hch
    obtain ⟨e1, e2⟩ := heq i (List.mem_cons_self _ _)
    obtain ⟨i1, i2⟩ := ih _ (fun j hj => heq j (List.mem_cons_of_mem _ hj)) c3
    refine ⟨⟨by rw [e1]; exact c1, by rw [e2]; exact c2, by rw [e2]; exact i1⟩, ?_⟩
    simp only [rxChainLength, List.map_cons, List.sum_cons] at i2 ⊢
    rw [e2, i2]

/-- One selective acknowledgement that starts after the waiting segment `a`: the walk
of `prvTCPWindowTxCheckAck` leaves `a` alone, and `prvTCPWindowFastRetransmit`
increments its `ucDupAckCount` modulo 256.  When the new count is 3 the segment is
in the priority queue with `ucTransmitCount = 0`; otherwise it still waits for its
acknowledgement. -/
theorem ulTCPWindowTxSack_above (h : Host) (p : Pool) (w : TCPWindow) (a ulFirst ulLast : Nat)
    (hinv : awaitsAck p w a) (hf32 : ulFirst < 4294967296)
    (habove : xSequenceLessThan (p.xTCPSegments a).ulSequenceNumber ulFirst = true) :
    (ulTCPWindowTxSack h p w ulFirst ulLast).2.1.xTCPSegments a
      = { p.xTCPSegments a with
          ucDupAckCount := ((p.xTCPSegments a).ucDupAckCount + 1) % 256
          ucTransmitCount :=
            if ((p.xTCPSegments a).ucDupAckCount + 1) % 256 = 3 then 0
            else (p.xTCPSegments a).ucTransmitCount } ∧
    (((p.xTCPSegments a).ucDupAckCount + 1) % 256 = 3 →
      a ∈ (ulTCPWindowTxSack h p w ulFirst ulLast).2.2.xPriorityQueue) ∧
    (((p.xTCPSegments a).ucDupAckCount + 1) % 256 ≠ 3 →
      awaitsAck (ulTCPWindowTxSack h p w ulFirst ulLast).2.1
        (ulTCPWindowTxSack h p w ulFirst ulLast).2.2 a) := by
  obtain ⟨hcur, hch, hT, hnd, hatx, hawait, hwnd, hack⟩ := hinv
  -- how far `ulFirst` is after `a`
  obtain ⟨o, ho1, ho2, ho3⟩ := rxChain_offset _ _ _ hch a hatx
  rw [xSequenceLessThan_eq] at habove
  simp only [decide_eq_true_eq] at habove
  have hδ1 : 1 ≤ u32sub ulFirst (p.xTCPSegments a).ulSequenceNumber := by
    simp only [u32sub, u32add] at habove ⊢; omega
  have hδ2 : u32sub ulFirst (p.xTCPSegments a).ulSequenceNumber ≤ 2147483648 := by
    simp only [u32sub, u32add] at habove ⊢; omega
  have hfirst : ulFirst ≠ w.tx.ulCurrentSequenceNumber := by
    intro e
    rw [e, ho1] at hδ1 hδ2
    simp only [u32sub] at hδ1 hδ2
    omega
  -- the walk
  have hwalk : (prvTCPWindowTxCheckAck h p w ulFirst ulLast).2.1.xTCPSegments a
        = p.xTCPSegments a ∧
      a ∈ (prvTCPWindowTxCheckAck h p w ulFirst ulLast).2.2.xWaitQueue ∧
      (prvTCPWindowTxCheckAck h p w ulFirst ulLast).2.2.xWaitQueue.Sublist w.xWaitQueue ∧
      (∀ j, (prvTCPWindowTxCheckAck h p w ulFirst ulLast).2.1.xTCPSegments j
        = { p.xTCPSegments j with
            bAcked := ((prvTCPWindowTxCheckAck h p w ulFirst ulLast).2.1.xTCPSegments j).bAcked }) ∧
      (prvTCPWindowTxCheckAck h p w ulFirst ulLast).2.2.tx = w.tx ∧
      (prvTCPWindowTxCheckAck h p w ulFirst ulLast).2.2.xTxSegments = w.xTxSegments := by
    unfold prvTCPWindowTxCheckAck
    cases hl : w.xTxSegments with
    | nil => rw [hl] at hatx; cases hatx
    | cons i rest =>
      have hstop : p.xTCPSegments a = p.xTCPSegments a ∧ a ∈ w.xWaitQueue ∧
          w.xWaitQueue.Sublist w.xWaitQueue ∧
          (∀ j, p.xTCPSegments j
            = { p.xTCPSegments j with bAcked := (p.xTCPSegments j).bAcked }) ∧
          w.tx = w.tx ∧ w.xTxSegments = i :: rest :=
        ⟨rfl, hawait, List.Sublist.refl _, fun _ => rfl, rfl, hl⟩
      rw [hl] at hch hT hnd
      have htail := rxChain_tail_ne_start _ i rest _ hch (by omega)
      have hhead : (p.xTCPSegments i).ulSequenceNumber = w.tx.ulCurrentSequenceNumber := by
        rw [hch.1]; exact Nat.mod_eq_of_lt hcur
      cases hlt : xSequenceLessThan ulFirst ulLast with
      | false =>
        rw [txCheckAckLoop_stop h ulLast _ p w ulFirst 0 hlt]
        exact hstop
      | true =>
        rw [txCheckAckLoop_cons h ulLast i rest p w ulFirst 0 hlt]
        split
        · have hsum : (rest.map (fun j => toUInt32 (p.xTCPSegments j).lDataLength)).sum
              = rxChainLength p.xTCPSegments rest := by
            have hsplit : rxChainLength p.xTCPSegments (i :: rest)
                = (p.xTCPSegments i).lDataLength.toNat + rxChainLength p.xTCPSegments rest := by
              simp [rxChainLength]
            exact rxChain_lengths _ rest _ hch.2.2 (by omega)
          have hsplit : rxChainLength p.xTCPSegments (i :: rest)
              = (p.xTCPSegments i).lDataLength.toNat + rxChainLength p.xTCPSegments rest := by
            simp [rxChainLength]
          obtain ⟨b1, b2, b3, b4⟩ := txCheckAckLoop_below h ulLast ulFirst a rest p w ulFirst 0 0
            htail (by omega) (by rw [hsum]; omega) hδ1 hδ2 (List.nodup_cons.mp hnd).2
          obtain ⟨-, n2, -, n4, -⟩ := txCheckAckLoop_no_free h ulLast rest p w ulFirst 0 htail
          exact ⟨b1, b2 hawait, b3, b4, n2, n4.trans hl⟩
        · rw [if_pos (by rw [hhead]; exact hfirst)]
          exact hstop
  obtain ⟨q1, q2, q3, q4, q5, q6⟩ := hwalk
  have hqnd : (prvTCPWindowTxCheckAck h p w ulFirst ulLast).2.2.xWaitQueue.Nodup :=
    q3.nodup hwnd
  -- the fast retransmission
  obtain ⟨f1, f2, -⟩ := fastRetransmitLoop_spec ulFirst
    (prvTCPWindowTxCheckAck h p w ulFirst ulLast).2.1.xTCPSegments
    (prvTCPWindowTxCheckAck h p w ulFirst ulLast).2.2.xWaitQueue
    (prvTCPWindowTxCheckAck h p w ulFirst ulLast).2.1
    (prvTCPWindowTxCheckAck h p w ulFirst ulLast).2.2 [] 0 rfl hqnd (fun _ _ => rfl)
  obtain ⟨-, -, -, -, -, -, -, f8, -⟩ := fastRetransmitLoop_frame ulFirst
    (prvTCPWindowTxCheckAck h p w ulFirst ulLast).2.2.xWaitQueue
    (prvTCPWindowTxCheckAck h p w ulFirst ulLast).2.1
    (prvTCPWindowTxCheckAck h p w ulFirst ulLast).2.2 0
  have hcount : countsDupAck (prvTCPWindowTxCheckAck h p w ulFirst ulLast).2.1.xTCPSegments
      ulFirst a = true := by
    simp only [countsDupAck, q1, hack, beq_self_eq_true, Bool.true_and]
    rw [xSequenceLessThan_eq]
    simpa using habove
  have hdue : dueForFastRetransmit (prvTCPWindowTxCheckAck h p w ulFirst ulLast).2.1.xTCPSegments
      ulFirst a = decide (((p.xTCPSegments a).ucDupAckCount + 1) % 256 = 3) := by
    simp only [dueForFastRetransmit, hcount, Bool.true_and, q1]
    by_cases h3 : ((p.xTCPSegments a).ucDupAckCount + 1) % 256 = 3 <;> simp [h3]
  have hseg := f2 a q2 hcount
  rw [hdue, q1] at hseg
  have hres : (ulTCPWindowTxSack h p w ulFirst ulLast).2.1
      = (fastRetransmitLoop ulFirst (prvTCPWindowTxCheckAck h p w ulFirst ulLast).2.2.xWaitQueue
          (prvTCPWindowTxCheckAck h p w ulFirst ulLast).2.1
          (prvTCPWindowTxCheckAck h p w ulFirst ulLast).2.2 0).2.1 := rfl
  have hresw : (ulTCPWindowTxSack h p w ulFirst ulLast).2.2
      = (fastRetransmitLoop ulFirst (prvTCPWindowTxCheckAck h p w ulFirst ulLast).2.2.xWaitQueue
          (prvTCPWindowTxCheckAck h p w ulFirst ulLast).2.1
          (prvTCPWindowTxCheckAck h p w ulFirst ulLast).2.2 0).2.2 := rfl
  rw [hres, hresw]
  refine ⟨?_, ?_, ?_⟩
  · rw [hseg]
    simp only [decide_eq_true_eq]
  · intro h3
    rw [f1]
    simp only [List.nil_append]
    apply List.mem_append_right
    rw [List.mem_filter]
    exact ⟨q2, by rw [hdue]; simpa using h3⟩
  · intro h3
    have hsegs : ∀ j, ((fastRetransmitLoop ulFirst
          (prvTCPWindowTxCheckAck h p w ulFirst ulLast).2.2.xWaitQueue
          (prvTCPWindowTxCheckAck h p w ulFirst ulLast).2.1
          (prvTCPWindowTxCheckAck h p w ulFirst ulLast).2.2 0).2.1.xTCPSegments j).ulSequenceNumber
            = (p.xTCPSegments j).ulSequenceNumber ∧
        ((fastRetransmitLoop ulFirst
          (prvTCPWindowTxCheckAck h p w ulFirst ulLast).2.2.xWaitQueue
          (prvTCPWindowTxCheckAck h p w ulFirst ulLast).2.1
          (prvTCPWindowTxCheckAck h p w ulFirst ulLast).2.2 0).2.1.xTCPSegments j).lDataLength
            = (p.xTCPSegments j).lDataLength := by
      intro j
      rw [f8 j, q4 j]
      exact ⟨rfl, rfl⟩
    obtain ⟨c1, c2⟩ := rxChain_congr p.xTCPSegments _ w.xTxSegments _
      (fun j _ => hsegs j) hch
    rw [f1]
    refine ⟨by simpa [q5] using hcur, by simpa [q5, q6] using c1,
      by simpa [q6] using (c2 ▸ hT), by simpa [q6] using hnd, by simpa [q6] using hatx,
      ?_, ?_, ?_⟩
    · simp only [List.nil_append]
      rw [List.mem_filter]
      exact ⟨q2, by rw [hdue]; simpa using h3⟩
    · simp only [List.nil_append]
      exact hqnd.filter _
    · rw [hseg]
      exact hack

/-- The head of the priority queue is what `ulTCPWindowTxGet` emits. -/
theorem ulTCPWindowTxGet_priority_head (h : Host) (p : Pool) (w : TCPWindow)
    (ulWindowSize i : Nat) (hhead : w.xPriorityQueue.head? = some i) :
    (ulTCPWindowTxGet h p w ulWindowSize).1 = toUInt32 (p.xTCPSegments i).lDataLength ∧
    (ulTCPWindowTxGet h p w ulWindowSize).2.1 = some (p.xTCPSegments i).lStreamPos := by
  cases hq : w.xPriorityQueue with
  | nil => rw [hq] at hhead; cases hhead
  | cons b rest =>
    rw [hq] at hhead
    have hb : b = i := by simpa using hhead
    subst hb
    constructor
    · simp only [ulTCPWindowTxGet, hq, ulTCPWindowTxGet_emit]
    · simp only [ulTCPWindowTxGet, hq, ulTCPWindowTxGet_emit]

/-- Claim C18, amended.  For a wait queue that holds no descriptor twice,
`prvTCPWindowFastRetransmit` increments `ucDupAckCount`, modulo 256, of exactly the
descriptors of the wait queue that are not flagged as acknowledged and have a
sequence number before `ulFirst`; those whose count becomes 3 get
`ucTransmitCount = 0`, leave the wait queue and are appended to the priority queue,
in their order, with the count left at 3; everything else is as before.  Hence a
segment that waits for its acknowledgement with `ucDupAckCount = 0` is, after three
calls of `ulTCPWindowTxSack` for ranges that start after it, in the priority queue
with `ucTransmitCount = 0` and `ucDupAckCount = 3`, and the next call of
`ulTCPWindowTxGet` emits it when it is the head of the priority queue. -/
theorem C18_fast_retransmit (p : Pool) (w : TCPWindow) :
    (∀ ulFirst, w.xWaitQueue.Nodup →
      (prvTCPWindowFastRetransmit p w ulFirst).2.2
        = { w with
            xWaitQueue :=
              w.xWaitQueue.filter (fun j => !dueForFastRetransmit p.xTCPSegments ulFirst j)
            xPriorityQueue :=
              w.xPriorityQueue
                ++ w.xWaitQueue.filter (dueForFastRetransmit p.xTCPSegments ulFirst) } ∧
      (prvTCPWindowFastRetransmit p w ulFirst).2.1.xSegmentList = p.xSegmentList ∧
      (∀ j, j ∈ w.xWaitQueue → countsDupAck p.xTCPSegments ulFirst j = true →
        (prvTCPWindowFastRetransmit p w ulFirst).2.1.xTCPSegments j
          = { p.xTCPSegments j with
              ucDupAckCount := ((p.xTCPSegments j).ucDupAckCount + 1) % 256
              ucTransmitCount :=
                if dueForFastRetransmit p.xTCPSegments ulFirst j = true then 0
                else (p.xTCPSegments j).ucTransmitCount }) ∧
      (∀ j, ¬ (j ∈ w.xWaitQueue ∧ countsDupAck p.xTCPSegments ulFirst j = true) →
        (prvTCPWindowFastRetransmit p w ulFirst).2.1.xTCPSegments j = p.xTCPSegments j)) ∧
    (∀ (h1 h2 h3 h4 : Host) (a f1 l1 f2 l2 f3 l3 ulWindowSize : Nat),
      awaitsAck p w a → (p.xTCPSegments a).ucDupAckCount = 0 →
      f1 < 4294967296 → f2 < 4294967296 → f3 < 4294967296 →
      xSequenceLessThan (p.xTCPSegments a).ulSequenceNumber f1 = true →
      xSequenceLessThan (p.xTCPSegments a).ulSequenceNumber f2 = true →
      xSequenceLessThan (p.xTCPSegments a).ulSequenceNumber f3 = true →
      let r1 := ulTCPWindowTxSack h1 p w f1 l1
      let r2 := ulTCPWindowTxSack h2 r1.2.1 r1.2.2 f2 l2
      let r3 := ulTCPWindowTxSack h3 r2.2.1 r2.2.2 f3 l3
      a ∈ r3.2.2.xPriorityQueue ∧
      r3.2.1.xTCPSegments a
        = { p.xTCPSegments a with ucDupAckCount := 3, ucTransmitCount := 0 } ∧
      (r3.2.2.xPriorityQueue.head? = some a →
        (ulTCPWindowTxGet h4 r3.2.1 r3.2.2 ulWindowSize).1
          = toUInt32 (p.xTCPSegments a).lDataLength ∧
        (ulTCPWindowTxGet h4 r3.2.1 r3.2.2 ulWindowSize).2.1
          = some (p.xTCPSegments a).lStreamPos)) := by
  constructor
  · intro ulFirst hnd
    obtain ⟨f1, f2, f3⟩ := fastRetransmitLoop_spec ulFirst p.xTCPSegments w.xWaitQueue p w [] 0
      rfl hnd (fun _ _ => rfl)
    obtain ⟨g1, -, -, -, -, -, -, -, g9⟩ := fastRetransmitLoop_frame ulFirst w.xWaitQueue p w 0
    unfold prvTCPWindowFastRetransmit
    refine ⟨by rw [f1]; rfl, g1, f2, ?_⟩
    intro j hj
    by_cases hm : j ∈ w.xWaitQueue
    · have hc : countsDupAck p.xTCPSegments ulFirst j = false := by
        cases hcj : countsDupAck p.xTCPSegments ulFirst j with
        | false => rfl
        | true => exact absurd ⟨hm, hcj⟩ hj
      exact f3 j hm hc
    · exact g9 j hm
  · intro h1 h2 h3 h4 a f1 l1 f2 l2 f3 l3 ulWindowSize hinv hdup hf1 hf2 hf3 ha1 ha2 ha3
    intro r1 r2 r3
    -- first selective acknowledgement: the count becomes 1
    obtain ⟨s1, -, t1⟩ := ulTCPWindowTxSack_above h1 p w a f1 l1 hinv hf1 ha1
    have hinv1 : awaitsAck r1.2.1 r1.2.2 a := t1 (by rw [hdup]; decide)
    have hseg1 : r1.2.1.xTCPSegments a = { p.xTCPSegments a with ucDupAckCount := 1 } := by
      show (ulTCPWindowTxSack h1 p w f1 l1).2.1.xTCPSegments a = _
      rw [s1, hdup]
      rfl
    -- second one: the count becomes 2
    obtain ⟨s2, -, t2⟩ := ulTCPWindowTxSack_above h2 r1.2.1 r1.2.2 a f2 l2 hinv1 hf2
      (by rw [hseg1]; exact ha2)
    have hinv2 : awaitsAck r2.2.1 r2.2.2 a := t2 (by rw [hseg1]; simp)
    have hseg2 : r2.2.1.xTCPSegments a = { p.xTCPSegments a with ucDupAckCount := 2 } := by
      show (ulTCPWindowTxSack h2 r1.2.1 r1.2.2 f2 l2).2.1.xTCPSegments a = _
      rw [s2, hseg1]
      rfl
    -- third one: the count becomes 3
    obtain ⟨s3, u3, -⟩ := ulTCPWindowTxSack_above h3 r2.2.1 r2.2.2 a f3 l3 hinv2 hf3
      (by rw [hseg2]; exact ha3)
    have hseg3 : r3.2.1.xTCPSegments a
        = { p.xTCPSegments a with ucDupAckCount := 3, ucTransmitCount := 0 } := by
      show (ulTCPWindowTxSack h3 r2.2.1 r2.2.2 f3 l3).2.1.xTCPSegments a = _
      rw [s3, hseg2]
      rfl
    refine ⟨u3 (by rw [hseg2]; simp), hseg3, ?_⟩
    intro hhead
    obtain ⟨e1, e2⟩ := ulTCPWindowTxGet_priority_head h4 r3.2.1 r3.2.2 ulWindowSize a hhead
    rw [hseg3] at e1 e2
    exact ⟨e1, e2⟩

/-- Claim C18 (amended) on scenario S5: in `sentWindow`, three selective
acknowledgements of `[3460, 4920)` move descriptor 0, the segment `[2000, 3460)`, to
the head of the priority queue with `ucTransmitCount = 0` and `ucDupAckCount = 3`,
and the next `ulTCPWindowTxGet` emits its 1460 bytes at position 0, whatever the
peer window. -/
theorem C18_fast_retransmit_witness :
    awaitsAck sentPool sentWindow 0 ∧ (sentPool.xTCPSegments 0).ucDupAckCount = 0 ∧
    xSequenceLessThan (sentPool.xTCPSegments 0).ulSequenceNumber 3460 = true ∧
    (sackThrice sentPool sentWindow).2.2.xPriorityQueue.head? = some 0 ∧
    (sackThrice sentPool sentWindow).2.2.xWaitQueue = [] ∧
    (ulTCPWindowTxGet demoHost (sackThrice sentPool sentWindow).2.1
        (sackThrice sentPool sentWindow).2.2 0).1 = 1460 ∧
    0 ∈ (sackThrice sentPool sentWindow).2.2.xPriorityQueue ∧
    (sackThrice sentPool sentWindow).2.1.xTCPSegments 0
      = { sentPool.xTCPSegments 0 with ucDupAckCount := 3, ucTransmitCount := 0 } ∧
    ((sackThrice sentPool sentWindow).2.2.xPriorityQueue.head? = some 0 →
      (ulTCPWindowTxGet demoHost (sackThrice sentPool sentWindow).2.1
          (sackThrice sentPool sentWindow).2.2 0).1
        = toUInt32 (sentPool.xTCPSegments 0).lDataLength ∧
      (ulTCPWindowTxGet demoHost (sackThrice sentPool sentWindow).2.1
          (sackThrice sentPool sentWindow).2.2 0).2.1
        = some (sentPool.xTCPSegments 0).lStreamPos) :=
  ⟨⟨by decide, ⟨by decide, by decide, by decide, by decide, trivial⟩, by decide, by decide,
      by decide, by decide, by decide, by decide⟩,
    by decide, by decide, by decide, by decide, by decide,
    (C18_fast_retransmit sentPool sentWindow).2 demoHost demoHost demoHost demoHost 0
      3460 4920 3460 4920 3460 4920 0
      ⟨by decide, ⟨by decide, by decide, by decide, by decide, trivial⟩, by decide, by decide,
        by decide, by decide, by decide, by decide⟩
      (by decide) (by decide) (by decide) (by decide) (by decide) (by decide) (by decide)⟩

/-- Claim C18 as stated fails for a segment that had a fast retransmission before.
In `resentRun` descriptor 0, the segment `[2000, 3460)`, was moved to the priority
queue by three selective acknowledgements and sent again; it waits for its
acknowledgement with `ucDupAckCount = 3`.  Three more selective acknowledgements of
`[3460, 4920)` raise the count to 6: the segment stays in the wait queue, the
priority queue is empty, and the next `ulTCPWindowTxGet` emits nothing. -/
theorem C18_counterexample :
    resentRun.2.2.2.xWaitQueue = [0] ∧
    (resentRun.2.2.1.xTCPSegments 0).bAcked = false ∧
    (resentRun.2.2.1.xTCPSegments 0).bOutstanding = true ∧
    (resentRun.2.2.1.xTCPSegments 0).ucDupAckCount = 3 ∧
    xSequenceLessThan (resentRun.2.2.1.xTCPSegments 0).ulSequenceNumber 3460 = true ∧
    (sackThrice resentRun.2.2.1 resentRun.2.2.2).2.2.xPriorityQueue = [] ∧
    (sackThrice resentRun.2.2.1 resentRun.2.2.2).2.2.xWaitQueue = [0] ∧
    ((sackThrice resentRun.2.2.1 resentRun.2.2.2).2.1.xTCPSegments 0).ucDupAckCount = 6 ∧
    (ulTCPWindowTxGet demoHost (sackThrice resentRun.2.2.1 resentRun.2.2.2).2.1
        (sackThrice resentRun.2.2.1 resentRun.2.2.2).2.2 65535).1 = 0 := by
  decide

/-! ## Conservation of the descriptors -/

/-- Freeing a descriptor of one of two lists moves it to the end of the free list:
together the three lists hold the same descriptors as before. -/
theorem perm_of_free (free tx rx free' tx' rx' : List Nat) (i : Nat)
    (hf : free' = free.erase i ++ [i]) (ht : tx' = tx.erase i) (hr : rx' = rx.erase i)
    (hi : i ∈ tx ++ rx) (hnd : (free ++ (tx ++ rx)).Nodup) :
    (free' ++ (tx' ++ rx')).Perm (free ++ (tx ++ rx)) := by
  have hfree : i ∉ free := fun hm => (List.nodup_append.mp hnd).2.2 hm hi
  have hnd2 : (tx ++ rx).Nodup := (List.nodup_append.mp hnd).2.1
  rw [hf, ht, hr, List.erase_of_not_mem hfree]
  rcases List.mem_append.mp hi with h1 | h1
  · have hrx : i ∉ rx := fun hm => (List.nodup_append.mp hnd2).2.2 h1 hm
    rw [List.erase_of_not_mem hrx]
    have h2 : (i :: (tx.erase i ++ rx)).Perm (tx ++ rx) :=
      ((List.perm_cons_erase h1).append_right rx).symm
    simpa using h2.append_left free
  · have htx : i ∉ tx := fun hm => (List.nodup_append.mp hnd2).2.2 hm h1
    rw [List.erase_of_not_mem htx]
    have h2 : (i :: (tx ++ rx.erase i)).Perm (tx ++ rx) :=
      (List.perm_middle.symm.trans ((List.perm_cons_erase h1).append_left tx).symm)
    simpa using h2.append_left free

/-- The function `vTCPWindowFree`, called for a descriptor the window holds, keeps
the descriptors of the free list and of the window together. -/
theorem vTCPWindowFree_conserves (p : Pool) (w : TCPWindow) (i : Nat)
    (hi : i ∈ heldSegments w) (hnd : (p.xSegmentList ++ heldSegments w).Nodup) :
    ((vTCPWindowFree p w i).1.xSegmentList ++ heldSegments (vTCPWindowFree p w i).2).Perm
      (p.xSegmentList ++ heldSegments w) :=
  perm_of_free _ _ _ _ _ _ i rfl rfl rfl hi hnd

/-- The function `xTCPWindowNew` keeps the descriptors of the free list and of the
window together. -/
theorem xTCPWindowNew_conserves (h : Host) (p : Pool) (w : TCPWindow) (seq : Nat) (cnt : Int)
    (xIsForRx : Bool) (r : Nat × Pool × TCPWindow)
    (hr : xTCPWindowNew h p w seq cnt xIsForRx = some r) :
    (r.2.1.xSegmentList ++ heldSegments r.2.2).Perm (p.xSegmentList ++ heldSegments w) := by
  unfold xTCPWindowNew at hr
  cases hl : p.xSegmentList with
  | nil => rw [hl] at hr; cases hr
  | cons i rest =>
    rw [hl] at hr
    simp only [Option.some.injEq] at hr
    subst hr
    cases xIsForRx
    · simp only [heldSegments, vListInsertFifo, Bool.false_eq_true, if_false]
      have h1 : (rest ++ ((w.xTxSegments ++ [i]) ++ w.xRxSegments)).Perm
          (i :: (rest ++ (w.xTxSegments ++ w.xRxSegments))) := by
        have : rest ++ ((w.xTxSegments ++ [i]) ++ w.xRxSegments)
            = (rest ++ w.xTxSegments) ++ i :: w.xRxSegments := by simp
        rw [this]
        exact List.perm_middle.trans (by simp)
      simpa using h1
    · simp only [heldSegments, vListInsertFifo, if_true]
      have h1 : (rest ++ (w.xTxSegments ++ (w.xRxSegments ++ [i]))).Perm
          (i :: (rest ++ (w.xTxSegments ++ w.xRxSegments))) := by
        have : rest ++ (w.xTxSegments ++ (w.xRxSegments ++ [i]))
            = (rest ++ (w.xTxSegments ++ w.xRxSegments)) ++ [i] := by simp
        rw [this]
        exact List.perm_append_singleton _ _
      simpa using h1

/-- Replacing one window of the system, and the free list with it, by lists that
hold the same descriptors keeps the descriptors of the system. -/
theorem flatten_set_perm :
    ∀ (ws : List TCPWindow) (k : Nat) (w w' : TCPWindow) (X X' : List Nat),
      ws[k]? = some w → (X' ++ heldSegments w').Perm (X ++ heldSegments w) →
      (X' ++ ((ws.set k w').map heldSegments).flatten).Perm
        (X ++ (ws.map heldSegments).flatten) := by
  intro ws
  induction ws with
  | nil => intro k w w' X X' hk _; simp at hk
  | cons v vs ih =>
    intro k w w' X X' hk hperm
    cases k with
    | zero =>
      simp only [List.getElem?_cons_zero, Option.some.injEq] at hk
      subst hk
      simp only [List.set_cons_zero, List.map_cons, List.flatten_cons]
      have := hperm.append_right (vs.map heldSegments).flatten
      simpa [List.append_assoc] using this
    | succ k =>
      simp only [List.getElem?_cons_succ] at hk
      have h1 := ih k w w' X X' hk hperm
      simp only [List.set_cons_succ, List.map_cons, List.flatten_cons]
      have h2 : (X' ++ (heldSegments v ++ ((vs.set k w').map heldSegments).flatten)).Perm
          (heldSegments v ++ (X' ++ ((vs.set k w').map heldSegments).flatten)) := by
        rw [← List.append_assoc, ← List.append_assoc]
        exact List.perm_append_comm.append_right _
      have h3 : (X ++ (heldSegments v ++ (vs.map heldSegments).flatten)).Perm
          (heldSegments v ++ (X ++ (vs.map heldSegments).flatten)) := by
        rw [← List.append_assoc, ← List.append_assoc]
        exact List.perm_append_comm.append_right _
      exact h2.trans ((h1.append_left _).trans h3.symm)

/-- The free list and the lists of one window hold no descriptor twice when the
lists of the system do not. -/
theorem nodup_of_allSegments (s : System) (k : Nat) (w : TCPWindow)
    (hk : s.windows[k]? = some w) (hnd : s.allSegments.Nodup) :
    (s.pool.xSegmentList ++ heldSegments w).Nodup := by
  have hm : heldSegments w ∈ s.windows.map heldSegments :=
    List.mem_map_of_mem _ (List.getElem?_mem hk)
  exact ((List.sublist_flatten_of_mem hm).append_left _).nodup hnd

/-- The loop `rxConfirmLoop` keeps the descriptors of the free list and of the
window together. -/
theorem rxConfirmLoop_conserves (seq len : Nat) (fuel : Nat) :
    ∀ (p : Pool) (w : TCPWindow) (p1 : Pool) (w1 : TCPWindow),
      (p.xSegmentList ++ heldSegments w).Nodup →
      rxConfirmLoop fuel p w seq len = some (p1, w1) →
      (p1.xSegmentList ++ heldSegments w1).Perm (p.xSegmentList ++ heldSegments w) := by
  induction fuel with
  | zero =>
    intro p w p1 w1 _ hr
    unfold rxConfirmLoop at hr
    split at hr
    · cases hr; exact List.Perm.refl _
    · cases hr
  | succ f ih =>
    intro p w p1 w1 hnd hr
    unfold rxConfirmLoop at hr
    split at hr
    · cases hr; exact List.Perm.refl _
    · rename_i i hi
      have hmem : i ∈ heldSegments w :=
        List.mem_append_right _ (xTCPWindowRxConfirm_mem hi)
      have h1 := vTCPWindowFree_conserves p w i hmem hnd
      exact (ih _ _ p1 w1 (h1.nodup_iff.mpr hnd) hr).trans h1

/-- The loop `rxAbsorbLoop` keeps the descriptors of the free list and of the window
together. -/
theorem rxAbsorbLoop_conserves (fuel : Nat) :
    ∀ (p : Pool) (w : TCPWindow) (cur : Nat) (p1 : Pool) (w1 : TCPWindow) (cur1 : Nat),
      (p.xSegmentList ++ heldSegments w).Nodup →
      rxAbsorbLoop fuel p w cur = some (p1, w1, cur1) →
      (p1.xSegmentList ++ heldSegments w1).Perm (p.xSegmentList ++ heldSegments w) := by
  induction fuel with
  | zero =>
    intro p w cur p1 w1 cur1 _ hr
    unfold rxAbsorbLoop at hr
    split at hr
    · cases hr; exact List.Perm.refl _
    · cases hr
  | succ f ih =>
    intro p w cur p1 w1 cur1 hnd hr
    unfold rxAbsorbLoop at hr
    split at hr
    · cases hr; exact List.Perm.refl _
    · rename_i i hi
      have hmem : i ∈ heldSegments w :=
        List.mem_append_right _ (xTCPWindowRxFind_mem hi)
      have h1 := vTCPWindowFree_conserves p w i hmem hnd
      exact (ih _ _ _ p1 w1 cur1 (h1.nodup_iff.mpr hnd) hr).trans h1

/-- The function `lTCPWindowRxCheck` keeps the descriptors of the free list and of
the window together. -/
theorem lTCPWindowRxCheck_conserves (fuel : Nat) (h : Host) (p : Pool) (w : TCPWindow)
    (seq len space : Nat) (r : Int × Pool × TCPWindow)
    (hnd : (p.xSegmentList ++ heldSegments w).Nodup)
    (hr : lTCPWindowRxCheck fuel h p w seq len space = some r) :
    (r.2.1.xSegmentList ++ heldSegments r.2.2).Perm (p.xSegmentList ++ heldSegments w) := by
  have hexp : ∀ (w0 : TCPWindow) (q : Pool × TCPWindow), heldSegments w0 = heldSegments w →
      prvTCPWindowRx_ExpectedRX fuel p w0 len = some q →
      (q.1.xSegmentList ++ heldSegments q.2).Perm (p.xSegmentList ++ heldSegments w) := by
    intro w0 q hw0 hq
    have hnd0 : (p.xSegmentList ++ heldSegments w0).Nodup := by rw [hw0]; exact hnd
    unfold prvTCPWindowRx_ExpectedRX at hq
    simp only at hq
    split at hq
    · split at hq
      · cases hq
      · rename_i p1 w1 h1
        split at hq
        · cases hq
        · rename_i p2 w2 cur2 h2
          have c1 := rxConfirmLoop_conserves _ _ fuel p w0 p1 w1 hnd0 h1
          have c2 := rxAbsorbLoop_conserves fuel p1 w1 _ p2 w2 cur2 (c1.nodup_iff.mpr hnd0) h2
          simp only [Option.some.injEq] at hq
          subst hq
          have hheld : ∀ (x : TCPWindow), heldSegments x = heldSegments w2 →
              (p2.xSegmentList ++ heldSegments x).Perm (p.xSegmentList ++ heldSegments w) := by
            intro x hx
            rw [hx, ← hw0]
            exact c2.trans c1
          apply hheld
          split <;> rfl
    · simp only [Option.some.injEq] at hq
      subst hq
      show (p.xSegmentList ++ heldSegments w0).Perm _
      rw [hw0]
  have hunexp : ∀ (w0 : TCPWindow) (q : Int × Pool × TCPWindow),
      heldSegments w0 = heldSegments w →
      prvTCPWindowRx_UnexpectedRX fuel h p w0 seq len = some q →
      (q.2.1.xSegmentList ++ heldSegments q.2.2).Perm (p.xSegmentList ++ heldSegments w) := by
    intro w0 q hw0 hq
    unfold prvTCPWindowRx_UnexpectedRX at hq
    simp only at hq
    split at hq
    · cases hq
    · split at hq
      · simp only [Option.some.injEq] at hq
        subst hq
        show (p.xSegmentList ++ heldSegments w0).Perm _
        rw [hw0]
      · split at hq
        · simp only [Option.some.injEq] at hq
          subst hq
          show (p.xSegmentList ++ heldSegments w0).Perm _
          rw [hw0]
        · rename_i i p2 w2 hnew
          simp only [Option.some.injEq] at hq
          subst hq
          have c := xTCPWindowNew_conserves _ _ _ _ _ _ _ hnew
          rw [← hw0]
          exact c
  unfold lTCPWindowRxCheck at hr
  simp only at hr
  have hsame : ∀ q : Int × Pool × TCPWindow,
      q = (-1, p, { w with ucOptionLength := 0, ulUserDataLength := 0 }) →
      (q.2.1.xSegmentList ++ heldSegments q.2.2).Perm (p.xSegmentList ++ heldSegments w) := by
    intro q hq; subst hq; exact List.Perm.refl _
  split at hr
  · split at hr
    · exact hsame r (Option.some.inj hr).symm
    · split at hr
      · cases hr
      · rename_i p1 w1 h1
        simp only [Option.some.injEq] at hr
        subst hr
        exact hexp { w with ucOptionLength := 0, ulUserDataLength := 0 } (p1, w1) rfl h1
  · split at hr
    · exact hsame r (Option.some.inj hr).symm
    · split at hr
      · exact hsame r (Option.some.inj hr).symm
      · split at hr
        · exact hsame r (Option.some.inj hr).symm
        · exact hunexp { w with ucOptionLength := 0, ulUserDataLength := 0 } r rfl hr

/-- The loop `txAddLoop` keeps the descriptors of the free list and of the window
together. -/
theorem txAddLoop_conserves (h : Host) (lMax : Int) (fuel : Nat) :
    ∀ (p : Pool) (w : TCPWindow) (left idx done : Int) (r : Int × Pool × TCPWindow),
      txAddLoop fuel h p w left idx lMax done = some r →
      (r.2.1.xSegmentList ++ heldSegments r.2.2).Perm (p.xSegmentList ++ heldSegments w) := by
  induction fuel with
  | zero =>
    intro p w left idx done r hr
    unfold txAddLoop at hr
    split at hr
    · cases hr
    · cases hr; exact List.Perm.refl _
  | succ f ih =>
    intro p w left idx done r hr
    unfold txAddLoop at hr
    split at hr
    · simp only at hr
      split at hr
      · cases hr; exact List.Perm.refl _
      · rename_i i p1 w1 hnew
        have c1 := xTCPWindowNew_conserves _ _ _ _ _ _ _ hnew
        have c2 := ih _ _ _ _ _ r hr
        have hstore : (txAddLoop_store p1 w1 i left idx).2.1.xSegmentList = p1.xSegmentList ∧
            heldSegments (txAddLoop_store p1 w1 i left idx).2.2 = heldSegments w1 :=
          ⟨rfl, rfl⟩
        rw [hstore.1, hstore.2] at c2
        exact c2.trans c1
    · cases hr; exact List.Perm.refl _

/-- The function `lTCPWindowTxAdd` keeps the descriptors of the free list and of the
window together. -/
theorem lTCPWindowTxAdd_conserves (fuel : Nat) (h : Host) (p : Pool) (w : TCPWindow)
    (ulLength : Nat) (lPosition lMax : Int) (r : Int × Pool × TCPWindow)
    (hr : lTCPWindowTxAdd fuel h p w ulLength lPosition lMax = some r) :
    (r.2.1.xSegmentList ++ heldSegments r.2.2).Perm (p.xSegmentList ++ heldSegments w) := by
  unfold lTCPWindowTxAdd at hr
  simp only at hr
  split at hr
  · exact txAddLoop_conserves h lMax fuel _ _ _ _ _ r hr
  · rename_i i _
    split at hr
    · have c := txAddLoop_conserves h lMax fuel _ _ _ _ _ r hr
      have hfront : (prvTCPWindowTxAdd_FrontSegment p w i (toInt32 ulLength)).2.1.xSegmentList
            = p.xSegmentList ∧
          heldSegments (prvTCPWindowTxAdd_FrontSegment p w i (toInt32 ulLength)).2.2
            = heldSegments w := by
        constructor
        · rfl
        · simp only [prvTCPWindowTxAdd_FrontSegment, heldSegments]
          split <;> rfl
      rw [hfront.1, hfront.2] at c
      exact c
    · exact txAddLoop_conserves h lMax fuel _ _ _ _ _ r hr

/-- The function `ulTCPWindowTxGet` changes neither the free list nor the segment
lists of the window. -/
theorem ulTCPWindowTxGet_lists (h : Host) (p : Pool) (w : TCPWindow) (ulWindowSize : Nat) :
    (ulTCPWindowTxGet h p w ulWindowSize).2.2.1.xSegmentList = p.xSegmentList ∧
    heldSegments (ulTCPWindowTxGet h p w ulWindowSize).2.2.2 = heldSegments w := by
  have hemit : ∀ (p1 : Pool) (w1 : TCPWindow) (i : Nat),
      (ulTCPWindowTxGet_emit h p1 w1 i).2.2.1.xSegmentList = p1.xSegmentList ∧
      heldSegments (ulTCPWindowTxGet_emit h p1 w1 i).2.2.2 = heldSegments w1 := by
    intro p1 w1 i
    constructor
    · rfl
    · simp only [ulTCPWindowTxGet_emit, heldSegments]
      split <;> rfl
  have hwaitq : ∀ (w0 : TCPWindow),
      (pxTCPWindowTx_GetWaitQueue h p w0).2.1.xSegmentList = p.xSegmentList ∧
      heldSegments (pxTCPWindowTx_GetWaitQueue h p w0).2.2 = heldSegments w0 := by
    intro w0
    unfold pxTCPWindowTx_GetWaitQueue
    split
    · exact ⟨rfl, rfl⟩
    · simp only
      split <;> exact ⟨rfl, rfl⟩
  unfold ulTCPWindowTxGet
  simp only
  split
  · exact hemit _ _ _
  · split
    · rename_i i p1 w1 heq
      have hw := hwaitq { w with ulOurSequenceNumber := w.tx.ulHighestSequenceNumber }
      rw [heq] at hw
      exact ⟨(hemit p1 w1 i).1.trans hw.1, (hemit p1 w1 i).2.trans hw.2⟩
    · rename_i p1 w1 heq
      have hw := hwaitq { w with ulOurSequenceNumber := w.tx.ulHighestSequenceNumber }
      rw [heq] at hw
      have hq := pxTCPWindowTx_GetTXQueue_lists p1 w1 ulWindowSize
      split
      · rename_i j w2 heq2
        rw [heq2] at hq
        exact ⟨(hemit p1 w2 j).1.trans hw.1, ((hemit p1 w2 j).2.trans hq).trans hw.2⟩
      · rename_i w2 heq2
        rw [heq2] at hq
        exact ⟨hw.1, hq.trans hw.2⟩

/-- The loop of `prvTCPWindowTxCheckAck` keeps the descriptors of the free list and of
the window together, when it visits distinct descriptors of `xTxSegments`. -/
theorem txCheckAckLoop_conserves (h : Host) (ulLast : Nat) :
    ∀ (l : List Nat) (p : Pool) (w : TCPWindow) (c b : Nat), l.Nodup →
      (∀ i ∈ l, i ∈ w.xTxSegments) → (p.xSegmentList ++ heldSegments w).Nodup →
      ((txCheckAckLoop h ulLast l p w c b).2.1.xSegmentList
          ++ heldSegments (txCheckAckLoop h ulLast l p w c b).2.2).Perm
        (p.xSegmentList ++ heldSegments w) := by
  intro l
  induction l with
  | nil => intro p w c b _ _ _; exact List.Perm.refl _
  | cons i rest ih =>
    intro p w c b hnd hsub hall
    have hnd2 : rest.Nodup := (List.nodup_cons.mp hnd).2
    have hi : i ∉ rest := (List.nodup_cons.mp hnd).1
    cases hlt : xSequenceLessThan c ulLast with
    | false => rw [txCheckAckLoop_stop h ulLast _ p w c b hlt]
    | true =>
      rw [txCheckAckLoop_cons h ulLast i rest p w c b hlt]
      split
      · exact ih p w c b hnd2 (fun j hj => hsub j (List.mem_cons_of_mem _ hj)) hall
      · split
        · exact List.Perm.refl _
        · split
          · exact List.Perm.refl _
          · by_cases hc : c = w.tx.ulCurrentSequenceNumber
            · obtain ⟨-, -, g3, g4, g5, -⟩ := txCheckAck_confirm_free h ulLast p w i c b hc
              have hmem : i ∈ w.xTxSegments ++ w.xRxSegments :=
                List.mem_append_left _ (hsub i (List.mem_cons_self _ _))
              have c1 : ((txCheckAck_confirm h ulLast p w i c b).2.1.xSegmentList
                  ++ heldSegments (txCheckAck_confirm h ulLast p w i c b).2.2).Perm
                  (p.xSegmentList ++ heldSegments w) :=
                perm_of_free _ _ _ _ _ _ i g3 g4 g5 hmem hall
              refine (ih _ _ _ _ hnd2 ?_ (c1.nodup_iff.mpr hall)).trans c1
              intro j hj
              rw [g4]
              exact (List.mem_erase_of_ne (fun e : j = i => hi (e ▸ hj))).mpr
                (hsub j (List.mem_cons_of_mem _ hj))
            · obtain ⟨-, -, g3, g4, g5, -⟩ := txCheckAck_confirm_keep h ulLast p w i c b hc
              have c1 : (txCheckAck_confirm h ulLast p w i c b).2.1.xSegmentList
                  ++ heldSegments (txCheckAck_confirm h ulLast p w i c b).2.2
                  = p.xSegmentList ++ heldSegments w := by
                simp only [heldSegments, g3, g4, g5]
              have c2 := ih (txCheckAck_confirm h ulLast p w i c b).2.1
                (txCheckAck_confirm h ulLast p w i c b).2.2
                (u32add c (toUInt32 (p.xTCPSegments i).lDataLength))
                (txCheckAck_confirm h ulLast p w i c b).1 hnd2
                (fun j hj => by rw [g4]; exact hsub j (List.mem_cons_of_mem _ hj))
                (by rw [c1]; exact hall)
              rw [c1] at c2
              exact c2

/-- The functions `ulTCPWindowTxAck` and `ulTCPWindowTxSack` keep the descriptors of
the free list and of the window together. -/
theorem ulTCPWindowTxAck_conserves (h : Host) (p : Pool) (w : TCPWindow)
    (hall : (p.xSegmentList ++ heldSegments w).Nodup) :
    (∀ seq, ((ulTCPWindowTxAck h p w seq).2.1.xSegmentList
        ++ heldSegments (ulTCPWindowTxAck h p w seq).2.2).Perm
      (p.xSegmentList ++ heldSegments w)) ∧
    (∀ first last, ((ulTCPWindowTxSack h p w first last).2.1.xSegmentList
        ++ heldSegments (ulTCPWindowTxSack h p w first last).2.2).Perm
      (p.xSegmentList ++ heldSegments w)) := by
  have htx : w.xTxSegments.Nodup :=
    (List.nodup_append.mp (List.nodup_append.mp hall).2.1).1
  have hwalk : ∀ first last, ((prvTCPWindowTxCheckAck h p w first last).2.1.xSegmentList
        ++ heldSegments (prvTCPWindowTxCheckAck h p w first last).2.2).Perm
      (p.xSegmentList ++ heldSegments w) :=
    fun first last =>
      txCheckAckLoop_conserves h last w.xTxSegments p w first 0 htx (fun _ hi => hi) hall
  constructor
  · intro seq
    cases hle : xSequenceLessThanOrEqual seq w.tx.ulCurrentSequenceNumber with
    | true => rw [ulTCPWindowTxAck_old h p w seq hle]
    | false => rw [ulTCPWindowTxAck_new h p w seq hle]; exact hwalk _ _
  · intro first last
    obtain ⟨a1, -, -, a4, a5, -⟩ := fastRetransmitLoop_frame first
      (prvTCPWindowTxCheckAck h p w first last).2.2.xWaitQueue
      (prvTCPWindowTxCheckAck h p w first last).2.1
      (prvTCPWindowTxCheckAck h p w first last).2.2 0
    have hres : (ulTCPWindowTxSack h p w first last).2.1.xSegmentList
          ++ heldSegments (ulTCPWindowTxSack h p w first last).2.2
        = (prvTCPWindowTxCheckAck h p w first last).2.1.xSegmentList
          ++ heldSegments (prvTCPWindowTxCheckAck h p w first last).2.2 := by
      show (fastRetransmitLoop first _ _ _ 0).2.1.xSegmentList
        ++ heldSegments (fastRetransmitLoop first _ _ _ 0).2.2 = _
      simp only [heldSegments, a1, a4, a5]
    rw [hres]
    exact hwalk _ _

/-- The loop `destroyLoop` keeps the descriptors of the free list and of the window
together. -/
theorem destroyLoop_conserves (xIsRx : Bool) (fuel : Nat) :
    ∀ (p : Pool) (w : TCPWindow) (r : Pool × TCPWindow),
      (p.xSegmentList ++ heldSegments w).Nodup → destroyLoop xIsRx fuel p w = some r →
      (r.1.xSegmentList ++ heldSegments r.2).Perm (p.xSegmentList ++ heldSegments w) := by
  induction fuel with
  | zero =>
    intro p w r _ hr
    unfold destroyLoop at hr
    split at hr
    · cases hr; exact List.Perm.refl _
    · cases hr
  | succ f ih =>
    intro p w r hnd hr
    unfold destroyLoop at hr
    split at hr
    · cases hr; exact List.Perm.refl _
    · rename_i i tl hl
      have hmem : i ∈ heldSegments w := by
        unfold heldSegments
        cases xIsRx
        · simp only [Bool.false_eq_true, if_false] at hl
          exact List.mem_append_left _ (by rw [hl]; exact List.mem_cons_self _ _)
        · simp only [if_true] at hl
          exact List.mem_append_right _ (by rw [hl]; exact List.mem_cons_self _ _)
      have c1 := vTCPWindowFree_conserves p w i hmem hnd
      exact (ih _ _ r (c1.nodup_iff.mpr hnd) hr).trans c1

/-- The function `vTCPWindowDestroy` keeps the descriptors of the free list and of
the window together. -/
theorem vTCPWindowDestroy_conserves (fuel : Nat) (p : Pool) (w : TCPWindow)
    (r : Pool × TCPWindow) (hnd : (p.xSegmentList ++ heldSegments w).Nodup)
    (hr : vTCPWindowDestroy fuel p w = some r) :
    (r.1.xSegmentList ++ heldSegments r.2).Perm (p.xSegmentList ++ heldSegments w) := by
  unfold vTCPWindowDestroy at hr
  split at hr
  · cases hr
  · rename_i p1 w1 h1
    have c1 := destroyLoop_conserves false fuel p w (p1, w1) hnd h1
    exact (destroyLoop_conserves true fuel p1 w1 r (c1.nodup_iff.mpr hnd) hr).trans c1

/-- The loop of `prvCreateSectors` puts the indices in the free list in their
order. -/
theorem foldl_vListInsertFifo (xs : List Nat) :
    ∀ acc : List Nat, xs.foldl vListInsertFifo acc = acc ++ xs := by
  induction xs with
  | nil => intro acc; simp
  | cons x xs ih => intro acc; simp [List.foldl_cons, ih, vListInsertFifo]

/-- The function `vTCPWindowInit` changes no list of the window. -/
theorem vTCPWindowInit_lists (w : TCPWindow) (ack seq mss : Nat) :
    heldSegments (vTCPWindowInit w ack seq mss) = heldSegments w := by
  simp only [vTCPWindowInit, heldSegments]
  split
  · split <;> split <;> rfl
  · rfl

/-- In every reachable state `xTCPSegments` is set, and the free list and the segment
lists of the windows hold, together, each of the `N` descriptors once. -/
theorem reachable_allSegments (N : Nat) (s : System) (hs : Reachable N s) :
    s.xTCPSegmentsSet = true ∧ s.allSegments.Perm (List.range N) := by
  induction hs with
  | pool_init p0 =>
    refine ⟨rfl, ?_⟩
    simp [System.allSegments, prvCreateSectors, foldl_vListInsertFifo]
  | step s s' _ hstep ih =>
    obtain ⟨hset, hperm⟩ := ih
    have hnd : s.allSegments.Nodup := hperm.nodup_iff.mpr (List.nodup_range N)
    have hone : ∀ (k : Nat) (w : TCPWindow) (p' : Pool) (w' : TCPWindow),
        s.windows[k]? = some w →
        ((s.pool.xSegmentList ++ heldSegments w).Nodup →
          (p'.xSegmentList ++ heldSegments w').Perm (s.pool.xSegmentList ++ heldSegments w)) →
        ({ s with pool := p', windows := s.windows.set k w' } : System).xTCPSegmentsSet = true ∧
        ({ s with pool := p', windows := s.windows.set k w' } : System).allSegments.Perm
          (List.range N) := by
      intro k w p' w' hk hc
      refine ⟨hset, ?_⟩
      exact (flatten_set_perm s.windows k w w' s.pool.xSegmentList p'.xSegmentList hk
        (hc (nodup_of_allSegments s k w hk hnd))).trans hperm
    cases hstep with
    | window_create xAllocated w0 rxl txl ack seq mss =>
      have hpool : (vTCPWindowCreate N xAllocated s.xTCPSegmentsSet s.pool w0 rxl txl ack seq
          mss).1 = (true, s.pool) := by
        simp only [vTCPWindowCreate, hset, Bool.true_eq_false, if_false]
      have hheld : heldSegments (vTCPWindowCreate N xAllocated s.xTCPSegmentsSet s.pool w0 rxl
          txl ack seq mss).2 = [] := by
        simp only [vTCPWindowCreate]
        rw [vTCPWindowInit_lists]
        rfl
      refine ⟨by rw [hpool], ?_⟩
      simp only [System.allSegments, hpool, List.map_append, List.map_cons, List.map_nil,
        List.flatten_append, hheld, List.flatten_cons, List.flatten_nil, List.append_nil]
      exact hperm
    | tx_add k w fuel h len pos mx r hk hr =>
      exact hone k w r.2.1 r.2.2 hk
        (fun _ => lTCPWindowTxAdd_conserves fuel h s.pool w len pos mx r hr)
    | tx_get k w h ws hk =>
      refine hone k w _ _ hk (fun _ => ?_)
      obtain ⟨g1, g2⟩ := ulTCPWindowTxGet_lists h s.pool w ws
      rw [g1, g2]
    | tx_ack k w h seq hk =>
      exact hone k w _ _ hk (fun hn => (ulTCPWindowTxAck_conserves h s.pool w hn).1 seq)
    | tx_sack k w h first last hk =>
      exact hone k w _ _ hk (fun hn => (ulTCPWindowTxAck_conserves h s.pool w hn).2 first last)
    | rx_check k w fuel h seq len space r hk hr =>
      exact hone k w r.2.1 r.2.2 hk
        (fun hn => lTCPWindowRxCheck_conserves fuel h s.pool w seq len space r hn hr)
    | window_destroy k w fuel r hk hr =>
      exact hone k w r.1 r.2 hk
        (fun hn => vTCPWindowDestroy_conserves fuel s.pool w r hn hr)

/-- Claim C20: in every state that can be reached from the initialisation of a pool
of `N` descriptors by `vTCPWindowCreate` on fresh windows, `lTCPWindowTxAdd`,
`ulTCPWindowTxGet`, `ulTCPWindowTxAck`, `ulTCPWindowTxSack`, `lTCPWindowRxCheck` and
`vTCPWindowDestroy`, the length of the free list plus the lengths of `xTxSegments`
and `xRxSegments` of all windows is `N`, no descriptor is twice in these lists, and
the descriptors in them are `0 .. N - 1`. -/
theorem C20_pool_conservation (N : Nat) (s : System) (hs : Reachable N s) :
    s.pool.xSegmentList.length
        + (s.windows.map (fun w => w.xTxSegments.length + w.xRxSegments.length)).sum = N ∧
    (s.pool.xSegmentList
        ++ (s.windows.map (fun w => w.xTxSegments ++ w.xRxSegments)).flatten).Nodup ∧
    (s.pool.xSegmentList
        ++ (s.windows.map (fun w => w.xTxSegments ++ w.xRxSegments)).flatten).Perm
      (List.range N) := by
  obtain ⟨-, hperm⟩ := reachable_allSegments N s hs
  have hperm2 : (s.pool.xSegmentList
      ++ (s.windows.map (fun w => w.xTxSegments ++ w.xRxSegments)).flatten).Perm
        (List.range N) := hperm
  refine ⟨?_, hperm2.nodup_iff.mpr (List.nodup_range N), hperm2⟩
  have hlen := hperm2.length_eq
  simp only [List.length_append, List.length_flatten, List.map_map, List.length_range] at hlen
  rw [← hlen]
  congr 2
  apply List.map_congr_left
  intro w _
  simp

/-- Claim C20 at `busySystem`, reached from a pool of 16 descriptors by
`vTCPWindowCreate`, `lTCPWindowTxAdd` for 2920 bytes and `lTCPWindowRxCheck` for the
out-of-order segment `[1500, 2000)`: 13 descriptors are free, 2 are in
`xTxSegments` and 1 is in `xRxSegments`. -/
theorem C20_pool_conservation_witness :
    Reachable 16 busySystem ∧
    busySystem.pool.xSegmentList.length = 13 ∧
    busySystem.windows.map (fun w => (w.xTxSegments, w.xRxSegments)) = [([0, 1], [2])] ∧
    (busySystem.pool.xSegmentList.length
        + (busySystem.windows.map
            (fun w => w.xTxSegments.length + w.xRxSegments.length)).sum = 16 ∧
      (busySystem.pool.xSegmentList
          ++ (busySystem.windows.map (fun w => w.xTxSegments ++ w.xRxSegments)).flatten).Nodup ∧
      (busySystem.pool.xSegmentList
          ++ (busySystem.windows.map (fun w => w.xTxSegments ++ w.xRxSegments)).flatten).Perm
        (List.range 16)) :=
  have hcreated : Reachable 16 createdSystem :=
    Reachable.step _ _ (Reachable.pool_init demoPool)
      (Step.window_create _ true demoWindow 5840 5840 1000 2000 1460)
  have hadded : Reachable 16
      { createdSystem with
        pool := busyTxAdd.2.1, windows := createdSystem.windows.set 0 busyTxAdd.2.2 } :=
    Reachable.step _ _ hcreated
      (Step.tx_add createdSystem 0 _ 2 demoHost 2920 0 65536 busyTxAdd rfl rfl)
  have hbusy : Reachable 16 busySystem :=
    Reachable.step _ _ hadded
      (Step.rx_check _ 0 busyTxAdd.2.2 1 demoHost 1500 500 10000 busyRxCheck rfl rfl)
  ⟨hbusy, by decide, by decide, C20_pool_conservation 16 busySystem hbusy⟩

/-! ## The life of a window: creation -/

/-- Claim C23, amended: after `vTCPWindowInit`, and so after `vTCPWindowCreate`, the
smoothed round-trip time `lSRTT` is 500 ms, for every window memory, every choice of
sequence numbers and every MSS; the time-out of a segment that was sent once,
`( 1U << 1 ) * lSRTT`, is then 1000 ms. -/
theorem C23_initial_srtt (N : Nat) (xAllocated xTCPSegmentsSet : Bool) (p : Pool) (w : TCPWindow)
    (ulRxWindowLength ulTxWindowLength ulAckNumber ulSequenceNumber ulMSS : Nat) :
    (vTCPWindowInit w ulAckNumber ulSequenceNumber ulMSS).lSRTT = 500 ∧
    (vTCPWindowCreate N xAllocated xTCPSegmentsSet p w ulRxWindowLength ulTxWindowLength
        ulAckNumber ulSequenceNumber ulMSS).2.lSRTT = 500 ∧
    u32mul (ulShiftLeftOne 1)
        (toUInt32 (vTCPWindowInit w ulAckNumber ulSequenceNumber ulMSS).lSRTT) = 1000 :=
  ⟨rfl, rfl, rfl⟩

/-- Claim C23 as stated fails: for the receive sequence number 1000, the transmit
sequence number 2000 and an MSS of 1460, `vTCPWindowInit` and `vTCPWindowCreate`
leave `lSRTT = 500`, not 1000. -/
theorem C23_counterexample :
    (vTCPWindowInit demoWindow 1000 2000 1460).lSRTT = 500 ∧
    (vTCPWindowInit demoWindow 1000 2000 1460).lSRTT ≠ 1000 ∧
    (vTCPWindowCreate 16 true false demoPool demoWindow 5840 5840 1000 2000 1460).2.lSRTT
      ≠ 1000 := by
  decide

/-- Claim C24, amended: `vTCPWindowCreate` takes the sequence number of the peer as
its third value argument `ulAckNumber` and our own one as its fourth,
`ulSequenceNumber`.  The window it makes has the three transmit sequence numbers and
`ulNextTxSequenceNumber` equal to `ulSequenceNumber`, the three receive sequence
numbers equal to `ulAckNumber`, and five empty lists; `vTCPWindowInit`, with the
peer's number first and ours second, sets the same sequence fields the same way. -/
theorem C24_window_create (N : Nat) (xAllocated xTCPSegmentsSet : Bool) (p : Pool)
    (w : TCPWindow)
    (ulRxWindowLength ulTxWindowLength ulAckNumber ulSequenceNumber ulMSS : Nat) :
    (vTCPWindowCreate N xAllocated xTCPSegmentsSet p w ulRxWindowLength ulTxWindowLength
        ulAckNumber ulSequenceNumber ulMSS).2.tx
      = ⟨ulSequenceNumber, ulSequenceNumber, ulSequenceNumber⟩ ∧
    (vTCPWindowCreate N xAllocated xTCPSegmentsSet p w ulRxWindowLength ulTxWindowLength
        ulAckNumber ulSequenceNumber ulMSS).2.ulNextTxSequenceNumber = ulSequenceNumber ∧
    (vTCPWindowCreate N xAllocated xTCPSegmentsSet p w ulRxWindowLength ulTxWindowLength
        ulAckNumber ulSequenceNumber ulMSS).2.rx
      = ⟨ulAckNumber, ulAckNumber, ulAckNumber⟩ ∧
    (vTCPWindowCreate N xAllocated xTCPSegmentsSet p w ulRxWindowLength ulTxWindowLength
        ulAckNumber ulSequenceNumber ulMSS).2.xTxSegments = [] ∧
    (vTCPWindowCreate N xAllocated xTCPSegmentsSet p w ulRxWindowLength ulTxWindowLength
        ulAckNumber ulSequenceNumber ulMSS).2.xRxSegments = [] ∧
    (vTCPWindowCreate N xAllocated xTCPSegmentsSet p w ulRxWindowLength ulTxWindowLength
        ulAckNumber ulSequenceNumber ulMSS).2.xPriorityQueue = [] ∧
    (vTCPWindowCreate N xAllocated xTCPSegmentsSet p w ulRxWindowLength ulTxWindowLength
        ulAckNumber ulSequenceNumber ulMSS).2.xWaitQueue = [] ∧
    (vTCPWindowCreate N xAllocated xTCPSegmentsSet p w ulRxWindowLength ulTxWindowLength
        ulAckNumber ulSequenceNumber ulMSS).2.xTxQueue = [] ∧
    (vTCPWindowInit w ulAckNumber ulSequenceNumber ulMSS).tx
      = ⟨ulSequenceNumber, ulSequenceNumber, ulSequenceNumber⟩ ∧
    (vTCPWindowInit w ulAckNumber ulSequenceNumber ulMSS).ulNextTxSequenceNumber
      = ulSequenceNumber ∧
    (vTCPWindowInit w ulAckNumber ulSequenceNumber ulMSS).rx
      = ⟨ulAckNumber, ulAckNumber, ulAckNumber⟩ := by
  refine ⟨rfl, rfl, rfl, ?_, ?_, ?_, ?_, ?_, rfl, rfl, rfl⟩ <;>
    simp only [vTCPWindowCreate, vTCPWindowInit] <;> split <;> (try split) <;> (try split) <;> rfl

/-- Claim C24 as stated fails: with our sequence number 2000 as the third value
argument of `vTCPWindowCreate` and the peer's sequence number 1000 as the fourth, the
transmit sequence numbers of the window are 1000 and the receive sequence numbers
2000. -/
theorem C24_counterexample :
    (vTCPWindowCreate 16 true false demoPool demoWindow 5840 5840 2000 1000 1460).2.tx
      = ⟨1000, 1000, 1000⟩ ∧
    (vTCPWindowCreate 16 true false demoPool demoWindow 5840 5840 2000 1000
        1460).2.tx.ulFirstSequenceNumber ≠ 2000 ∧
    (vTCPWindowCreate 16 true false demoPool demoWindow 5840 5840 2000 1000
        1460).2.ulNextTxSequenceNumber ≠ 2000 ∧
    (vTCPWindowCreate 16 true false demoPool demoWindow 5840 5840 2000 1000 1460).2.rx
      = ⟨2000, 2000, 2000⟩ ∧
    (vTCPWindowCreate 16 true false demoPool demoWindow 5840 5840 2000 1000
        1460).2.rx.ulFirstSequenceNumber ≠ 1000 := by
  decide

/-! ## Reception: segments that are not stored -/

/-- Claim C27: a segment that does not start at `rx.ulCurrentSequenceNumber` and that
either starts one byte before it (a keep-alive message, whatever its length) or
ends at or before it (the signed distance `( seq + len ) - rx.current` is not
positive) is ignored by `lTCPWindowRxCheck`: the call returns -1 for any fuel, the
pool and the window are as before except that `ucOptionLength` and
`ulUserDataLength` are 0; so `rx` and `xRxSegments` are unchanged. -/
theorem C27_keep_alive_and_old_segment (fuel : Nat) (h : Host) (p : Pool) (w : TCPWindow)
    (ulSequenceNumber ulLength ulSpace : Nat)
    (hne : ulSequenceNumber ≠ w.rx.ulCurrentSequenceNumber)
    (hcase : w.rx.ulCurrentSequenceNumber = u32add ulSequenceNumber 1 ∨
      toInt32 (u32sub (u32add ulSequenceNumber ulLength) w.rx.ulCurrentSequenceNumber) ≤ 0) :
    lTCPWindowRxCheck fuel h p w ulSequenceNumber ulLength ulSpace
        = some (-1, p, { w with ucOptionLength := 0, ulUserDataLength := 0 }) ∧
    ∀ r, lTCPWindowRxCheck fuel h p w ulSequenceNumber ulLength ulSpace = some r →
      r.1 = -1 ∧ r.2.1 = p ∧ r.2.2.ucOptionLength = 0 ∧ r.2.2.ulUserDataLength = 0 ∧
      r.2.2.rx = w.rx ∧ r.2.2.xRxSegments = w.xRxSegments := by
  have key : lTCPWindowRxCheck fuel h p w ulSequenceNumber ulLength ulSpace
      = some (-1, p, { w with ucOptionLength := 0, ulUserDataLength := 0 }) := by
    unfold lTCPWindowRxCheck
    simp only [if_neg (Ne.symm hne)]
    rcases hcase with hka | hold
    · simp only [if_pos hka]
    · split
      · rfl
      · simp only [if_pos hold]
  refine ⟨key, fun r hr => ?_⟩
  rw [key] at hr
  cases hr
  exact ⟨rfl, rfl, rfl, rfl, rfl, rfl⟩

/-- The segment `[999, 1499)`, a keep-alive message for the window `plugWindow` whose
`rx.ulCurrentSequenceNumber` is 1000, is ignored. -/
theorem C27_keep_alive_and_old_segment_witness :
    (999 : Nat) ≠ plugWindow.rx.ulCurrentSequenceNumber ∧
    (plugWindow.rx.ulCurrentSequenceNumber = u32add 999 1 ∨
      toInt32 (u32sub (u32add 999 500) plugWindow.rx.ulCurrentSequenceNumber) ≤ 0) ∧
    (lTCPWindowRxCheck 0 demoHost plugPool plugWindow 999 500 10000
        = some (-1, plugPool, { plugWindow with ucOptionLength := 0, ulUserDataLength := 0 }) ∧
    ∀ r, lTCPWindowRxCheck 0 demoHost plugPool plugWindow 999 500 10000 = some r →
      r.1 = -1 ∧ r.2.1 = plugPool ∧ r.2.2.ucOptionLength = 0 ∧ r.2.2.ulUserDataLength = 0 ∧
      r.2.2.rx = plugWindow.rx ∧ r.2.2.xRxSegments = plugWindow.xRxSegments) :=
  ⟨by decide, Or.inl (by decide),
    C27_keep_alive_and_old_segment 0 demoHost plugPool plugWindow 999 500 10000 (by decide)
      (Or.inl (by decide))⟩

/-- The four outcomes of `ulTCPWindowTxGet`: nothing is selected; the head of the
priority queue is emitted; the head of the wait queue is emitted, with its count of
duplicate acknowledgements cleared; or the head of `xTxQueue` is emitted, after
`tx.ulHighestSequenceNumber` was moved to its end and `pxHeadSegment` cleared if it
was that segment. -/
theorem ulTCPWindowTxGet_cases (h : Host) (p : Pool) (w : TCPWindow) (ulWindowSize : Nat) :
    ulTCPWindowTxGet h p w ulWindowSize
        = (0, none, p, { w with ulOurSequenceNumber := w.tx.ulHighestSequenceNumber }) ∨
    (∃ i rest, w.xPriorityQueue = i :: rest ∧
      ulTCPWindowTxGet h p w ulWindowSize
        = ulTCPWindowTxGet_emit h p
            { w with ulOurSequenceNumber := w.tx.ulHighestSequenceNumber
                     xPriorityQueue := rest } i) ∨
    (∃ i rest, w.xPriorityQueue = [] ∧ w.xWaitQueue = i :: rest ∧
      ulTCPWindowTxGet h p w ulWindowSize
        = ulTCPWindowTxGet_emit h
            (p.setSegment i { p.xTCPSegments i with ucDupAckCount := 0 })
            { w with ulOurSequenceNumber := w.tx.ulHighestSequenceNumber
                     xWaitQueue := rest } i) ∨
    (∃ i rest, w.xPriorityQueue = [] ∧ w.xTxQueue = i :: rest ∧
      ulTCPWindowTxGet h p w ulWindowSize
        = ulTCPWindowTxGet_emit h p
            { w with
              ulOurSequenceNumber := w.tx.ulHighestSequenceNumber
              xTxQueue := rest
              pxHeadSegment := if w.pxHeadSegment = some i then none else w.pxHeadSegment
              tx := { w.tx with
                      ulHighestSequenceNumber :=
                        u32add (p.xTCPSegments i).ulSequenceNumber
                          (toUInt32 (p.xTCPSegments i).lDataLength) } } i) := by
  obtain hprio | ⟨i, rest, hprio⟩ :
      w.xPriorityQueue = [] ∨ ∃ i rest, w.xPriorityQueue = i :: rest := by
    cases w.xPriorityQueue with
    | nil => exact Or.inl rfl
    | cons i rest => exact Or.inr ⟨i, rest, rfl⟩
  · rw [ulTCPWindowTxGet_of_priority_empty h p w ulWindowSize hprio]
    have txq : ∀ (w0 : TCPWindow), w0.xTxQueue = w.xTxQueue →
        (pxTCPWindowTx_GetTXQueue p w0 ulWindowSize = (none, w0)) ∨
        (∃ i rest, w.xTxQueue = i :: rest ∧
          pxTCPWindowTx_GetTXQueue p w0 ulWindowSize =
            (some i,
              { w0 with
                xTxQueue := rest
                pxHeadSegment := if w0.pxHeadSegment = some i then none else w0.pxHeadSegment
                tx := { w0.tx with
                        ulHighestSequenceNumber :=
                          u32add (p.xTCPSegments i).ulSequenceNumber
                            (toUInt32 (p.xTCPSegments i).lDataLength) } })) := by
      intro w0 hq0
      obtain hq | ⟨j, tl, hq⟩ : w.xTxQueue = [] ∨ ∃ j tl, w.xTxQueue = j :: tl := by
        cases w.xTxQueue with
        | nil => exact Or.inl rfl
        | cons j tl => exact Or.inr ⟨j, tl, rfl⟩
      · left
        rw [hq] at hq0
        simp only [pxTCPWindowTx_GetTXQueue, hq0]
      · rw [hq] at hq0
        by_cases h1 : w0.bSendFullSize = true ∧
            (p.xTCPSegments j).lDataLength < (p.xTCPSegments j).lMaxLength
        · left
          simp only [pxTCPWindowTx_GetTXQueue, hq0, h1, and_self, if_true]
        · by_cases h2 : prvTCPWindowTxHasSpace p w0 ulWindowSize = false
          · left
            simp only [pxTCPWindowTx_GetTXQueue, hq0, h1, h2, if_true, if_false]
          · right
            refine ⟨j, tl, hq, ?_⟩
            simp only [pxTCPWindowTx_GetTXQueue, hq0, h1, h2, if_false, Bool.true_eq_false]
    have hwq : pxTCPWindowTx_GetWaitQueue h p
          { w with ulOurSequenceNumber := w.tx.ulHighestSequenceNumber }
        = (none, p, { w with ulOurSequenceNumber := w.tx.ulHighestSequenceNumber }) ∨
        ∃ i rest, w.xWaitQueue = i :: rest ∧
          pxTCPWindowTx_GetWaitQueue h p
              { w with ulOurSequenceNumber := w.tx.ulHighestSequenceNumber }
            = (some i, p.setSegment i { p.xTCPSegments i with ucDupAckCount := 0 },
                { w with ulOurSequenceNumber := w.tx.ulHighestSequenceNumber
                         xWaitQueue := rest }) := by
      obtain hwait | ⟨i, rest, hwait⟩ :
          w.xWaitQueue = [] ∨ ∃ i rest, w.xWaitQueue = i :: rest := by
        cases w.xWaitQueue with
        | nil => exact Or.inl rfl
        | cons i rest => exact Or.inr ⟨i, rest, rfl⟩
      · left
        simp only [pxTCPWindowTx_GetWaitQueue, hwait]
      · rw [pxTCPWindowTx_GetWaitQueue_head h p
          { w with ulOurSequenceNumber := w.tx.ulHighestSequenceNumber } i rest hwait]
        by_cases hdue : ulTimerGetAge h (p.xTCPSegments i)
            > u32mul (ulShiftLeftOne (p.xTCPSegments i).ucTransmitCount) (toUInt32 w.lSRTT)
        · right
          refine ⟨i, rest, hwait, ?_⟩
          simp only [if_pos hdue]
        · left
          simp only [if_neg hdue]
    rcases hwq with hwq | ⟨i, rest, hl, hwq⟩
    · rw [hwq]
      rcases txq { w with ulOurSequenceNumber := w.tx.ulHighestSequenceNumber } rfl with
        hq | ⟨i, rest, hl, hq⟩
      · left
        simp only [hq]
      · right; right; right
        refine ⟨i, rest, hprio, hl, ?_⟩
        simp only [hq]
    · right; right; left
      refine ⟨i, rest, hprio, hl, ?_⟩
      rw [hwq]
  · right; left
    refine ⟨i, rest, hprio, ?_⟩
    simp only [ulTCPWindowTxGet, hprio]

/-! ## The transmit window after repeated retransmissions -/

/-- What `ulTCPWindowTxGet_emit` does to `ulTxWindowLength`: when the transmit count
of the segment becomes 4 and the length is above `2 * usMSS`, it becomes the low 16
bits of `2 * usMSS`; else it stays. -/
theorem ulTCPWindowTxGet_emit_window_length (h : Host) (p : Pool) (w : TCPWindow) (i : Nat) :
    (ulTCPWindowTxGet_emit h p w i).2.2.2.ulTxWindowLength =
      (if ((p.xTCPSegments i).ucTransmitCount + 1) % 256 = 4 ∧
          w.ulTxWindowLength > u32mul 2 w.usMSS then (w.usMSS * 2) % 65536
        else w.ulTxWindowLength) ∧
    ((ulTCPWindowTxGet_emit h p w i).2.2.1.xTCPSegments i).ucTransmitCount
      = ((p.xTCPSegments i).ucTransmitCount + 1) % 256 ∧
    (ulTCPWindowTxGet_emit h p w i).2.2.2.xWaitQueue = w.xWaitQueue ++ [i] ∧
    (ulTCPWindowTxGet_emit h p w i).2.1 ≠ none := by
  refine ⟨?_, ?_, ?_, ?_⟩
  · simp only [ulTCPWindowTxGet_emit, MAX_TRANSMIT_COUNT_USING_LARGE_WINDOW]
    split <;> rfl
  · simp only [ulTCPWindowTxGet_emit, Pool.setSegment, Function.update_same]
  · simp only [ulTCPWindowTxGet_emit, vListInsertFifo]
    split <;> rfl
  · simp only [ulTCPWindowTxGet_emit, ne_eq, reduceCtorEq, not_false_eq_true]

/-- The congestion reaction of `ulTCPWindowTxGet` for an MSS below 32768.  When the
call emits nothing, `ulTxWindowLength` is unchanged.  When it emits a segment, which
is then the last one of the wait queue, `ulTxWindowLength` becomes `2 * usMSS` if the
transmit count of that segment is now 4 and the length was above `2 * usMSS`, and is
unchanged otherwise. -/
theorem ulTCPWindowTxGet_window_length (h : Host) (p : Pool) (w : TCPWindow)
    (ulWindowSize : Nat) (hmss : w.usMSS < 32768) :
    ((ulTCPWindowTxGet h p w ulWindowSize).2.1 = none →
      (ulTCPWindowTxGet h p w ulWindowSize).2.2.2.ulTxWindowLength = w.ulTxWindowLength) ∧
    ((ulTCPWindowTxGet h p w ulWindowSize).2.1 ≠ none →
      ∃ i, (ulTCPWindowTxGet h p w ulWindowSize).2.2.2.xWaitQueue.getLast? = some i ∧
        (ulTCPWindowTxGet h p w ulWindowSize).2.2.2.ulTxWindowLength =
          if ((ulTCPWindowTxGet h p w ulWindowSize).2.2.1.xTCPSegments i).ucTransmitCount = 4 ∧
              w.ulTxWindowLength > 2 * w.usMSS then 2 * w.usMSS
          else w.ulTxWindowLength) := by
  have h2 : u32mul 2 w.usMSS = 2 * w.usMSS := by unfold u32mul; omega
  have h3 : (w.usMSS * 2) % 65536 = 2 * w.usMSS := by omega
  have emit : ∀ (p1 : Pool) (w1 : TCPWindow) (i : Nat),
      w1.ulTxWindowLength = w.ulTxWindowLength → w1.usMSS = w.usMSS →
      ((ulTCPWindowTxGet_emit h p1 w1 i).2.1 = none →
        (ulTCPWindowTxGet_emit h p1 w1 i).2.2.2.ulTxWindowLength = w.ulTxWindowLength) ∧
      ((ulTCPWindowTxGet_emit h p1 w1 i).2.1 ≠ none →
        ∃ j, (ulTCPWindowTxGet_emit h p1 w1 i).2.2.2.xWaitQueue.getLast? = some j ∧
          (ulTCPWindowTxGet_emit h p1 w1 i).2.2.2.ulTxWindowLength =
            if ((ulTCPWindowTxGet_emit h p1 w1 i).2.2.1.xTCPSegments j).ucTransmitCount = 4 ∧
                w.ulTxWindowLength > 2 * w.usMSS then 2 * w.usMSS
            else w.ulTxWindowLength) := by
    intro p1 w1 i hl hm
    obtain ⟨e1, e2, e3, e4⟩ := ulTCPWindowTxGet_emit_window_length h p1 w1 i
    refine ⟨fun hc => absurd hc e4, fun _ => ⟨i, ?_, ?_⟩⟩
    · rw [e3]; simp
    · rw [e1, e2, hl, hm, h2, h3]
  rcases ulTCPWindowTxGet_cases h p w ulWindowSize with hr | ⟨i, rest, -, hr⟩ |
    ⟨i, rest, -, -, hr⟩ | ⟨i, rest, -, -, hr⟩
  · rw [hr]
    exact ⟨fun _ => rfl, fun hc => absurd rfl hc⟩
  · rw [hr]; exact emit _ _ i rfl rfl
  · rw [hr]; exact emit _ _ i rfl rfl
  · rw [hr]; exact emit _ _ i rfl rfl

/-- Claim C29 fails for an MSS of 40000 and a transmit window of 100000 bytes: when
`ulTCPWindowTxGet` sends the segment of `jumboPool` for the fourth time, the window
is above `2 * 40000 = 80000`, and `ulTxWindowLength` becomes 14464, the low 16 bits
of 80000, because the new value goes through the 16-bit variable `usMSS2`. -/
theorem C29_window_length_truncated :
    jumboWindow.usMSS = 40000 ∧ jumboWindow.ulTxWindowLength = 100000 ∧
    (jumboPool.xTCPSegments 0).ucTransmitCount = 3 ∧ jumboWindow.xPriorityQueue = [] ∧
    jumboWindow.xWaitQueue = [0] ∧
    (ulTCPWindowTxGet { demoHost with xTickCount := 9000 } jumboPool jumboWindow 65535).1
      = 40000 ∧
    ((ulTCPWindowTxGet { demoHost with xTickCount := 9000 } jumboPool jumboWindow
        65535).2.2.1.xTCPSegments 0).ucTransmitCount = 4 ∧
    (ulTCPWindowTxGet { demoHost with xTickCount := 9000 } jumboPool jumboWindow
        65535).2.2.2.ulTxWindowLength = 14464 ∧
    (14464 : Nat) ≠ 2 * jumboWindow.usMSS := by
  decide

/-! ## Reception: the scan for the end of a run -/

/-- The scan of `prvTCPWindowRx_UnexpectedRX` never ends when the stored segment found
at `ulLast` is empty: it is found again and again. -/
theorem rxSackLoop_stuck (p : Pool) (w : TCPWindow) (ulLast i : Nat)
    (hx : ulLast < 4294967296) (hfind : xTCPWindowRxFind p w ulLast = some i)
    (hz : toUInt32 (p.xTCPSegments i).lDataLength = 0) :
    ∀ fuel, rxSackLoop fuel p w ulLast = none := by
  intro fuel
  induction fuel with
  | zero =>
    unfold rxSackLoop
    simp only [hfind]
  | succ f ih =>
    unfold rxSackLoop
    simp only [hfind, hz]
    have e : u32add ulLast 0 = ulLast := by unfold u32add; omega
    rw [e]
    exact ih

/-- A call of `lTCPWindowRxCheck` for a segment that is out of order and in the window
never returns when an empty segment is stored at the end of the new one. -/
theorem lTCPWindowRxCheck_stuck (h : Host) (p : Pool) (w : TCPWindow)
    (ulSequenceNumber ulLength ulSpace i : Nat)
    (hne : w.rx.ulCurrentSequenceNumber ≠ ulSequenceNumber)
    (hka : w.rx.ulCurrentSequenceNumber ≠ u32add ulSequenceNumber 1)
    (hd : 0 < toInt32 (u32sub (u32add ulSequenceNumber ulLength) w.rx.ulCurrentSequenceNumber))
    (hsp : toInt32 (u32sub (u32add ulSequenceNumber ulLength) w.rx.ulCurrentSequenceNumber)
      ≤ toInt32 ulSpace)
    (hfind : xTCPWindowRxFind p w (u32add ulSequenceNumber ulLength) = some i)
    (hz : toUInt32 (p.xTCPSegments i).lDataLength = 0) :
    ∀ fuel, lTCPWindowRxCheck fuel h p w ulSequenceNumber ulLength ulSpace = none := by
  intro fuel
  unfold lTCPWindowRxCheck
  simp only [if_neg hne, if_neg hka, if_neg (not_le.mpr hd), if_neg (not_lt.mpr hsp)]
  unfold prvTCPWindowRx_UnexpectedRX
  have hs := rxSackLoop_stuck p { w with ucOptionLength := 0, ulUserDataLength := 0 }
    (u32add ulSequenceNumber ulLength) i (u32add_lt _ _) hfind hz fuel
  simp only [hs]

/-- Claim C26 fails after an empty segment was stored.  On the window that
`vTCPWindowCreate` makes, with `rx.ulCurrentSequenceNumber = 1000`, the call
`lTCPWindowRxCheck` for the empty segment at 1500 returns 500 and stores a descriptor
with sequence number 1500 and length 0.  The next call, for the segment
`[1490, 1500)`, never returns, whatever the fuel: the scan for the end of the run
finds the empty descriptor at 1500 and adds its length 0, again and again. -/
theorem C26_sack_scan_never_ends :
    createdState.2.rx.ulCurrentSequenceNumber = 1000 ∧ createdState.2.xRxSegments = [] ∧
    (lTCPWindowRxCheck 0 demoHost createdState.1.2 createdState.2 1500 0 10000).isSome = true ∧
    emptySegmentRun.1 = 500 ∧ emptySegmentRun.2.2.xRxSegments = [0] ∧
    (emptySegmentRun.2.1.xTCPSegments 0).ulSequenceNumber = 1500 ∧
    (emptySegmentRun.2.1.xTCPSegments 0).lDataLength = 0 ∧
    ∀ fuel,
      lTCPWindowRxCheck fuel demoHost emptySegmentRun.2.1 emptySegmentRun.2.2 1490 10 10000
        = none :=
  ⟨by decide, by decide, by decide, by decide, by decide, by decide, by decide,
    lTCPWindowRxCheck_stuck demoHost emptySegmentRun.2.1 emptySegmentRun.2.2 1490 10 10000 0
      (by decide) (by decide) (by decide) (by decide) (by decide) (by decide)⟩

/-! ## Filling the head segment -/

/-- Claim C30, corrected: for every length below `2^31`, when `pxHeadSegment` is a
segment `i` that is not outstanding and holds some bytes but is not full,
`lTCPWindowTxAdd` first gives it `f = min ulLength (lMaxLength - lDataLength)` more
bytes, advances `ulNextTxSequenceNumber` by `f`, clears `pxHeadSegment` exactly when
the segment is full then, and goes on with the `ulLength - f` bytes that remain.  When
`ulLength <= lMaxLength - lDataLength` nothing remains: the call returns `ulLength`
for any fuel, and the free list and the lists of the window are as before. -/
theorem C30_top_up (fuel : Nat) (h : Host) (p : Pool) (w : TCPWindow)
    (ulLength : Nat) (lPosition lMax : Int) (i : Nat)
    (hhead : w.pxHeadSegment = some i) (hout : (p.xTCPSegments i).bOutstanding = false)
    (h0 : 0 < (p.xTCPSegments i).lDataLength)
    (h1 : (p.xTCPSegments i).lDataLength < (p.xTCPSegments i).lMaxLength)
    (hlen : ulLength < 2147483648) :
    lTCPWindowTxAdd fuel h p w ulLength lPosition lMax
      = txAddLoop fuel h
          (p.setSegment i
            { p.xTCPSegments i with
              lDataLength := (p.xTCPSegments i).lDataLength
                + min (ulLength : Int)
                    ((p.xTCPSegments i).lMaxLength - (p.xTCPSegments i).lDataLength) })
          { w with
            pxHeadSegment :=
              if (p.xTCPSegments i).lDataLength
                  + min (ulLength : Int)
                      ((p.xTCPSegments i).lMaxLength - (p.xTCPSegments i).lDataLength)
                  = (p.xTCPSegments i).lMaxLength then none else some i
            ulNextTxSequenceNumber :=
              u32add w.ulNextTxSequenceNumber
                (min (ulLength : Int)
                  ((p.xTCPSegments i).lMaxLength - (p.xTCPSegments i).lDataLength)).toNat }
          ((ulLength : Int)
            - min (ulLength : Int)
                ((p.xTCPSegments i).lMaxLength - (p.xTCPSegments i).lDataLength))
          (lTCPIncrementTxPosition lPosition lMax
            (min (ulLength : Int)
              ((p.xTCPSegments i).lMaxLength - (p.xTCPSegments i).lDataLength)))
          lMax
          (min (ulLength : Int)
            ((p.xTCPSegments i).lMaxLength - (p.xTCPSegments i).lDataLength)) ∧
    ((ulLength : Int) ≤ (p.xTCPSegments i).lMaxLength - (p.xTCPSegments i).lDataLength →
      ∃ r, lTCPWindowTxAdd fuel h p w ulLength lPosition lMax = some r ∧
        r.1 = (ulLength : Int) ∧ r.2.1.xSegmentList = p.xSegmentList ∧
        r.2.2.xTxSegments = w.xTxSegments ∧ r.2.2.xTxQueue = w.xTxQueue ∧
        (r.2.1.xTCPSegments i).lDataLength = (p.xTCPSegments i).lDataLength + (ulLength : Int) ∧
        r.2.2.ulNextTxSequenceNumber = u32add w.ulNextTxSequenceNumber ulLength) := by
  have hcast : toInt32 ulLength = (ulLength : Int) := toInt32_of_lt hlen
  have hmin : FreeRTOS_min_int32 (ulLength : Int)
        ((p.xTCPSegments i).lMaxLength - (p.xTCPSegments i).lDataLength)
      = min (ulLength : Int) ((p.xTCPSegments i).lMaxLength - (p.xTCPSegments i).lDataLength) := by
    unfold FreeRTOS_min_int32
    split
    · rw [min_eq_left]; assumption
    · rw [min_eq_right]; omega
  have hu : toUInt32 (min (ulLength : Int)
        ((p.xTCPSegments i).lMaxLength - (p.xTCPSegments i).lDataLength))
      = (min (ulLength : Int)
        ((p.xTCPSegments i).lMaxLength - (p.xTCPSegments i).lDataLength)).toNat := by
    apply toUInt32_of_nonneg
    · exact le_min (Int.ofNat_nonneg _) (by omega)
    · have : min (ulLength : Int)
          ((p.xTCPSegments i).lMaxLength - (p.xTCPSegments i).lDataLength) ≤ (ulLength : Int) :=
        min_le_left _ _
      omega
  refine (and_iff_left_of_imp ?_).mpr ?_
  · intro hk hle
    rw [hk, min_eq_left hle]
    unfold txAddLoop
    rw [if_neg (by omega)]
    refine ⟨_, rfl, rfl, rfl, rfl, rfl, ?_, ?_⟩
    · simp only [Pool.setSegment, Function.update_same]
    · simp only [Int.toNat_ofNat]
  · unfold lTCPWindowTxAdd
    simp only [hhead, hcast]
    rw [if_pos ⟨h1, hout, ne_of_gt h0⟩]
    simp only [prvTCPWindowTxAdd_FrontSegment, hmin, hu, zero_add]
    have hright : min (ulLength : Int)
          ((p.xTCPSegments i).lMaxLength - (p.xTCPSegments i).lDataLength)
        ≤ (p.xTCPSegments i).lMaxLength - (p.xTCPSegments i).lDataLength := min_le_right _ _
    by_cases hfull : (p.xTCPSegments i).lDataLength
        + min (ulLength : Int) ((p.xTCPSegments i).lMaxLength - (p.xTCPSegments i).lDataLength)
        = (p.xTCPSegments i).lMaxLength
    · rw [if_pos (le_of_eq hfull.symm), if_pos hfull]
    · rw [if_neg (by omega), if_neg hfull, ← hhead]

/-- Claim C30 as corrected, at the state of `topUpRun`, whose head segment is descriptor
0 with 100 of 1460 bytes: `lTCPWindowTxAdd` for 50 bytes returns 50, descriptor 0 holds
150 bytes, `ulNextTxSequenceNumber` is 2150, and the free list and the lists of the
window are as before. -/
theorem C30_top_up_witness :
    topUpRun.2.2.pxHeadSegment = some 0 ∧
    (topUpRun.2.1.xTCPSegments 0).bOutstanding = false ∧
    0 < (topUpRun.2.1.xTCPSegments 0).lDataLength ∧
    (topUpRun.2.1.xTCPSegments 0).lDataLength < (topUpRun.2.1.xTCPSegments 0).lMaxLength ∧
    (50 : Nat) < 2147483648 ∧
    ((50 : Nat) : Int)
      ≤ (topUpRun.2.1.xTCPSegments 0).lMaxLength - (topUpRun.2.1.xTCPSegments 0).lDataLength ∧
    (topUpRun.2.1.xTCPSegments 0).lDataLength = 100 ∧
    topUpRun.2.2.ulNextTxSequenceNumber = 2100 ∧
    u32add topUpRun.2.2.ulNextTxSequenceNumber 50 = 2150 ∧
    ∃ r, lTCPWindowTxAdd 0 demoHost topUpRun.2.1 topUpRun.2.2 50 100 65536 = some r ∧
      r.1 = ((50 : Nat) : Int) ∧ r.2.1.xSegmentList = topUpRun.2.1.xSegmentList ∧
      r.2.2.xTxSegments = topUpRun.2.2.xTxSegments ∧ r.2.2.xTxQueue = topUpRun.2.2.xTxQueue ∧
      (r.2.1.xTCPSegments 0).lDataLength
        = (topUpRun.2.1.xTCPSegments 0).lDataLength + ((50 : Nat) : Int) ∧
      r.2.2.ulNextTxSequenceNumber = u32add topUpRun.2.2.ulNextTxSequenceNumber 50 :=
  ⟨by decide, by decide, by decide, by decide, by decide, by decide, by decide, by decide,
    by decide,
    (C30_top_up 0 demoHost topUpRun.2.1 topUpRun.2.2 50 100 65536 0 (by decide) (by decide)
      (by decide) (by decide) (by decide)).2 (by decide)⟩

/-- Claim C30 fails as stated, for a length of `2^31` or more.  After
`lTCPWindowTxAdd` has put 100 bytes into descriptor 0, the head segment `[2000, 2100)`
with room for 1360 more bytes, the call for `2^32 - 100` bytes would add
`min (2^32 - 100) 1360 = 1360` bytes to it.  The cast `( int32_t ) ulLength` gives
-100: the call takes 100 bytes away from the segment, whose length becomes 0, moves
`ulNextTxSequenceNumber` back from 2100 to 2000, keeps `pxHeadSegment`, and returns
-100. -/
theorem C30_counterexample :
    topUpRun.2.2.pxHeadSegment = some 0 ∧
    (topUpRun.2.1.xTCPSegments 0).bOutstanding = false ∧
    (topUpRun.2.1.xTCPSegments 0).lDataLength = 100 ∧
    (topUpRun.2.1.xTCPSegments 0).lMaxLength = 1460 ∧
    topUpRun.2.2.ulNextTxSequenceNumber = 2100 ∧
    min (4294967196 : Int)
      ((topUpRun.2.1.xTCPSegments 0).lMaxLength - (topUpRun.2.1.xTCPSegments 0).lDataLength)
      = 1360 ∧
    toInt32 4294967196 = -100 ∧
    (lTCPWindowTxAdd 0 demoHost topUpRun.2.1 topUpRun.2.2 4294967196 100 65536).map
      (fun r => (r.1, (r.2.1.xTCPSegments 0).lDataLength, r.2.2.ulNextTxSequenceNumber,
        r.2.2.pxHeadSegment, r.2.2.xTxSegments))
      = some (-100, 0, 2000, some 0, [0]) := by
  decide

/-! ## The selective acknowledgement that reception prepares -/

/-- The length of a run depends on the lengths of its descriptors only. -/
theorem rxChainLength_congr (segs segs' : Nat → TCPSegment) (l : List Nat)
    (hl : ∀ j ∈ l, (segs' j).lDataLength = (segs j).lDataLength) :
    rxChainLength segs' l = rxChainLength segs l := by
  unfold rxChainLength
  congr 1
  apply List.map_congr_left
  intro j hj
  rw [hl j hj]

/-- The length of two runs in a row. -/
theorem rxChainLength_append (segs : Nat → TCPSegment) (l1 l2 : List Nat) :
    rxChainLength segs (l1 ++ l2) = rxChainLength segs l1 + rxChainLength segs l2 := by
  simp [rxChainLength]

/-- A run is split at any point into a run and one that starts where the first
ends. -/
theorem rxChain_append (segs : Nat → TCPSegment) :
    ∀ (l1 l2 : List Nat) (start : Nat),
      rxChain segs start (l1 ++ l2) ↔
        rxChain segs start l1 ∧ rxChain segs (start + rxChainLength segs l1) l2 := by
  intro l1
  induction l1 with
  | nil => intro l2 start; simp [rxChain, rxChainLength]
  | cons i rest ih =>
    intro l2 start
    have e : start + rxChainLength segs (i :: rest)
        = start + (segs i).lDataLength.toNat + rxChainLength segs rest := by
      simp [rxChainLength]; omega
    rw [e]
    show rxChain segs start (i :: (rest ++ l2)) ↔ _
    constructor
    · intro hc
      obtain ⟨h1, h2, h3⟩ := hc
      obtain ⟨a, b⟩ := (ih l2 _).mp h3
      exact ⟨⟨h1, h2, a⟩, b⟩
    · intro hc
      obtain ⟨⟨h1, h2, a⟩, b⟩ := hc
      exact ⟨h1, h2, (ih l2 _).mpr ⟨a, b⟩⟩

/-- Confirming a segment leaves `pxHeadSegment`, `usMSS` and
`ulNextTxSequenceNumber` of the window as they are; every descriptor keeps its range
and capacity, but for the confirmed one when it is freed, which holds no bytes
then. -/
theorem txCheckAck_confirm_fields (h : Host) (ulLast : Nat) (p : Pool) (w : TCPWindow)
    (i c b : Nat) :
    (txCheckAck_confirm h ulLast p w i c b).2.2.pxHeadSegment = w.pxHeadSegment ∧
    (txCheckAck_confirm h ulLast p w i c b).2.2.usMSS = w.usMSS ∧
    (txCheckAck_confirm h ulLast p w i c b).2.2.ulNextTxSequenceNumber
      = w.ulNextTxSequenceNumber ∧
    (∀ j, j ≠ i →
      (txCheckAck_confirm h ulLast p w i c b).2.1.xTCPSegments j = p.xTCPSegments j) ∧
    (c = w.tx.ulCurrentSequenceNumber →
      ((txCheckAck_confirm h ulLast p w i c b).2.1.xTCPSegments i).lDataLength = 0) ∧
    (c ≠ w.tx.ulCurrentSequenceNumber →
      sameExtent (p.xTCPSegments i)
        ((txCheckAck_confirm h ulLast p w i c b).2.1.xTCPSegments i)) := by
  obtain ⟨f1, f2, f3, f4⟩ := txCheckAck_flag_frame h ulLast p w i
  by_cases hc : c = w.tx.ulCurrentSequenceNumber
  · have hc2 : c = (txCheckAck_flag h ulLast p w i).2.tx.ulCurrentSequenceNumber := by
      rw [f1]; exact hc
    obtain ⟨-, -, -, -, -, -, -, -, g9, g10⟩ := txCheckAck_confirm_free h ulLast p w i c b hc
    refine ⟨?_, ?_, g9, g10, fun _ => ?_, fun hne => absurd hc hne⟩
    · simp only [txCheckAck_confirm, if_pos hc2, vTCPWindowFree]
      rw [f1]
    · simp only [txCheckAck_confirm, if_pos hc2, vTCPWindowFree]
      rw [f1]
    · simp only [txCheckAck_confirm, if_pos hc2, vTCPWindowFree, Function.update_same]
  · obtain ⟨-, -, -, -, -, -, -, -, g9, g10, g11⟩ :=
      txCheckAck_confirm_keep h ulLast p w i c b hc
    have hc2 : ¬ c = (txCheckAck_flag h ulLast p w i).2.tx.ulCurrentSequenceNumber := by
      rw [f1]; exact hc
    refine ⟨?_, ?_, g9, g11, fun he => absurd he hc, fun _ => ?_⟩
    · simp only [txCheckAck_confirm, if_neg hc2]
      split <;> rw [f1]
    · simp only [txCheckAck_confirm, if_neg hc2]
      split <;> rw [f1]
    · rw [g10]
      exact ⟨rfl, rfl, rfl⟩

/-- The loop of `prvTCPWindowTxCheckAck` leaves `pxHeadSegment`, `usMSS` and
`ulNextTxSequenceNumber` as they are. -/
theorem txCheckAckLoop_fields (h : Host) (ulLast : Nat) :
    ∀ (l : List Nat) (p : Pool) (w : TCPWindow) (c b : Nat),
      (txCheckAckLoop h ulLast l p w c b).2.2.pxHeadSegment = w.pxHeadSegment ∧
      (txCheckAckLoop h ulLast l p w c b).2.2.usMSS = w.usMSS ∧
      (txCheckAckLoop h ulLast l p w c b).2.2.ulNextTxSequenceNumber
        = w.ulNextTxSequenceNumber := by
  intro l
  induction l with
  | nil => intro p w c b; exact ⟨rfl, rfl, rfl⟩
  | cons i rest ih =>
    intro p w c b
    cases hlt : xSequenceLessThan c ulLast with
    | false => rw [txCheckAckLoop_stop h ulLast _ p w c b hlt]; exact ⟨rfl, rfl, rfl⟩
    | true =>
      rw [txCheckAckLoop_cons h ulLast i rest p w c b hlt]
      split
      · exact ih p w c b
      · split
        · exact ⟨rfl, rfl, rfl⟩
        · split
          · exact ⟨rfl, rfl, rfl⟩
          · obtain ⟨g1, g2, g3, -⟩ := txCheckAck_confirm_fields h ulLast p w i c b
            obtain ⟨i1, i2, i3⟩ := ih (txCheckAck_confirm h ulLast p w i c b).2.1
              (txCheckAck_confirm h ulLast p w i c b).2.2
              (u32add c (toUInt32 (p.xTCPSegments i).lDataLength))
              (txCheckAck_confirm h ulLast p w i c b).1
            exact ⟨i1.trans g1, i2.trans g2, i3.trans g3⟩

/-- When no visited descriptor has the sequence number `tx.ulCurrentSequenceNumber`,
the loop of `prvTCPWindowTxCheckAck` leaves the range and the capacity of every
descriptor as they are. -/
theorem txCheckAckLoop_no_free_extent (h : Host) (ulLast : Nat) :
    ∀ (l : List Nat) (p : Pool) (w : TCPWindow) (c b : Nat),
      (∀ i ∈ l, (p.xTCPSegments i).ulSequenceNumber ≠ w.tx.ulCurrentSequenceNumber) →
      ∀ j, sameExtent (p.xTCPSegments j) ((txCheckAckLoop h ulLast l p w c b).2.1.xTCPSegments j) := by
  intro l
  induction l with
  | nil => intro p w c b _ j; exact ⟨rfl, rfl, rfl⟩
  | cons i rest ih =>
    intro p w c b hne j
    cases hlt : xSequenceLessThan c ulLast with
    | false => rw [txCheckAckLoop_stop h ulLast _ p w c b hlt]; exact ⟨rfl, rfl, rfl⟩
    | true =>
      rw [txCheckAckLoop_cons h ulLast i rest p w c b hlt]
      split
      · exact ih p w c b (fun k hk => hne k (List.mem_cons_of_mem _ hk)) j
      · split
        · exact ⟨rfl, rfl, rfl⟩
        · split
          · exact ⟨rfl, rfl, rfl⟩
          · rename_i hcs _
            have hcs2 : c = (p.xTCPSegments i).ulSequenceNumber := by
              by_contra hx; exact hcs hx
            have hc : c ≠ w.tx.ulCurrentSequenceNumber := by
              rw [hcs2]; exact hne i (List.mem_cons_self _ _)
            obtain ⟨-, g2, -, -, -, -, -, -, -, g10, g11⟩ :=
              txCheckAck_confirm_keep h ulLast p w i c b hc
            have hstep : ∀ k, sameExtent (p.xTCPSegments k)
                ((txCheckAck_confirm h ulLast p w i c b).2.1.xTCPSegments k) := by
              intro k
              by_cases hki : k = i
              · subst hki; rw [g10]; exact ⟨rfl, rfl, rfl⟩
              · rw [g11 k hki]; exact ⟨rfl, rfl, rfl⟩
            obtain ⟨e1, e2, e3⟩ := ih (txCheckAck_confirm h ulLast p w i c b).2.1
              (txCheckAck_confirm h ulLast p w i c b).2.2
              (u32add c (toUInt32 (p.xTCPSegments i).lDataLength))
              (txCheckAck_confirm h ulLast p w i c b).1
              (fun k hk => by
                rw [g2, (hstep k).1]
                exact hne k (List.mem_cons_of_mem _ hk)) j
            obtain ⟨s1, s2, s3⟩ := hstep j
            exact ⟨e1.trans s1, e2.trans s2, e3.trans s3⟩

/-- What the loop of `prvTCPWindowTxCheckAck` frees.  When `xTxSegments` is a run of
distinct descriptors, not in the free list, of fewer than `2^32` bytes from
`tx.ulCurrentSequenceNumber`, the loop frees the first `k` of them, for some `k`:
they leave `xTxSegments`, join the free list in their order and hold no bytes
afterwards, `tx.ulCurrentSequenceNumber` advances by their length, and every other
descriptor keeps its range and capacity. -/
theorem txCheckAckLoop_leading (h : Host) (ulLast : Nat) :
    ∀ (l : List Nat) (p : Pool) (w : TCPWindow) (start c b : Nat),
      w.tx.ulCurrentSequenceNumber = start % 4294967296 → w.xTxSegments = l →
      rxChain p.xTCPSegments start l → rxChainLength p.xTCPSegments l < 4294967296 →
      l.Nodup → (∀ j ∈ l, j ∉ p.xSegmentList) →
      ∃ k, k ≤ l.length ∧
        (txCheckAckLoop h ulLast l p w c b).2.2.xTxSegments = l.drop k ∧
        (txCheckAckLoop h ulLast l p w c b).2.2.tx.ulCurrentSequenceNumber
          = (start + rxChainLength p.xTCPSegments (l.take k)) % 4294967296 ∧
        (txCheckAckLoop h ulLast l p w c b).2.1.xSegmentList = p.xSegmentList ++ l.take k ∧
        (∀ j, j ∉ l.take k →
          sameExtent (p.xTCPSegments j)
            ((txCheckAckLoop h ulLast l p w c b).2.1.xTCPSegments j)) ∧
        (∀ j ∈ l.take k,
          ((txCheckAckLoop h ulLast l p w c b).2.1.xTCPSegments j).lDataLength = 0) := by
  intro l
  induction l with
  | nil =>
    intro p w start c b hcur hl _ _ _ _
    refine ⟨0, Nat.le_refl _, ?_, ?_, ?_, fun j _ => ⟨rfl, rfl, rfl⟩, fun j hj => ?_⟩
    · simpa [txCheckAckLoop] using hl
    · simpa [txCheckAckLoop, rxChainLength] using hcur
    · simp [txCheckAckLoop]
    · simp at hj
  | cons i rest ih =>
    intro p w start c b hcur hl hch hlen hnd hfree
    have hstop : ∃ k, k ≤ (i :: rest).length ∧
        w.xTxSegments = (i :: rest).drop k ∧
        w.tx.ulCurrentSequenceNumber
          = (start + rxChainLength p.xTCPSegments ((i :: rest).take k)) % 4294967296 ∧
        p.xSegmentList = p.xSegmentList ++ (i :: rest).take k ∧
        (∀ j, j ∉ (i :: rest).take k → sameExtent (p.xTCPSegments j) (p.xTCPSegments j)) ∧
        (∀ j ∈ (i :: rest).take k, (p.xTCPSegments j).lDataLength = 0) := by
      refine ⟨0, Nat.zero_le _, by simpa using hl, by simpa [rxChainLength] using hcur,
        by simp, fun j _ => ⟨rfl, rfl, rfl⟩, fun j hj => ?_⟩
      simp at hj
    have hnd2 : rest.Nodup := (List.nodup_cons.mp hnd).2
    have hi : i ∉ rest := (List.nodup_cons.mp hnd).1
    obtain ⟨hseq, hpos, hrest⟩ := hch
    have hsplit : rxChainLength p.xTCPSegments (i :: rest)
        = (p.xTCPSegments i).lDataLength.toNat + rxChainLength p.xTCPSegments rest := by
      simp [rxChainLength]
    rw [hsplit] at hlen
    cases hlt : xSequenceLessThan c ulLast with
    | false => rw [txCheckAckLoop_stop h ulLast _ p w c b hlt]; exact hstop
    | true =>
      rw [txCheckAckLoop_cons h ulLast i rest p w c b hlt]
      split
      · -- the first descriptor is skipped: nothing can be freed any more
        have hne : ∀ j ∈ rest,
            (p.xTCPSegments j).ulSequenceNumber ≠ w.tx.ulCurrentSequenceNumber := by
          intro j hj
          obtain ⟨d, e1, e2, e3⟩ := rxChain_offset p.xTCPSegments rest _ hrest j hj
          rw [e1, hcur]
          omega
        obtain ⟨-, n2, n3, n4, -⟩ := txCheckAckLoop_no_free h ulLast rest p w c b hne
        have n5 := txCheckAckLoop_no_free_extent h ulLast rest p w c b hne
        refine ⟨0, Nat.zero_le _, ?_, ?_, ?_, fun j _ => n5 j, fun j hj => ?_⟩
        · rw [n4]; simpa using hl
        · rw [n2]; simpa [rxChainLength] using hcur
        · rw [n3]; simp
        · simp at hj
      · split
        · exact hstop
        · split
          · exact hstop
          · rename_i hcs _
            have hcs2 : c = (p.xTCPSegments i).ulSequenceNumber := by
              by_contra hx; exact hcs hx
            have hc : c = w.tx.ulCurrentSequenceNumber := by rw [hcs2, hseq, hcur]
            obtain ⟨-, g2, g3, g4, -, -, -, -, -, g10⟩ :=
              txCheckAck_confirm_free h ulLast p w i c b hc
            obtain ⟨-, -, -, -, g15, -⟩ := txCheckAck_confirm_fields h ulLast p w i c b
            have g15 := g15 hc
            have hif : i ∉ p.xSegmentList := hfree i (List.mem_cons_self _ _)
            rw [List.erase_of_not_mem hif] at g3
            rw [hl, List.erase_cons_head] at g4
            have hu : toUInt32 (p.xTCPSegments i).lDataLength
                = (p.xTCPSegments i).lDataLength.toNat := by
              unfold toUInt32; omega
            have hcur1 : (txCheckAck_confirm h ulLast p w i c b).2.2.tx.ulCurrentSequenceNumber
                = (start + (p.xTCPSegments i).lDataLength.toNat) % 4294967296 := by
              rw [g2, hcur, hu]; unfold u32add; omega
            have hsame : ∀ j ∈ rest,
                (txCheckAck_confirm h ulLast p w i c b).2.1.xTCPSegments j = p.xTCPSegments j :=
              fun j hj => g10 j (fun e => hi (e ▸ hj))
            have hch1 := (rxChain_congr p.xTCPSegments
              (txCheckAck_confirm h ulLast p w i c b).2.1.xTCPSegments rest _
              (fun j hj => by rw [hsame j hj]; exact ⟨rfl, rfl⟩) hrest)
            obtain ⟨k, k1, k2, k3, k4, k5, k6⟩ :=
              ih (txCheckAck_confirm h ulLast p w i c b).2.1
                (txCheckAck_confirm h ulLast p w i c b).2.2
                (start + (p.xTCPSegments i).lDataLength.toNat)
                (u32add c (toUInt32 (p.xTCPSegments i).lDataLength))
                (txCheckAck_confirm h ulLast p w i c b).1
                hcur1 g4 hch1.1 (by rw [hch1.2]; omega) hnd2
                (fun j hj => by
                  rw [g3]
                  intro hm
                  rcases List.mem_append.mp hm with hm | hm
                  · exact hfree j (List.mem_cons_of_mem _ hj) hm
                  · have hji : j = i := by simpa using hm
                    exact hi (hji ▸ hj))
            have htake : rxChainLength (txCheckAck_confirm h ulLast p w i c b).2.1.xTCPSegments
                  (rest.take k)
                = rxChainLength p.xTCPSegments (rest.take k) :=
              rxChainLength_congr _ _ _
                (fun j hj => by rw [hsame j (List.mem_of_mem_take hj)])
            refine ⟨k + 1, by simpa using k1, ?_, ?_, ?_, ?_, ?_⟩
            · rw [k2]; simp
            · rw [k3, htake]
              simp only [List.take_succ_cons, rxChainLength, List.map_cons, List.sum_cons]
              congr 1
              omega
            · rw [k4, g3]; simp
            · intro j hj
              have hji : j ≠ i := fun e => hj (by simp [e])
              have hjt : j ∉ rest.take k := fun hm => hj (by simp [hm])
              obtain ⟨e1, e2, e3⟩ := k5 j hjt
              rw [g10 j hji] at e1 e2 e3
              exact ⟨e1, e2, e3⟩
            · intro j hj
              rcases List.mem_cons.mp (by simpa using hj) with hji | hjt
              · subst hji
                have hjt : j ∉ rest.take k := fun hm => hi (List.mem_of_mem_take hm)
                rw [(k5 j hjt).2.1]
                exact g15
              · exact k6 j hjt

/-! ## The transmit side stays well formed -/

/-- A well-formed transmit side holds fewer than `2^32` bytes. -/
theorem txWellFormed_length (p : Pool) (w : TCPWindow) (hw : txWellFormed p w) :
    rxChainLength p.xTCPSegments w.xTxSegments < 4294967296 := by
  obtain ⟨-, -, -, hlen, -, hmss, -, -, -, hcount, -⟩ := hw
  have hle : ∀ x ∈ w.xTxSegments.map (fun i => (p.xTCPSegments i).lDataLength.toNat),
      x ≤ 65535 := by
    intro x hx
    obtain ⟨i, hi, rfl⟩ := List.mem_map.mp hx
    obtain ⟨h1, h2⟩ := hlen i hi
    omega
  have hsum := List.sum_le_card_nsmul _ 65535 hle
  simp only [List.length_map, smul_eq_mul] at hsum
  unfold rxChainLength
  have : w.xTxSegments.length * 65535 ≤ 65536 * 65535 := Nat.mul_le_mul_right _ (by omega)
  omega

/-- Whether a list is a run from `start` depends on `start` modulo `2^32` only. -/
theorem rxChain_of_mod_eq (segs : Nat → TCPSegment) :
    ∀ (l : List Nat) (s s' : Nat), s % 4294967296 = s' % 4294967296 →
      rxChain segs s l → rxChain segs s' l := by
  intro l
  induction l with
  | nil => intro _ _ _ _; trivial
  | cons i rest ih =>
    intro s s' hm hc
    obtain ⟨h1, h2, h3⟩ := hc
    exact ⟨by rw [h1, hm], h2, ih _ _ (by omega) h3⟩

/-- A change that keeps the range and the capacity of every descriptor, the free
list, `xTxSegments`, `tx.ulCurrentSequenceNumber`, `ulNextTxSequenceNumber` and
`usMSS`, and that keeps or clears `pxHeadSegment`, keeps the transmit side well
formed. -/
theorem txWellFormed_frame (p p' : Pool) (w w' : TCPWindow) (hw : txWellFormed p w)
    (hext : ∀ j, sameExtent (p.xTCPSegments j) (p'.xTCPSegments j))
    (hfree : p'.xSegmentList = p.xSegmentList) (hT : w'.xTxSegments = w.xTxSegments)
    (hcur : w'.tx.ulCurrentSequenceNumber = w.tx.ulCurrentSequenceNumber)
    (hnext : w'.ulNextTxSequenceNumber = w.ulNextTxSequenceNumber)
    (hmss : w'.usMSS = w.usMSS)
    (hhead : w'.pxHeadSegment = w.pxHeadSegment ∨ w'.pxHeadSegment = none) :
    txWellFormed p' w' := by
  obtain ⟨a1, a2, a3, a4, a5, a6, a7, a8, a9, a10, a11⟩ := hw
  obtain ⟨c1, c2⟩ := rxChain_congr p.xTCPSegments p'.xTCPSegments w.xTxSegments _
    (fun j _ => ⟨(hext j).1, (hext j).2.1⟩) a2
  refine ⟨by rw [hcur]; exact a1, by rw [hcur, hT]; exact c1, by rw [hnext, hcur, hT, c2]; exact a3,
    ?_, by rw [hmss]; exact a5, by rw [hmss]; exact a6, by rw [hT]; exact a7,
    by rw [hfree]; exact a8, by rw [hT, hfree]; exact a9, by rw [hT, hfree]; exact a10, ?_⟩
  · intro i hi
    rw [hT] at hi
    obtain ⟨e1, e2, e3⟩ := hext i
    rw [e2, e3, hmss]
    exact a4 i hi
  · intro i hi
    rcases hhead with hh | hh
    · rw [hh] at hi
      rw [(hext i).2.1, hT]
      exact a11 i hi
    · rw [hh] at hi; cases hi

/-- After the first `k` descriptors of `xTxSegments` were freed, the transmit side is
well formed again. -/
theorem txWellFormed_after_free (p p' : Pool) (w w' : TCPWindow) (k : Nat)
    (hw : txWellFormed p w)
    (hT : w'.xTxSegments = w.xTxSegments.drop k)
    (hcur : w'.tx.ulCurrentSequenceNumber
      = (w.tx.ulCurrentSequenceNumber + rxChainLength p.xTCPSegments (w.xTxSegments.take k))
          % 4294967296)
    (hfree : p'.xSegmentList = p.xSegmentList ++ w.xTxSegments.take k)
    (hext : ∀ j, j ∉ w.xTxSegments.take k →
      sameExtent (p.xTCPSegments j) (p'.xTCPSegments j))
    (hzero : ∀ j ∈ w.xTxSegments.take k, (p'.xTCPSegments j).lDataLength = 0)
    (hnext : w'.ulNextTxSequenceNumber = w.ulNextTxSequenceNumber)
    (hmss : w'.usMSS = w.usMSS) (hhead : w'.pxHeadSegment = w.pxHeadSegment) :
    txWellFormed p' w' := by
  have htotal := txWellFormed_length p w hw
  obtain ⟨a1, a2, a3, a4, a5, a6, a7, a8, a9, a10, a11⟩ := hw
  have hsplit : w.xTxSegments.take k ++ w.xTxSegments.drop k = w.xTxSegments :=
    List.take_append_drop k _
  have hnd : (w.xTxSegments.take k ++ w.xTxSegments.drop k).Nodup := by rw [hsplit]; exact a7
  have hdisj : ∀ j ∈ w.xTxSegments.drop k, j ∉ w.xTxSegments.take k := by
    intro j hj hm
    exact (List.nodup_append.mp hnd).2.2 hm hj
  have hch : rxChain p.xTCPSegments w.tx.ulCurrentSequenceNumber
      (w.xTxSegments.take k ++ w.xTxSegments.drop k) := by rw [hsplit]; exact a2
  obtain ⟨-, hch2⟩ := (rxChain_append _ _ _ _).mp hch
  obtain ⟨c1, c2⟩ := rxChain_congr p.xTCPSegments p'.xTCPSegments (w.xTxSegments.drop k) _
    (fun j hj => ⟨(hext j (hdisj j hj)).1, (hext j (hdisj j hj)).2.1⟩) hch2
  have hlen : rxChainLength p.xTCPSegments w.xTxSegments
      = rxChainLength p.xTCPSegments (w.xTxSegments.take k)
        + rxChainLength p.xTCPSegments (w.xTxSegments.drop k) := by
    rw [← rxChainLength_append, hsplit]
  have hk : (w.xTxSegments.take k).length + (w.xTxSegments.drop k).length
      = w.xTxSegments.length := by
    rw [← List.length_append, hsplit]
  refine ⟨by rw [hcur]; omega, ?_, ?_, ?_, by rw [hmss]; exact a5, by rw [hmss]; exact a6,
    ?_, ?_, ?_, ?_, ?_⟩
  · rw [hcur, hT]
    exact rxChain_of_mod_eq _ _ _ _ (by omega) c1
  · rw [hnext, hcur, hT, c2, a3, hlen]
    omega
  · intro i hi
    rw [hT] at hi
    obtain ⟨e1, e2, e3⟩ := hext i (hdisj i hi)
    rw [e2, e3, hmss]
    exact a4 i (List.mem_of_mem_drop hi)
  · rw [hT]; exact (List.nodup_append.mp hnd).2.1
  · rw [hfree]
    refine List.nodup_append.mpr ⟨a8, (List.nodup_append.mp hnd).1, ?_⟩
    intro j hj hm
    exact a9 j (List.mem_of_mem_take hm) hj
  · intro i hi
    rw [hT] at hi
    rw [hfree]
    intro hm
    rcases List.mem_append.mp hm with hm | hm
    · exact a9 i (List.mem_of_mem_drop hi) hm
    · exact hdisj i hi hm
  · rw [hfree, hT, List.length_append]
    omega
  · intro i hi
    rw [hhead] at hi
    by_cases hm : i ∈ w.xTxSegments.take k
    · exact Or.inl (hzero i hm)
    · rcases a11 i hi with hz | hlast
      · left
        rw [(hext i hm).2.1]
        exact hz
      · right
        rw [hT, List.getLast?_drop]
        split
        · rename_i hle
          exfalso
          apply hm
          rw [List.take_of_length_le hle]
          exact List.mem_of_getLast?_eq_some hlast
        · exact hlast

/-- The loop of `prvTCPWindowFastRetransmit` leaves `pxHeadSegment` and `usMSS` as
they are. -/
theorem fastRetransmitLoop_fields (ulFirst : Nat) :
    ∀ (l : List Nat) (p : Pool) (w : TCPWindow) (n : Nat),
      (fastRetransmitLoop ulFirst l p w n).2.2.pxHeadSegment = w.pxHeadSegment ∧
      (fastRetransmitLoop ulFirst l p w n).2.2.usMSS = w.usMSS := by
  intro l
  induction l with
  | nil => intro p w n; exact ⟨rfl, rfl⟩
  | cons i rest ih =>
    intro p w n
    unfold fastRetransmitLoop
    simp only
    split
    · split
      · obtain ⟨i1, i2⟩ := ih
          (p.setSegment i
            { p.xTCPSegments i with
              ucDupAckCount := ((p.xTCPSegments i).ucDupAckCount + 1) % 256
              ucTransmitCount := 0 })
          { w with
            xWaitQueue := uxListRemove w.xWaitQueue i
            xPriorityQueue := vListInsertFifo w.xPriorityQueue i } (u32add n 1)
        exact ⟨i1, i2⟩
      · exact ih _ w n
    · exact ih p w n

/-- The function `prvTCPWindowTxCheckAck` keeps the transmit side well formed. -/
theorem prvTCPWindowTxCheckAck_wellFormed (h : Host) (p : Pool) (w : TCPWindow)
    (ulFirst ulLast : Nat) (hw : txWellFormed p w) :
    txWellFormed (prvTCPWindowTxCheckAck h p w ulFirst ulLast).2.1
      (prvTCPWindowTxCheckAck h p w ulFirst ulLast).2.2 := by
  have htotal := txWellFormed_length p w hw
  have hw' := hw
  obtain ⟨a1, a2, -, -, -, -, a7, -, a9, -, -⟩ := hw'
  unfold prvTCPWindowTxCheckAck
  obtain ⟨k, -, k2, k3, k4, k5, k6⟩ :=
    txCheckAckLoop_leading h ulLast w.xTxSegments p w w.tx.ulCurrentSequenceNumber ulFirst 0
      (by omega) rfl a2 htotal a7 a9
  obtain ⟨f1, f2, f3⟩ := txCheckAckLoop_fields h ulLast w.xTxSegments p w ulFirst 0
  exact txWellFormed_after_free p _ w _ k hw k2 k3 k4 k5 k6 f3 f2 f1

/-- The function `ulTCPWindowTxAck` keeps the transmit side well formed. -/
theorem ulTCPWindowTxAck_wellFormed (h : Host) (p : Pool) (w : TCPWindow)
    (ulSequenceNumber : Nat) (hw : txWellFormed p w) :
    txWellFormed (ulTCPWindowTxAck h p w ulSequenceNumber).2.1
      (ulTCPWindowTxAck h p w ulSequenceNumber).2.2 := by
  cases hle : xSequenceLessThanOrEqual ulSequenceNumber w.tx.ulCurrentSequenceNumber with
  | true => rw [ulTCPWindowTxAck_old h p w _ hle]; exact hw
  | false =>
    rw [ulTCPWindowTxAck_new h p w _ hle]
    exact prvTCPWindowTxCheckAck_wellFormed h p w _ _ hw

/-- The function `ulTCPWindowTxSack` keeps the transmit side well formed. -/
theorem ulTCPWindowTxSack_wellFormed (h : Host) (p : Pool) (w : TCPWindow)
    (ulFirst ulLast : Nat) (hw : txWellFormed p w) :
    txWellFormed (ulTCPWindowTxSack h p w ulFirst ulLast).2.1
      (ulTCPWindowTxSack h p w ulFirst ulLast).2.2 := by
  have h1 := prvTCPWindowTxCheckAck_wellFormed h p w ulFirst ulLast hw
  unfold ulTCPWindowTxSack
  simp only
  unfold prvTCPWindowFastRetransmit
  obtain ⟨g1, g2, -, g4, -, -, g7, g8, -⟩ :=
    fastRetransmitLoop_frame ulFirst
      (prvTCPWindowTxCheckAck h p w ulFirst ulLast).2.2.xWaitQueue
      (prvTCPWindowTxCheckAck h p w ulFirst ulLast).2.1
      (prvTCPWindowTxCheckAck h p w ulFirst ulLast).2.2 0
  obtain ⟨f1, f2⟩ :=
    fastRetransmitLoop_fields ulFirst
      (prvTCPWindowTxCheckAck h p w ulFirst ulLast).2.2.xWaitQueue
      (prvTCPWindowTxCheckAck h p w ulFirst ulLast).2.1
      (prvTCPWindowTxCheckAck h p w ulFirst ulLast).2.2 0
  refine txWellFormed_frame _ _ _ _ h1 (fun j => ?_) g1 g4 (by rw [g2]) g7 f2 (Or.inl f1)
  rw [g8 j]
  exact ⟨rfl, rfl, rfl⟩

/-- Emitting a segment keeps the range and the capacity of every descriptor, the
free list, and the fields of the window that the transmit side is made of. -/
theorem ulTCPWindowTxGet_emit_frame (h : Host) (p : Pool) (w : TCPWindow) (i : Nat) :
    (∀ j, sameExtent (p.xTCPSegments j) ((ulTCPWindowTxGet_emit h p w i).2.2.1.xTCPSegments j)) ∧
    (ulTCPWindowTxGet_emit h p w i).2.2.1.xSegmentList = p.xSegmentList ∧
    (ulTCPWindowTxGet_emit h p w i).2.2.2.xTxSegments = w.xTxSegments ∧
    (ulTCPWindowTxGet_emit h p w i).2.2.2.tx = w.tx ∧
    (ulTCPWindowTxGet_emit h p w i).2.2.2.ulNextTxSequenceNumber = w.ulNextTxSequenceNumber ∧
    (ulTCPWindowTxGet_emit h p w i).2.2.2.usMSS = w.usMSS ∧
    (ulTCPWindowTxGet_emit h p w i).2.2.2.pxHeadSegment = w.pxHeadSegment := by
  refine ⟨fun j => ?_, ?_, ?_, ?_, ?_, ?_, ?_⟩
  · simp only [ulTCPWindowTxGet_emit, Pool.setSegment]
    by_cases hj : j = i
    · subst hj
      simp only [Function.update_same]
      exact ⟨rfl, rfl, rfl⟩
    · rw [Function.update_noteq hj]
      exact ⟨rfl, rfl, rfl⟩
  · simp only [ulTCPWindowTxGet_emit, Pool.setSegment]
  all_goals
    simp only [ulTCPWindowTxGet_emit]
    split <;> rfl

/-- The function `ulTCPWindowTxGet` keeps the transmit side well formed. -/
theorem ulTCPWindowTxGet_wellFormed (h : Host) (p : Pool) (w : TCPWindow)
    (ulWindowSize : Nat) (hw : txWellFormed p w) :
    txWellFormed (ulTCPWindowTxGet h p w ulWindowSize).2.2.1
      (ulTCPWindowTxGet h p w ulWindowSize).2.2.2 := by
  rcases ulTCPWindowTxGet_cases h p w ulWindowSize with hr | ⟨i, rest, -, hr⟩ |
    ⟨i, rest, -, -, hr⟩ | ⟨i, rest, -, -, hr⟩
  · rw [hr]
    exact txWellFormed_frame p p w _ hw (fun j => ⟨rfl, rfl, rfl⟩) rfl rfl rfl rfl rfl
      (Or.inl rfl)
  · rw [hr]
    obtain ⟨e1, e2, e3, e4, e5, e6, e7⟩ := ulTCPWindowTxGet_emit_frame h p
      { w with ulOurSequenceNumber := w.tx.ulHighestSequenceNumber, xPriorityQueue := rest } i
    exact txWellFormed_frame p _ w _ hw e1 e2 e3 (by rw [e4]) e5 e6 (Or.inl e7)
  · rw [hr]
    obtain ⟨e1, e2, e3, e4, e5, e6, e7⟩ := ulTCPWindowTxGet_emit_frame h
      (p.setSegment i { p.xTCPSegments i with ucDupAckCount := 0 })
      { w with ulOurSequenceNumber := w.tx.ulHighestSequenceNumber, xWaitQueue := rest } i
    refine txWellFormed_frame p _ w _ hw (fun j => ?_) e2 e3 (by rw [e4]) e5 e6 (Or.inl e7)
    obtain ⟨s1, s2, s3⟩ := e1 j
    have hset : sameExtent (p.xTCPSegments j)
        ((p.setSegment i { p.xTCPSegments i with ucDupAckCount := 0 }).xTCPSegments j) := by
      simp only [Pool.setSegment]
      by_cases hj : j = i
      · subst hj
        simp only [Function.update_same]
        exact ⟨rfl, rfl, rfl⟩
      · rw [Function.update_noteq hj]
        exact ⟨rfl, rfl, rfl⟩
    obtain ⟨t1, t2, t3⟩ := hset
    exact ⟨s1.trans t1, s2.trans t2, s3.trans t3⟩
  · rw [hr]
    obtain ⟨e1, e2, e3, e4, e5, e6, e7⟩ := ulTCPWindowTxGet_emit_frame h p
      { w with
        ulOurSequenceNumber := w.tx.ulHighestSequenceNumber
        xTxQueue := rest
        pxHeadSegment := if w.pxHeadSegment = some i then none else w.pxHeadSegment
        tx := { w.tx with
                ulHighestSequenceNumber :=
                  u32add (p.xTCPSegments i).ulSequenceNumber
                    (toUInt32 (p.xTCPSegments i).lDataLength) } } i
    refine txWellFormed_frame p _ w _ hw e1 e2 e3 (by rw [e4]) e5 e6 ?_
    rw [e7]
    simp only
    split
    · exact Or.inr rfl
    · exact Or.inl rfl

/-- One iteration of the loop of `lTCPWindowTxAdd` leaves
`tx.ulCurrentSequenceNumber` as it is. -/
theorem txAddLoop_store_tx (h : Host) (p : Pool) (w : TCPWindow) (i : Nat) (pN : Pool)
    (wN : TCPWindow) (seq : Nat) (cnt left idx : Int)
    (hnew : xTCPWindowNew h p w seq cnt false = some (i, pN, wN)) :
    (txAddLoop_store pN wN i left idx).2.2.tx = w.tx := by
  unfold xTCPWindowNew at hnew
  split at hnew
  · cases hnew
  · simp only [Bool.false_eq_true, if_false, Option.some.injEq, Prod.mk.injEq] at hnew
    obtain ⟨-, -, rfl⟩ := hnew
    rfl

/-- One iteration of the loop of `lTCPWindowTxAdd` keeps the transmit side well
formed. -/
theorem txAddLoop_store_wellFormed (h : Host) (p : Pool) (w : TCPWindow) (i : Nat)
    (rest : List Nat) (pN : Pool) (wN : TCPWindow) (left idx : Int)
    (hw : txWellFormed p w) (hfl : p.xSegmentList = i :: rest) (hpos : 0 < left)
    (hnew : xTCPWindowNew h p w w.ulNextTxSequenceNumber (Int.ofNat w.usMSS) false
      = some (i, pN, wN)) :
    txWellFormed (txAddLoop_store pN wN i left idx).2.1 (txAddLoop_store pN wN i left idx).2.2 := by
  obtain ⟨pN', wN', hnew', -, b2, b3, b4, b5, b6, -, b8, b9, b10, -, b12⟩ :=
    txAddLoop_iteration h p w i rest left idx hfl
  have hpair : (i, pN', wN') = (i, pN, wN) := Option.some.inj (hnew'.symm.trans hnew)
  simp only [Prod.mk.injEq, true_and] at hpair
  obtain ⟨rfl, rfl⟩ := hpair
  have btx := txAddLoop_store_tx h p w i pN' wN' _ _ left idx hnew
  obtain ⟨a1, a2, a3, a4, a5, a6, a7, a8, a9, a10, -⟩ := hw
  have hm : 0 < FreeRTOS_min_int32 left (Int.ofNat w.usMSS) ∧
      FreeRTOS_min_int32 left (Int.ofNat w.usMSS) ≤ (w.usMSS : Int) := by
    unfold FreeRTOS_min_int32
    split
    · constructor
      · exact hpos
      · assumption
    · constructor
      · exact Int.ofNat_pos.mpr a5
      · exact le_refl _
  have hifree : i ∈ p.xSegmentList := by rw [hfl]; exact List.mem_cons_self _ _
  have hiT : i ∉ w.xTxSegments := fun hm' => a9 i hm' hifree
  have hsame : ∀ j ∈ w.xTxSegments,
      (txAddLoop_store pN' wN' i left idx).2.1.xTCPSegments j = p.xTCPSegments j :=
    fun j hj => b3 j (fun e => hiT (e ▸ hj))
  obtain ⟨c1, c2⟩ := rxChain_congr p.xTCPSegments
    (txAddLoop_store pN' wN' i left idx).2.1.xTCPSegments w.xTxSegments _
    (fun j hj => by rw [hsame j hj]; exact ⟨rfl, rfl⟩) a2
  have hlen : rxChainLength (txAddLoop_store pN' wN' i left idx).2.1.xTCPSegments
        (w.xTxSegments ++ [i])
      = rxChainLength p.xTCPSegments w.xTxSegments
        + (FreeRTOS_min_int32 left (Int.ofNat w.usMSS)).toNat := by
    rw [rxChainLength_append, c2]
    simp [rxChainLength, b6]
  have hu : toUInt32 (FreeRTOS_min_int32 left (Int.ofNat w.usMSS))
      = (FreeRTOS_min_int32 left (Int.ofNat w.usMSS)).toNat := by
    apply toUInt32_of_nonneg (le_of_lt hm.1)
    have := hm.2
    omega
  rw [hfl] at a8 a10
  refine ⟨by rw [btx]; exact a1, ?_, ?_, ?_, by rw [b8]; exact a5, by rw [b8]; exact a6, ?_,
    ?_, ?_, ?_, ?_⟩
  · rw [btx, b10]
    refine (rxChain_append _ _ _ _).mpr ⟨c1, ?_, ?_, trivial⟩
    · rw [b4, a3, c2]
    · rw [b6]; exact hm.1
  · rw [b9, btx, b10, hlen, hu, a3]
    unfold u32add
    omega
  · intro j hj
    rw [b10] at hj
    rw [b8]
    rcases List.mem_append.mp hj with hj | hj
    · rw [hsame j hj]; exact a4 j hj
    · have hji : j = i := by simpa using hj
      subst hji
      rw [b5, b6]
      exact ⟨hm.2, rfl⟩
  · rw [b10]
    refine List.nodup_append.mpr ⟨a7, List.nodup_singleton _, ?_⟩
    intro j hj hm'
    have hji : j = i := by simpa using hm'
    exact hiT (hji ▸ hj)
  · rw [b2]; exact (List.nodup_cons.mp a8).2
  · intro j hj
    rw [b10] at hj
    rw [b2]
    rcases List.mem_append.mp hj with hj | hj
    · intro hm'
      exact a9 j hj (by rw [hfl]; exact List.mem_cons_of_mem _ hm')
    · have hji : j = i := by simpa using hj
      subst hji
      exact (List.nodup_cons.mp a8).1
  · rw [b2, b10, List.length_append]
    simp only [List.length_cons, List.length_nil] at a10 ⊢
    omega
  · intro j hj
    rw [b12] at hj
    right
    split at hj
    · cases hj
      rw [b10]
      simp
    · cases hj

/-- The loop of `lTCPWindowTxAdd` keeps the transmit side well formed. -/
theorem txAddLoop_wellFormed (h : Host) (lMax : Int) (fuel : Nat) :
    ∀ (p : Pool) (w : TCPWindow) (left idx done : Int) (r : Int × Pool × TCPWindow),
      txWellFormed p w → txAddLoop fuel h p w left idx lMax done = some r →
      txWellFormed r.2.1 r.2.2 := by
  induction fuel with
  | zero =>
    intro p w left idx done r hw hr
    unfold txAddLoop at hr
    split at hr
    · cases hr
    · cases hr; exact hw
  | succ f ih =>
    intro p w left idx done r hw hr
    unfold txAddLoop at hr
    split at hr
    · rename_i hpos
      simp only at hr
      split at hr
      · cases hr; exact hw
      · rename_i i p1 w1 hnew
        obtain ⟨rest, hfl⟩ : ∃ rest, p.xSegmentList = i :: rest := by
          unfold xTCPWindowNew at hnew
          split at hnew
          · cases hnew
          · rename_i k tl hk
            simp only [Bool.false_eq_true, if_false, Option.some.injEq, Prod.mk.injEq] at hnew
            exact ⟨tl, by rw [hk, hnew.1]⟩
        exact ih _ _ _ _ _ r
          (txAddLoop_store_wellFormed h p w i rest p1 w1 left idx hw hfl hpos hnew) hr
    · cases hr; exact hw

/-- The function `lTCPWindowTxAdd`, for a length below `2^31`, keeps the transmit side
well formed. -/
theorem lTCPWindowTxAdd_wellFormed (fuel : Nat) (h : Host) (p : Pool) (w : TCPWindow)
    (ulLength : Nat) (lPosition lMax : Int) (r : Int × Pool × TCPWindow)
    (hw : txWellFormed p w) (hlen : ulLength < 2147483648)
    (hr : lTCPWindowTxAdd fuel h p w ulLength lPosition lMax = some r) :
    txWellFormed r.2.1 r.2.2 := by
  have hcast : toInt32 ulLength = (ulLength : Int) := toInt32_of_lt hlen
  unfold lTCPWindowTxAdd at hr
  simp only at hr
  split at hr
  · exact txAddLoop_wellFormed h lMax fuel _ _ _ _ _ r hw hr
  · rename_i i hhead
    split at hr
    · rename_i hcond
      obtain ⟨h1, -, h3⟩ := hcond
      refine txAddLoop_wellFormed h lMax fuel _ _ _ _ _ r ?_ hr
      obtain ⟨a1, a2, a3, a4, a5, a6, a7, a8, a9, a10, a11⟩ := hw
      have hlast : w.xTxSegments.getLast? = some i := by
        rcases a11 i hhead with hz | hl
        · exact absurd hz h3
        · exact hl
      obtain ⟨init, hT⟩ := List.getLast?_eq_some_iff.mp hlast
      have hiT : i ∈ w.xTxSegments := by rw [hT]; simp
      have hinit : i ∉ init := by
        intro hm
        rw [hT] at a7
        exact (List.nodup_append.mp a7).2.2 hm (List.mem_singleton_self i)
      rw [hT] at a2
      obtain ⟨d1, d2, d3, -⟩ := (rxChain_append _ _ _ _).mp a2
      have hmin : 0 ≤ FreeRTOS_min_int32 (toInt32 ulLength)
            ((p.xTCPSegments i).lMaxLength - (p.xTCPSegments i).lDataLength) ∧
          FreeRTOS_min_int32 (toInt32 ulLength)
            ((p.xTCPSegments i).lMaxLength - (p.xTCPSegments i).lDataLength)
            ≤ (p.xTCPSegments i).lMaxLength - (p.xTCPSegments i).lDataLength := by
        rw [hcast]
        unfold FreeRTOS_min_int32
        split
        · exact ⟨Int.ofNat_nonneg _, by assumption⟩
        · exact ⟨by omega, le_refl _⟩
      obtain ⟨-, f2, f3, f4⟩ := prvTCPWindowTxAdd_FrontSegment_spec p w i (toInt32 ulLength)
      generalize hm : FreeRTOS_min_int32 (toInt32 ulLength)
        ((p.xTCPSegments i).lMaxLength - (p.xTCPSegments i).lDataLength) = m at hmin
      have hfront1 : (prvTCPWindowTxAdd_FrontSegment p w i (toInt32 ulLength)).1 = m := by
        rw [← hm]; rfl
      rw [hfront1] at f4
      have hseg : ∀ j, (prvTCPWindowTxAdd_FrontSegment p w i (toInt32 ulLength)).2.1.xTCPSegments j
          = if j = i then { p.xTCPSegments i with lDataLength := (p.xTCPSegments i).lDataLength + m }
            else p.xTCPSegments j := by
        intro j
        simp only [prvTCPWindowTxAdd_FrontSegment, Pool.setSegment, hm]
        by_cases hj : j = i
        · subst hj; simp only [Function.update_same, if_true]
        · rw [Function.update_noteq hj, if_neg hj]
      have hTx : (prvTCPWindowTxAdd_FrontSegment p w i (toInt32 ulLength)).2.2.xTxSegments
          = w.xTxSegments := by
        simp only [prvTCPWindowTxAdd_FrontSegment]
        split <;> rfl
      have htx : (prvTCPWindowTxAdd_FrontSegment p w i (toInt32 ulLength)).2.2.tx = w.tx := by
        simp only [prvTCPWindowTxAdd_FrontSegment]
        split <;> rfl
      have hhd : (prvTCPWindowTxAdd_FrontSegment p w i (toInt32 ulLength)).2.2.pxHeadSegment
            = w.pxHeadSegment ∨
          (prvTCPWindowTxAdd_FrontSegment p w i (toInt32 ulLength)).2.2.pxHeadSegment = none := by
        simp only [prvTCPWindowTxAdd_FrontSegment]
        split
        · exact Or.inr rfl
        · exact Or.inl rfl
      obtain ⟨e1, e2⟩ := a4 i hiT
      have hu : toUInt32 m = m.toNat := by
        apply toUInt32_of_nonneg hmin.1
        omega
      have hsame : ∀ j ∈ init,
          (prvTCPWindowTxAdd_FrontSegment p w i (toInt32 ulLength)).2.1.xTCPSegments j
            = p.xTCPSegments j := by
        intro j hj
        rw [hseg j, if_neg (fun e : j = i => hinit (e ▸ hj))]
      obtain ⟨c1, c2⟩ := rxChain_congr p.xTCPSegments
        (prvTCPWindowTxAdd_FrontSegment p w i (toInt32 ulLength)).2.1.xTCPSegments init _
        (fun j hj => by rw [hsame j hj]; exact ⟨rfl, rfl⟩) d1
      have hlen2 : rxChainLength
            (prvTCPWindowTxAdd_FrontSegment p w i (toInt32 ulLength)).2.1.xTCPSegments
            (init ++ [i])
          = rxChainLength p.xTCPSegments init + ((p.xTCPSegments i).lDataLength + m).toNat := by
        rw [rxChainLength_append, c2]
        simp [rxChainLength, hseg i]
      have hlen1 : rxChainLength p.xTCPSegments (init ++ [i])
          = rxChainLength p.xTCPSegments init + (p.xTCPSegments i).lDataLength.toNat := by
        rw [rxChainLength_append]
        simp [rxChainLength]
      rw [hT, hlen1] at a3
      refine ⟨by rw [htx]; exact a1, ?_, ?_, ?_, by rw [f3]; exact a5, by rw [f3]; exact a6,
        by rw [hTx]; exact a7, by rw [f2]; exact a8, by rw [hTx, f2]; exact a9,
        by rw [hTx, f2]; exact a10, ?_⟩
      · rw [htx, hTx, hT]
        refine (rxChain_append _ _ _ _).mpr ⟨c1, ?_, ?_, trivial⟩
        · rw [hseg i, if_pos rfl, c2]
          exact d2
        · rw [hseg i, if_pos rfl]
          show 0 < (p.xTCPSegments i).lDataLength + m
          omega
      · rw [f4, htx, hTx, hT, hlen2, hu, a3]
        unfold u32add
        omega
      · intro j hj
        rw [hTx] at hj
        rw [f3, hseg j]
        by_cases hji : j = i
        · rw [if_pos hji]
          show (p.xTCPSegments i).lDataLength + m ≤ (p.xTCPSegments i).lMaxLength ∧
            (p.xTCPSegments i).lMaxLength = (w.usMSS : Int)
          exact ⟨by omega, e2⟩
        · rw [if_neg hji]
          exact a4 j hj
      · intro j hj
        right
        rcases hhd with hh | hh
        · rw [hh, hhead] at hj
          cases hj
          rw [hTx]
          exact hlast
        · rw [hh] at hj; cases hj
    · exact txAddLoop_wellFormed h lMax fuel _ _ _ _ _ r hw hr

/-- The window that `vTCPWindowCreate` makes has an empty `xTxSegments`, the head
segment of the memory it was made on, and its transmit sequence numbers equal to
`ulSequenceNumber`. -/
theorem vTCPWindowCreate_tx (N : Nat) (xAllocated xTCPSegmentsSet : Bool) (p : Pool)
    (w : TCPWindow)
    (ulRxWindowLength ulTxWindowLength ulAckNumber ulSequenceNumber ulMSS : Nat) :
    (vTCPWindowCreate N xAllocated xTCPSegmentsSet p w ulRxWindowLength ulTxWindowLength
        ulAckNumber ulSequenceNumber ulMSS).2.xTxSegments = [] ∧
    (vTCPWindowCreate N xAllocated xTCPSegmentsSet p w ulRxWindowLength ulTxWindowLength
        ulAckNumber ulSequenceNumber ulMSS).2.pxHeadSegment = w.pxHeadSegment ∧
    (vTCPWindowCreate N xAllocated xTCPSegmentsSet p w ulRxWindowLength ulTxWindowLength
        ulAckNumber ulSequenceNumber ulMSS).2.tx.ulCurrentSequenceNumber = ulSequenceNumber ∧
    (vTCPWindowCreate N xAllocated xTCPSegmentsSet p w ulRxWindowLength ulTxWindowLength
        ulAckNumber ulSequenceNumber ulMSS).2.ulNextTxSequenceNumber = ulSequenceNumber := by
  refine ⟨?_, ?_, rfl, rfl⟩ <;>
    simp only [vTCPWindowCreate, vTCPWindowInit] <;> split <;> (try split) <;> (try split) <;> rfl

/-- Every state of `TxReachable` has a well-formed transmit side. -/
theorem txReachable_wellFormed (p : Pool) (w : TCPWindow) (hr : TxReachable p w) :
    txWellFormed p w := by
  induction hr with
  | window_create N xa xs p w0 rxl txl ack seq mss hhead hnd hcount hpos hlt hseq =>
    obtain ⟨c1, c2, c3, c4⟩ := vTCPWindowCreate_tx N xa xs p w0 rxl txl ack seq mss
    refine ⟨by rw [c3]; exact hseq, by rw [c1]; trivial, ?_, ?_, hpos, hlt, by rw [c1]; simp,
      hnd, ?_, ?_, ?_⟩
    · rw [c4, c3, c1]
      simp only [rxChainLength, List.map_nil, List.sum_nil]
      omega
    · intro i hi
      rw [c1] at hi
      cases hi
    · intro i hi
      rw [c1] at hi
      cases hi
    · rw [c1]
      simpa using hcount
    · intro i hi
      rw [c2, hhead] at hi
      cases hi
  | tx_add p w fuel h len pos mx r _ hlen hr ih =>
    exact lTCPWindowTxAdd_wellFormed fuel h p w len pos mx r ih hlen hr
  | tx_get p w h ws _ ih => exact ulTCPWindowTxGet_wellFormed h p w ws ih
  | tx_ack p w h seq _ ih => exact ulTCPWindowTxAck_wellFormed h p w seq ih
  | tx_sack p w h first last _ ih => exact ulTCPWindowTxSack_wellFormed h p w first last ih

/-- In a run of segments that are each shorter than `2^31` bytes, every descriptor
is before the next one in sequence order. -/
theorem rxChain_ascending (segs : Nat → TCPSegment) :
    ∀ (l : List Nat) (start : Nat), rxChain segs start l →
      (∀ i ∈ l, (segs i).lDataLength < 2147483648) →
      List.Chain'
        (fun i j => xSequenceLessThan (segs i).ulSequenceNumber (segs j).ulSequenceNumber = true)
        l := by
  intro l
  induction l with
  | nil => intro _ _ _; exact List.chain'_nil
  | cons i rest ih =>
    intro start hch hlen
    obtain ⟨h1, h2, h3⟩ := hch
    cases rest with
    | nil => exact List.chain'_singleton i
    | cons j tl =>
      refine List.chain'_cons.mpr ⟨?_, ih _ h3 (fun k hk => hlen k (List.mem_cons_of_mem _ hk))⟩
      obtain ⟨g1, -, -⟩ := h3
      have hl := hlen i (List.mem_cons_self _ _)
      rw [xSequenceLessThan_eq, h1, g1]
      simp only [u32sub, u32add, decide_eq_true_eq]
      omega

/-- In a run of fewer than `2^32` bytes no two descriptors have the same sequence
number. -/
theorem rxChain_seq_nodup (segs : Nat → TCPSegment) :
    ∀ (l : List Nat) (start : Nat), rxChain segs start l →
      rxChainLength segs l < 4294967296 →
      (l.map (fun i => (segs i).ulSequenceNumber)).Nodup := by
  intro l
  induction l with
  | nil => intro _ _ _; exact List.nodup_nil
  | cons i rest ih =>
    intro start hch hlen
    obtain ⟨h1, h2, h3⟩ := hch
    have hsplit : rxChainLength segs (i :: rest)
        = (segs i).lDataLength.toNat + rxChainLength segs rest := by
      simp [rxChainLength]
    rw [hsplit] at hlen
    rw [List.map_cons]
    refine List.nodup_cons.mpr ⟨?_, ih _ h3 (by omega)⟩
    intro hm
    obtain ⟨j, hj, hjs⟩ := List.mem_map.mp hm
    obtain ⟨d, e1, e2, e3⟩ := rxChain_offset segs rest _ h3 j hj
    rw [e1, h1] at hjs
    omega

/-- Claim C21, amended: in every state of a window that is reached from
`vTCPWindowCreate`, on memory without a head segment, with an MSS that is positive
and over a pool of at most 65536 distinct free descriptors, by calls of
`lTCPWindowTxAdd` with lengths below `2^31`, `ulTCPWindowTxGet`, `ulTCPWindowTxAck`
and `ulTCPWindowTxSack`, each descriptor of `xTxSegments` is before the next one in
sequence order (`xSequenceLessThan`), and no two descriptors of `xTxSegments` have the
same sequence number. -/
theorem C21_tx_segments_ascending (p : Pool) (w : TCPWindow) (hr : TxReachable p w) :
    List.Chain'
      (fun i j =>
        xSequenceLessThan (p.xTCPSegments i).ulSequenceNumber
          (p.xTCPSegments j).ulSequenceNumber = true)
      w.xTxSegments ∧
    (w.xTxSegments.map (fun i => (p.xTCPSegments i).ulSequenceNumber)).Nodup := by
  have hw := txReachable_wellFormed p w hr
  have htotal := txWellFormed_length p w hw
  obtain ⟨-, a2, -, a4, -, a6, -⟩ := hw
  refine ⟨rxChain_ascending _ _ _ a2 (fun i hi => ?_), rxChain_seq_nodup _ _ _ a2 htotal⟩
  obtain ⟨e1, e2⟩ := a4 i hi
  omega

/-- Claim C21 after `vTCPWindowCreate` with an MSS of 1460 on a pool of 16 descriptors
and `lTCPWindowTxAdd` for 2920 bytes: the descriptors 0 and 1 of `xTxSegments` are in
ascending order. -/
theorem C21_tx_segments_ascending_witness :
    TxReachable busyTxAdd.2.1 busyTxAdd.2.2 ∧ busyTxAdd.2.2.xTxSegments = [0, 1] ∧
    (List.Chain'
      (fun i j =>
        xSequenceLessThan (busyTxAdd.2.1.xTCPSegments i).ulSequenceNumber
          (busyTxAdd.2.1.xTCPSegments j).ulSequenceNumber = true)
      busyTxAdd.2.2.xTxSegments ∧
    (busyTxAdd.2.2.xTxSegments.map
      (fun i => (busyTxAdd.2.1.xTCPSegments i).ulSequenceNumber)).Nodup) :=
  have hreach : TxReachable busyTxAdd.2.1 busyTxAdd.2.2 :=
    TxReachable.tx_add _ _ 2 demoHost 2920 0 65536 busyTxAdd
      (TxReachable.window_create 16 true (prvCreateSectors 16 true demoPool).1
        (prvCreateSectors 16 true demoPool).2 demoWindow 5840 5840 1000 2000 1460
        (by decide) (by decide) (by decide) (by decide) (by decide) (by decide))
      (by decide) rfl
  ⟨hreach, by decide, C21_tx_segments_ascending busyTxAdd.2.1 busyTxAdd.2.2 hreach⟩


/-- Claim C21 as stated fails.  A window created with an MSS of 0 on memory that is
all zero, over a pool of 2 descriptors, takes every descriptor of the pool for one
byte given to `lTCPWindowTxAdd`: the 2 descriptors of `xTxSegments` both have the
sequence number 2000 and no bytes, and the call returns 0.  And with an MSS of 1460, after `lTCPWindowTxAdd` for 100
bytes, for `2^32 - 100` bytes and for 50 bytes, `xTxSegments` holds the descriptors 0
and 1, both with the sequence number 2000.  In both states the first descriptor of
`xTxSegments` is not before the second one. -/
theorem C21_counterexample :
    (vTCPWindowCreate 2 true false demoPool zeroWindow 5840 5840 1000 2000 0).2.usMSS = 0 ∧
    (lTCPWindowTxAdd 3 demoHost
      (vTCPWindowCreate 2 true false demoPool zeroWindow 5840 5840 1000 2000 0).1.2
      (vTCPWindowCreate 2 true false demoPool zeroWindow 5840 5840 1000 2000 0).2
      1 0 65536).isSome = true ∧
    zeroMssRun.1 = 0 ∧ zeroMssRun.2.2.xTxSegments = [0, 1] ∧
    (zeroMssRun.2.1.xTCPSegments 0).ulSequenceNumber = 2000 ∧
    (zeroMssRun.2.1.xTCPSegments 1).ulSequenceNumber = 2000 ∧
    (zeroMssRun.2.1.xTCPSegments 0).lDataLength = 0 ∧
    (zeroMssRun.2.1.xTCPSegments 1).lDataLength = 0 ∧
    xSequenceLessThan (zeroMssRun.2.1.xTCPSegments 0).ulSequenceNumber
      (zeroMssRun.2.1.xTCPSegments 1).ulSequenceNumber = false ∧
    createdState.2.usMSS = 1460 ∧
    sharedSeqRun.2.2.xTxSegments = [0, 1] ∧
    (sharedSeqRun.2.1.xTCPSegments 0).ulSequenceNumber = 2000 ∧
    (sharedSeqRun.2.1.xTCPSegments 1).ulSequenceNumber = 2000 ∧
    xSequenceLessThan (sharedSeqRun.2.1.xTCPSegments 0).ulSequenceNumber
      (sharedSeqRun.2.1.xTCPSegments 1).ulSequenceNumber = false := by
  decide

/-! ## The queues stay linked -/

/-- Queues that lose descriptors stay linked, when the descriptors that remain in them
remain in `xTxSegments`. -/
theorem queuesLinked_sublist (w w' : TCPWindow)
    (hP : w'.xPriorityQueue.Sublist w.xPriorityQueue)
    (hW : w'.xWaitQueue.Sublist w.xWaitQueue) (hX : w'.xTxQueue.Sublist w.xTxQueue)
    (hT : ∀ j ∈ queueItems w', j ∈ w.xTxSegments → j ∈ w'.xTxSegments)
    (hq : queuesLinked w) : queuesLinked w' := by
  obtain ⟨hnd, hsub⟩ := hq
  have hs : (queueItems w').Sublist (queueItems w) := (hP.append hW).append hX
  exact ⟨hnd.sublist hs, fun j hj => hT j hj (hsub j (hs.subset hj))⟩

/-- Queues that hold the same descriptors, in any order, stay linked when
`xTxSegments` loses no descriptor. -/
theorem queuesLinked_perm (w w' : TCPWindow) (hp : (queueItems w').Perm (queueItems w))
    (hT : ∀ j ∈ w.xTxSegments, j ∈ w'.xTxSegments) (hq : queuesLinked w) :
    queuesLinked w' := by
  obtain ⟨hnd, hsub⟩ := hq
  exact ⟨hp.nodup_iff.mpr hnd, fun j hj => hT j (hsub j (hp.mem_iff.mp hj))⟩

/-- Each queue of a window with linked queues holds no descriptor twice. -/
theorem queuesLinked_nodup (w : TCPWindow) (hq : queuesLinked w) :
    w.xPriorityQueue.Nodup ∧ w.xWaitQueue.Nodup ∧ w.xTxQueue.Nodup := by
  obtain ⟨hnd, -⟩ := hq
  unfold queueItems at hnd
  obtain ⟨h1, h2, -⟩ := List.nodup_append.mp hnd
  obtain ⟨h3, h4, -⟩ := List.nodup_append.mp h1
  exact ⟨h3, h4, h2⟩

/-- A window whose descriptor `i` is unlinked from the three queues, and from
`xTxSegments` or not, has linked queues still. -/
theorem queuesLinked_erase (w w' : TCPWindow) (i : Nat)
    (hP : w'.xPriorityQueue = w.xPriorityQueue.erase i)
    (hW : w'.xWaitQueue = w.xWaitQueue.erase i) (hX : w'.xTxQueue = w.xTxQueue.erase i)
    (hT : w'.xTxSegments = w.xTxSegments.erase i ∨ w'.xTxSegments = w.xTxSegments)
    (hq : queuesLinked w) : queuesLinked w' := by
  obtain ⟨n1, n2, n3⟩ := queuesLinked_nodup w hq
  refine queuesLinked_sublist w w' (by rw [hP]; exact List.erase_sublist _ _)
    (by rw [hW]; exact List.erase_sublist _ _) (by rw [hX]; exact List.erase_sublist _ _)
    (fun j hj hjT => ?_) hq
  have hne : j ≠ i := by
    unfold queueItems at hj
    rw [hP, hW, hX] at hj
    rcases List.mem_append.mp hj with hj | hj
    · rcases List.mem_append.mp hj with hj | hj
      · exact (n1.mem_erase_iff.mp hj).1
      · exact (n2.mem_erase_iff.mp hj).1
    · exact (n3.mem_erase_iff.mp hj).1
  rcases hT with hT | hT
  · rw [hT]; exact (List.mem_erase_of_ne hne).mpr hjT
  · rw [hT]; exact hjT

/-- The function `vTCPWindowFree` keeps the queues linked. -/
theorem vTCPWindowFree_linked (p : Pool) (w : TCPWindow) (i : Nat) (hq : queuesLinked w) :
    queuesLinked (vTCPWindowFree p w i).2 :=
  queuesLinked_erase w _ i rfl rfl rfl (Or.inl rfl) hq

/-- Confirming a segment keeps the queues linked. -/
theorem txCheckAck_confirm_linked (h : Host) (ulLast : Nat) (p : Pool) (w : TCPWindow)
    (i c b : Nat) (hq : queuesLinked w) :
    queuesLinked (txCheckAck_confirm h ulLast p w i c b).2.2 := by
  by_cases hc : c = w.tx.ulCurrentSequenceNumber
  · obtain ⟨-, -, -, g4, -, g6, g7, g8, -, -⟩ := txCheckAck_confirm_free h ulLast p w i c b hc
    exact queuesLinked_erase w _ i g6 g8 g7 (Or.inl g4) hq
  · obtain ⟨-, -, -, g4, -, g6, g7, g8, -, -, -⟩ :=
      txCheckAck_confirm_keep h ulLast p w i c b hc
    by_cases ha : (p.xTCPSegments i).bAcked = false
    · rw [if_pos ha] at g6 g7 g8
      exact queuesLinked_erase w _ i g6 g8 g7 (Or.inr g4) hq
    · rw [if_neg ha] at g6 g7 g8
      refine queuesLinked_sublist w _ (by rw [g6]) (by rw [g8]) (by rw [g7])
        (fun j _ hj => by rw [g4]; exact hj) hq

/-- The loop of `prvTCPWindowTxCheckAck` keeps the queues linked. -/
theorem txCheckAckLoop_linked (h : Host) (ulLast : Nat) :
    ∀ (l : List Nat) (p : Pool) (w : TCPWindow) (c b : Nat), queuesLinked w →
      queuesLinked (txCheckAckLoop h ulLast l p w c b).2.2 := by
  intro l
  induction l with
  | nil => intro p w c b hq; exact hq
  | cons i rest ih =>
    intro p w c b hq
    cases hlt : xSequenceLessThan c ulLast with
    | false => rw [txCheckAckLoop_stop h ulLast _ p w c b hlt]; exact hq
    | true =>
      rw [txCheckAckLoop_cons h ulLast i rest p w c b hlt]
      split
      · exact ih p w c b hq
      · split
        · exact hq
        · split
          · exact hq
          · exact ih _ _ _ _ (txCheckAck_confirm_linked h ulLast p w i c b hq)

/-- The function `prvTCPWindowFastRetransmit` keeps the queues linked. -/
theorem prvTCPWindowFastRetransmit_linked (p : Pool) (w : TCPWindow) (ulFirst : Nat)
    (hq : queuesLinked w) : queuesLinked (prvTCPWindowFastRetransmit p w ulFirst).2.2 := by
  obtain ⟨-, n2, -⟩ := queuesLinked_nodup w hq
  unfold prvTCPWindowFastRetransmit
  obtain ⟨hw, -⟩ := fastRetransmitLoop_spec ulFirst p.xTCPSegments w.xWaitQueue p w [] 0
    (by simp) (by simpa using n2) (fun _ _ => rfl)
  rw [hw]
  refine queuesLinked_perm w _ ?_ (fun j hj => hj) hq
  unfold queueItems
  simp only [List.nil_append, List.append_assoc]
  refine List.Perm.append_left _ ?_
  rw [← List.append_assoc]
  refine List.Perm.append_right _ ?_
  exact List.filter_append_perm _ _

/-- The functions `ulTCPWindowTxAck` and `ulTCPWindowTxSack` keep the queues
linked. -/
theorem ulTCPWindowTxAck_linked (h : Host) (p : Pool) (w : TCPWindow) (hq : queuesLinked w) :
    (∀ seq, queuesLinked (ulTCPWindowTxAck h p w seq).2.2) ∧
    (∀ first last, queuesLinked (ulTCPWindowTxSack h p w first last).2.2) := by
  constructor
  · intro seq
    cases hle : xSequenceLessThanOrEqual seq w.tx.ulCurrentSequenceNumber with
    | true => rw [ulTCPWindowTxAck_old h p w _ hle]; exact hq
    | false =>
      rw [ulTCPWindowTxAck_new h p w _ hle]
      exact txCheckAckLoop_linked h seq _ p w _ 0 hq
  · intro first last
    unfold ulTCPWindowTxSack
    exact prvTCPWindowFastRetransmit_linked _ _ first
      (txCheckAckLoop_linked h last _ p w first 0 hq)

/-- The function `ulTCPWindowTxGet` keeps the queues linked. -/
theorem ulTCPWindowTxGet_linked (h : Host) (p : Pool) (w : TCPWindow) (ulWindowSize : Nat)
    (hq : queuesLinked w) : queuesLinked (ulTCPWindowTxGet h p w ulWindowSize).2.2.2 := by
  have emit : ∀ (p1 : Pool) (w1 : TCPWindow) (i : Nat),
      queueItems (ulTCPWindowTxGet_emit h p1 w1 i).2.2.2
        = w1.xPriorityQueue ++ (w1.xWaitQueue ++ [i]) ++ w1.xTxQueue ∧
      (ulTCPWindowTxGet_emit h p1 w1 i).2.2.2.xTxSegments = w1.xTxSegments := by
    intro p1 w1 i
    constructor
    · simp only [queueItems, ulTCPWindowTxGet_emit, vListInsertFifo]
      split <;> rfl
    · exact (ulTCPWindowTxGet_emit_frame h p1 w1 i).2.2.1
  have perm1 : ∀ (a : Nat) (r W X : List Nat),
      (r ++ (W ++ [a]) ++ X).Perm ((a :: r) ++ W ++ X) := by
    intro a r W X
    have e1 : r ++ (W ++ [a]) ++ X = (r ++ W) ++ a :: X := by simp
    have e2 : (a :: r) ++ W ++ X = a :: ((r ++ W) ++ X) := by simp
    rw [e1, e2]
    exact List.perm_middle
  rcases ulTCPWindowTxGet_cases h p w ulWindowSize with hr | ⟨i, rest, hl, hr⟩ |
    ⟨i, rest, -, hl, hr⟩ | ⟨i, rest, -, hl, hr⟩
  · rw [hr]
    exact queuesLinked_perm w _ (List.Perm.refl _) (fun j hj => hj) hq
  · rw [hr]
    obtain ⟨e1, e2⟩ := emit p
      { w with ulOurSequenceNumber := w.tx.ulHighestSequenceNumber, xPriorityQueue := rest } i
    refine queuesLinked_perm w _ ?_ (fun j hj => by rw [e2]; exact hj) hq
    rw [e1]
    simp only [queueItems, hl]
    exact perm1 i rest _ _
  · rw [hr]
    obtain ⟨e1, e2⟩ := emit (p.setSegment i { p.xTCPSegments i with ucDupAckCount := 0 })
      { w with ulOurSequenceNumber := w.tx.ulHighestSequenceNumber, xWaitQueue := rest } i
    refine queuesLinked_perm w _ ?_ (fun j hj => by rw [e2]; exact hj) hq
    rw [e1]
    simp only [queueItems, hl]
    refine List.Perm.append_right _ (List.Perm.append_left _ ?_)
    exact List.perm_append_singleton i rest
  · rw [hr]
    obtain ⟨e1, e2⟩ := emit p
      { w with
        ulOurSequenceNumber := w.tx.ulHighestSequenceNumber
        xTxQueue := rest
        pxHeadSegment := if w.pxHeadSegment = some i then none else w.pxHeadSegment
        tx := { w.tx with
                ulHighestSequenceNumber :=
                  u32add (p.xTCPSegments i).ulSequenceNumber
                    (toUInt32 (p.xTCPSegments i).lDataLength) } } i
    refine queuesLinked_perm w _ ?_ (fun j hj => by rw [e2]; exact hj) hq
    rw [e1]
    simp only [queueItems, hl, List.append_assoc, List.singleton_append]
    exact List.Perm.refl _

/-- The loop of `lTCPWindowTxAdd` keeps the queues linked, when no descriptor is both
free and held by the window. -/
theorem txAddLoop_linked (h : Host) (lMax : Int) (fuel : Nat) :
    ∀ (p : Pool) (w : TCPWindow) (left idx done : Int) (r : Int × Pool × TCPWindow),
      (p.xSegmentList ++ heldSegments w).Nodup → queuesLinked w →
      txAddLoop fuel h p w left idx lMax done = some r → queuesLinked r.2.2 := by
  induction fuel with
  | zero =>
    intro p w left idx done r _ hq hr
    unfold txAddLoop at hr
    split at hr
    · cases hr
    · cases hr; exact hq
  | succ f ih =>
    intro p w left idx done r hnd hq hr
    unfold txAddLoop at hr
    split at hr
    · simp only at hr
      split at hr
      · cases hr; exact hq
      · rename_i i p1 w1 hnew
        have c1 := xTCPWindowNew_conserves _ _ _ _ _ _ _ hnew
        have hnd1 : ((txAddLoop_store p1 w1 i left idx).2.1.xSegmentList
            ++ heldSegments (txAddLoop_store p1 w1 i left idx).2.2).Nodup :=
          c1.nodup_iff.mpr hnd
        refine ih _ _ _ _ _ r hnd1 ?_ hr
        obtain ⟨rest, hfl⟩ : ∃ rest, p.xSegmentList = i :: rest := by
          unfold xTCPWindowNew at hnew
          split at hnew
          · cases hnew
          · rename_i k tl hk
            simp only [Bool.false_eq_true, if_false, Option.some.injEq, Prod.mk.injEq] at hnew
            exact ⟨tl, by rw [hk, hnew.1]⟩
        obtain ⟨pN', wN', hnew', -, -, -, -, -, -, -, -, -, b10, b11, -⟩ :=
          txAddLoop_iteration h p w i rest left idx hfl
        have hpair : (i, pN', wN') = (i, p1, w1) := Option.some.inj (hnew'.symm.trans hnew)
        simp only [Prod.mk.injEq, true_and] at hpair
        obtain ⟨rfl, rfl⟩ := hpair
        have hP : (txAddLoop_store pN' wN' i left idx).2.2.xPriorityQueue = w.xPriorityQueue := by
          unfold xTCPWindowNew at hnew
          rw [hfl] at hnew
          simp only [Bool.false_eq_true, if_false, Option.some.injEq, Prod.mk.injEq,
            true_and] at hnew
          obtain ⟨-, rfl⟩ := hnew
          rfl
        have hW : (txAddLoop_store pN' wN' i left idx).2.2.xWaitQueue = w.xWaitQueue := by
          unfold xTCPWindowNew at hnew
          rw [hfl] at hnew
          simp only [Bool.false_eq_true, if_false, Option.some.injEq, Prod.mk.injEq,
            true_and] at hnew
          obtain ⟨-, rfl⟩ := hnew
          rfl
        obtain ⟨qnd, qsub⟩ := hq
        have hiT : i ∉ w.xTxSegments := by
          intro hm
          rw [hfl] at hnd
          exact (List.nodup_append.mp hnd).2.2 (List.mem_cons_self i rest)
            (List.mem_append_left _ hm)
        have hiQ : i ∉ queueItems w := fun hm => hiT (qsub i hm)
        have hitems : queueItems (txAddLoop_store pN' wN' i left idx).2.2
            = queueItems w ++ [i] := by
          unfold queueItems
          rw [hP, hW, b11, List.append_assoc, List.append_assoc, List.append_assoc]
        constructor
        · rw [hitems]
          refine List.nodup_append.mpr ⟨qnd, List.nodup_singleton _, ?_⟩
          intro j hj hm
          have hji : j = i := by simpa using hm
          exact hiQ (hji ▸ hj)
        · intro j hj
          rw [hitems] at hj
          rw [b10]
          rcases List.mem_append.mp hj with hj | hj
          · exact List.mem_append_left _ (qsub j hj)
          · exact List.mem_append_right _ hj
    · cases hr; exact hq

/-- The function `lTCPWindowTxAdd` keeps the queues linked, when no descriptor is both
free and held by the window. -/
theorem lTCPWindowTxAdd_linked (fuel : Nat) (h : Host) (p : Pool) (w : TCPWindow)
    (ulLength : Nat) (lPosition lMax : Int) (r : Int × Pool × TCPWindow)
    (hnd : (p.xSegmentList ++ heldSegments w).Nodup) (hq : queuesLinked w)
    (hr : lTCPWindowTxAdd fuel h p w ulLength lPosition lMax = some r) :
    queuesLinked r.2.2 := by
  unfold lTCPWindowTxAdd at hr
  simp only at hr
  split at hr
  · exact txAddLoop_linked h lMax fuel _ _ _ _ _ r hnd hq hr
  · rename_i i _
    split at hr
    · have hfront : (prvTCPWindowTxAdd_FrontSegment p w i (toInt32 ulLength)).2.1.xSegmentList
            = p.xSegmentList ∧
          heldSegments (prvTCPWindowTxAdd_FrontSegment p w i (toInt32 ulLength)).2.2
            = heldSegments w ∧
          queueItems (prvTCPWindowTxAdd_FrontSegment p w i (toInt32 ulLength)).2.2
            = queueItems w ∧
          (prvTCPWindowTxAdd_FrontSegment p w i (toInt32 ulLength)).2.2.xTxSegments
            = w.xTxSegments := by
        refine ⟨rfl, ?_, ?_, ?_⟩
        · simp only [prvTCPWindowTxAdd_FrontSegment, heldSegments]
          split <;> rfl
        · simp only [prvTCPWindowTxAdd_FrontSegment, queueItems]
          split <;> rfl
        · simp only [prvTCPWindowTxAdd_FrontSegment]
          split <;> rfl
      refine txAddLoop_linked h lMax fuel _ _ _ _ _ r (by rw [hfront.1, hfront.2.1]; exact hnd)
        ?_ hr
      exact queuesLinked_perm w _ (by rw [hfront.2.2.1]) (fun j hj => by rw [hfront.2.2.2]; exact hj)
        hq
    · exact txAddLoop_linked h lMax fuel _ _ _ _ _ r hnd hq hr

/-- The loop `rxConfirmLoop` keeps the queues linked. -/
theorem rxConfirmLoop_linked (seq len : Nat) (fuel : Nat) :
    ∀ (p : Pool) (w : TCPWindow) (p1 : Pool) (w1 : TCPWindow), queuesLinked w →
      rxConfirmLoop fuel p w seq len = some (p1, w1) → queuesLinked w1 := by
  induction fuel with
  | zero =>
    intro p w p1 w1 hq hr
    unfold rxConfirmLoop at hr
    split at hr
    · cases hr; exact hq
    · cases hr
  | succ f ih =>
    intro p w p1 w1 hq hr
    unfold rxConfirmLoop at hr
    split at hr
    · cases hr; exact hq
    · rename_i i _
      exact ih _ _ p1 w1 (vTCPWindowFree_linked p w i hq) hr

/-- The loop `rxAbsorbLoop` keeps the queues linked. -/
theorem rxAbsorbLoop_linked (fuel : Nat) :
    ∀ (p : Pool) (w : TCPWindow) (cur : Nat) (p1 : Pool) (w1 : TCPWindow) (cur1 : Nat),
      queuesLinked w → rxAbsorbLoop fuel p w cur = some (p1, w1, cur1) → queuesLinked w1 := by
  induction fuel with
  | zero =>
    intro p w cur p1 w1 cur1 hq hr
    unfold rxAbsorbLoop at hr
    split at hr
    · cases hr; exact hq
    · cases hr
  | succ f ih =>
    intro p w cur p1 w1 cur1 hq hr
    unfold rxAbsorbLoop at hr
    split at hr
    · cases hr; exact hq
    · rename_i i _
      exact ih _ _ _ p1 w1 cur1 (vTCPWindowFree_linked p w i hq) hr

/-- The function `lTCPWindowRxCheck` keeps the queues linked. -/
theorem lTCPWindowRxCheck_linked (fuel : Nat) (h : Host) (p : Pool) (w : TCPWindow)
    (seq len space : Nat) (r : Int × Pool × TCPWindow) (hq : queuesLinked w)
    (hr : lTCPWindowRxCheck fuel h p w seq len space = some r) : queuesLinked r.2.2 := by
  have hsame : ∀ (w0 w1 : TCPWindow), queueItems w1 = queueItems w0 →
      w1.xTxSegments = w0.xTxSegments → queuesLinked w0 → queuesLinked w1 :=
    fun w0 w1 e1 e2 hq0 =>
      queuesLinked_perm w0 w1 (by rw [e1]) (fun j hj => by rw [e2]; exact hj) hq0
  have hq0 : queuesLinked { w with ucOptionLength := 0, ulUserDataLength := 0 } :=
    hsame w _ rfl rfl hq
  have hexp : ∀ (w0 : TCPWindow) (q : Pool × TCPWindow), queuesLinked w0 →
      prvTCPWindowRx_ExpectedRX fuel p w0 len = some q → queuesLinked q.2 := by
    intro w0 q hw0 hq
    unfold prvTCPWindowRx_ExpectedRX at hq
    simp only at hq
    split at hq
    · split at hq
      · cases hq
      · rename_i p1 w1 h1
        split at hq
        · cases hq
        · rename_i p2 w2 cur2 h2
          have c1 := rxConfirmLoop_linked _ _ fuel p w0 p1 w1 hw0 h1
          have c2 := rxAbsorbLoop_linked fuel p1 w1 _ p2 w2 cur2 c1 h2
          simp only [Option.some.injEq] at hq
          subst hq
          refine hsame w2 _ ?_ ?_ c2
          · simp only [queueItems]; split <;> rfl
          · simp only; split <;> rfl
    · simp only [Option.some.injEq] at hq
      subst hq
      exact hsame w0 _ rfl rfl hw0
  have hunexp : ∀ (w0 : TCPWindow) (q : Int × Pool × TCPWindow), queuesLinked w0 →
      prvTCPWindowRx_UnexpectedRX fuel h p w0 seq len = some q → queuesLinked q.2.2 := by
    intro w0 q hw0 hq
    unfold prvTCPWindowRx_UnexpectedRX at hq
    simp only at hq
    split at hq
    · cases hq
    · split at hq
      · simp only [Option.some.injEq] at hq
        subst hq
        exact hsame w0 _ rfl rfl hw0
      · split at hq
        · simp only [Option.some.injEq] at hq
          subst hq
          exact hsame w0 _ rfl rfl hw0
        · rename_i i p2 w2 hnew
          simp only [Option.some.injEq] at hq
          subst hq
          unfold xTCPWindowNew at hnew
          split at hnew
          · cases hnew
          · simp only [if_true, Option.some.injEq, Prod.mk.injEq] at hnew
            obtain ⟨-, -, rfl⟩ := hnew
            exact hsame w0 _ rfl rfl hw0
  unfold lTCPWindowRxCheck at hr
  simp only at hr
  split at hr
  · split at hr
    · cases hr; exact hq0
    · split at hr
      · cases hr
      · rename_i p1 w1 h1
        simp only [Option.some.injEq] at hr
        subst hr
        exact hexp _ (p1, w1) hq0 h1
  · split at hr
    · cases hr; exact hq0
    · split at hr
      · cases hr; exact hq0
      · split at hr
        · cases hr; exact hq0
        · exact hunexp _ r hq0 hr

/-- The loops of `vTCPWindowDestroy` keep the queues linked. -/
theorem destroyLoop_linked (xIsRx : Bool) (fuel : Nat) :
    ∀ (p : Pool) (w : TCPWindow) (r : Pool × TCPWindow), queuesLinked w →
      destroyLoop xIsRx fuel p w = some r → queuesLinked r.2 := by
  induction fuel with
  | zero =>
    intro p w r hq hr
    unfold destroyLoop at hr
    split at hr
    · cases hr; exact hq
    · cases hr
  | succ f ih =>
    intro p w r hq hr
    unfold destroyLoop at hr
    split at hr
    · cases hr; exact hq
    · rename_i i tl _
      exact ih _ _ r (vTCPWindowFree_linked p w i hq) hr

/-- The function `vTCPWindowDestroy` keeps the queues linked. -/
theorem vTCPWindowDestroy_linked (fuel : Nat) (p : Pool) (w : TCPWindow)
    (r : Pool × TCPWindow) (hq : queuesLinked w) (hr : vTCPWindowDestroy fuel p w = some r) :
    queuesLinked r.2 := by
  unfold vTCPWindowDestroy at hr
  split at hr
  · cases hr
  · rename_i p1 w1 h1
    exact destroyLoop_linked true fuel p1 w1 r (destroyLoop_linked false fuel p w (p1, w1) hq h1) hr

/-- In every reachable state the queues of every window are linked. -/
theorem reachable_linked (N : Nat) (s : System) (hs : Reachable N s) :
    ∀ w ∈ s.windows, queuesLinked w := by
  induction hs with
  | pool_init p0 =>
    intro w hw
    cases hw
  | step s s' hreach hstep ih =>
    have hnd : s.allSegments.Nodup :=
      (reachable_allSegments N s hreach).2.nodup_iff.mpr (List.nodup_range N)
    have hone : ∀ (k : Nat) (w w' : TCPWindow) (p' : Pool), s.windows[k]? = some w →
        (queuesLinked w → queuesLinked w') →
        ∀ x ∈ ({ s with pool := p', windows := s.windows.set k w' } : System).windows,
          queuesLinked x := by
      intro k w w' p' hk hw x hx
      rcases List.mem_or_eq_of_mem_set hx with hx | hx
      · exact ih x hx
      · rw [hx]
        exact hw (ih w (List.getElem?_mem hk))
    cases hstep with
    | window_create xAllocated w0 rxl txl ack seq mss =>
      intro x hx
      rcases List.mem_append.mp hx with hx | hx
      · exact ih x hx
      · have hxe : x = (vTCPWindowCreate N xAllocated s.xTCPSegmentsSet s.pool w0 rxl txl ack
            seq mss).2 := by simpa using hx
        have hitems : queueItems x = [] := by
          rw [hxe]
          simp only [vTCPWindowCreate, vTCPWindowInit, queueItems]
          split
          · split <;> split <;> rfl
          · rfl
        refine ⟨by rw [hitems]; exact List.nodup_nil, fun i hi => ?_⟩
        rw [hitems] at hi
        cases hi
    | tx_add k w fuel h len pos mx r hk hr =>
      exact hone k w r.2.2 r.2.1 hk
        (fun hq => lTCPWindowTxAdd_linked fuel h s.pool w len pos mx r
          (nodup_of_allSegments s k w hk hnd) hq hr)
    | tx_get k w h ws hk =>
      exact hone k w _ _ hk (fun hq => ulTCPWindowTxGet_linked h s.pool w ws hq)
    | tx_ack k w h seq hk =>
      exact hone k w _ _ hk (fun hq => (ulTCPWindowTxAck_linked h s.pool w hq).1 seq)
    | tx_sack k w h first last hk =>
      exact hone k w _ _ hk (fun hq => (ulTCPWindowTxAck_linked h s.pool w hq).2 first last)
    | rx_check k w fuel h seq len space r hk hr =>
      exact hone k w r.2.2 r.2.1 hk
        (fun hq => lTCPWindowRxCheck_linked fuel h s.pool w seq len space r hq hr)
    | window_destroy k w fuel r hk hr =>
      exact hone k w r.2 r.1 hk (fun hq => vTCPWindowDestroy_linked fuel s.pool w r hq hr)

/-! ## Destroying a window -/

/-- One loop of `vTCPWindowDestroy` on a segment list `l` of distinct descriptors that
are neither free nor in the other segment list: with fuel for each of them the loop
returns, the list is empty then and the other one unchanged, the descriptors of `l`
are appended to the free list and cleared, and no other descriptor changes. -/
theorem destroyLoop_spec (xIsRx : Bool) :
    ∀ (l : List Nat) (fuel : Nat) (p : Pool) (w : TCPWindow),
      (if xIsRx then w.xRxSegments else w.xTxSegments) = l → l.Nodup →
      (∀ i ∈ l, i ∉ p.xSegmentList) →
      (∀ i ∈ l, i ∉ (if xIsRx then w.xTxSegments else w.xRxSegments)) → l.length ≤ fuel →
      ∃ r, destroyLoop xIsRx fuel p w = some r ∧
        (if xIsRx then r.2.xRxSegments else r.2.xTxSegments) = [] ∧
        (if xIsRx then r.2.xTxSegments else r.2.xRxSegments)
          = (if xIsRx then w.xTxSegments else w.xRxSegments) ∧
        r.1.xSegmentList = p.xSegmentList ++ l ∧
        (∀ i ∈ l, r.1.xTCPSegments i = freedSegment (p.xTCPSegments i)) ∧
        (∀ j, j ∉ l → r.1.xTCPSegments j = p.xTCPSegments j) := by
  intro l
  induction l with
  | nil =>
    intro fuel p w hl _ _ _ _
    refine ⟨(p, w), ?_, hl, rfl, by simp, fun i hi => absurd hi (List.not_mem_nil i),
      fun _ _ => rfl⟩
    unfold destroyLoop
    simp only [hl]
  | cons i rest ih =>
    intro fuel p w hl hnd hfree hother hfuel
    obtain ⟨f, rfl⟩ : ∃ f, fuel = f + 1 := ⟨fuel - 1, by simp at hfuel; omega⟩
    have hi : i ∉ rest := (List.nodup_cons.mp hnd).1
    have hnd2 : rest.Nodup := (List.nodup_cons.mp hnd).2
    have hif : i ∉ p.xSegmentList := hfree i (List.mem_cons_self _ _)
    have hio : i ∉ (if xIsRx then w.xTxSegments else w.xRxSegments) :=
      hother i (List.mem_cons_self _ _)
    have hl1 : (if xIsRx then (vTCPWindowFree p w i).2.xRxSegments
        else (vTCPWindowFree p w i).2.xTxSegments) = rest := by
      cases xIsRx
      · simp only [Bool.false_eq_true, if_false] at hl ⊢
        simp only [vTCPWindowFree, uxListRemove, hl, List.erase_cons_head]
      · simp only [if_true] at hl ⊢
        simp only [vTCPWindowFree, uxListRemove, hl, List.erase_cons_head]
    have ho1 : (if xIsRx then (vTCPWindowFree p w i).2.xTxSegments
        else (vTCPWindowFree p w i).2.xRxSegments)
        = (if xIsRx then w.xTxSegments else w.xRxSegments) := by
      cases xIsRx
      · simp only [Bool.false_eq_true, if_false] at hio ⊢
        simp only [vTCPWindowFree, uxListRemove, List.erase_of_not_mem hio]
      · simp only [if_true] at hio ⊢
        simp only [vTCPWindowFree, uxListRemove, List.erase_of_not_mem hio]
    have hf1 : (vTCPWindowFree p w i).1.xSegmentList = p.xSegmentList ++ [i] := by
      simp only [vTCPWindowFree, uxListRemove, vListInsertFifo, List.erase_of_not_mem hif]
    have hs1 : (vTCPWindowFree p w i).1.xTCPSegments i = freedSegment (p.xTCPSegments i) := by
      simp only [vTCPWindowFree, Function.update_same, freedSegment]
    have hs2 : ∀ j, j ≠ i →
        (vTCPWindowFree p w i).1.xTCPSegments j = p.xTCPSegments j := by
      intro j hj
      simp only [vTCPWindowFree]
      rw [Function.update_noteq hj]
    obtain ⟨r, r1, r2, r3, r4, r5, r6⟩ := ih f (vTCPWindowFree p w i).1 (vTCPWindowFree p w i).2
      hl1 hnd2
      (fun j hj => by
        rw [hf1]
        intro hm
        rcases List.mem_append.mp hm with hm | hm
        · exact hfree j (List.mem_cons_of_mem _ hj) hm
        · have hji : j = i := by simpa using hm
          exact hi (hji ▸ hj))
      (fun j hj => by rw [ho1]; exact hother j (List.mem_cons_of_mem _ hj))
      (by simp at hfuel; omega)
    refine ⟨r, ?_, r2, r3.trans ho1, ?_, ?_, ?_⟩
    · unfold destroyLoop
      simp only [hl]
      exact r1
    · rw [r4, hf1]; simp
    · intro j hj
      rcases List.mem_cons.mp hj with hji | hjr
      · rw [hji, r6 i hi, hs1]
      · rw [r5 j hjr, hs2 j (fun e => hi (e ▸ hjr))]
    · intro j hj
      have hji : j ≠ i := fun e => hj (e ▸ List.mem_cons_self _ _)
      rw [r6 j (fun hm => hj (List.mem_cons_of_mem _ hm)), hs2 j hji]

/-- What `vTCPWindowDestroy` does to a window whose descriptors are distinct and not
free: with fuel for each descriptor the call returns, both segment lists are empty
then, the descriptors of the window are appended to the free list and cleared, and
no other descriptor changes. -/
theorem vTCPWindowDestroy_spec (fuel : Nat) (p : Pool) (w : TCPWindow)
    (hnd : (p.xSegmentList ++ heldSegments w).Nodup)
    (hfuel : (heldSegments w).length ≤ fuel) :
    ∃ r, vTCPWindowDestroy fuel p w = some r ∧
      r.2.xTxSegments = [] ∧ r.2.xRxSegments = [] ∧
      r.1.xSegmentList = p.xSegmentList ++ heldSegments w ∧
      (∀ i ∈ heldSegments w, r.1.xTCPSegments i = freedSegment (p.xTCPSegments i)) ∧
      (∀ j, j ∉ heldSegments w → r.1.xTCPSegments j = p.xTCPSegments j) := by
  unfold heldSegments at hnd hfuel ⊢
  obtain ⟨n1, n2, n3⟩ := List.nodup_append.mp hnd
  obtain ⟨n4, n5, n6⟩ := List.nodup_append.mp n2
  rw [List.length_append] at hfuel
  obtain ⟨r1, a1, a2, a3, a4, a5, a6⟩ := destroyLoop_spec false w.xTxSegments fuel p w rfl n4
    (fun i hi hm => n3 hm (List.mem_append_left _ hi))
    (fun i hi hm => n6 hi hm) (by omega)
  simp only [Bool.false_eq_true, if_false] at a2 a3
  obtain ⟨r2, b1, b2, b3, b4, b5, b6⟩ := destroyLoop_spec true w.xRxSegments fuel r1.1 r1.2
    (by simp only [if_true]; exact a3) n5
    (fun i hi => by
      rw [a4]
      intro hm
      rcases List.mem_append.mp hm with hm | hm
      · exact n3 hm (List.mem_append_right _ hi)
      · exact n6 hm hi)
    (fun i hi => by simp only [if_true]; rw [a2]; exact List.not_mem_nil i) (by omega)
  simp only [if_true] at b2 b3
  refine ⟨r2, ?_, b3.trans a2, b2, ?_, ?_, ?_⟩
  · unfold vTCPWindowDestroy
    rw [a1]
    exact b1
  · rw [b4, a4, List.append_assoc]
  · intro i hi
    rcases List.mem_append.mp hi with hi | hi
    · rw [b6 i (fun hm => n6 hi hm), a5 i hi]
    · rw [b5 i hi, a6 i (fun hm => n6 hm hi)]
  · intro j hj
    rw [b6 j (fun hm => hj (List.mem_append_right _ hm)),
      a6 j (fun hm => hj (List.mem_append_left _ hm))]

/-- Two windows of a system in which no descriptor is in two lists hold no
descriptor in common. -/
theorem heldSegments_disjoint (s : System) (hnd : s.allSegments.Nodup) (k k' : Nat)
    (w w' : TCPWindow) (hne : k' ≠ k) (hk : s.windows[k]? = some w)
    (hk' : s.windows[k']? = some w') : ∀ j ∈ heldSegments w', j ∉ heldSegments w := by
  unfold System.allSegments at hnd
  obtain ⟨-, hfl, -⟩ := List.nodup_append.mp hnd
  obtain ⟨-, hpw⟩ := List.nodup_flatten.mp hfl
  rw [List.pairwise_map] at hpw
  have hp := List.pairwise_iff_getElem.mp hpw
  obtain ⟨hlt, he⟩ := List.getElem?_eq_some_iff.mp hk
  obtain ⟨hlt', he'⟩ := List.getElem?_eq_some_iff.mp hk'
  intro j hj' hj
  rcases Nat.lt_or_gt_of_ne hne with hlt2 | hlt2
  · have := hp k' k hlt' hlt hlt2
    rw [he, he'] at this
    exact this hj' hj
  · have := hp k k' hlt hlt' hlt2
    rw [he, he'] at this
    exact this hj hj'

/-- Claim C22: in every reachable state, `vTCPWindowDestroy` on a window, with fuel for
each descriptor the window holds, returns and leaves `xTxSegments`, `xRxSegments`,
the priority queue, the wait queue and `xTxQueue` empty; the descriptors the window
held are appended to the free list, whose length grows by their number, and are
cleared (sequence number, length and flags); no other descriptor changes, and the
descriptors of the other windows are among those. -/
theorem C22_window_destroy (N : Nat) (s : System) (hs : Reachable N s) (k : Nat)
    (w : TCPWindow) (fuel : Nat) (hk : s.windows[k]? = some w)
    (hfuel : (heldSegments w).length ≤ fuel) :
    ∃ r, vTCPWindowDestroy fuel s.pool w = some r ∧
      r.2.xTxSegments = [] ∧ r.2.xRxSegments = [] ∧ r.2.xPriorityQueue = [] ∧
      r.2.xWaitQueue = [] ∧ r.2.xTxQueue = [] ∧
      r.1.xSegmentList = s.pool.xSegmentList ++ heldSegments w ∧
      r.1.xSegmentList.length = s.pool.xSegmentList.length + (heldSegments w).length ∧
      (∀ i ∈ heldSegments w, i ∈ r.1.xSegmentList ∧ i ∉ s.pool.xSegmentList ∧
        r.1.xTCPSegments i = freedSegment (s.pool.xTCPSegments i)) ∧
      (∀ j, j ∉ heldSegments w → r.1.xTCPSegments j = s.pool.xTCPSegments j) ∧
      (∀ k' w', k' ≠ k → s.windows[k']? = some w' → ∀ j ∈ heldSegments w',
        j ∉ heldSegments w ∧ j ∉ r.1.xSegmentList ∧
          r.1.xTCPSegments j = s.pool.xTCPSegments j) := by
  have hall : s.allSegments.Nodup :=
    (reachable_allSegments N s hs).2.nodup_iff.mpr (List.nodup_range N)
  have hnd := nodup_of_allSegments s k w hk hall
  have hq := reachable_linked N s hs w (List.getElem?_mem hk)
  obtain ⟨r, r1, r2, r3, r4, r5, r6⟩ := vTCPWindowDestroy_spec fuel s.pool w hnd hfuel
  obtain ⟨-, qsub⟩ := vTCPWindowDestroy_linked fuel s.pool w r hq r1
  have hempty : queueItems r.2 = [] := by
    apply List.eq_nil_iff_forall_not_mem.mpr
    intro i hi
    have := qsub i hi
    rw [r2] at this
    cases this
  unfold queueItems at hempty
  obtain ⟨hpw, hx⟩ := List.append_eq_nil.mp hempty
  obtain ⟨hp, hwq⟩ := List.append_eq_nil.mp hpw
  refine ⟨r, r1, r2, r3, hp, hwq, hx, r4, by rw [r4, List.length_append], ?_, r6, ?_⟩
  · intro i hi
    refine ⟨by rw [r4]; exact List.mem_append_right _ hi, fun hm => ?_, r5 i hi⟩
    exact (List.nodup_append.mp hnd).2.2 hm hi
  · intro k' w' hne hk' j hj
    have hdis := heldSegments_disjoint s hall k k' w w' hne hk hk' j hj
    have hnd' := nodup_of_allSegments s k' w' hk' hall
    refine ⟨hdis, ?_, r6 j hdis⟩
    rw [r4]
    intro hm
    rcases List.mem_append.mp hm with hm | hm
    · exact (List.nodup_append.mp hnd').2.2 hm hj
    · exact hdis hm

/-- Claim C22 at `busySystem`, whose window holds the descriptors 0 and 1 in
`xTxSegments` and `xTxQueue` and descriptor 2 in `xRxSegments`: after
`vTCPWindowDestroy` the lists of the window are empty and the free list holds the 16
descriptors again. -/
theorem C22_window_destroy_witness :
    Reachable 16 busySystem ∧ busySystem.windows[0]? = some busyRxCheck.2.2 ∧
    heldSegments busyRxCheck.2.2 = [0, 1, 2] ∧ busyRxCheck.2.2.xTxQueue = [0, 1] ∧
    ∃ r, vTCPWindowDestroy 3 busySystem.pool busyRxCheck.2.2 = some r ∧
      r.2.xTxSegments = [] ∧ r.2.xRxSegments = [] ∧ r.2.xPriorityQueue = [] ∧
      r.2.xWaitQueue = [] ∧ r.2.xTxQueue = [] ∧
      r.1.xSegmentList = busySystem.pool.xSegmentList ++ heldSegments busyRxCheck.2.2 ∧
      r.1.xSegmentList.length
        = busySystem.pool.xSegmentList.length + (heldSegments busyRxCheck.2.2).length ∧
      (∀ i ∈ heldSegments busyRxCheck.2.2, i ∈ r.1.xSegmentList ∧
        i ∉ busySystem.pool.xSegmentList ∧
        r.1.xTCPSegments i = freedSegment (busySystem.pool.xTCPSegments i)) ∧
      (∀ j, j ∉ heldSegments busyRxCheck.2.2 →
        r.1.xTCPSegments j = busySystem.pool.xTCPSegments j) ∧
      (∀ k' w', k' ≠ 0 → busySystem.windows[k']? = some w' → ∀ j ∈ heldSegments w',
        j ∉ heldSegments busyRxCheck.2.2 ∧ j ∉ r.1.xSegmentList ∧
          r.1.xTCPSegments j = busySystem.pool.xTCPSegments j) :=
  have hcreated : Reachable 16 createdSystem :=
    Reachable.step _ _ (Reachable.pool_init demoPool)
      (Step.window_create _ true demoWindow 5840 5840 1000 2000 1460)
  have hadded : Reachable 16
      { createdSystem with
        pool := busyTxAdd.2.1, windows := createdSystem.windows.set 0 busyTxAdd.2.2 } :=
    Reachable.step _ _ hcreated
      (Step.tx_add createdSystem 0 _ 2 demoHost 2920 0 65536 busyTxAdd rfl rfl)
  have hbusy : Reachable 16 busySystem :=
    Reachable.step _ _ hadded
      (Step.rx_check _ 0 busyTxAdd.2.2 1 demoHost 1500 500 10000 busyRxCheck rfl rfl)
  ⟨hbusy, rfl, by decide, by decide,
    C22_window_destroy 16 busySystem hbusy 0 busyRxCheck.2.2 3 rfl (by decide)⟩

/-! ## The position in the circular transmit buffer -/

/-- The test of `prvTCPWindowTxHasSpace` does not read `ulOurSequenceNumber`. -/
theorem prvTCPWindowTxHasSpace_our (p : Pool) (w : TCPWindow) (ulWindowSize x : Nat) :
    prvTCPWindowTxHasSpace p { w with ulOurSequenceNumber := x } ulWindowSize
      = prvTCPWindowTxHasSpace p w ulWindowSize := rfl

/-- The outcomes of `ulTCPWindowTxGet` with the condition of each and the segment that
is selected: nothing is selected when the priority queue is empty, the head of the wait
queue is absent or its timer has not expired, and the head of `xTxQueue` is absent, not
full while `bSendFullSize` is set, or does not fit the peer's window; else the head of
the priority queue is emitted; else the head of the wait queue, whose timer has
expired; else the head of `xTxQueue`. -/
theorem ulTCPWindowTxGet_select_cases (h : Host) (p : Pool) (w : TCPWindow)
    (ulWindowSize : Nat) :
    (w.xPriorityQueue = [] ∧
      (w.xWaitQueue = [] ∨ ∃ j tl, w.xWaitQueue = j :: tl ∧
        ¬ ulTimerGetAge h (p.xTCPSegments j)
          > u32mul (ulShiftLeftOne (p.xTCPSegments j).ucTransmitCount) (toUInt32 w.lSRTT)) ∧
      (w.xTxQueue = [] ∨ ∃ j tl, w.xTxQueue = j :: tl ∧
        ((w.bSendFullSize = true ∧
            (p.xTCPSegments j).lDataLength < (p.xTCPSegments j).lMaxLength) ∨
          prvTCPWindowTxHasSpace p w ulWindowSize = false)) ∧
      ulTCPWindowTxGet_select h p w ulWindowSize = none ∧
      ulTCPWindowTxGet h p w ulWindowSize
        = (0, none, p, { w with ulOurSequenceNumber := w.tx.ulHighestSequenceNumber })) ∨
    (∃ i rest, w.xPriorityQueue = i :: rest ∧
      ulTCPWindowTxGet_select h p w ulWindowSize = some i ∧
      ulTCPWindowTxGet h p w ulWindowSize
        = ulTCPWindowTxGet_emit h p
            { w with ulOurSequenceNumber := w.tx.ulHighestSequenceNumber
                     xPriorityQueue := rest } i) ∨
    (∃ i rest, w.xPriorityQueue = [] ∧ w.xWaitQueue = i :: rest ∧
      ulTimerGetAge h (p.xTCPSegments i)
        > u32mul (ulShiftLeftOne (p.xTCPSegments i).ucTransmitCount) (toUInt32 w.lSRTT) ∧
      ulTCPWindowTxGet_select h p w ulWindowSize = some i ∧
      ulTCPWindowTxGet h p w ulWindowSize
        = ulTCPWindowTxGet_emit h
            (p.setSegment i { p.xTCPSegments i with ucDupAckCount := 0 })
            { w with ulOurSequenceNumber := w.tx.ulHighestSequenceNumber
                     xWaitQueue := rest } i) ∨
    (∃ i rest, w.xPriorityQueue = [] ∧
      (w.xWaitQueue = [] ∨ ∃ j tl, w.xWaitQueue = j :: tl ∧
        ¬ ulTimerGetAge h (p.xTCPSegments j)
          > u32mul (ulShiftLeftOne (p.xTCPSegments j).ucTransmitCount) (toUInt32 w.lSRTT)) ∧
      w.xTxQueue = i :: rest ∧
      ¬ (w.bSendFullSize = true ∧
          (p.xTCPSegments i).lDataLength < (p.xTCPSegments i).lMaxLength) ∧
      prvTCPWindowTxHasSpace p w ulWindowSize = true ∧
      ulTCPWindowTxGet_select h p w ulWindowSize = some i ∧
      ulTCPWindowTxGet h p w ulWindowSize
        = ulTCPWindowTxGet_emit h p
            { w with
              ulOurSequenceNumber := w.tx.ulHighestSequenceNumber
              xTxQueue := rest
              pxHeadSegment := if w.pxHeadSegment = some i then none else w.pxHeadSegment
              tx := { w.tx with
                      ulHighestSequenceNumber :=
                        u32add (p.xTCPSegments i).ulSequenceNumber
                          (toUInt32 (p.xTCPSegments i).lDataLength) } } i) := by
  obtain hprio | ⟨i, rest, hprio⟩ :
      w.xPriorityQueue = [] ∨ ∃ i rest, w.xPriorityQueue = i :: rest := by
    cases w.xPriorityQueue with
    | nil => exact Or.inl rfl
    | cons i rest => exact Or.inr ⟨i, rest, rfl⟩
  · have hsel : ulTCPWindowTxGet_select h p w ulWindowSize
        = (match pxTCPWindowTx_GetWaitQueue h p
              { w with ulOurSequenceNumber := w.tx.ulHighestSequenceNumber } with
            | (some i, _, _) => some i
            | (none, p1, w1) => (pxTCPWindowTx_GetTXQueue p1 w1 ulWindowSize).1) := by
      simp only [ulTCPWindowTxGet_select, hprio]
    rw [ulTCPWindowTxGet_of_priority_empty h p w ulWindowSize hprio, hsel]
    -- the transmit queue
    have txq : ∀ (w0 : TCPWindow), w0.xTxQueue = w.xTxQueue →
        w0.bSendFullSize = w.bSendFullSize →
        prvTCPWindowTxHasSpace p w0 ulWindowSize = prvTCPWindowTxHasSpace p w ulWindowSize →
        ((w.xTxQueue = [] ∨ ∃ j tl, w.xTxQueue = j :: tl ∧
            ((w.bSendFullSize = true ∧
                (p.xTCPSegments j).lDataLength < (p.xTCPSegments j).lMaxLength) ∨
              prvTCPWindowTxHasSpace p w ulWindowSize = false)) ∧
          pxTCPWindowTx_GetTXQueue p w0 ulWindowSize = (none, w0)) ∨
        (∃ i rest, w.xTxQueue = i :: rest ∧
          ¬ (w.bSendFullSize = true ∧
              (p.xTCPSegments i).lDataLength < (p.xTCPSegments i).lMaxLength) ∧
          prvTCPWindowTxHasSpace p w ulWindowSize = true ∧
          pxTCPWindowTx_GetTXQueue p w0 ulWindowSize =
            (some i,
              { w0 with
                xTxQueue := rest
                pxHeadSegment := if w0.pxHeadSegment = some i then none else w0.pxHeadSegment
                tx := { w0.tx with
                        ulHighestSequenceNumber :=
                          u32add (p.xTCPSegments i).ulSequenceNumber
                            (toUInt32 (p.xTCPSegments i).lDataLength) } })) := by
      intro w0 hq0 hf0 hs0
      obtain hq | ⟨j, tl, hq⟩ : w.xTxQueue = [] ∨ ∃ j tl, w.xTxQueue = j :: tl := by
        cases w.xTxQueue with
        | nil => exact Or.inl rfl
        | cons j tl => exact Or.inr ⟨j, tl, rfl⟩
      · left
        refine ⟨Or.inl hq, ?_⟩
        rw [hq] at hq0
        simp only [pxTCPWindowTx_GetTXQueue, hq0]
      · rw [hq] at hq0
        by_cases h1 : w0.bSendFullSize = true ∧
            (p.xTCPSegments j).lDataLength < (p.xTCPSegments j).lMaxLength
        · left
          refine ⟨Or.inr ⟨j, tl, hq, Or.inl (hf0 ▸ h1)⟩, ?_⟩
          simp only [pxTCPWindowTx_GetTXQueue, hq0, h1, and_self, if_true]
        · by_cases h2 : prvTCPWindowTxHasSpace p w0 ulWindowSize = false
          · left
            refine ⟨Or.inr ⟨j, tl, hq, Or.inr (hs0 ▸ h2)⟩, ?_⟩
            simp only [pxTCPWindowTx_GetTXQueue, hq0, h1, h2, if_true, if_false]
          · right
            refine ⟨j, tl, hq, hf0 ▸ h1, ?_, ?_⟩
            · rw [← hs0]
              simpa using h2
            · simp only [pxTCPWindowTx_GetTXQueue, hq0, h1, h2, if_false, Bool.true_eq_false]
    -- the wait queue
    have hwq : ((w.xWaitQueue = [] ∨ ∃ j tl, w.xWaitQueue = j :: tl ∧
          ¬ ulTimerGetAge h (p.xTCPSegments j)
            > u32mul (ulShiftLeftOne (p.xTCPSegments j).ucTransmitCount)
                (toUInt32 w.lSRTT)) ∧
        pxTCPWindowTx_GetWaitQueue h p
          { w with ulOurSequenceNumber := w.tx.ulHighestSequenceNumber }
        = (none, p, { w with ulOurSequenceNumber := w.tx.ulHighestSequenceNumber })) ∨
        ∃ i rest, w.xWaitQueue = i :: rest ∧
          ulTimerGetAge h (p.xTCPSegments i)
            > u32mul (ulShiftLeftOne (p.xTCPSegments i).ucTransmitCount) (toUInt32 w.lSRTT) ∧
          pxTCPWindowTx_GetWaitQueue h p
              { w with ulOurSequenceNumber := w.tx.ulHighestSequenceNumber }
            = (some i, p.setSegment i { p.xTCPSegments i with ucDupAckCount := 0 },
                { w with ulOurSequenceNumber := w.tx.ulHighestSequenceNumber
                         xWaitQueue := rest }) := by
      obtain hwait | ⟨i, rest, hwait⟩ :
          w.xWaitQueue = [] ∨ ∃ i rest, w.xWaitQueue = i :: rest := by
        cases w.xWaitQueue with
        | nil => exact Or.inl rfl
        | cons i rest => exact Or.inr ⟨i, rest, rfl⟩
      · left
        refine ⟨Or.inl hwait, ?_⟩
        simp only [pxTCPWindowTx_GetWaitQueue, hwait]
      · rw [pxTCPWindowTx_GetWaitQueue_head h p
          { w with ulOurSequenceNumber := w.tx.ulHighestSequenceNumber } i rest hwait]
        by_cases hdue : ulTimerGetAge h (p.xTCPSegments i)
            > u32mul (ulShiftLeftOne (p.xTCPSegments i).ucTransmitCount) (toUInt32 w.lSRTT)
        · right
          refine ⟨i, rest, hwait, hdue, ?_⟩
          simp only [if_pos hdue]
        · left
          refine ⟨Or.inr ⟨i, rest, hwait, hdue⟩, ?_⟩
          simp only [if_neg hdue]
    rcases hwq with ⟨hwc, hwq⟩ | ⟨i, rest, hl, hdue, hwq⟩
    · rw [hwq]
      rcases txq { w with ulOurSequenceNumber := w.tx.ulHighestSequenceNumber } rfl rfl rfl with
        ⟨hqc, hq⟩ | ⟨i, rest, hl, hnf, hsp, hq⟩
      · left
        refine ⟨hprio, hwc, hqc, ?_, ?_⟩
        · simp only [hq]
        · simp only [hq]
      · right; right; right
        refine ⟨i, rest, hprio, hwc, hl, hnf, hsp, ?_, ?_⟩
        · simp only [hq]
        · simp only [hq]
    · right; right; left
      refine ⟨i, rest, hprio, hl, hdue, ?_, ?_⟩
      · rw [hwq]
      · rw [hwq]
  · right; left
    refine ⟨i, rest, hprio, ?_, ?_⟩
    · simp only [ulTCPWindowTxGet_select, hprio]
    · simp only [ulTCPWindowTxGet, hprio]

/-! ## The effects of an emission -/

/-- What the emission of the selected segment `i` does (lines 546-585): the
descriptor is marked outstanding, its transmit count is incremented in 8 bits and its
timer is set to the current tick, and it joins the tail of the wait queue; the length
and the stream position of the descriptor are reported; no other descriptor changes,
nor the free list, the other lists, the sequence numbers, `pxHeadSegment` or the
round-trip time. -/
theorem ulTCPWindowTxGet_emit_effects (h : Host) (p : Pool) (w : TCPWindow) (i : Nat) :
    (ulTCPWindowTxGet_emit h p w i).1 = toUInt32 (p.xTCPSegments i).lDataLength ∧
    (ulTCPWindowTxGet_emit h p w i).2.1 = some (p.xTCPSegments i).lStreamPos ∧
    (ulTCPWindowTxGet_emit h p w i).2.2.1.xTCPSegments i
      = { p.xTCPSegments i with
          bOutstanding := true
          ucTransmitCount := ((p.xTCPSegments i).ucTransmitCount + 1) % 256
          uxBorn := h.xTickCount } ∧
    (∀ j, j ≠ i → (ulTCPWindowTxGet_emit h p w i).2.2.1.xTCPSegments j = p.xTCPSegments j) ∧
    (ulTCPWindowTxGet_emit h p w i).2.2.1.xSegmentList = p.xSegmentList ∧
    (ulTCPWindowTxGet_emit h p w i).2.2.2.xWaitQueue = w.xWaitQueue ++ [i] ∧
    (ulTCPWindowTxGet_emit h p w i).2.2.2.xTxQueue = w.xTxQueue ∧
    (ulTCPWindowTxGet_emit h p w i).2.2.2.xPriorityQueue = w.xPriorityQueue ∧
    (ulTCPWindowTxGet_emit h p w i).2.2.2.xTxSegments = w.xTxSegments ∧
    (ulTCPWindowTxGet_emit h p w i).2.2.2.xRxSegments = w.xRxSegments ∧
    (ulTCPWindowTxGet_emit h p w i).2.2.2.rx = w.rx ∧
    (ulTCPWindowTxGet_emit h p w i).2.2.2.tx = w.tx ∧
    (ulTCPWindowTxGet_emit h p w i).2.2.2.ulNextTxSequenceNumber = w.ulNextTxSequenceNumber ∧
    (ulTCPWindowTxGet_emit h p w i).2.2.2.pxHeadSegment = w.pxHeadSegment ∧
    (ulTCPWindowTxGet_emit h p w i).2.2.2.lSRTT = w.lSRTT := by
  refine ⟨rfl, rfl, ?_, ?_, rfl, ?_, ?_, ?_, ?_, ?_, ?_, ?_, ?_, ?_, ?_⟩
  · simp only [ulTCPWindowTxGet_emit, Pool.setSegment, Function.update_same]
  · intro j hj
    simp only [ulTCPWindowTxGet_emit, Pool.setSegment, Function.update_noteq hj]
  all_goals
    simp only [ulTCPWindowTxGet_emit, vListInsertFifo]
    split <;> rfl

/-! ## C31: a fresh send -/

/-- Claim C31: when `ulTCPWindowTxGet` selects the head `i` of `xTxQueue` (the priority
queue is empty, the head of the wait queue is absent or its timer has not expired, the
segment is full or `bSendFullSize` is clear, and the peer has space), `i` leaves
`xTxQueue` and joins the tail of the wait queue, it becomes outstanding, its transmit
count is incremented (in 8 bits, so by one below 255), its timer is set to the current
tick, `tx.ulHighestSequenceNumber` becomes its sequence number plus its length,
`pxHeadSegment` is cleared if it was `i`, the call returns the length of `i` and writes
its stream position, and `xTxSegments`, the receive side, `tx.ulCurrentSequenceNumber`,
`tx.ulFirstSequenceNumber`, `ulNextTxSequenceNumber`, the free list and every other
descriptor are unchanged. -/
theorem C31_fresh_send (h : Host) (p : Pool) (w : TCPWindow) (ulWindowSize i : Nat)
    (rest : List Nat) (hprio : w.xPriorityQueue = [])
    (hwait : w.xWaitQueue = [] ∨ ∃ j tl, w.xWaitQueue = j :: tl ∧
      ¬ ulTimerGetAge h (p.xTCPSegments j)
        > u32mul (ulShiftLeftOne (p.xTCPSegments j).ucTransmitCount) (toUInt32 w.lSRTT))
    (htx : w.xTxQueue = i :: rest)
    (hfull : ¬ (w.bSendFullSize = true ∧
      (p.xTCPSegments i).lDataLength < (p.xTCPSegments i).lMaxLength))
    (hspace : prvTCPWindowTxHasSpace p w ulWindowSize = true) :
    ulTCPWindowTxGet_select h p w ulWindowSize = some i ∧
    (ulTCPWindowTxGet h p w ulWindowSize).2.2.2.xTxQueue = rest ∧
    (ulTCPWindowTxGet h p w ulWindowSize).2.2.2.xWaitQueue = w.xWaitQueue ++ [i] ∧
    (ulTCPWindowTxGet h p w ulWindowSize).2.2.1.xTCPSegments i
      = { p.xTCPSegments i with
          bOutstanding := true
          ucTransmitCount := ((p.xTCPSegments i).ucTransmitCount + 1) % 256
          uxBorn := h.xTickCount } ∧
    ((p.xTCPSegments i).ucTransmitCount < 255 →
      ((ulTCPWindowTxGet h p w ulWindowSize).2.2.1.xTCPSegments i).ucTransmitCount
        = (p.xTCPSegments i).ucTransmitCount + 1) ∧
    (ulTCPWindowTxGet h p w ulWindowSize).2.2.2.tx.ulHighestSequenceNumber
      = u32add (p.xTCPSegments i).ulSequenceNumber (toUInt32 (p.xTCPSegments i).lDataLength) ∧
    (ulTCPWindowTxGet h p w ulWindowSize).2.2.2.pxHeadSegment
      = (if w.pxHeadSegment = some i then none else w.pxHeadSegment) ∧
    (ulTCPWindowTxGet h p w ulWindowSize).1 = toUInt32 (p.xTCPSegments i).lDataLength ∧
    (0 ≤ (p.xTCPSegments i).lDataLength → (p.xTCPSegments i).lDataLength < 4294967296 →
      ((ulTCPWindowTxGet h p w ulWindowSize).1 : Int) = (p.xTCPSegments i).lDataLength) ∧
    (ulTCPWindowTxGet h p w ulWindowSize).2.1 = some (p.xTCPSegments i).lStreamPos ∧
    (ulTCPWindowTxGet h p w ulWindowSize).2.2.2.xTxSegments = w.xTxSegments ∧
    (ulTCPWindowTxGet h p w ulWindowSize).2.2.2.xRxSegments = w.xRxSegments ∧
    (ulTCPWindowTxGet h p w ulWindowSize).2.2.2.xPriorityQueue = w.xPriorityQueue ∧
    (ulTCPWindowTxGet h p w ulWindowSize).2.2.2.rx = w.rx ∧
    (ulTCPWindowTxGet h p w ulWindowSize).2.2.2.tx.ulCurrentSequenceNumber
      = w.tx.ulCurrentSequenceNumber ∧
    (ulTCPWindowTxGet h p w ulWindowSize).2.2.2.tx.ulFirstSequenceNumber
      = w.tx.ulFirstSequenceNumber ∧
    (ulTCPWindowTxGet h p w ulWindowSize).2.2.2.ulNextTxSequenceNumber
      = w.ulNextTxSequenceNumber ∧
    (ulTCPWindowTxGet h p w ulWindowSize).2.2.1.xSegmentList = p.xSegmentList ∧
    (∀ j, j ≠ i →
      (ulTCPWindowTxGet h p w ulWindowSize).2.2.1.xTCPSegments j = p.xTCPSegments j) := by
  have hcases := ulTCPWindowTxGet_select_cases h p w ulWindowSize
  rcases hcases with ⟨_, _, hq, _, _⟩ | ⟨j, tl, hp, _⟩ | ⟨j, tl, _, hw, hdue, _⟩ |
    ⟨j, tl, _, _, hq, _, _, hsel, hget⟩
  · exfalso
    rcases hq with hq | ⟨j, tl, hq, hno⟩
    · rw [htx] at hq
      exact List.cons_ne_nil _ _ hq
    · rw [htx] at hq
      injection hq with hij _
      subst hij
      rcases hno with hno | hno
      · exact hfull hno
      · rw [hspace] at hno
        exact Bool.noConfusion hno
  · rw [hprio] at hp
    exact absurd hp.symm (List.cons_ne_nil _ _)
  · exfalso
    rcases hwait with hwait | ⟨j', tl', hwait, hnd⟩
    · rw [hwait] at hw
      exact List.cons_ne_nil _ _ hw.symm
    · rw [hwait] at hw
      injection hw with hjj _
      subst hjj
      exact hnd hdue
  · rw [htx] at hq
    injection hq with hij hrest
    subst hij
    subst hrest
    have he := ulTCPWindowTxGet_emit_effects h p
      { w with
        ulOurSequenceNumber := w.tx.ulHighestSequenceNumber
        xTxQueue := rest
        pxHeadSegment := if w.pxHeadSegment = some i then none else w.pxHeadSegment
        tx := { w.tx with
                ulHighestSequenceNumber :=
                  u32add (p.xTCPSegments i).ulSequenceNumber
                    (toUInt32 (p.xTCPSegments i).lDataLength) } } i
    rw [← hget] at he
    obtain ⟨e1, e2, e3, e4, e5, e6, e7, e8, e9, e10, e11, e12, e13, e14, _⟩ := he
    refine ⟨hsel, e7, e6, e3, ?_, ?_, e14, e1, ?_, e2, e9, e10, e8, e11, ?_, ?_, e13, e5, e4⟩
    · intro hc
      rw [e3]
      show ((p.xTCPSegments i).ucTransmitCount + 1) % 256 = _
      omega
    · rw [e12]
    · intro h0 h1
      rw [e1]
      unfold toUInt32
      rw [Int.emod_eq_of_lt h0 h1]
      exact Int.toNat_of_nonneg h0
    · rw [e12]
    · rw [e12]

/-- Claim C31 at `queuedWindow`, whose `xTxQueue` holds the unsent descriptor 0 for the
segment `[2000, 3460)` while the other queues are empty: the call at tick 0 with a peer
window of 65535 bytes returns 1460 and the position 0, and descriptor 0, sent once
now, waits in the wait queue. -/
theorem C31_fresh_send_witness :
    queuedWindow.xPriorityQueue = [] ∧ queuedWindow.xTxQueue = [0] ∧
    (queuedPool.xTCPSegments 0).ucTransmitCount = 0 ∧
    (ulTCPWindowTxGet demoHost queuedPool queuedWindow 65535).1 = 1460 ∧
    ((ulTCPWindowTxGet demoHost queuedPool queuedWindow 65535).2.2.1.xTCPSegments
      0).ucTransmitCount = 1 ∧
    (ulTCPWindowTxGet demoHost queuedPool queuedWindow 65535).2.2.2.tx.ulHighestSequenceNumber
      = 3460 ∧
    (ulTCPWindowTxGet_select demoHost queuedPool queuedWindow 65535 = some 0 ∧
    (ulTCPWindowTxGet demoHost queuedPool queuedWindow 65535).2.2.2.xTxQueue = [] ∧
    (ulTCPWindowTxGet demoHost queuedPool queuedWindow 65535).2.2.2.xWaitQueue
      = queuedWindow.xWaitQueue ++ [0] ∧
    (ulTCPWindowTxGet demoHost queuedPool queuedWindow 65535).2.2.1.xTCPSegments 0
      = { queuedPool.xTCPSegments 0 with
          bOutstanding := true
          ucTransmitCount := ((queuedPool.xTCPSegments 0).ucTransmitCount + 1) % 256
          uxBorn := demoHost.xTickCount } ∧
    ((queuedPool.xTCPSegments 0).ucTransmitCount < 255 →
      ((ulTCPWindowTxGet demoHost queuedPool queuedWindow 65535).2.2.1.xTCPSegments
          0).ucTransmitCount
        = (queuedPool.xTCPSegments 0).ucTransmitCount + 1) ∧
    (ulTCPWindowTxGet demoHost queuedPool queuedWindow 65535).2.2.2.tx.ulHighestSequenceNumber
      = u32add (queuedPool.xTCPSegments 0).ulSequenceNumber
          (toUInt32 (queuedPool.xTCPSegments 0).lDataLength) ∧
    (ulTCPWindowTxGet demoHost queuedPool queuedWindow 65535).2.2.2.pxHeadSegment
      = (if queuedWindow.pxHeadSegment = some 0 then none else queuedWindow.pxHeadSegment) ∧
    (ulTCPWindowTxGet demoHost queuedPool queuedWindow 65535).1
      = toUInt32 (queuedPool.xTCPSegments 0).lDataLength ∧
    (0 ≤ (queuedPool.xTCPSegments 0).lDataLength →
      (queuedPool.xTCPSegments 0).lDataLength < 4294967296 →
      ((ulTCPWindowTxGet demoHost queuedPool queuedWindow 65535).1 : Int)
        = (queuedPool.xTCPSegments 0).lDataLength) ∧
    (ulTCPWindowTxGet demoHost queuedPool queuedWindow 65535).2.1
      = some (queuedPool.xTCPSegments 0).lStreamPos ∧
    (ulTCPWindowTxGet demoHost queuedPool queuedWindow 65535).2.2.2.xTxSegments
      = queuedWindow.xTxSegments ∧
    (ulTCPWindowTxGet demoHost queuedPool queuedWindow 65535).2.2.2.xRxSegments
      = queuedWindow.xRxSegments ∧
    (ulTCPWindowTxGet demoHost queuedPool queuedWindow 65535).2.2.2.xPriorityQueue
      = queuedWindow.xPriorityQueue ∧
    (ulTCPWindowTxGet demoHost queuedPool queuedWindow 65535).2.2.2.rx = queuedWindow.rx ∧
    (ulTCPWindowTxGet demoHost queuedPool queuedWindow 65535).2.2.2.tx.ulCurrentSequenceNumber
      = queuedWindow.tx.ulCurrentSequenceNumber ∧
    (ulTCPWindowTxGet demoHost queuedPool queuedWindow 65535).2.2.2.tx.ulFirstSequenceNumber
      = queuedWindow.tx.ulFirstSequenceNumber ∧
    (ulTCPWindowTxGet demoHost queuedPool queuedWindow 65535).2.2.2.ulNextTxSequenceNumber
      = queuedWindow.ulNextTxSequenceNumber ∧
    (ulTCPWindowTxGet demoHost queuedPool queuedWindow 65535).2.2.1.xSegmentList
      = queuedPool.xSegmentList ∧
    (∀ j, j ≠ 0 →
      (ulTCPWindowTxGet demoHost queuedPool queuedWindow 65535).2.2.1.xTCPSegments j
        = queuedPool.xTCPSegments j)) :=
  ⟨rfl, rfl, rfl, by decide, by decide, by decide,
    C31_fresh_send demoHost queuedPool queuedWindow 65535 0 [] rfl (Or.inl rfl) rfl
      (by decide) (by decide)⟩

/-! ## C36: the transmit count -/

/-- Claim C36, corrected: the transmit count is an 8-bit counter that wraps.  When
`ulTCPWindowTxGet` emits the segment `i`, its transmit count `c` becomes
`(c + 1) % 256`: `c + 1` below 255, and 0 from 255.  The round-trip time is not changed
by the call, and the time-out `2^count * lSRTT` of the segment doubles with the emission
as long as `2^(c + 1) * lSRTT` is below `2^32`. -/
theorem C36_transmit_count_wraps (h : Host) (p : Pool) (w : TCPWindow) (ulWindowSize i : Nat)
    (hsel : ulTCPWindowTxGet_select h p w ulWindowSize = some i) :
    ((ulTCPWindowTxGet h p w ulWindowSize).2.2.1.xTCPSegments i).ucTransmitCount
      = ((p.xTCPSegments i).ucTransmitCount + 1) % 256 ∧
    ((p.xTCPSegments i).ucTransmitCount < 255 →
      ((ulTCPWindowTxGet h p w ulWindowSize).2.2.1.xTCPSegments i).ucTransmitCount
        = (p.xTCPSegments i).ucTransmitCount + 1) ∧
    ((p.xTCPSegments i).ucTransmitCount = 255 →
      ((ulTCPWindowTxGet h p w ulWindowSize).2.2.1.xTCPSegments i).ucTransmitCount = 0) ∧
    (ulTCPWindowTxGet h p w ulWindowSize).2.2.2.lSRTT = w.lSRTT ∧
    (0 ≤ w.lSRTT →
      2 ^ ((p.xTCPSegments i).ucTransmitCount + 1) * w.lSRTT.toNat < 4294967296 →
      u32mul
          (ulShiftLeftOne
            ((ulTCPWindowTxGet h p w ulWindowSize).2.2.1.xTCPSegments i).ucTransmitCount)
          (toUInt32 (ulTCPWindowTxGet h p w ulWindowSize).2.2.2.lSRTT)
        = 2 * u32mul (ulShiftLeftOne (p.xTCPSegments i).ucTransmitCount) (toUInt32 w.lSRTT)) := by
  have key : ((ulTCPWindowTxGet h p w ulWindowSize).2.2.1.xTCPSegments i).ucTransmitCount
        = ((p.xTCPSegments i).ucTransmitCount + 1) % 256 ∧
      (ulTCPWindowTxGet h p w ulWindowSize).2.2.2.lSRTT = w.lSRTT := by
    rcases ulTCPWindowTxGet_select_cases h p w ulWindowSize with
      ⟨_, _, _, hnone, _⟩ | ⟨j, tl, _, hs, hget⟩ | ⟨j, tl, _, _, _, hs, hget⟩ |
      ⟨j, tl, _, _, _, _, _, hs, hget⟩
    · rw [hsel] at hnone
      exact Option.noConfusion hnone
    · rw [hsel] at hs
      injection hs with hij
      subst hij
      rw [hget]
      obtain ⟨_, _, e3, _, _, _, _, _, _, _, _, _, _, _, e15⟩ := ulTCPWindowTxGet_emit_effects h p
        { w with ulOurSequenceNumber := w.tx.ulHighestSequenceNumber
                 xPriorityQueue := tl } i
      exact ⟨by rw [e3], e15⟩
    · rw [hsel] at hs
      injection hs with hij
      subst hij
      rw [hget]
      obtain ⟨_, _, e3, _, _, _, _, _, _, _, _, _, _, _, e15⟩ := ulTCPWindowTxGet_emit_effects h
        (p.setSegment i { p.xTCPSegments i with ucDupAckCount := 0 })
        { w with ulOurSequenceNumber := w.tx.ulHighestSequenceNumber
                 xWaitQueue := tl } i
      refine ⟨?_, e15⟩
      rw [e3]
      simp only [Pool.setSegment, Function.update_same]
    · rw [hsel] at hs
      injection hs with hij
      subst hij
      rw [hget]
      obtain ⟨_, _, e3, _, _, _, _, _, _, _, _, _, _, _, e15⟩ := ulTCPWindowTxGet_emit_effects h p
        { w with
          ulOurSequenceNumber := w.tx.ulHighestSequenceNumber
          xTxQueue := tl
          pxHeadSegment := if w.pxHeadSegment = some i then none else w.pxHeadSegment
          tx := { w.tx with
                  ulHighestSequenceNumber :=
                    u32add (p.xTCPSegments i).ulSequenceNumber
                      (toUInt32 (p.xTCPSegments i).lDataLength) } } i
      exact ⟨by rw [e3], e15⟩
  obtain ⟨hc, hs⟩ := key
  refine ⟨hc, ?_, ?_, hs, ?_⟩
  · intro hlt
    rw [hc]
    omega
  · intro h255
    rw [hc, h255]
  · intro h0 hno
    by_cases hlt : (p.xTCPSegments i).ucTransmitCount < 255
    · have hc1 : ((ulTCPWindowTxGet h p w ulWindowSize).2.2.1.xTCPSegments i).ucTransmitCount
          = (p.xTCPSegments i).ucTransmitCount + 1 := by
        rw [hc]
        omega
      have hno' : 2 ^ (p.xTCPSegments i).ucTransmitCount * w.lSRTT.toNat < 4294967296 := by
        have hpow : 2 ^ ((p.xTCPSegments i).ucTransmitCount + 1)
            = 2 * 2 ^ (p.xTCPSegments i).ucTransmitCount := by
          rw [pow_succ]
          ring
        rw [hpow] at hno
        nlinarith
      rw [hc1, hs, ulMaxTime_exact _ _ h0 hno, ulMaxTime_exact _ _ h0 hno', pow_succ]
      ring
    · -- a count of 255 or more: the product is 0, as 2^256 is beyond 32 bits
      have hbig : 4294967296 ≤ 2 ^ ((p.xTCPSegments i).ucTransmitCount + 1) :=
        calc (4294967296 : Nat) = 2 ^ 32 := by norm_num
          _ ≤ 2 ^ ((p.xTCPSegments i).ucTransmitCount + 1) :=
              Nat.pow_le_pow_right (by norm_num) (by omega)
      have hz : w.lSRTT.toNat = 0 := by
        by_contra hne
        have : 1 ≤ w.lSRTT.toNat := Nat.one_le_iff_ne_zero.mpr hne
        nlinarith
      have hz' : toUInt32 w.lSRTT = 0 := by
        have : w.lSRTT = 0 := by omega
        rw [this]
        rfl
      rw [hs, hz']
      simp only [u32mul, Nat.mul_zero, Nat.zero_mod]

/-- Claim C36 as corrected, at `queuedWindow`: descriptor 0, not sent yet, is emitted at
tick 0 and its transmit count goes from 0 to 1. -/
theorem C36_transmit_count_wraps_witness :
    ulTCPWindowTxGet_select demoHost queuedPool queuedWindow 65535 = some 0 ∧
    (queuedPool.xTCPSegments 0).ucTransmitCount = 0 ∧
    (((ulTCPWindowTxGet demoHost queuedPool queuedWindow 65535).2.2.1.xTCPSegments
        0).ucTransmitCount
      = ((queuedPool.xTCPSegments 0).ucTransmitCount + 1) % 256 ∧
    ((queuedPool.xTCPSegments 0).ucTransmitCount < 255 →
      ((ulTCPWindowTxGet demoHost queuedPool queuedWindow 65535).2.2.1.xTCPSegments
          0).ucTransmitCount
        = (queuedPool.xTCPSegments 0).ucTransmitCount + 1) ∧
    ((queuedPool.xTCPSegments 0).ucTransmitCount = 255 →
      ((ulTCPWindowTxGet demoHost queuedPool queuedWindow 65535).2.2.1.xTCPSegments
          0).ucTransmitCount = 0) ∧
    (ulTCPWindowTxGet demoHost queuedPool queuedWindow 65535).2.2.2.lSRTT
      = queuedWindow.lSRTT ∧
    (0 ≤ queuedWindow.lSRTT →
      2 ^ ((queuedPool.xTCPSegments 0).ucTransmitCount + 1) * queuedWindow.lSRTT.toNat
        < 4294967296 →
      u32mul
          (ulShiftLeftOne
            ((ulTCPWindowTxGet demoHost queuedPool queuedWindow 65535).2.2.1.xTCPSegments
              0).ucTransmitCount)
          (toUInt32 (ulTCPWindowTxGet demoHost queuedPool queuedWindow 65535).2.2.2.lSRTT)
        = 2 * u32mul (ulShiftLeftOne (queuedPool.xTCPSegments 0).ucTransmitCount)
            (toUInt32 queuedWindow.lSRTT))) :=
  ⟨by decide, rfl, C36_transmit_count_wraps demoHost queuedPool queuedWindow 65535 0 (by decide)⟩

/-- Claim C36 fails as stated: in `wornPool` descriptor 0, at the head of the wait
queue of `waitingWindow`, has a transmit count of 255; at tick 1 its timer has expired,
`ulTCPWindowTxGet` emits it (1460 bytes at stream position 0), and its transmit count
is 0 afterwards, not 255. -/
theorem C36_counterexample :
    waitingWindow.xPriorityQueue = [] ∧ waitingWindow.xWaitQueue = [0] ∧
    (wornPool.xTCPSegments 0).ucTransmitCount = 255 ∧
    ulTCPWindowTxGet_select { demoHost with xTickCount := 1 } wornPool waitingWindow 65535
      = some 0 ∧
    (ulTCPWindowTxGet { demoHost with xTickCount := 1 } wornPool waitingWindow 65535).1
      = 1460 ∧
    (ulTCPWindowTxGet { demoHost with xTickCount := 1 } wornPool waitingWindow 65535).2.1
      = some 0 ∧
    (ulTCPWindowTxGet { demoHost with xTickCount := 1 } wornPool
      waitingWindow 65535).2.2.2.xWaitQueue = [0] ∧
    ((ulTCPWindowTxGet { demoHost with xTickCount := 1 } wornPool
      waitingWindow 65535).2.2.1.xTCPSegments 0).ucTransmitCount = 0 ∧
    ((ulTCPWindowTxGet { demoHost with xTickCount := 1 } wornPool
      waitingWindow 65535).2.2.1.xTCPSegments 0).ucTransmitCount ≠ 255 := by
  decide

/-! ## C39: the hint of `xTCPWindowTxHasData` and the selection -/

/-- The hint agrees with the selection away from the boundary: when
`xTCPWindowTxHasData` returns true with a delay of 0 and the age of the head of the
wait queue, if that is what the hint is about, is not exactly its time-out, then
`ulTCPWindowTxGet` at the same tick with the same peer window selects a segment. -/
theorem xTCPWindowTxHasData_agrees (h : Host) (p : Pool) (w : TCPWindow) (ulWindowSize : Nat)
    (hd : xTCPWindowTxHasData h p w ulWindowSize = (true, 0))
    (hne : ∀ j tl, w.xPriorityQueue = [] → w.xWaitQueue = j :: tl →
      ulTimerGetAge h (p.xTCPSegments j)
        ≠ u32mul (ulShiftLeftOne (p.xTCPSegments j).ucTransmitCount) (toUInt32 w.lSRTT)) :
    ∃ i, ulTCPWindowTxGet_select h p w ulWindowSize = some i := by
  rcases ulTCPWindowTxGet_select_cases h p w ulWindowSize with
    ⟨hprio, hwait, hq, _, _⟩ | ⟨j, tl, _, hs, _⟩ | ⟨j, tl, _, _, _, hs, _⟩ |
    ⟨j, tl, _, _, _, _, _, hs, _⟩
  · exfalso
    rcases hwait with hwait | ⟨j, tl, hwait, hnd⟩
    · -- no segment waits: the hint is about `xTxQueue`
      rcases hq with hq | ⟨j, tl, hq, hno⟩
      · simp [xTCPWindowTxHasData, xTCPWindowPeekHead, hprio, hwait, hq] at hd
      · rcases hno with hno | hno
        · simp [xTCPWindowTxHasData, xTCPWindowPeekHead, hprio, hwait, hq, hno] at hd
        · simp [xTCPWindowTxHasData, xTCPWindowPeekHead, hprio, hwait, hq, hno] at hd
    · -- a segment waits and its timer has not expired
      have hage : ulTimerGetAge h (p.xTCPSegments j) < 4294967296 := by
        unfold ulTimerGetAge u32mul
        exact Nat.mod_lt _ (by norm_num)
      have hmax : u32mul (ulShiftLeftOne (p.xTCPSegments j).ucTransmitCount) (toUInt32 w.lSRTT)
          < 4294967296 := by
        unfold u32mul
        exact Nat.mod_lt _ (by norm_num)
      have hneq := hne j tl hprio hwait
      have hlt : u32mul (ulShiftLeftOne (p.xTCPSegments j).ucTransmitCount) (toUInt32 w.lSRTT)
          > ulTimerGetAge h (p.xTCPSegments j) := by omega
      simp only [xTCPWindowTxHasData, xTCPWindowPeekHead, hprio, hwait, List.head?_cons,
        if_pos hlt, Prod.mk.injEq, true_and] at hd
      unfold u32sub at hd
      omega
  · exact ⟨j, hs⟩
  · exact ⟨j, hs⟩
  · exact ⟨j, hs⟩

/-- Claim C39 fails in the code at the boundary of the time-out.  After the first
transmission of the segment `[2000, 3460)` at tick 0 (`sentOnceRun`), descriptor 0 is
the head of the wait queue with a transmit count of 1, and the round-trip time is
1000 ms, so its time-out is 2000 ms.  At tick 2000 its age is exactly 2000 ms:
`xTCPWindowTxHasData` returns true with a delay of 0, and `ulTCPWindowTxGet`, at the
same tick with the same peer window, selects nothing: it returns 0, writes no position,
and leaves the wait queue and the transmit count as they are.  One tick later it emits
the segment. -/
theorem C39_hint_without_selection :
    sentOnceRun.2.2.2.xPriorityQueue = [] ∧ sentOnceRun.2.2.2.xWaitQueue = [0] ∧
    sentOnceRun.2.2.2.xTxQueue = [] ∧
    (sentOnceRun.2.2.1.xTCPSegments 0).ucTransmitCount = 1 ∧
    (sentOnceRun.2.2.1.xTCPSegments 0).uxBorn = 0 ∧ sentOnceRun.2.2.2.lSRTT = 1000 ∧
    ulTimerGetAge { demoHost with xTickCount := 2000 } (sentOnceRun.2.2.1.xTCPSegments 0)
      = 2000 ∧
    xTCPWindowTxHasData { demoHost with xTickCount := 2000 } sentOnceRun.2.2.1
      sentOnceRun.2.2.2 65535 = (true, 0) ∧
    ulTCPWindowTxGet_select { demoHost with xTickCount := 2000 } sentOnceRun.2.2.1
      sentOnceRun.2.2.2 65535 = none ∧
    (ulTCPWindowTxGet { demoHost with xTickCount := 2000 } sentOnceRun.2.2.1
      sentOnceRun.2.2.2 65535).1 = 0 ∧
    (ulTCPWindowTxGet { demoHost with xTickCount := 2000 } sentOnceRun.2.2.1
      sentOnceRun.2.2.2 65535).2.1 = none ∧
    (ulTCPWindowTxGet { demoHost with xTickCount := 2000 } sentOnceRun.2.2.1
      sentOnceRun.2.2.2 65535).2.2.2.xWaitQueue = [0] ∧
    ((ulTCPWindowTxGet { demoHost with xTickCount := 2000 } sentOnceRun.2.2.1
      sentOnceRun.2.2.2 65535).2.2.1.xTCPSegments 0).ucTransmitCount = 1 ∧
    ulTCPWindowTxGet_select { demoHost with xTickCount := 2001 } sentOnceRun.2.2.1
      sentOnceRun.2.2.2 65535 = some 0 := by
  decide

/-! ## C37: the transmit side moved along the sequence space -/

/-- The length that `ulTCPWindowTxGet` returns is the length of the selected segment,
and 0 when none is selected. -/
theorem ulTCPWindowTxGet_length (h : Host) (p : Pool) (w : TCPWindow) (ulWindowSize : Nat) :
    (ulTCPWindowTxGet h p w ulWindowSize).1
      = (match ulTCPWindowTxGet_select h p w ulWindowSize with
          | none => 0
          | some i => toUInt32 (p.xTCPSegments i).lDataLength) := by
  rcases ulTCPWindowTxGet_select_cases h p w ulWindowSize with
    ⟨_, _, _, hs, hget⟩ | ⟨j, tl, _, hs, hget⟩ | ⟨j, tl, _, _, _, hs, hget⟩ |
    ⟨j, tl, _, _, _, _, _, hs, hget⟩
  · rw [hs, hget]
  · rw [hs, hget]
    rfl
  · rw [hs, hget]
    show toUInt32 ((p.setSegment j { p.xTCPSegments j with ucDupAckCount := 0 }).xTCPSegments
      j).lDataLength = _
    simp only [Pool.setSegment, Function.update_same]
  · rw [hs, hget]
    rfl

/-- Moving the transmit side by `k` keeps the result of `prvTCPWindowTxHasSpace` when the
plain comparison of `tx.ulHighestSequenceNumber` with `tx.ulCurrentSequenceNumber` comes
out the same before and after the move. -/
theorem prvTCPWindowTxHasSpace_shift (k : Nat) (p : Pool) (w : TCPWindow) (ulWindowSize : Nat)
    (hk : w.tx.ulHighestSequenceNumber ≥ w.tx.ulCurrentSequenceNumber ↔
      u32add w.tx.ulHighestSequenceNumber k ≥ u32add w.tx.ulCurrentSequenceNumber k) :
    prvTCPWindowTxHasSpace (shiftTxPool k p w) (shiftTxWindow k w) ulWindowSize
      = prvTCPWindowTxHasSpace p w ulWindowSize := by
  have hlen : ∀ i, ((shiftTxPool k p w).xTCPSegments i).lDataLength
      = (p.xTCPSegments i).lDataLength := by
    intro i
    simp only [shiftTxPool]
    split <;> rfl
  have hsub : u32sub (u32add w.tx.ulHighestSequenceNumber k)
      (u32add w.tx.ulCurrentSequenceNumber k)
      = u32sub w.tx.ulHighestSequenceNumber w.tx.ulCurrentSequenceNumber := by
    unfold u32sub u32add
    omega
  unfold prvTCPWindowTxHasSpace
  cases hq : w.xTxQueue with
  | nil =>
    simp only [shiftTxWindow, xTCPWindowPeekHead, hq, List.head?_nil]
  | cons i rest =>
    simp only [shiftTxWindow, xTCPWindowPeekHead, hq, List.head?_cons, hlen, hsub]
    by_cases hge : w.tx.ulHighestSequenceNumber ≥ w.tx.ulCurrentSequenceNumber
    · rw [if_pos hge, if_pos (hk.mp hge)]
    · rw [if_neg hge, if_neg (fun hc => hge (hk.mpr hc))]

/-- Moving the transmit side by `k` keeps what `ulTCPWindowTxGet` selects and the length
it returns, when the plain comparison of `tx.ulHighestSequenceNumber` with
`tx.ulCurrentSequenceNumber` comes out the same before and after the move. -/
theorem ulTCPWindowTxGet_shift (h : Host) (k : Nat) (p : Pool) (w : TCPWindow)
    (ulWindowSize : Nat)
    (hk : w.tx.ulHighestSequenceNumber ≥ w.tx.ulCurrentSequenceNumber ↔
      u32add w.tx.ulHighestSequenceNumber k ≥ u32add w.tx.ulCurrentSequenceNumber k) :
    ulTCPWindowTxGet_select h (shiftTxPool k p w) (shiftTxWindow k w) ulWindowSize
      = ulTCPWindowTxGet_select h p w ulWindowSize ∧
    (ulTCPWindowTxGet h (shiftTxPool k p w) (shiftTxWindow k w) ulWindowSize).1
      = (ulTCPWindowTxGet h p w ulWindowSize).1 := by
  have hfld : ∀ i, (shiftTxPool k p w).xTCPSegments i
      = { p.xTCPSegments i with
          ulSequenceNumber := ((shiftTxPool k p w).xTCPSegments i).ulSequenceNumber } := by
    intro i
    simp only [shiftTxPool]
    split <;> rfl
  have hlen : ∀ i, ((shiftTxPool k p w).xTCPSegments i).lDataLength
      = (p.xTCPSegments i).lDataLength := fun i => by rw [hfld i]
  have hmaxl : ∀ i, ((shiftTxPool k p w).xTCPSegments i).lMaxLength
      = (p.xTCPSegments i).lMaxLength := fun i => by rw [hfld i]
  have hcnt : ∀ i, ((shiftTxPool k p w).xTCPSegments i).ucTransmitCount
      = (p.xTCPSegments i).ucTransmitCount := fun i => by rw [hfld i]
  have hage : ∀ i, ulTimerGetAge h ((shiftTxPool k p w).xTCPSegments i)
      = ulTimerGetAge h (p.xTCPSegments i) := fun i => by rw [hfld i]; rfl
  have hsp := prvTCPWindowTxHasSpace_shift k p w ulWindowSize hk
  have hsel : ulTCPWindowTxGet_select h (shiftTxPool k p w) (shiftTxWindow k w) ulWindowSize
      = ulTCPWindowTxGet_select h p w ulWindowSize := by
    rcases ulTCPWindowTxGet_select_cases h p w ulWindowSize with
      ⟨hprio, hwait, hq, hs, _⟩ | ⟨j, tl, hprio, hs, _⟩ | ⟨j, tl, hprio, hwait, hdue, hs, _⟩ |
      ⟨j, tl, hprio, hwait, hq, hnf, hspace, hs, _⟩
    · rw [hs]
      rcases ulTCPWindowTxGet_select_cases h (shiftTxPool k p w) (shiftTxWindow k w)
          ulWindowSize with
        ⟨_, _, _, hs', _⟩ | ⟨j, tl, hprio', _, _⟩ | ⟨j, tl, _, hwait', hdue', _, _⟩ |
        ⟨j, tl, _, _, hq', hnf', hspace', _, _⟩
      · exact hs'
      · exact absurd (hprio'.symm.trans hprio) (List.cons_ne_nil _ _)
      · exfalso
        rcases hwait with hwait | ⟨j', tl', hwait, hnd⟩
        · exact List.cons_ne_nil _ _ (hwait'.symm.trans hwait)
        · have hjj := hwait'.symm.trans hwait
          injection hjj with hjj _
          subst hjj
          rw [hage, hcnt] at hdue'
          exact hnd hdue'
      · exfalso
        rcases hq with hq | ⟨j', tl', hq, hno⟩
        · exact List.cons_ne_nil _ _ (hq'.symm.trans hq)
        · have hjj := hq'.symm.trans hq
          injection hjj with hjj _
          subst hjj
          rcases hno with hno | hno
          · rw [hlen, hmaxl] at hnf'
            exact hnf' hno
          · rw [hsp, hno] at hspace'
            exact Bool.noConfusion hspace'
    · rw [hs]
      simp only [ulTCPWindowTxGet_select, shiftTxWindow, hprio]
    · rw [hs]
      rcases ulTCPWindowTxGet_select_cases h (shiftTxPool k p w) (shiftTxWindow k w)
          ulWindowSize with
        ⟨_, hwait', _, _, _⟩ | ⟨j', tl', hprio', _, _⟩ | ⟨j', tl', _, hwait', _, hs', _⟩ |
        ⟨j', tl', _, hwait', _, _, _, _, _⟩
      · exfalso
        rcases hwait' with hwait' | ⟨j', tl', hwait', hnd⟩
        · exact List.cons_ne_nil _ _ (hwait.symm.trans hwait')
        · have hjj := hwait.symm.trans hwait'
          injection hjj with hjj _
          subst hjj
          rw [hage, hcnt] at hnd
          exact hnd hdue
      · exact absurd (hprio'.symm.trans hprio) (List.cons_ne_nil _ _)
      · have hjj := hwait.symm.trans hwait'
        injection hjj with hjj _
        subst hjj
        exact hs'
      · exfalso
        rcases hwait' with hwait' | ⟨j'', tl'', hwait', hnd⟩
        · exact List.cons_ne_nil _ _ (hwait.symm.trans hwait')
        · have hjj := hwait.symm.trans hwait'
          injection hjj with hjj _
          subst hjj
          rw [hage, hcnt] at hnd
          exact hnd hdue
    · rw [hs]
      rcases ulTCPWindowTxGet_select_cases h (shiftTxPool k p w) (shiftTxWindow k w)
          ulWindowSize with
        ⟨_, _, hq', _, _⟩ | ⟨j', tl', hprio', _, _⟩ | ⟨j', tl', _, hwait', hdue', _, _⟩ |
        ⟨j', tl', _, _, hq', _, _, hs', _⟩
      · exfalso
        rcases hq' with hq' | ⟨j', tl', hq', hno⟩
        · exact List.cons_ne_nil _ _ (hq.symm.trans hq')
        · have hjj := hq.symm.trans hq'
          injection hjj with hjj _
          subst hjj
          rcases hno with hno | hno
          · rw [hlen, hmaxl] at hno
            exact hnf hno
          · rw [hsp, hspace] at hno
            exact Bool.noConfusion hno
      · exact absurd (hprio'.symm.trans hprio) (List.cons_ne_nil _ _)
      · exfalso
        rcases hwait with hwait | ⟨j'', tl'', hwait, hnd⟩
        · exact List.cons_ne_nil _ _ (hwait'.symm.trans hwait)
        · have hjj := hwait'.symm.trans hwait
          injection hjj with hjj _
          subst hjj
          rw [hage, hcnt] at hdue'
          exact hnd hdue'
      · have hjj := hq.symm.trans hq'
        injection hjj with hjj _
        subst hjj
        exact hs'
  refine ⟨hsel, ?_⟩
  rw [ulTCPWindowTxGet_length, ulTCPWindowTxGet_length, hsel]
  cases ulTCPWindowTxGet_select h p w ulWindowSize with
  | none => rfl
  | some i => simp only [hlen]

/-- Claim C37 fails in the code: `prvTCPWindowTxHasSpace` compares
`tx.ulHighestSequenceNumber` with `tx.ulCurrentSequenceNumber` as plain numbers.  In
`halfSentRun` the segment `[2000, 3460)` is outstanding and `[3460, 4920)` waits in
`xTxQueue`; for a peer window of 1460 bytes `prvTCPWindowTxHasSpace` is false and
`ulTCPWindowTxGet` selects nothing and returns 0.  With every transmit sequence number
moved by `2^32 - 3000`, so that the outstanding segment lies across the wrap of the
sequence space (`tx.ulCurrentSequenceNumber = 4294966296`,
`tx.ulHighestSequenceNumber = 460`), the outstanding bytes are taken to be 0:
`prvTCPWindowTxHasSpace` is true, and `ulTCPWindowTxGet` selects descriptor 1 and
returns 1460. -/
theorem C37_outstanding_across_wrap :
    halfSentRun.2.2.2.tx = ⟨2000, 2000, 3460⟩ ∧ halfSentRun.2.2.2.xTxSegments = [0, 1] ∧
    halfSentRun.2.2.2.xWaitQueue = [0] ∧ halfSentRun.2.2.2.xTxQueue = [1] ∧
    prvTCPWindowTxHasSpace halfSentRun.2.2.1 halfSentRun.2.2.2 1460 = false ∧
    ulTCPWindowTxGet_select demoHost halfSentRun.2.2.1 halfSentRun.2.2.2 1460 = none ∧
    (ulTCPWindowTxGet demoHost halfSentRun.2.2.1 halfSentRun.2.2.2 1460).1 = 0 ∧
    (shiftTxWindow 4294964296 halfSentRun.2.2.2).tx = ⟨4294966296, 4294966296, 460⟩ ∧
    ((shiftTxPool 4294964296 halfSentRun.2.2.1 halfSentRun.2.2.2).xTCPSegments
      0).ulSequenceNumber = 4294966296 ∧
    ((shiftTxPool 4294964296 halfSentRun.2.2.1 halfSentRun.2.2.2).xTCPSegments
      1).ulSequenceNumber = 460 ∧
    prvTCPWindowTxHasSpace (shiftTxPool 4294964296 halfSentRun.2.2.1 halfSentRun.2.2.2)
      (shiftTxWindow 4294964296 halfSentRun.2.2.2) 1460 = true ∧
    ulTCPWindowTxGet_select demoHost
      (shiftTxPool 4294964296 halfSentRun.2.2.1 halfSentRun.2.2.2)
      (shiftTxWindow 4294964296 halfSentRun.2.2.2) 1460 = some 1 ∧
    (ulTCPWindowTxGet demoHost (shiftTxPool 4294964296 halfSentRun.2.2.1 halfSentRun.2.2.2)
      (shiftTxWindow 4294964296 halfSentRun.2.2.2) 1460).1 = 1460 := by
  decide

/-! ## C34: the lists a descriptor is in -/

/-- Claim C34: in every state that is reached from the initialisation of the pool by
calls of `vTCPWindowCreate`, `lTCPWindowTxAdd`, `ulTCPWindowTxGet`, `ulTCPWindowTxAck`,
`ulTCPWindowTxSack`, `lTCPWindowRxCheck` (and `vTCPWindowDestroy`) with any arguments,
for every window: no descriptor is both in `xRxSegments` and in `xTxSegments`, no
descriptor is in two of the priority queue, the wait queue and `xTxQueue`, every
descriptor of these three queues is in `xTxSegments` of the window, and none of the five
lists holds a descriptor twice. -/
theorem C34_queue_membership (N : Nat) (s : System) (hs : Reachable N s) (k : Nat)
    (w : TCPWindow) (hk : s.windows[k]? = some w) :
    (∀ i, ¬ (i ∈ w.xRxSegments ∧ i ∈ w.xTxSegments)) ∧
    (∀ i, ¬ (i ∈ w.xPriorityQueue ∧ i ∈ w.xWaitQueue)) ∧
    (∀ i, ¬ (i ∈ w.xPriorityQueue ∧ i ∈ w.xTxQueue)) ∧
    (∀ i, ¬ (i ∈ w.xWaitQueue ∧ i ∈ w.xTxQueue)) ∧
    (∀ i, i ∈ w.xPriorityQueue ∨ i ∈ w.xWaitQueue ∨ i ∈ w.xTxQueue → i ∈ w.xTxSegments) ∧
    w.xTxSegments.Nodup ∧ w.xRxSegments.Nodup ∧ w.xPriorityQueue.Nodup ∧
    w.xWaitQueue.Nodup ∧ w.xTxQueue.Nodup := by
  have hall := (reachable_allSegments N s hs).2
  have hnd : s.allSegments.Nodup := hall.nodup_iff.mpr (List.nodup_range N)
  have hheld := nodup_of_allSegments s k w hk hnd
  have hh : (heldSegments w).Nodup := (List.nodup_append.mp hheld).2.1
  unfold heldSegments at hh
  obtain ⟨hT, hR, hTR⟩ := List.nodup_append.mp hh
  have hmem : w ∈ s.windows := List.getElem?_mem hk
  obtain ⟨hq, hsub⟩ := reachable_linked N s hs w hmem
  unfold queueItems at hq hsub
  obtain ⟨hPW, hX, hPWX⟩ := List.nodup_append.mp hq
  obtain ⟨hP, hW, hPWd⟩ := List.nodup_append.mp hPW
  refine ⟨?_, ?_, ?_, ?_, ?_, hT, hR, hP, hW, hX⟩
  · rintro i ⟨hr, ht⟩
    exact hTR ht hr
  · rintro i ⟨h1, h2⟩
    exact hPWd h1 h2
  · rintro i ⟨h1, h2⟩
    exact hPWX (List.mem_append_left _ h1) h2
  · rintro i ⟨h1, h2⟩
    exact hPWX (List.mem_append_right _ h1) h2
  · intro i hi
    apply hsub
    rcases hi with hi | hi | hi
    · exact List.mem_append_left _ (List.mem_append_left _ hi)
    · exact List.mem_append_left _ (List.mem_append_right _ hi)
    · exact List.mem_append_right _ hi

/-- Claim C34 at `busySystem`, whose window holds the descriptors 0 and 1 in
`xTxSegments` and in `xTxQueue`, and descriptor 2 in `xRxSegments`. -/
theorem C34_queue_membership_witness :
    Reachable 16 busySystem ∧ busySystem.windows[0]? = some busyRxCheck.2.2 ∧
    busyRxCheck.2.2.xTxSegments = [0, 1] ∧ busyRxCheck.2.2.xRxSegments = [2] ∧
    busyRxCheck.2.2.xTxQueue = [0, 1] ∧
    ((∀ i, ¬ (i ∈ busyRxCheck.2.2.xRxSegments ∧ i ∈ busyRxCheck.2.2.xTxSegments)) ∧
    (∀ i, ¬ (i ∈ busyRxCheck.2.2.xPriorityQueue ∧ i ∈ busyRxCheck.2.2.xWaitQueue)) ∧
    (∀ i, ¬ (i ∈ busyRxCheck.2.2.xPriorityQueue ∧ i ∈ busyRxCheck.2.2.xTxQueue)) ∧
    (∀ i, ¬ (i ∈ busyRxCheck.2.2.xWaitQueue ∧ i ∈ busyRxCheck.2.2.xTxQueue)) ∧
    (∀ i, i ∈ busyRxCheck.2.2.xPriorityQueue ∨ i ∈ busyRxCheck.2.2.xWaitQueue ∨
      i ∈ busyRxCheck.2.2.xTxQueue → i ∈ busyRxCheck.2.2.xTxSegments) ∧
    busyRxCheck.2.2.xTxSegments.Nodup ∧ busyRxCheck.2.2.xRxSegments.Nodup ∧
    busyRxCheck.2.2.xPriorityQueue.Nodup ∧ busyRxCheck.2.2.xWaitQueue.Nodup ∧
    busyRxCheck.2.2.xTxQueue.Nodup) :=
  have hcreated : Reachable 16 createdSystem :=
    Reachable.step _ _ (Reachable.pool_init demoPool)
      (Step.window_create _ true demoWindow 5840 5840 1000 2000 1460)
  have hadded : Reachable 16
      { createdSystem with
        pool := busyTxAdd.2.1, windows := createdSystem.windows.set 0 busyTxAdd.2.2 } :=
    Reachable.step _ _ hcreated
      (Step.tx_add createdSystem 0 _ 2 demoHost 2920 0 65536 busyTxAdd rfl rfl)
  have hbusy : Reachable 16 busySystem :=
    Reachable.step _ _ hadded
      (Step.rx_check _ 0 busyTxAdd.2.2 1 demoHost 1500 500 10000 busyRxCheck rfl rfl)
  ⟨hbusy, rfl, by decide, by decide, by decide,
    C34_queue_membership 16 busySystem hbusy 0 busyRxCheck.2.2 rfl⟩

/-! ## C35: stored segments after an in-order delivery -/

/-- When `xTCPWindowRxConfirm` finds nothing, no stored segment starts in the range. -/
theorem xTCPWindowRxConfirm_eq_none {p : Pool} {w : TCPWindow} {seq len : Nat}
    (h : xTCPWindowRxConfirm p w seq len = none) :
    ∀ i ∈ w.xRxSegments,
      (xSequenceGreaterThanOrEqual (p.xTCPSegments i).ulSequenceNumber seq
        && xSequenceLessThan (p.xTCPSegments i).ulSequenceNumber (u32add seq len)) = false := by
  unfold xTCPWindowRxConfirm at h
  dsimp only at h
  have key : ∀ (l : List Nat) (init : Option Nat),
      l.foldl
        (fun (pxBest : Option Nat) (i : Nat) =>
          if xSequenceGreaterThanOrEqual (p.xTCPSegments i).ulSequenceNumber seq
              && xSequenceLessThan (p.xTCPSegments i).ulSequenceNumber (u32add seq len) then
            match pxBest with
            | none => some i
            | some b =>
              if xSequenceLessThan (p.xTCPSegments i).ulSequenceNumber
                  (p.xTCPSegments b).ulSequenceNumber then some i
              else some b
          else pxBest) init = none →
      init = none ∧ ∀ i ∈ l,
        (xSequenceGreaterThanOrEqual (p.xTCPSegments i).ulSequenceNumber seq
          && xSequenceLessThan (p.xTCPSegments i).ulSequenceNumber (u32add seq len)) = false := by
    intro l
    induction l with
    | nil =>
      intro init hf
      exact ⟨hf, fun i hi => absurd hi (List.not_mem_nil i)⟩
    | cons x xs ih =>
      intro init hf
      rw [List.foldl_cons] at hf
      obtain ⟨h1, h2⟩ := ih _ hf
      by_cases hc : (xSequenceGreaterThanOrEqual (p.xTCPSegments x).ulSequenceNumber seq
          && xSequenceLessThan (p.xTCPSegments x).ulSequenceNumber (u32add seq len)) = true
      · exfalso
        rw [if_pos hc] at h1
        cases init with
        | none => exact Option.noConfusion h1
        | some b =>
          dsimp only at h1
          split at h1 <;> exact Option.noConfusion h1
      · rw [if_neg hc] at h1
        refine ⟨h1, ?_⟩
        intro i hi
        rcases List.mem_cons.mp hi with rfl | hi
        · simpa using hc
        · exact h2 i hi
  exact (key _ _ h).2

/-- What `vTCPWindowFree` does to `xRxSegments` and to the other descriptors. -/
theorem vTCPWindowFree_rx (p : Pool) (w : TCPWindow) (i : Nat) :
    (vTCPWindowFree p w i).2.xRxSegments = w.xRxSegments.erase i ∧
    (∀ j, j ≠ i → (vTCPWindowFree p w i).1.xTCPSegments j = p.xTCPSegments j) := by
  refine ⟨rfl, ?_⟩
  intro j hj
  simp only [vTCPWindowFree, Function.update_noteq hj]

/-- On its exit the first loop of `prvTCPWindowRx_ExpectedRX` has left only stored
segments that were stored before, unchanged, and none of them starts in the range
`[seq, seq + len)`. -/
theorem rxConfirmLoop_exit (seq len : Nat) (fuel : Nat) :
    ∀ (p : Pool) (w : TCPWindow) (p1 : Pool) (w1 : TCPWindow), w.xRxSegments.Nodup →
      rxConfirmLoop fuel p w seq len = some (p1, w1) →
        w1.xRxSegments.Sublist w.xRxSegments ∧
        (∀ j ∈ w1.xRxSegments, p1.xTCPSegments j = p.xTCPSegments j) ∧
        xTCPWindowRxConfirm p1 w1 seq len = none := by
  induction fuel with
  | zero =>
    intro p w p1 w1 _ hr
    cases hc : xTCPWindowRxConfirm p w seq len with
    | none =>
      simp only [rxConfirmLoop, hc, Option.some.injEq, Prod.mk.injEq] at hr
      obtain ⟨rfl, rfl⟩ := hr
      exact ⟨List.Sublist.refl _, fun _ _ => rfl, hc⟩
    | some i => simp [rxConfirmLoop, hc] at hr
  | succ f ih =>
    intro p w p1 w1 hnd hr
    cases hc : xTCPWindowRxConfirm p w seq len with
    | none =>
      simp only [rxConfirmLoop, hc, Option.some.injEq, Prod.mk.injEq] at hr
      obtain ⟨rfl, rfl⟩ := hr
      exact ⟨List.Sublist.refl _, fun _ _ => rfl, hc⟩
    | some i =>
      rw [rxConfirmLoop, hc] at hr
      obtain ⟨hrx, hfr⟩ := vTCPWindowFree_rx p w i
      have hnd' : (vTCPWindowFree p w i).2.xRxSegments.Nodup := by
        rw [hrx]
        exact hnd.erase i
      obtain ⟨h1, h2, h3⟩ := ih _ _ _ _ hnd' hr
      rw [hrx] at h1
      refine ⟨h1.trans (List.erase_sublist i _), ?_, h3⟩
      intro j hj
      have hje : j ∈ w.xRxSegments.erase i := h1.subset hj
      have hji : j ≠ i := fun e => (List.Nodup.not_mem_erase hnd) (e ▸ hje)
      rw [h2 j hj, hfr j hji]

/-- On its exit the second loop of `prvTCPWindowRx_ExpectedRX` has left only stored
segments that were stored before, unchanged, and none of them starts at the sequence
number that was reached. -/
theorem rxAbsorbLoop_exit (fuel : Nat) :
    ∀ (p : Pool) (w : TCPWindow) (cur : Nat) (p1 : Pool) (w1 : TCPWindow) (cur1 : Nat),
      w.xRxSegments.Nodup → rxAbsorbLoop fuel p w cur = some (p1, w1, cur1) →
        w1.xRxSegments.Sublist w.xRxSegments ∧
        (∀ j ∈ w1.xRxSegments, p1.xTCPSegments j = p.xTCPSegments j) ∧
        xTCPWindowRxFind p1 w1 cur1 = none := by
  induction fuel with
  | zero =>
    intro p w cur p1 w1 cur1 _ hr
    cases hc : xTCPWindowRxFind p w cur with
    | none =>
      simp only [rxAbsorbLoop, hc, Option.some.injEq, Prod.mk.injEq] at hr
      obtain ⟨rfl, rfl, rfl⟩ := hr
      exact ⟨List.Sublist.refl _, fun _ _ => rfl, hc⟩
    | some i => simp [rxAbsorbLoop, hc] at hr
  | succ f ih =>
    intro p w cur p1 w1 cur1 hnd hr
    cases hc : xTCPWindowRxFind p w cur with
    | none =>
      simp only [rxAbsorbLoop, hc, Option.some.injEq, Prod.mk.injEq] at hr
      obtain ⟨rfl, rfl, rfl⟩ := hr
      exact ⟨List.Sublist.refl _, fun _ _ => rfl, hc⟩
    | some i =>
      rw [rxAbsorbLoop, hc] at hr
      dsimp only at hr
      obtain ⟨hrx, hfr⟩ := vTCPWindowFree_rx p w i
      have hnd' : (vTCPWindowFree p w i).2.xRxSegments.Nodup := by
        rw [hrx]
        exact hnd.erase i
      obtain ⟨h1, h2, h3⟩ := ih _ _ _ _ _ _ hnd' hr
      rw [hrx] at h1
      refine ⟨h1.trans (List.erase_sublist i _), ?_, h3⟩
      intro j hj
      have hje : j ∈ w.xRxSegments.erase i := h1.subset hj
      have hji : j ≠ i := fun e => (List.Nodup.not_mem_erase hnd) (e ▸ hje)
      rw [h2 j hj, hfr j hji]

/-- What an in-order delivery does free: after `lTCPWindowRxCheck` has accepted the
expected segment `[rx.current, rx.current + len)`, every descriptor that is left in
`xRxSegments` was stored before and is unchanged, it does not start in the range that
was received, and it does not start at the new `rx.ulCurrentSequenceNumber`. -/
theorem lTCPWindowRxCheck_in_order_frees (fuel : Nat) (h : Host) (p : Pool) (w : TCPWindow)
    (ulLength ulSpace : Nat) (r : Int × Pool × TCPWindow) (hnd : w.xRxSegments.Nodup)
    (hsp : ulLength ≤ ulSpace)
    (hr : lTCPWindowRxCheck fuel h p w w.rx.ulCurrentSequenceNumber ulLength ulSpace = some r) :
    r.1 = 0 ∧
    ∀ j ∈ r.2.2.xRxSegments, j ∈ w.xRxSegments ∧ r.2.1.xTCPSegments j = p.xTCPSegments j ∧
      (xSequenceGreaterThanOrEqual (p.xTCPSegments j).ulSequenceNumber
          w.rx.ulCurrentSequenceNumber
        && xSequenceLessThan (p.xTCPSegments j).ulSequenceNumber
          (u32add w.rx.ulCurrentSequenceNumber ulLength)) = false ∧
      (p.xTCPSegments j).ulSequenceNumber ≠ r.2.2.rx.ulCurrentSequenceNumber := by
  have hngt : ¬ ulLength > ulSpace := by omega
  simp only [lTCPWindowRxCheck, if_true, if_neg hngt] at hr
  cases he : prvTCPWindowRx_ExpectedRX fuel p
      { w with ucOptionLength := 0, ulUserDataLength := 0 } ulLength with
  | none => simp [he] at hr
  | some q =>
    obtain ⟨p1, w1⟩ := q
    simp only [he, Option.some.injEq] at hr
    subst hr
    refine ⟨rfl, ?_⟩
    show ∀ j ∈ w1.xRxSegments, j ∈ w.xRxSegments ∧ p1.xTCPSegments j = p.xTCPSegments j ∧ _ ∧
      (p.xTCPSegments j).ulSequenceNumber ≠ w1.rx.ulCurrentSequenceNumber
    by_cases hemp : w.xRxSegments.length ≠ 0
    · simp only [prvTCPWindowRx_ExpectedRX, hemp, ne_eq, not_false_eq_true, if_true] at he
      cases hc : rxConfirmLoop fuel p { w with ucOptionLength := 0, ulUserDataLength := 0 }
          w.rx.ulCurrentSequenceNumber ulLength with
      | none => simp [hc] at he
      | some q1 =>
        obtain ⟨pa, wa⟩ := q1
        simp only [hc] at he
        cases ha : rxAbsorbLoop fuel pa wa (u32add w.rx.ulCurrentSequenceNumber ulLength) with
        | none => simp [ha] at he
        | some q2 =>
          obtain ⟨pb, wb, cb⟩ := q2
          simp only [ha, Option.some.injEq, Prod.mk.injEq] at he
          obtain ⟨hp1, hw1⟩ := he
          obtain ⟨c1, c2, c3⟩ := rxConfirmLoop_exit _ _ fuel p
            { w with ucOptionLength := 0, ulUserDataLength := 0 } pa wa hnd hc
          have hnda : wa.xRxSegments.Nodup := c1.nodup hnd
          obtain ⟨a1, a2, a3⟩ := rxAbsorbLoop_exit fuel pa wa _ pb wb cb hnda ha
          have hrx1 : w1.xRxSegments = wb.xRxSegments := by
            rw [← hw1]
            split <;> rfl
          have hcur1 : w1.rx.ulCurrentSequenceNumber = cb := by
            rw [← hw1]
          intro j hj
          rw [hrx1] at hj
          have hja : j ∈ wa.xRxSegments := a1.subset hj
          have hjw : j ∈ w.xRxSegments := c1.subset hja
          have hpj : p1.xTCPSegments j = p.xTCPSegments j := by
            rw [← hp1, a2 j hj, c2 j hja]
          refine ⟨hjw, hpj, ?_, ?_⟩
          · have := xTCPWindowRxConfirm_eq_none c3 j hja
            rw [c2 j hja] at this
            exact this
          · rw [hcur1]
            intro hseq
            have hnone := List.find?_eq_none.mp a3 j hj
            rw [a2 j hj, c2 j hja] at hnone
            simp only [beq_iff_eq] at hnone
            exact hnone hseq
    · have h0 : w.xRxSegments = [] := by
        apply List.length_eq_zero.mp
        by_contra hc
        exact hemp hc
      simp only [prvTCPWindowRx_ExpectedRX, h0, List.length_nil, ne_eq, not_true_eq_false,
        if_false, Option.some.injEq, Prod.mk.injEq] at he
      obtain ⟨_, hw1⟩ := he
      intro j hj
      rw [← hw1] at hj
      simp only [h0, List.not_mem_nil] at hj

/-- Claim C35 fails in the code.  The window of `createdState` expects the sequence
number 1000.  `lTCPWindowRxCheck` stores the segment `[1100, 1300)` in descriptor 0
(it returns 100) and then the segment `[1150, 1200)`, which lies inside it, in
descriptor 1 (it returns 150); both calls have a positive length.  The expected segment
`[1000, 1100)` is then accepted with the return value 0: descriptor 0 is absorbed and
freed, 200 more bytes are reported, and `rx.ulCurrentSequenceNumber` is 1300.
Descriptor 1 is still in `xRxSegments` and not in the free list, although it starts at
1150, before the new `rx.ulCurrentSequenceNumber`, in a range that was delivered. -/
theorem C35_stale_segment_stays :
    createdState.2.rx.ulCurrentSequenceNumber = 1000 ∧
    (lTCPWindowRxCheck 0 demoHost createdState.1.2 createdState.2 1100 200 10000).isSome
      = true ∧
    nestedStoreOuter.1 = 100 ∧ nestedStoreOuter.2.2.xRxSegments = [0] ∧
    (lTCPWindowRxCheck 0 demoHost nestedStoreOuter.2.1 nestedStoreOuter.2.2
      1150 50 10000).isSome = true ∧
    nestedStoreInner.1 = 150 ∧ nestedStoreInner.2.2.xRxSegments = [0, 1] ∧
    (lTCPWindowRxCheck 1 demoHost nestedStoreInner.2.1 nestedStoreInner.2.2
      1000 100 10000).isSome = true ∧
    nestedRun.1 = 0 ∧ nestedRun.2.2.rx.ulCurrentSequenceNumber = 1300 ∧
    nestedRun.2.2.ulUserDataLength = 200 ∧
    nestedRun.2.2.xRxSegments = [1] ∧
    (nestedRun.2.1.xTCPSegments 1).ulSequenceNumber = 1150 ∧
    (nestedRun.2.1.xTCPSegments 1).lDataLength = 50 ∧
    xSequenceLessThan (nestedRun.2.1.xTCPSegments 1).ulSequenceNumber
      nestedRun.2.2.rx.ulCurrentSequenceNumber = true ∧
    1 ∉ nestedRun.2.1.xSegmentList ∧ 0 ∈ nestedRun.2.1.xSegmentList := by
  decide

/-! ## C32: when the round-trip time is sampled -/

/-- No sequence number is before itself. -/
theorem xSequenceLessThan_self (a : Nat) : xSequenceLessThan a a = false := by
  rw [xSequenceLessThan_eq]
  simp only [u32sub, u32add, decide_eq_false_iff_not]
  omega

/-- The new round-trip time depends on the window through the old one only. -/
theorem prvTCPWindowTxCheckAck_CalcSRTT_congr (h : Host) (w w0 : TCPWindow) (s : TCPSegment)
    (hw : w.lSRTT = w0.lSRTT) :
    (prvTCPWindowTxCheckAck_CalcSRTT h w s).lSRTT
      = (prvTCPWindowTxCheckAck_CalcSRTT h w0 s).lSRTT := by
  simp only [prvTCPWindowTxCheckAck_CalcSRTT, hw]

/-- The round-trip time after a segment was confirmed: it is sampled when the segment
was not flagged, its transmit count is 1 and it ends at `ulLast`, and else unchanged. -/
theorem txCheckAck_confirm_srtt (h : Host) (ulLast : Nat) (p : Pool) (w : TCPWindow)
    (i c b : Nat) :
    (txCheckAck_confirm h ulLast p w i c b).2.2.lSRTT
      = (if (p.xTCPSegments i).bAcked = false ∧ (p.xTCPSegments i).ucTransmitCount = 1 ∧
            u32add (p.xTCPSegments i).ulSequenceNumber
              (toUInt32 (p.xTCPSegments i).lDataLength) = ulLast then
          (prvTCPWindowTxCheckAck_CalcSRTT h w (p.xTCPSegments i)).lSRTT
        else w.lSRTT) := by
  have hflag : (txCheckAck_flag h ulLast p w i).2.lSRTT
      = (if (p.xTCPSegments i).bAcked = false ∧ (p.xTCPSegments i).ucTransmitCount = 1 ∧
            u32add (p.xTCPSegments i).ulSequenceNumber
              (toUInt32 (p.xTCPSegments i).lDataLength) = ulLast then
          (prvTCPWindowTxCheckAck_CalcSRTT h w (p.xTCPSegments i)).lSRTT
        else w.lSRTT) := by
    unfold txCheckAck_flag
    dsimp only
    by_cases ha : (p.xTCPSegments i).bAcked = false
    · by_cases hc : (p.xTCPSegments i).ucTransmitCount = 1 ∧
          u32add (p.xTCPSegments i).ulSequenceNumber
            (toUInt32 (p.xTCPSegments i).lDataLength) = ulLast
      · have hall : (p.xTCPSegments i).bAcked = false ∧
            (p.xTCPSegments i).ucTransmitCount = 1 ∧
            u32add (p.xTCPSegments i).ulSequenceNumber
              (toUInt32 (p.xTCPSegments i).lDataLength) = ulLast := ⟨ha, hc⟩
        simp only [if_pos ha, if_pos hc, if_pos hall]
      · have hall : ¬ ((p.xTCPSegments i).bAcked = false ∧
            (p.xTCPSegments i).ucTransmitCount = 1 ∧
            u32add (p.xTCPSegments i).ulSequenceNumber
              (toUInt32 (p.xTCPSegments i).lDataLength) = ulLast) := fun hx => hc hx.2
        simp only [if_pos ha, if_neg hc, if_neg hall]
    · have hall : ¬ ((p.xTCPSegments i).bAcked = false ∧
          (p.xTCPSegments i).ucTransmitCount = 1 ∧
          u32add (p.xTCPSegments i).ulSequenceNumber
            (toUInt32 (p.xTCPSegments i).lDataLength) = ulLast) := fun hx => ha hx.1
      simp only [if_neg ha, if_neg hall]
  rw [← hflag]
  unfold txCheckAck_confirm
  dsimp only
  split
  · rfl
  · split <;> rfl

/-- After a segment was confirmed, its descriptor is flagged or its transmit count is 0. -/
theorem txCheckAck_confirm_mark (h : Host) (ulLast : Nat) (p : Pool) (w : TCPWindow)
    (i c b : Nat) :
    ((txCheckAck_confirm h ulLast p w i c b).2.1.xTCPSegments i).bAcked = true ∨
    ((txCheckAck_confirm h ulLast p w i c b).2.1.xTCPSegments i).ucTransmitCount = 0 := by
  have hq : ((txCheckAck_flag h ulLast p w i).1.xTCPSegments i).bAcked = true := by
    unfold txCheckAck_flag
    dsimp only
    by_cases ha : (p.xTCPSegments i).bAcked = false
    · rw [if_pos ha]
      simp only [Pool.setSegment, Function.update_same]
    · rw [if_neg ha]
      simpa using ha
  unfold txCheckAck_confirm
  dsimp only
  split
  · right
    simp only [vTCPWindowFree, Function.update_same]
  · split
    · left; exact hq
    · left; exact hq

/-- The round-trip time after the loop of `prvTCPWindowTxCheckAck`: it is unchanged, or it
was sampled once, from a descriptor of the list that was not flagged, whose transmit
count was 1 and which ends at `ulLast`. -/
theorem txCheckAckLoop_srtt (h : Host) (ulLast : Nat) (p0 : Pool) (w0 : TCPWindow) :
    ∀ (l : List Nat) (p : Pool) (w : TCPWindow) (c b : Nat), w.lSRTT = w0.lSRTT →
      (∀ j, p.xTCPSegments j = p0.xTCPSegments j ∨ (p.xTCPSegments j).bAcked = true ∨
        (p.xTCPSegments j).ucTransmitCount = 0) →
      (txCheckAckLoop h ulLast l p w c b).2.2.lSRTT = w0.lSRTT ∨
      ∃ i ∈ l, (p0.xTCPSegments i).ucTransmitCount = 1 ∧ (p0.xTCPSegments i).bAcked = false ∧
        u32add (p0.xTCPSegments i).ulSequenceNumber
          (toUInt32 (p0.xTCPSegments i).lDataLength) = ulLast ∧
        (txCheckAckLoop h ulLast l p w c b).2.2.lSRTT
          = (prvTCPWindowTxCheckAck_CalcSRTT h w0 (p0.xTCPSegments i)).lSRTT := by
  intro l
  induction l with
  | nil =>
    intro p w c b hw _
    left
    exact hw
  | cons i rest ih =>
    intro p w c b hw hJ
    by_cases hg : xSequenceLessThan c ulLast = false
    · left
      rw [txCheckAckLoop_stop h ulLast _ p w c b hg]
      exact hw
    · have hg' : xSequenceLessThan c ulLast = true := by simpa using hg
      rw [txCheckAckLoop_cons h ulLast i rest p w c b hg']
      have lift : ∀ {q : Pool} {v : TCPWindow} {c' b' : Nat},
          ((txCheckAckLoop h ulLast rest q v c' b').2.2.lSRTT = w0.lSRTT ∨
            ∃ k ∈ rest, (p0.xTCPSegments k).ucTransmitCount = 1 ∧
              (p0.xTCPSegments k).bAcked = false ∧
              u32add (p0.xTCPSegments k).ulSequenceNumber
                (toUInt32 (p0.xTCPSegments k).lDataLength) = ulLast ∧
              (txCheckAckLoop h ulLast rest q v c' b').2.2.lSRTT
                = (prvTCPWindowTxCheckAck_CalcSRTT h w0 (p0.xTCPSegments k)).lSRTT) →
          ((txCheckAckLoop h ulLast rest q v c' b').2.2.lSRTT = w0.lSRTT ∨
            ∃ k ∈ i :: rest, (p0.xTCPSegments k).ucTransmitCount = 1 ∧
              (p0.xTCPSegments k).bAcked = false ∧
              u32add (p0.xTCPSegments k).ulSequenceNumber
                (toUInt32 (p0.xTCPSegments k).lDataLength) = ulLast ∧
              (txCheckAckLoop h ulLast rest q v c' b').2.2.lSRTT
                = (prvTCPWindowTxCheckAck_CalcSRTT h w0 (p0.xTCPSegments k)).lSRTT) := by
        intro q v c' b' hx
        rcases hx with hx | ⟨k, hk, hx⟩
        · exact Or.inl hx
        · exact Or.inr ⟨k, List.mem_cons_of_mem _ hk, hx⟩
      by_cases h1 : xSequenceGreaterThan c (p.xTCPSegments i).ulSequenceNumber = true
      · rw [if_pos h1]
        exact lift (ih p w c b hw hJ)
      · rw [if_neg h1]
        by_cases h2 : c ≠ (p.xTCPSegments i).ulSequenceNumber
        · rw [if_pos h2]
          exact Or.inl hw
        · rw [if_neg h2]
          by_cases h3 : (p.xTCPSegments i).bAcked = false ∧
              xSequenceGreaterThan (u32add (p.xTCPSegments i).ulSequenceNumber
                (toUInt32 (p.xTCPSegments i).lDataLength)) ulLast = true
          · rw [if_pos h3]
            exact Or.inl hw
          · rw [if_neg h3]
            have hceq : c = (p.xTCPSegments i).ulSequenceNumber := by
              by_contra hne
              exact h2 hne
            have hsr := txCheckAck_confirm_srtt h ulLast p w i c b
            by_cases hcalc : (p.xTCPSegments i).bAcked = false ∧
                (p.xTCPSegments i).ucTransmitCount = 1 ∧
                u32add (p.xTCPSegments i).ulSequenceNumber
                  (toUInt32 (p.xTCPSegments i).lDataLength) = ulLast
            · -- the round-trip time is sampled and the loop ends
              rw [if_pos hcalc] at hsr
              have hstop : xSequenceLessThan
                  (u32add c (toUInt32 (p.xTCPSegments i).lDataLength)) ulLast = false := by
                rw [hceq, hcalc.2.2]
                exact xSequenceLessThan_self ulLast
              rw [txCheckAckLoop_stop h ulLast rest _ _ _ _ hstop]
              right
              have hpi : p.xTCPSegments i = p0.xTCPSegments i := by
                rcases hJ i with hx | hx | hx
                · exact hx
                · rw [hcalc.1] at hx
                  exact Bool.noConfusion hx
                · rw [hcalc.2.1] at hx
                  exact absurd hx (by norm_num)
              refine ⟨i, List.mem_cons_self _ _, ?_, ?_, ?_, ?_⟩
              · rw [← hpi]; exact hcalc.2.1
              · rw [← hpi]; exact hcalc.1
              · rw [← hpi]; exact hcalc.2.2
              · rw [hsr, ← hpi]
                exact prvTCPWindowTxCheckAck_CalcSRTT_congr h w w0 _ hw
            · rw [if_neg hcalc] at hsr
              apply lift
              apply ih
              · rw [hsr]
                exact hw
              · intro j
                by_cases hji : j = i
                · subst hji
                  right
                  exact txCheckAck_confirm_mark h ulLast p w j c b
                · rw [(txCheckAck_confirm_fields h ulLast p w i c b).2.2.2.1 j hji]
                  exact hJ j

/-- The loop of `prvTCPWindowFastRetransmit` does not change the round-trip time. -/
theorem fastRetransmitLoop_srtt (ulFirst : Nat) :
    ∀ (l : List Nat) (p : Pool) (w : TCPWindow) (n : Nat),
      (fastRetransmitLoop ulFirst l p w n).2.2.lSRTT = w.lSRTT := by
  intro l
  induction l with
  | nil => intro p w n; rfl
  | cons i rest ih =>
    intro p w n
    unfold fastRetransmitLoop
    dsimp only
    split
    · split
      · rw [ih]
      · rw [ih]
    · rw [ih]

/-- When an acknowledgement changes the round-trip time: `ulTCPWindowTxAck` for the
sequence number `last`, and `ulTCPWindowTxSack` for the range that ends at `last`,
leave `lSRTT` as it is, or sample it once, from a descriptor of `xTxSegments` that was
not flagged as acknowledged, whose transmit count is 1 and which ends at `last`.  The
transmit count is 1 after the first transmission, and again after the transmission that
follows a fast retransmission, which sets it to 0. -/
theorem ulTCPWindowTxAck_srtt (h : Host) (p : Pool) (w : TCPWindow) :
    (∀ last,
      (ulTCPWindowTxAck h p w last).2.2.lSRTT = w.lSRTT ∨
      ∃ i ∈ w.xTxSegments, (p.xTCPSegments i).ucTransmitCount = 1 ∧
        (p.xTCPSegments i).bAcked = false ∧
        u32add (p.xTCPSegments i).ulSequenceNumber
          (toUInt32 (p.xTCPSegments i).lDataLength) = last ∧
        (ulTCPWindowTxAck h p w last).2.2.lSRTT
          = (prvTCPWindowTxCheckAck_CalcSRTT h w (p.xTCPSegments i)).lSRTT) ∧
    (∀ first last,
      (ulTCPWindowTxSack h p w first last).2.2.lSRTT = w.lSRTT ∨
      ∃ i ∈ w.xTxSegments, (p.xTCPSegments i).ucTransmitCount = 1 ∧
        (p.xTCPSegments i).bAcked = false ∧
        u32add (p.xTCPSegments i).ulSequenceNumber
          (toUInt32 (p.xTCPSegments i).lDataLength) = last ∧
        (ulTCPWindowTxSack h p w first last).2.2.lSRTT
          = (prvTCPWindowTxCheckAck_CalcSRTT h w (p.xTCPSegments i)).lSRTT) := by
  have hloop : ∀ first last,
      (prvTCPWindowTxCheckAck h p w first last).2.2.lSRTT = w.lSRTT ∨
      ∃ i ∈ w.xTxSegments, (p.xTCPSegments i).ucTransmitCount = 1 ∧
        (p.xTCPSegments i).bAcked = false ∧
        u32add (p.xTCPSegments i).ulSequenceNumber
          (toUInt32 (p.xTCPSegments i).lDataLength) = last ∧
        (prvTCPWindowTxCheckAck h p w first last).2.2.lSRTT
          = (prvTCPWindowTxCheckAck_CalcSRTT h w (p.xTCPSegments i)).lSRTT :=
    fun first last =>
      txCheckAckLoop_srtt h last p w w.xTxSegments p w first 0 rfl (fun _ => Or.inl rfl)
  constructor
  · intro last
    by_cases hle : xSequenceLessThanOrEqual last w.tx.ulCurrentSequenceNumber = true
    · left
      rw [ulTCPWindowTxAck_old h p w last hle]
    · have hle' : xSequenceLessThanOrEqual last w.tx.ulCurrentSequenceNumber = false := by
        simpa using hle
      rw [ulTCPWindowTxAck_new h p w last hle']
      exact hloop _ last
  · intro first last
    have hs : (ulTCPWindowTxSack h p w first last).2.2.lSRTT
        = (prvTCPWindowTxCheckAck h p w first last).2.2.lSRTT := by
      show (fastRetransmitLoop first _ _ _ 0).2.2.lSRTT = _
      rw [fastRetransmitLoop_srtt]
    rw [hs]
    exact hloop first last

/-- Claim C32 fails in the code.  In the run `resampledRun` the segment `[2000, 3460)`
is emitted by `ulTCPWindowTxGet` (`halfSentRun`: 1460 bytes at position 0, transmit
count 1); after the next segment was sent and selectively acknowledged three times
(the first of these samples the round-trip time from that segment, sent once:
`lSRTT` goes from 500 to 437), `prvTCPWindowFastRetransmit` sets the transmit count of
`[2000, 3460)` to 0 and `ulTCPWindowTxGet` emits the segment a second time
(`resentAgainRun`), which makes the count 1 again.  The acknowledgement of 3460, whose
final segment has thus been emitted twice, samples the round-trip time from it: `lSRTT`
goes from 437 to 394. -/
theorem C32_retransmitted_segment_sampled :
    busyTxAdd.2.2.lSRTT = 500 ∧ busyTxAdd.2.2.xTxSegments = [0, 1] ∧
    (busyTxAdd.2.1.xTCPSegments 0).ulSequenceNumber = 2000 ∧
    (busyTxAdd.2.1.xTCPSegments 0).lDataLength = 1460 ∧
    ulTCPWindowTxGet_select demoHost busyTxAdd.2.1 busyTxAdd.2.2 65535 = some 0 ∧
    halfSentRun.1 = 1460 ∧ halfSentRun.2.1 = some 0 ∧
    (halfSentRun.2.2.1.xTCPSegments 0).ucTransmitCount = 1 ∧
    ulTCPWindowTxGet_select demoHost halfSentRun.2.2.1 halfSentRun.2.2.2 65535 = some 1 ∧
    thriceSackedRun.2.2.lSRTT = 437 ∧ thriceSackedRun.2.2.xPriorityQueue = [0] ∧
    (thriceSackedRun.2.1.xTCPSegments 0).ucTransmitCount = 0 ∧
    ulTCPWindowTxGet_select demoHost thriceSackedRun.2.1 thriceSackedRun.2.2 65535 = some 0 ∧
    resentAgainRun.1 = 1460 ∧ resentAgainRun.2.1 = some 0 ∧
    (resentAgainRun.2.2.1.xTCPSegments 0).ucTransmitCount = 1 ∧
    (resentAgainRun.2.2.1.xTCPSegments 0).ulSequenceNumber = 2000 ∧
    resentAgainRun.2.2.2.lSRTT = 437 ∧
    resampledRun.1 = 1460 ∧ resampledRun.2.2.lSRTT = 394 ∧
    resampledRun.2.2.lSRTT ≠ resentAgainRun.2.2.2.lSRTT := by
  decide

/-! ## C33: a flagged segment at the left edge -/

/-- No sequence number is after itself. -/
theorem xSequenceGreaterThan_self (a : Nat) : xSequenceGreaterThan a a = false := by
  rw [xSequenceGreaterThan_eq]
  simp only [u32sub, u32add, decide_eq_false_iff_not]
  omega

/-- Where the loop of `prvTCPWindowTxCheckAck` ends when it starts at the left edge.
When `xTxSegments` is a run of distinct descriptors, not in the free list, of fewer than
`2^32` bytes from `tx.ulCurrentSequenceNumber`, and the walk starts there, then after the
loop `xTxSegments` is empty, or `tx.ulCurrentSequenceNumber` is not before `ulLast`, or
the first descriptor of `xTxSegments` is not flagged as acknowledged. -/
theorem txCheckAckLoop_edge (h : Host) (ulLast : Nat) :
    ∀ (l : List Nat) (p : Pool) (w : TCPWindow) (start b : Nat),
      w.tx.ulCurrentSequenceNumber = start % 4294967296 → w.xTxSegments = l →
      rxChain p.xTCPSegments start l → rxChainLength p.xTCPSegments l < 4294967296 →
      l.Nodup → (∀ j ∈ l, j ∉ p.xSegmentList) →
      (txCheckAckLoop h ulLast l p w (start % 4294967296) b).2.2.xTxSegments = [] ∨
      xSequenceLessThan
        (txCheckAckLoop h ulLast l p w (start % 4294967296)
          b).2.2.tx.ulCurrentSequenceNumber ulLast = false ∨
      ∃ i tl,
        (txCheckAckLoop h ulLast l p w (start % 4294967296) b).2.2.xTxSegments = i :: tl ∧
        ((txCheckAckLoop h ulLast l p w (start % 4294967296) b).2.1.xTCPSegments i).bAcked
          = false := by
  intro l
  induction l with
  | nil =>
    intro p w start b _ hl _ _ _ _
    left
    simpa [txCheckAckLoop] using hl
  | cons i rest ih =>
    intro p w start b hcur hl hch hlen hnd hfree
    have hnd2 : rest.Nodup := (List.nodup_cons.mp hnd).2
    have hi : i ∉ rest := (List.nodup_cons.mp hnd).1
    obtain ⟨hseq, hpos, hrest⟩ := hch
    have hsplit : rxChainLength p.xTCPSegments (i :: rest)
        = (p.xTCPSegments i).lDataLength.toNat + rxChainLength p.xTCPSegments rest := by
      simp [rxChainLength]
    rw [hsplit] at hlen
    cases hlt : xSequenceLessThan (start % 4294967296) ulLast with
    | false =>
      rw [txCheckAckLoop_stop h ulLast _ p w _ b hlt]
      right; left
      show xSequenceLessThan w.tx.ulCurrentSequenceNumber ulLast = false
      rw [hcur]
      exact hlt
    | true =>
      rw [txCheckAckLoop_cons h ulLast i rest p w _ b hlt]
      have h1 : ¬ xSequenceGreaterThan (start % 4294967296)
          (p.xTCPSegments i).ulSequenceNumber = true := by
        rw [hseq, xSequenceGreaterThan_self]
        exact Bool.false_ne_true
      have h2 : ¬ start % 4294967296 ≠ (p.xTCPSegments i).ulSequenceNumber := by
        rw [hseq]
        exact fun hx => hx rfl
      rw [if_neg h1, if_neg h2]
      by_cases h3 : (p.xTCPSegments i).bAcked = false ∧
          xSequenceGreaterThan (u32add (p.xTCPSegments i).ulSequenceNumber
            (toUInt32 (p.xTCPSegments i).lDataLength)) ulLast = true
      · rw [if_pos h3]
        right; right
        exact ⟨i, rest, hl, h3.1⟩
      · rw [if_neg h3]
        have hc : start % 4294967296 = w.tx.ulCurrentSequenceNumber := hcur.symm
        obtain ⟨-, g2, g3, g4, -, -, -, -, -, g10⟩ :=
          txCheckAck_confirm_free h ulLast p w i _ b hc
        have hif : i ∉ p.xSegmentList := hfree i (List.mem_cons_self _ _)
        rw [List.erase_of_not_mem hif] at g3
        rw [hl, List.erase_cons_head] at g4
        have hu : toUInt32 (p.xTCPSegments i).lDataLength
            = (p.xTCPSegments i).lDataLength.toNat := by
          unfold toUInt32; omega
        have hcur1 : (txCheckAck_confirm h ulLast p w i (start % 4294967296)
              b).2.2.tx.ulCurrentSequenceNumber
            = (start + (p.xTCPSegments i).lDataLength.toNat) % 4294967296 := by
          rw [g2, hcur, hu]; unfold u32add; omega
        have hc1 : u32add (start % 4294967296) (toUInt32 (p.xTCPSegments i).lDataLength)
            = (start + (p.xTCPSegments i).lDataLength.toNat) % 4294967296 := by
          rw [hu]; unfold u32add; omega
        have hsame : ∀ j ∈ rest,
            (txCheckAck_confirm h ulLast p w i (start % 4294967296) b).2.1.xTCPSegments j
              = p.xTCPSegments j :=
          fun j hj => g10 j (fun e => hi (e ▸ hj))
        have hch1 := (rxChain_congr p.xTCPSegments
          (txCheckAck_confirm h ulLast p w i (start % 4294967296) b).2.1.xTCPSegments rest _
          (fun j hj => by rw [hsame j hj]; exact ⟨rfl, rfl⟩) hrest)
        rw [hc1]
        exact ih (txCheckAck_confirm h ulLast p w i (start % 4294967296) b).2.1
          (txCheckAck_confirm h ulLast p w i (start % 4294967296) b).2.2
          (start + (p.xTCPSegments i).lDataLength.toNat)
          (txCheckAck_confirm h ulLast p w i (start % 4294967296) b).1
          hcur1 g4 hch1.1 (by rw [hch1.2]; omega) hnd2
          (fun j hj => by
            rw [g3]
            intro hm
            rcases List.mem_append.mp hm with hm | hm
            · exact hfree j (List.mem_cons_of_mem _ hj) hm
            · have hji : j = i := by simpa using hm
              exact hi (hji ▸ hj))

/-- In a well-formed transmit side only the first descriptor of `xTxSegments` starts at
`tx.ulCurrentSequenceNumber`. -/
theorem txWellFormed_edge (p : Pool) (w : TCPWindow) (hw : txWellFormed p w) (i : Nat)
    (hi : i ∈ w.xTxSegments)
    (hs : (p.xTCPSegments i).ulSequenceNumber = w.tx.ulCurrentSequenceNumber) :
    ∃ tl, w.xTxSegments = i :: tl := by
  have hlen := txWellFormed_length p w hw
  obtain ⟨hcur, hch, -⟩ := hw
  cases hT : w.xTxSegments with
  | nil => rw [hT] at hi; exact absurd hi (List.not_mem_nil i)
  | cons j tl =>
    rw [hT] at hi hch hlen
    rcases List.mem_cons.mp hi with hij | hitl
    · exact ⟨tl, by rw [hij]⟩
    · exfalso
      exact rxChain_tail_ne_start p.xTCPSegments j tl _ hch hlen i hitl hs

/-- The walk of `prvTCPWindowTxCheckAck` from the left edge of a well-formed transmit
side: a descriptor that is left in `xTxSegments`, flagged as acknowledged, at
`tx.ulCurrentSequenceNumber`, is left only when `tx.ulCurrentSequenceNumber` is not
before `ulLast`. -/
theorem prvTCPWindowTxCheckAck_edge (h : Host) (p : Pool) (w : TCPWindow) (ulLast i : Nat)
    (hw : txWellFormed p w)
    (hi : i ∈ (prvTCPWindowTxCheckAck h p w w.tx.ulCurrentSequenceNumber ulLast).2.2.xTxSegments)
    (ha : ((prvTCPWindowTxCheckAck h p w w.tx.ulCurrentSequenceNumber
      ulLast).2.1.xTCPSegments i).bAcked = true)
    (hs : ((prvTCPWindowTxCheckAck h p w w.tx.ulCurrentSequenceNumber
        ulLast).2.1.xTCPSegments i).ulSequenceNumber
      = (prvTCPWindowTxCheckAck h p w w.tx.ulCurrentSequenceNumber
        ulLast).2.2.tx.ulCurrentSequenceNumber) :
    xSequenceLessThan
      (prvTCPWindowTxCheckAck h p w w.tx.ulCurrentSequenceNumber
        ulLast).2.2.tx.ulCurrentSequenceNumber ulLast = false := by
  have hw' := prvTCPWindowTxCheckAck_wellFormed h p w w.tx.ulCurrentSequenceNumber ulLast hw
  obtain ⟨tl, htl⟩ := txWellFormed_edge _ _ hw' i hi hs
  have hlen := txWellFormed_length p w hw
  obtain ⟨hcur, hch, -, -, -, -, hnd, -, hfree, -⟩ := hw
  have hmod : w.tx.ulCurrentSequenceNumber = w.tx.ulCurrentSequenceNumber % 4294967296 :=
    (Nat.mod_eq_of_lt hcur).symm
  have hedge := txCheckAckLoop_edge h ulLast w.xTxSegments p w w.tx.ulCurrentSequenceNumber 0
    hmod rfl hch hlen hnd hfree
  rw [← hmod] at hedge
  unfold prvTCPWindowTxCheckAck at htl ha ⊢
  rcases hedge with he | he | ⟨j, tl', he, hna⟩
  · rw [he] at htl
    exact absurd htl (List.cons_ne_nil _ _).symm
  · exact he
  · rw [he] at htl
    injection htl with hji _
    subst hji
    rw [hna] at ha
    exact Bool.noConfusion ha

/-- Claim C33, corrected: in every state that is reached from `vTCPWindowCreate` by
`lTCPWindowTxAdd`, `ulTCPWindowTxGet`, `ulTCPWindowTxAck` and `ulTCPWindowTxSack`
(`TxReachable`), after `ulTCPWindowTxAck` for the sequence number `last`, and after
`ulTCPWindowTxSack` for a range from `tx.ulCurrentSequenceNumber` to `last`, a
descriptor that is left in `xTxSegments`, flagged as acknowledged and starting at
`tx.ulCurrentSequenceNumber`, is left only when `tx.ulCurrentSequenceNumber` is not
before `last`: the walk ends where the acknowledged range ends. -/
theorem C33_left_edge_retired (p : Pool) (w : TCPWindow) (hr : TxReachable p w) (h : Host) :
    (∀ last i, i ∈ (ulTCPWindowTxAck h p w last).2.2.xTxSegments →
      ((ulTCPWindowTxAck h p w last).2.1.xTCPSegments i).bAcked = true →
      ((ulTCPWindowTxAck h p w last).2.1.xTCPSegments i).ulSequenceNumber
        = (ulTCPWindowTxAck h p w last).2.2.tx.ulCurrentSequenceNumber →
      xSequenceLessThan (ulTCPWindowTxAck h p w last).2.2.tx.ulCurrentSequenceNumber last
        = false) ∧
    (∀ last i,
      i ∈ (ulTCPWindowTxSack h p w w.tx.ulCurrentSequenceNumber last).2.2.xTxSegments →
      ((ulTCPWindowTxSack h p w w.tx.ulCurrentSequenceNumber last).2.1.xTCPSegments i).bAcked
        = true →
      ((ulTCPWindowTxSack h p w w.tx.ulCurrentSequenceNumber
          last).2.1.xTCPSegments i).ulSequenceNumber
        = (ulTCPWindowTxSack h p w w.tx.ulCurrentSequenceNumber
          last).2.2.tx.ulCurrentSequenceNumber →
      xSequenceLessThan
        (ulTCPWindowTxSack h p w w.tx.ulCurrentSequenceNumber
          last).2.2.tx.ulCurrentSequenceNumber last = false) := by
  have hw := txReachable_wellFormed p w hr
  constructor
  · intro last i hi ha hs
    by_cases hle : xSequenceLessThanOrEqual last w.tx.ulCurrentSequenceNumber = true
    · rw [ulTCPWindowTxAck_old h p w last hle]
      rw [xSequenceLessThanOrEqual_eq] at hle
      rw [xSequenceLessThan_eq]
      simp only [u32sub, u32add, decide_eq_true_eq, decide_eq_false_iff_not] at hle ⊢
      omega
    · have hle' : xSequenceLessThanOrEqual last w.tx.ulCurrentSequenceNumber = false := by
        simpa using hle
      rw [ulTCPWindowTxAck_new h p w last hle'] at hi ha hs ⊢
      exact prvTCPWindowTxCheckAck_edge h p w last i hw hi ha hs
  · intro last i hi ha hs
    obtain ⟨-, f2, -, f4, -, -, -, f8, -⟩ := fastRetransmitLoop_frame w.tx.ulCurrentSequenceNumber
      (prvTCPWindowTxCheckAck h p w w.tx.ulCurrentSequenceNumber last).2.2.xWaitQueue
      (prvTCPWindowTxCheckAck h p w w.tx.ulCurrentSequenceNumber last).2.1
      (prvTCPWindowTxCheckAck h p w w.tx.ulCurrentSequenceNumber last).2.2 0
    have e1 : (ulTCPWindowTxSack h p w w.tx.ulCurrentSequenceNumber last).2.2.tx
        = (prvTCPWindowTxCheckAck h p w w.tx.ulCurrentSequenceNumber last).2.2.tx := f2
    have e2 : (ulTCPWindowTxSack h p w w.tx.ulCurrentSequenceNumber last).2.2.xTxSegments
        = (prvTCPWindowTxCheckAck h p w w.tx.ulCurrentSequenceNumber last).2.2.xTxSegments :=
      f4
    have e3 : ∀ j, (ulTCPWindowTxSack h p w w.tx.ulCurrentSequenceNumber last).2.1.xTCPSegments j
        = { (prvTCPWindowTxCheckAck h p w w.tx.ulCurrentSequenceNumber
              last).2.1.xTCPSegments j with
            ucDupAckCount :=
              ((ulTCPWindowTxSack h p w w.tx.ulCurrentSequenceNumber
                last).2.1.xTCPSegments j).ucDupAckCount
            ucTransmitCount :=
              ((ulTCPWindowTxSack h p w w.tx.ulCurrentSequenceNumber
                last).2.1.xTCPSegments j).ucTransmitCount } := f8
    rw [e1] at hs ⊢
    rw [e2] at hi
    rw [e3 i] at ha hs
    exact prvTCPWindowTxCheckAck_edge h p w last i hw hi ha hs

/-- Claim C33 as corrected, at the state of `edgeSackedRun`, in which the segment
`[2000, 3460)` waits for its acknowledgement and `[3460, 4920)` is flagged: after the
acknowledgement of 3460 the flagged descriptor 1 is left at the left edge, and
`tx.ulCurrentSequenceNumber = 3460` is not before 3460. -/
theorem C33_left_edge_retired_witness :
    TxReachable edgeSackedRun.2.1 edgeSackedRun.2.2 ∧
    1 ∈ (ulTCPWindowTxAck demoHost edgeSackedRun.2.1 edgeSackedRun.2.2 3460).2.2.xTxSegments ∧
    ((ulTCPWindowTxAck demoHost edgeSackedRun.2.1 edgeSackedRun.2.2 3460).2.1.xTCPSegments
      1).bAcked = true ∧
    ((∀ last i,
      i ∈ (ulTCPWindowTxAck demoHost edgeSackedRun.2.1 edgeSackedRun.2.2 last).2.2.xTxSegments →
      ((ulTCPWindowTxAck demoHost edgeSackedRun.2.1 edgeSackedRun.2.2
        last).2.1.xTCPSegments i).bAcked = true →
      ((ulTCPWindowTxAck demoHost edgeSackedRun.2.1 edgeSackedRun.2.2
          last).2.1.xTCPSegments i).ulSequenceNumber
        = (ulTCPWindowTxAck demoHost edgeSackedRun.2.1 edgeSackedRun.2.2
            last).2.2.tx.ulCurrentSequenceNumber →
      xSequenceLessThan
        (ulTCPWindowTxAck demoHost edgeSackedRun.2.1 edgeSackedRun.2.2
          last).2.2.tx.ulCurrentSequenceNumber last = false) ∧
    (∀ last i,
      i ∈ (ulTCPWindowTxSack demoHost edgeSackedRun.2.1 edgeSackedRun.2.2
        edgeSackedRun.2.2.tx.ulCurrentSequenceNumber last).2.2.xTxSegments →
      ((ulTCPWindowTxSack demoHost edgeSackedRun.2.1 edgeSackedRun.2.2
        edgeSackedRun.2.2.tx.ulCurrentSequenceNumber last).2.1.xTCPSegments i).bAcked
        = true →
      ((ulTCPWindowTxSack demoHost edgeSackedRun.2.1 edgeSackedRun.2.2
          edgeSackedRun.2.2.tx.ulCurrentSequenceNumber last).2.1.xTCPSegments
            i).ulSequenceNumber
        = (ulTCPWindowTxSack demoHost edgeSackedRun.2.1 edgeSackedRun.2.2
          edgeSackedRun.2.2.tx.ulCurrentSequenceNumber last).2.2.tx.ulCurrentSequenceNumber →
      xSequenceLessThan
        (ulTCPWindowTxSack demoHost edgeSackedRun.2.1 edgeSackedRun.2.2
          edgeSackedRun.2.2.tx.ulCurrentSequenceNumber last).2.2.tx.ulCurrentSequenceNumber
        last = false)) :=
  have hadded : TxReachable busyTxAdd.2.1 busyTxAdd.2.2 :=
    TxReachable.tx_add _ _ 2 demoHost 2920 0 65536 busyTxAdd
      (TxReachable.window_create 16 true (prvCreateSectors 16 true demoPool).1
        (prvCreateSectors 16 true demoPool).2 demoWindow 5840 5840 1000 2000 1460
        (by decide) (by decide) (by decide) (by decide) (by decide) (by decide))
      (by decide) rfl
  have hhalf : TxReachable halfSentRun.2.2.1 halfSentRun.2.2.2 :=
    TxReachable.tx_get _ _ demoHost 65535 hadded
  have hboth : TxReachable bothSentRun.2.2.1 bothSentRun.2.2.2 :=
    TxReachable.tx_get _ _ demoHost 65535 hhalf
  have hsacked : TxReachable edgeSackedRun.2.1 edgeSackedRun.2.2 :=
    TxReachable.tx_sack _ _ demoHost 3460 4920 hboth
  ⟨hsacked, by decide, by decide,
    C33_left_edge_retired edgeSackedRun.2.1 edgeSackedRun.2.2 hsacked demoHost⟩

/-- Claim C33 fails as stated.  After `lTCPWindowTxAdd` for 2920 bytes and two calls of
`ulTCPWindowTxGet`, the segments `[2000, 3460)` and `[3460, 4920)` wait for their
acknowledgement.  `ulTCPWindowTxSack` for `[3460, 4920)` flags descriptor 1.
`ulTCPWindowTxAck` for the sequence number 3460 then frees descriptor 0 and moves
`tx.ulCurrentSequenceNumber` to 3460, where its walk ends: when it returns, descriptor 1
is still in `xTxSegments`, flagged as acknowledged, with the sequence number 3460 that
`tx.ulCurrentSequenceNumber` has. -/
theorem C33_counterexample :
    bothSentRun.2.2.2.xTxSegments = [0, 1] ∧ bothSentRun.2.2.2.xWaitQueue = [0, 1] ∧
    bothSentRun.2.2.2.tx.ulCurrentSequenceNumber = 2000 ∧
    edgeSackedRun.1 = 0 ∧ (edgeSackedRun.2.1.xTCPSegments 1).bAcked = true ∧
    edgeSackedRun.2.2.tx.ulCurrentSequenceNumber = 2000 ∧
    edgeAckedRun.1 = 1460 ∧ edgeAckedRun.2.2.xTxSegments = [1] ∧
    edgeAckedRun.2.2.tx.ulCurrentSequenceNumber = 3460 ∧
    (edgeAckedRun.2.1.xTCPSegments 1).bAcked = true ∧
    (edgeAckedRun.2.1.xTCPSegments 1).ulSequenceNumber = 3460 ∧
    ¬ (∀ i ∈ edgeAckedRun.2.2.xTxSegments,
        ¬ ((edgeAckedRun.2.1.xTCPSegments i).bAcked = true ∧
          (edgeAckedRun.2.1.xTCPSegments i).ulSequenceNumber
            = edgeAckedRun.2.2.tx.ulCurrentSequenceNumber)) := by
  decide

/-! ## C40: what acknowledgements do to the flags and the queues -/

/-- Confirming a segment leaves the outstanding flag and the transmit count of every
descriptor as they are, or clears them. -/
theorem txCheckAck_confirm_marks (h : Host) (ulLast : Nat) (p : Pool) (w : TCPWindow)
    (i c b j : Nat) :
    (((txCheckAck_confirm h ulLast p w i c b).2.1.xTCPSegments j).bOutstanding
        = (p.xTCPSegments j).bOutstanding ∨
      ((txCheckAck_confirm h ulLast p w i c b).2.1.xTCPSegments j).bOutstanding = false) ∧
    (((txCheckAck_confirm h ulLast p w i c b).2.1.xTCPSegments j).ucTransmitCount
        = (p.xTCPSegments j).ucTransmitCount ∨
      ((txCheckAck_confirm h ulLast p w i c b).2.1.xTCPSegments j).ucTransmitCount = 0) := by
  by_cases hji : j = i
  · subst hji
    by_cases hc : c = w.tx.ulCurrentSequenceNumber
    · have hfree : ((txCheckAck_confirm h ulLast p w j c b).2.1.xTCPSegments j).bOutstanding
            = false ∧
          ((txCheckAck_confirm h ulLast p w j c b).2.1.xTCPSegments j).ucTransmitCount = 0 := by
        have hq : (txCheckAck_flag h ulLast p w j).2.tx = w.tx := by
          rw [(txCheckAck_flag_frame h ulLast p w j).1]
        unfold txCheckAck_confirm
        dsimp only
        rw [hq, if_pos hc]
        simp only [vTCPWindowFree, Function.update_same, and_self]
      exact ⟨Or.inr hfree.1, Or.inr hfree.2⟩
    · obtain ⟨-, -, -, -, -, -, -, -, -, k10, -⟩ := txCheckAck_confirm_keep h ulLast p w j c b hc
      rw [k10]
      exact ⟨Or.inl rfl, Or.inl rfl⟩
  · rw [(txCheckAck_confirm_fields h ulLast p w i c b).2.2.2.1 j hji]
    exact ⟨Or.inl rfl, Or.inl rfl⟩

/-- Confirming a segment takes descriptors out of the queues, and puts none in. -/
theorem txCheckAck_confirm_queues (h : Host) (ulLast : Nat) (p : Pool) (w : TCPWindow)
    (i c b : Nat) :
    (txCheckAck_confirm h ulLast p w i c b).2.2.xPriorityQueue.Sublist w.xPriorityQueue ∧
    (txCheckAck_confirm h ulLast p w i c b).2.2.xWaitQueue.Sublist w.xWaitQueue ∧
    (txCheckAck_confirm h ulLast p w i c b).2.2.xTxQueue.Sublist w.xTxQueue := by
  by_cases hc : c = w.tx.ulCurrentSequenceNumber
  · obtain ⟨-, -, -, -, -, g6, g7, g8, -⟩ := txCheckAck_confirm_free h ulLast p w i c b hc
    rw [g6, g7, g8]
    exact ⟨List.erase_sublist _ _, List.erase_sublist _ _, List.erase_sublist _ _⟩
  · obtain ⟨-, -, -, -, -, k6, k7, k8, -⟩ := txCheckAck_confirm_keep h ulLast p w i c b hc
    rw [k6, k7, k8]
    refine ⟨?_, ?_, ?_⟩
    · split
      · exact List.erase_sublist _ _
      · exact List.Sublist.refl _
    · split
      · exact List.erase_sublist _ _
      · exact List.Sublist.refl _
    · split
      · exact List.erase_sublist _ _
      · exact List.Sublist.refl _

/-- The loop of `prvTCPWindowTxCheckAck` leaves the outstanding flag and the transmit
count of every descriptor as they are, or clears them, and it takes descriptors out of
the queues without putting any in. -/
theorem txCheckAckLoop_marks (h : Host) (ulLast : Nat) :
    ∀ (l : List Nat) (p : Pool) (w : TCPWindow) (c b : Nat),
      (∀ j,
        (((txCheckAckLoop h ulLast l p w c b).2.1.xTCPSegments j).bOutstanding
            = (p.xTCPSegments j).bOutstanding ∨
          ((txCheckAckLoop h ulLast l p w c b).2.1.xTCPSegments j).bOutstanding = false) ∧
        (((txCheckAckLoop h ulLast l p w c b).2.1.xTCPSegments j).ucTransmitCount
            = (p.xTCPSegments j).ucTransmitCount ∨
          ((txCheckAckLoop h ulLast l p w c b).2.1.xTCPSegments j).ucTransmitCount = 0)) ∧
      (txCheckAckLoop h ulLast l p w c b).2.2.xPriorityQueue.Sublist w.xPriorityQueue ∧
      (txCheckAckLoop h ulLast l p w c b).2.2.xWaitQueue.Sublist w.xWaitQueue ∧
      (txCheckAckLoop h ulLast l p w c b).2.2.xTxQueue.Sublist w.xTxQueue := by
  intro l
  induction l with
  | nil =>
    intro p w c b
    exact ⟨fun j => ⟨Or.inl rfl, Or.inl rfl⟩, List.Sublist.refl _, List.Sublist.refl _,
      List.Sublist.refl _⟩
  | cons i rest ih =>
    intro p w c b
    have hsame : (∀ j,
        ((p.xTCPSegments j).bOutstanding = (p.xTCPSegments j).bOutstanding ∨
          (p.xTCPSegments j).bOutstanding = false) ∧
        ((p.xTCPSegments j).ucTransmitCount = (p.xTCPSegments j).ucTransmitCount ∨
          (p.xTCPSegments j).ucTransmitCount = 0)) ∧
      w.xPriorityQueue.Sublist w.xPriorityQueue ∧ w.xWaitQueue.Sublist w.xWaitQueue ∧
      w.xTxQueue.Sublist w.xTxQueue :=
      ⟨fun j => ⟨Or.inl rfl, Or.inl rfl⟩, List.Sublist.refl _, List.Sublist.refl _,
        List.Sublist.refl _⟩
    cases hlt : xSequenceLessThan c ulLast with
    | false => rw [txCheckAckLoop_stop h ulLast _ p w c b hlt]; exact hsame
    | true =>
      rw [txCheckAckLoop_cons h ulLast i rest p w c b hlt]
      split
      · exact ih p w c b
      · split
        · exact hsame
        · split
          · exact hsame
          · obtain ⟨m, q1, q2, q3⟩ := ih (txCheckAck_confirm h ulLast p w i c b).2.1
              (txCheckAck_confirm h ulLast p w i c b).2.2
              (u32add c (toUInt32 (p.xTCPSegments i).lDataLength))
              (txCheckAck_confirm h ulLast p w i c b).1
            obtain ⟨s1, s2, s3⟩ := txCheckAck_confirm_queues h ulLast p w i c b
            refine ⟨fun j => ?_, q1.trans s1, q2.trans s2, q3.trans s3⟩
            obtain ⟨m1, m2⟩ := m j
            obtain ⟨n1, n2⟩ := txCheckAck_confirm_marks h ulLast p w i c b j
            constructor
            · rcases m1 with m1 | m1
              · rcases n1 with n1 | n1
                · exact Or.inl (m1.trans n1)
                · exact Or.inr (m1.trans n1)
              · exact Or.inr m1
            · rcases m2 with m2 | m2
              · rcases n2 with n2 | n2
                · exact Or.inl (m2.trans n2)
                · exact Or.inr (m2.trans n2)
              · exact Or.inr m2

/-- The loop of `prvTCPWindowFastRetransmit` puts descriptors of the wait queue into the
priority queue: afterwards a descriptor of the wait queue was in it before, and one of
the priority queue was in it or in the wait queue before. -/
theorem fastRetransmitLoop_queues (ulFirst : Nat) :
    ∀ (l : List Nat) (p : Pool) (w : TCPWindow) (n : Nat) (j : Nat),
      (j ∈ (fastRetransmitLoop ulFirst l p w n).2.2.xWaitQueue → j ∈ w.xWaitQueue) ∧
      (j ∈ (fastRetransmitLoop ulFirst l p w n).2.2.xPriorityQueue →
        j ∈ w.xPriorityQueue ∨ j ∈ l) := by
  intro l
  induction l with
  | nil =>
    intro p w n j
    exact ⟨fun hj => hj, fun hj => Or.inl hj⟩
  | cons i rest ih =>
    intro p w n j
    unfold fastRetransmitLoop
    dsimp only
    split
    · split
      · obtain ⟨a1, a2⟩ := ih
          (p.setSegment i
            { p.xTCPSegments i with
              ucDupAckCount := ((p.xTCPSegments i).ucDupAckCount + 1) % 256
              ucTransmitCount := 0 })
          { w with
            xWaitQueue := uxListRemove w.xWaitQueue i
            xPriorityQueue := vListInsertFifo w.xPriorityQueue i } (u32add n 1) j
        constructor
        · intro hj
          exact List.mem_of_mem_erase (a1 hj)
        · intro hj
          rcases a2 hj with hx | hx
          · rcases List.mem_append.mp hx with hx | hx
            · exact Or.inl hx
            · right
              have hji : j = i := by simpa using hx
              rw [hji]
              exact List.mem_cons_self _ _
          · exact Or.inr (List.mem_cons_of_mem _ hx)
      · obtain ⟨a1, a2⟩ := ih
          (p.setSegment i
            { p.xTCPSegments i with
              ucDupAckCount := ((p.xTCPSegments i).ucDupAckCount + 1) % 256 }) w n j
        exact ⟨a1, fun hj => (a2 hj).imp id (List.mem_cons_of_mem _)⟩
    · obtain ⟨a1, a2⟩ := ih p w n j
      exact ⟨a1, fun hj => (a2 hj).imp id (List.mem_cons_of_mem _)⟩

/-! ## C40: acknowledgements and `pxHeadSegment` -/

/-- A descriptor of a list that is not among its first `k` is among the others, and the
last descriptor of the list is then the last of the others. -/
theorem getLast?_drop_of_not_mem_take (l : List Nat) (k i : Nat) (hl : l.getLast? = some i)
    (hi : i ∉ l.take k) : (l.drop k).getLast? = some i := by
  have hmem : i ∈ l := List.mem_of_getLast?_eq_some hl
  rw [List.getLast?_drop]
  by_cases hk : l.length ≤ k
  · exfalso
    rw [List.take_of_length_le hk] at hi
    exact hi hmem
  · rw [if_neg hk]
    exact hl

/-- The function `prvTCPWindowTxCheckAck` keeps the descriptors of `xTxQueue` unsent and
`pxHeadSegment` accounted for: a head segment that is freed is in the free list and
holds no bytes afterwards, one that is not freed stays the last descriptor of
`xTxSegments` with its length. -/
theorem prvTCPWindowTxCheckAck_head (h : Host) (p : Pool) (w : TCPWindow)
    (ulFirst ulLast : Nat) (hs : txSound p w) :
    queueUnsent (prvTCPWindowTxCheckAck h p w ulFirst ulLast).2.1
      (prvTCPWindowTxCheckAck h p w ulFirst ulLast).2.2 ∧
    headSound (prvTCPWindowTxCheckAck h p w ulFirst ulLast).2.1
      (prvTCPWindowTxCheckAck h p w ulFirst ulLast).2.2 := by
  obtain ⟨hw, -, -, hu, hh⟩ := hs
  have hlen := txWellFormed_length p w hw
  obtain ⟨hcur, hch, -, -, -, -, hnd, -, hfree, -⟩ := hw
  have hmod : w.tx.ulCurrentSequenceNumber = w.tx.ulCurrentSequenceNumber % 4294967296 :=
    (Nat.mod_eq_of_lt hcur).symm
  obtain ⟨k, -, k2, -, k4, k5, k6⟩ := txCheckAckLoop_leading h ulLast w.xTxSegments p w
    w.tx.ulCurrentSequenceNumber ulFirst 0 hmod rfl hch hlen hnd hfree
  obtain ⟨m, q1, q2, q3⟩ := txCheckAckLoop_marks h ulLast w.xTxSegments p w ulFirst 0
  obtain ⟨f1, -, -⟩ := txCheckAckLoop_fields h ulLast w.xTxSegments p w ulFirst 0
  unfold prvTCPWindowTxCheckAck
  constructor
  · intro j hj
    obtain ⟨u1, u2⟩ := hu j (q3.subset hj)
    obtain ⟨m1, m2⟩ := m j
    constructor
    · rcases m2 with m2 | m2
      · rw [m2]; exact u1
      · exact m2
    · rcases m1 with m1 | m1
      · rw [m1]; exact u2
      · exact m1
  · intro i hi
    rw [f1] at hi
    obtain ⟨a1, a2, a3, a4⟩ := hh i hi
    refine ⟨?_, fun hx => a2 (q2.subset hx), fun hx => a3 (q1.subset hx), ?_⟩
    · rcases (m i).1 with m1 | m1
      · rw [m1]; exact a1
      · exact m1
    · rcases a4 with ⟨b1, b2, b3⟩ | ⟨b1, b2⟩
      · by_cases hit : i ∈ w.xTxSegments.take k
        · right
          exact ⟨by rw [k4]; exact List.mem_append_right _ hit, k6 i hit⟩
        · left
          obtain ⟨-, e2, e3⟩ := k5 i hit
          refine ⟨?_, ?_, ?_⟩
          · rw [k2]
            exact getLast?_drop_of_not_mem_take _ k i b1 hit
          · rw [e2]; exact b2
          · rw [e2, e3]; exact b3
      · right
        have hit : i ∉ w.xTxSegments.take k :=
          fun hx => hfree i (List.mem_of_mem_take hx) b1
        obtain ⟨-, e2, -⟩ := k5 i hit
        exact ⟨by rw [k4]; exact List.mem_append_left _ b1, by rw [e2]; exact b2⟩

/-- The function `prvTCPWindowFastRetransmit` keeps the descriptors of `xTxQueue` unsent
and `pxHeadSegment` accounted for, when the queues are linked. -/
theorem prvTCPWindowFastRetransmit_head (p : Pool) (w : TCPWindow) (ulFirst : Nat)
    (hq : queuesLinked w) (hu : queueUnsent p w) (hh : headSound p w) :
    queueUnsent (prvTCPWindowFastRetransmit p w ulFirst).2.1
      (prvTCPWindowFastRetransmit p w ulFirst).2.2 ∧
    headSound (prvTCPWindowFastRetransmit p w ulFirst).2.1
      (prvTCPWindowFastRetransmit p w ulFirst).2.2 := by
  unfold prvTCPWindowFastRetransmit
  obtain ⟨g1, -, -, g4, -, g6, -, -, g9⟩ := fastRetransmitLoop_frame ulFirst w.xWaitQueue p w 0
  obtain ⟨f1, -⟩ := fastRetransmitLoop_fields ulFirst w.xWaitQueue p w 0
  have hqs := fastRetransmitLoop_queues ulFirst w.xWaitQueue p w 0
  obtain ⟨qnd, -⟩ := hq
  unfold queueItems at qnd
  have hdisj := (List.nodup_append.mp qnd).2.2
  constructor
  · intro j hj
    rw [g6] at hj
    have hjw : j ∉ w.xWaitQueue := fun hx => hdisj (List.mem_append_right _ hx) hj
    rw [g9 j hjw]
    exact hu j hj
  · intro i hi
    rw [f1] at hi
    obtain ⟨a1, a2, a3, a4⟩ := hh i hi
    rw [g9 i a2, g1, g4]
    refine ⟨a1, fun hx => a2 ((hqs i).1 hx), ?_, a4⟩
    intro hx
    rcases (hqs i).2 hx with hx | hx
    · exact a3 hx
    · exact a2 hx

/-- The functions `ulTCPWindowTxAck` and `ulTCPWindowTxSack` keep the transmit side
sound. -/
theorem ulTCPWindowTxAck_sound (h : Host) (p : Pool) (w : TCPWindow) (hs : txSound p w) :
    (∀ seq, txSound (ulTCPWindowTxAck h p w seq).2.1 (ulTCPWindowTxAck h p w seq).2.2) ∧
    (∀ first last, txSound (ulTCPWindowTxSack h p w first last).2.1
      (ulTCPWindowTxSack h p w first last).2.2) := by
  have hs' := hs
  obtain ⟨hw, hq, hnd, hu, hh⟩ := hs
  obtain ⟨l1, l2⟩ := ulTCPWindowTxAck_linked h p w hq
  obtain ⟨c1, c2⟩ := ulTCPWindowTxAck_conserves h p w hnd
  constructor
  · intro seq
    refine ⟨ulTCPWindowTxAck_wellFormed h p w seq hw, l1 seq, (c1 seq).nodup_iff.mpr hnd, ?_⟩
    by_cases hle : xSequenceLessThanOrEqual seq w.tx.ulCurrentSequenceNumber = true
    · rw [ulTCPWindowTxAck_old h p w seq hle]
      exact ⟨hu, hh⟩
    · have hle' : xSequenceLessThanOrEqual seq w.tx.ulCurrentSequenceNumber = false := by
        simpa using hle
      rw [ulTCPWindowTxAck_new h p w seq hle']
      exact prvTCPWindowTxCheckAck_head h p w _ seq hs'
  · intro first last
    refine ⟨ulTCPWindowTxSack_wellFormed h p w first last hw, l2 first last,
      (c2 first last).nodup_iff.mpr hnd, ?_⟩
    obtain ⟨u1, h1⟩ := prvTCPWindowTxCheckAck_head h p w first last hs'
    have hq1 : queuesLinked (prvTCPWindowTxCheckAck h p w first last).2.2 :=
      txCheckAckLoop_linked h last w.xTxSegments p w first 0 hq
    exact prvTCPWindowFastRetransmit_head _ _ first hq1 u1 h1

/-! ## C40: transmissions and `pxHeadSegment` -/

/-- The head segment stays accounted for under a change that keeps `xTxSegments` and the
free list, leaves the descriptor of the head segment as it is, and puts it in neither
the wait queue nor the priority queue. -/
theorem headSound_of_frame (p p' : Pool) (w w' : TCPWindow) (hh : headSound p w)
    (hhead : ∀ k, w'.pxHeadSegment = some k →
      w.pxHeadSegment = some k ∧ p'.xTCPSegments k = p.xTCPSegments k ∧
        (k ∈ w'.xWaitQueue → k ∈ w.xWaitQueue) ∧
        (k ∈ w'.xPriorityQueue → k ∈ w.xPriorityQueue))
    (hT : w'.xTxSegments = w.xTxSegments) (hF : p'.xSegmentList = p.xSegmentList) :
    headSound p' w' := by
  intro k hk
  obtain ⟨e1, e2, e3, e4⟩ := hhead k hk
  obtain ⟨a1, a2, a3, a4⟩ := hh k e1
  rw [e2, hT, hF]
  exact ⟨a1, fun hx => a2 (e3 hx), fun hx => a3 (e4 hx), a4⟩

/-- The descriptors of `xTxQueue` stay unsent under a change that puts no descriptor in
the queue and leaves its descriptors as they are. -/
theorem queueUnsent_of_frame (p p' : Pool) (w w' : TCPWindow) (hu : queueUnsent p w)
    (hsub : ∀ j ∈ w'.xTxQueue, j ∈ w.xTxQueue ∧ p'.xTCPSegments j = p.xTCPSegments j) :
    queueUnsent p' w' := by
  intro j hj
  obtain ⟨e1, e2⟩ := hsub j hj
  rw [e2]
  exact hu j e1

/-- The function `ulTCPWindowTxGet` keeps the transmit side sound. -/
theorem ulTCPWindowTxGet_sound (h : Host) (p : Pool) (w : TCPWindow) (ulWindowSize : Nat)
    (hs : txSound p w) :
    txSound (ulTCPWindowTxGet h p w ulWindowSize).2.2.1
      (ulTCPWindowTxGet h p w ulWindowSize).2.2.2 := by
  obtain ⟨hw, hq, hnd, hu, hh⟩ := hs
  obtain ⟨l1, l2⟩ := ulTCPWindowTxGet_lists h p w ulWindowSize
  refine ⟨ulTCPWindowTxGet_wellFormed h p w ulWindowSize hw,
    ulTCPWindowTxGet_linked h p w ulWindowSize hq, by rw [l1, l2]; exact hnd, ?_⟩
  obtain ⟨qnd, -⟩ := hq
  unfold queueItems at qnd
  obtain ⟨hPW, hX, hPWX⟩ := List.nodup_append.mp qnd
  obtain ⟨hP, hW, hPWd⟩ := List.nodup_append.mp hPW
  rcases ulTCPWindowTxGet_select_cases h p w ulWindowSize with
    ⟨_, _, _, _, hget⟩ | ⟨i, rest, hprio, _, hget⟩ | ⟨i, rest, _, hwait, _, _, hget⟩ |
    ⟨i, rest, _, _, htx, _, _, _, hget⟩
  · rw [hget]
    exact ⟨hu, hh⟩
  · rw [hget]
    obtain ⟨-, -, -, e4, e5, e6, e7, e8, e9, -, -, -, -, e14, -⟩ :=
      ulTCPWindowTxGet_emit_effects h p
        { w with ulOurSequenceNumber := w.tx.ulHighestSequenceNumber
                 xPriorityQueue := rest } i
    have hiP : i ∈ w.xPriorityQueue := by rw [hprio]; exact List.mem_cons_self _ _
    constructor
    · apply queueUnsent_of_frame p _ w _ hu
      intro j hj
      rw [e7] at hj
      have hji : j ≠ i := fun e => hPWX (List.mem_append_left _ hiP) (e ▸ hj)
      exact ⟨hj, e4 j hji⟩
    · apply headSound_of_frame p _ w _ hh _ e9 e5
      intro k hk
      rw [e14] at hk
      have hk' : w.pxHeadSegment = some k := hk
      obtain ⟨-, a2, a3, -⟩ := hh k hk'
      have hki : k ≠ i := fun e => a3 (e ▸ hiP)
      refine ⟨hk', e4 k hki, ?_, ?_⟩
      · rw [e6]
        intro hx
        rcases List.mem_append.mp hx with hx | hx
        · exact hx
        · exact absurd (by simpa using hx) hki
      · rw [e8]
        intro hx
        rw [hprio]
        exact List.mem_cons_of_mem _ hx
  · rw [hget]
    obtain ⟨-, -, -, e4, e5, e6, e7, e8, e9, -, -, -, -, e14, -⟩ :=
      ulTCPWindowTxGet_emit_effects h
        (p.setSegment i { p.xTCPSegments i with ucDupAckCount := 0 })
        { w with ulOurSequenceNumber := w.tx.ulHighestSequenceNumber
                 xWaitQueue := rest } i
    have hiW : i ∈ w.xWaitQueue := by rw [hwait]; exact List.mem_cons_self _ _
    have hset : ∀ j, j ≠ i →
        (p.setSegment i { p.xTCPSegments i with ucDupAckCount := 0 }).xTCPSegments j
          = p.xTCPSegments j := by
      intro j hj
      simp only [Pool.setSegment, Function.update_noteq hj]
    constructor
    · apply queueUnsent_of_frame p _ w _ hu
      intro j hj
      rw [e7] at hj
      have hji : j ≠ i := fun e => hPWX (List.mem_append_right _ hiW) (e ▸ hj)
      exact ⟨hj, by rw [e4 j hji, hset j hji]⟩
    · apply headSound_of_frame p _ w _ hh _ e9 e5
      intro k hk
      rw [e14] at hk
      have hk' : w.pxHeadSegment = some k := hk
      obtain ⟨-, a2, a3, -⟩ := hh k hk'
      have hki : k ≠ i := fun e => a2 (e ▸ hiW)
      refine ⟨hk', by rw [e4 k hki, hset k hki], ?_, ?_⟩
      · rw [e6]
        intro hx
        rcases List.mem_append.mp hx with hx | hx
        · rw [hwait]
          exact List.mem_cons_of_mem _ hx
        · exact absurd (by simpa using hx) hki
      · rw [e8]
        exact fun hx => hx
  · rw [hget]
    obtain ⟨-, -, -, e4, e5, e6, e7, e8, e9, -, -, -, -, e14, -⟩ :=
      ulTCPWindowTxGet_emit_effects h p
        { w with
          ulOurSequenceNumber := w.tx.ulHighestSequenceNumber
          xTxQueue := rest
          pxHeadSegment := if w.pxHeadSegment = some i then none else w.pxHeadSegment
          tx := { w.tx with
                  ulHighestSequenceNumber :=
                    u32add (p.xTCPSegments i).ulSequenceNumber
                      (toUInt32 (p.xTCPSegments i).lDataLength) } } i
    have hir : i ∉ rest := by
      rw [htx] at hX
      exact (List.nodup_cons.mp hX).1
    constructor
    · apply queueUnsent_of_frame p _ w _ hu
      intro j hj
      rw [e7] at hj
      have hj' : j ∈ rest := hj
      have hji : j ≠ i := fun e => hir (e ▸ hj')
      exact ⟨by rw [htx]; exact List.mem_cons_of_mem _ hj', e4 j hji⟩
    · apply headSound_of_frame p _ w _ hh _ e9 e5
      intro k hk
      rw [e14] at hk
      have hk' : (if w.pxHeadSegment = some i then none else w.pxHeadSegment) = some k := hk
      by_cases hhi : w.pxHeadSegment = some i
      · rw [if_pos hhi] at hk'
        exact Option.noConfusion hk'
      · rw [if_neg hhi] at hk'
        have hki : k ≠ i := fun e => hhi (e ▸ hk')
        refine ⟨hk', e4 k hki, ?_, ?_⟩
        · rw [e6]
          intro hx
          rcases List.mem_append.mp hx with hx | hx
          · exact hx
          · exact absurd (by simpa using hx) hki
        · rw [e8]
          exact fun hx => hx

/-! ## C40: new segments and `pxHeadSegment` -/

/-- One iteration of the loop of `lTCPWindowTxAdd`: the new descriptor was never sent, and
the wait queue and the priority queue are not touched. -/
theorem txAddLoop_iteration_flags (h : Host) (p : Pool) (w : TCPWindow) (i : Nat)
    (rest : List Nat) (left idx : Int) (seq : Nat) (cnt : Int) (pN : Pool) (wN : TCPWindow)
    (hfl : p.xSegmentList = i :: rest)
    (hnew : xTCPWindowNew h p w seq cnt false = some (i, pN, wN)) :
    ((txAddLoop_store pN wN i left idx).2.1.xTCPSegments i).bOutstanding = false ∧
    ((txAddLoop_store pN wN i left idx).2.1.xTCPSegments i).ucTransmitCount = 0 ∧
    (txAddLoop_store pN wN i left idx).2.2.xWaitQueue = w.xWaitQueue ∧
    (txAddLoop_store pN wN i left idx).2.2.xPriorityQueue = w.xPriorityQueue := by
  unfold xTCPWindowNew at hnew
  rw [hfl] at hnew
  simp only [Bool.false_eq_true, if_false, Option.some.injEq, Prod.mk.injEq, true_and] at hnew
  obtain ⟨rfl, rfl⟩ := hnew
  simp only [txAddLoop_store, Pool.setSegment, Function.update_same, and_self]

/-- The loop of `lTCPWindowTxAdd` keeps the descriptors of `xTxQueue` unsent and
`pxHeadSegment` accounted for: every new descriptor is unsent, and after each iteration
`pxHeadSegment` is the new descriptor, the last one of `xTxSegments`, when that is not
full, and null otherwise. -/
theorem txAddLoop_head (h : Host) (lMax : Int) (fuel : Nat) :
    ∀ (p : Pool) (w : TCPWindow) (left idx done : Int) (r : Int × Pool × TCPWindow),
      0 < w.usMSS → p.xSegmentList.Nodup → (∀ j ∈ queueItems w, j ∉ p.xSegmentList) →
      queueUnsent p w → headSound p w →
      txAddLoop fuel h p w left idx lMax done = some r →
      queueUnsent r.2.1 r.2.2 ∧ headSound r.2.1 r.2.2 := by
  induction fuel with
  | zero =>
    intro p w left idx done r _ _ _ hu hh hr
    unfold txAddLoop at hr
    split at hr
    · cases hr
    · cases hr; exact ⟨hu, hh⟩
  | succ f ih =>
    intro p w left idx done r hmss hfnd hdisj hu hh hr
    unfold txAddLoop at hr
    split at hr
    · rename_i hpos
      simp only at hr
      split at hr
      · cases hr; exact ⟨hu, hh⟩
      · rename_i i p1 w1 hnew
        obtain ⟨rest, hfl⟩ : ∃ rest, p.xSegmentList = i :: rest := by
          unfold xTCPWindowNew at hnew
          split at hnew
          · cases hnew
          · rename_i k tl hk
            simp only [Bool.false_eq_true, if_false, Option.some.injEq, Prod.mk.injEq] at hnew
            exact ⟨tl, by rw [hk, hnew.1]⟩
        obtain ⟨pN', wN', hnew', -, b2, b3, -, b5, b6, -, b8, -, b10, b11, b12⟩ :=
          txAddLoop_iteration h p w i rest left idx hfl
        have hpair : (i, pN', wN') = (i, p1, w1) := Option.some.inj (hnew'.symm.trans hnew)
        simp only [Prod.mk.injEq, true_and] at hpair
        obtain ⟨rfl, rfl⟩ := hpair
        obtain ⟨c1, c2, c3, c4⟩ := txAddLoop_iteration_flags h p w i rest left idx _ _ _ _ hfl hnew
        have hiF : i ∈ p.xSegmentList := by rw [hfl]; exact List.mem_cons_self _ _
        have hir : i ∉ rest := by
          rw [hfl] at hfnd
          exact (List.nodup_cons.mp hfnd).1
        have hrnd : rest.Nodup := by
          rw [hfl] at hfnd
          exact (List.nodup_cons.mp hfnd).2
        have hitems : queueItems (txAddLoop_store pN' wN' i left idx).2.2
            = queueItems w ++ [i] := by
          unfold queueItems
          rw [c3, c4, b11, List.append_assoc, List.append_assoc, List.append_assoc]
        have hiW : i ∉ w.xWaitQueue := fun hx =>
          hdisj i (List.mem_append_left _ (List.mem_append_right _ hx)) hiF
        have hiP : i ∉ w.xPriorityQueue := fun hx =>
          hdisj i (List.mem_append_left _ (List.mem_append_left _ hx)) hiF
        refine ih _ _ _ _ _ r (by rw [b8]; exact hmss) (by rw [b2]; exact hrnd) ?_ ?_ ?_ hr
        · intro j hj
          rw [hitems] at hj
          rw [b2]
          rcases List.mem_append.mp hj with hj | hj
          · intro hx
            exact hdisj j hj (by rw [hfl]; exact List.mem_cons_of_mem _ hx)
          · have hji : j = i := by simpa using hj
            rw [hji]
            exact hir
        · intro j hj
          rw [b11] at hj
          rcases List.mem_append.mp hj with hj | hj
          · have hji : j ≠ i := fun e =>
              hdisj j (List.mem_append_right _ hj) (e ▸ hiF)
            rw [b3 j hji]
            exact hu j hj
          · have hji : j = i := by simpa using hj
            rw [hji]
            exact ⟨c2, c1⟩
        · intro k hk
          rw [b12] at hk
          by_cases hlt : FreeRTOS_min_int32 left (Int.ofNat w.usMSS) < Int.ofNat w.usMSS
          · rw [if_pos hlt] at hk
            injection hk with hk
            subst hk
            rw [c3, c4, b10, b6, b5]
            refine ⟨c1, hiW, hiP, Or.inl ⟨List.getLast?_concat _, ?_, hlt⟩⟩
            unfold FreeRTOS_min_int32
            split
            · exact hpos
            · exact Int.ofNat_pos.mpr hmss
          · rw [if_neg hlt] at hk
            exact Option.noConfusion hk
    · cases hr; exact ⟨hu, hh⟩

/-- The function `lTCPWindowTxAdd`, for a length below `2^31`, keeps the transmit side
sound. -/
theorem lTCPWindowTxAdd_sound (fuel : Nat) (h : Host) (p : Pool) (w : TCPWindow)
    (ulLength : Nat) (lPosition lMax : Int) (r : Int × Pool × TCPWindow)
    (hs : txSound p w) (hlen : ulLength < 2147483648)
    (hr : lTCPWindowTxAdd fuel h p w ulLength lPosition lMax = some r) :
    txSound r.2.1 r.2.2 := by
  obtain ⟨hw, hq, hnd, hu, hh⟩ := hs
  refine ⟨lTCPWindowTxAdd_wellFormed fuel h p w ulLength lPosition lMax r hw hlen hr,
    lTCPWindowTxAdd_linked fuel h p w ulLength lPosition lMax r hnd hq hr,
    (lTCPWindowTxAdd_conserves fuel h p w ulLength lPosition lMax r hr).nodup_iff.mpr hnd, ?_⟩
  have hcast : toInt32 ulLength = (ulLength : Int) := toInt32_of_lt hlen
  have hmss : 0 < w.usMSS := hw.2.2.2.2.1
  have hfnd : p.xSegmentList.Nodup := (List.nodup_append.mp hnd).1
  have hdisj : ∀ j ∈ queueItems w, j ∉ p.xSegmentList := by
    intro j hj hx
    have hjT : j ∈ w.xTxSegments := hq.2 j hj
    exact (List.nodup_append.mp hnd).2.2 hx (List.mem_append_left _ hjT)
  unfold lTCPWindowTxAdd at hr
  simp only at hr
  split at hr
  · exact txAddLoop_head h lMax fuel _ _ _ _ _ r hmss hfnd hdisj hu hh hr
  · rename_i i hhead
    split at hr
    · rename_i hcond
      obtain ⟨h1, h2, h3⟩ := hcond
      -- the head segment is topped up
      obtain ⟨a1, a2, a3, a4⟩ := hh i hhead
      have hlast : w.xTxSegments.getLast? = some i ∧ 0 < (p.xTCPSegments i).lDataLength := by
        rcases a4 with ⟨b1, b2, -⟩ | ⟨-, b2⟩
        · exact ⟨b1, b2⟩
        · exact absurd b2 h3
      have hmin : 0 ≤ FreeRTOS_min_int32 (toInt32 ulLength)
            ((p.xTCPSegments i).lMaxLength - (p.xTCPSegments i).lDataLength) ∧
          FreeRTOS_min_int32 (toInt32 ulLength)
            ((p.xTCPSegments i).lMaxLength - (p.xTCPSegments i).lDataLength)
            ≤ (p.xTCPSegments i).lMaxLength - (p.xTCPSegments i).lDataLength := by
        rw [hcast]
        unfold FreeRTOS_min_int32
        split
        · exact ⟨Int.ofNat_nonneg _, by assumption⟩
        · exact ⟨by omega, le_refl _⟩
      generalize hm : FreeRTOS_min_int32 (toInt32 ulLength)
        ((p.xTCPSegments i).lMaxLength - (p.xTCPSegments i).lDataLength) = m at hmin
      have hseg : ∀ j, (prvTCPWindowTxAdd_FrontSegment p w i (toInt32 ulLength)).2.1.xTCPSegments j
          = if j = i then { p.xTCPSegments i with lDataLength := (p.xTCPSegments i).lDataLength + m }
            else p.xTCPSegments j := by
        intro j
        simp only [prvTCPWindowTxAdd_FrontSegment, Pool.setSegment, hm]
        by_cases hj : j = i
        · subst hj; simp only [Function.update_same, if_true]
        · rw [Function.update_noteq hj, if_neg hj]
      have hfields : (prvTCPWindowTxAdd_FrontSegment p w i (toInt32 ulLength)).2.2.xTxSegments
            = w.xTxSegments ∧
          (prvTCPWindowTxAdd_FrontSegment p w i (toInt32 ulLength)).2.2.xTxQueue = w.xTxQueue ∧
          (prvTCPWindowTxAdd_FrontSegment p w i (toInt32 ulLength)).2.2.xWaitQueue
            = w.xWaitQueue ∧
          (prvTCPWindowTxAdd_FrontSegment p w i (toInt32 ulLength)).2.2.xPriorityQueue
            = w.xPriorityQueue ∧
          (prvTCPWindowTxAdd_FrontSegment p w i (toInt32 ulLength)).2.2.usMSS = w.usMSS ∧
          (prvTCPWindowTxAdd_FrontSegment p w i (toInt32 ulLength)).2.1.xSegmentList
            = p.xSegmentList := by
        refine ⟨?_, ?_, ?_, ?_, ?_, rfl⟩
        all_goals
          simp only [prvTCPWindowTxAdd_FrontSegment]
          split <;> rfl
      obtain ⟨t1, t2, t3, t4, t5, t6⟩ := hfields
      have hhd : (prvTCPWindowTxAdd_FrontSegment p w i (toInt32 ulLength)).2.2.pxHeadSegment
          = (if (p.xTCPSegments i).lDataLength + m ≥ (p.xTCPSegments i).lMaxLength then none
             else some i) := by
        simp only [prvTCPWindowTxAdd_FrontSegment, hm]
        split
        · rfl
        · exact hhead
      refine txAddLoop_head h lMax fuel _ _ _ _ _ r (by rw [t5]; exact hmss)
        (by rw [t6]; exact hfnd) ?_ ?_ ?_ hr
      · intro j hj
        rw [t6]
        apply hdisj j
        unfold queueItems at hj ⊢
        rw [t2, t3, t4] at hj
        exact hj
      · intro j hj
        rw [t2] at hj
        rw [hseg j]
        by_cases hji : j = i
        · rw [if_pos hji]
          subst hji
          exact hu j hj
        · rw [if_neg hji]
          exact hu j hj
      · intro k hk
        rw [hhd] at hk
        by_cases hfull : (p.xTCPSegments i).lDataLength + m ≥ (p.xTCPSegments i).lMaxLength
        · rw [if_pos hfull] at hk
          exact Option.noConfusion hk
        · rw [if_neg hfull] at hk
          injection hk with hk
          subst hk
          rw [hseg i, if_pos rfl, t1, t3, t4]
          refine ⟨a1, a2, a3, Or.inl ⟨hlast.1, ?_, ?_⟩⟩
          · show 0 < (p.xTCPSegments i).lDataLength + m
            omega
          · show (p.xTCPSegments i).lDataLength + m < (p.xTCPSegments i).lMaxLength
            omega
    · exact txAddLoop_head h lMax fuel _ _ _ _ _ r hmss hfnd hdisj hu hh hr

/-! ## C40: `pxHeadSegment` in every reachable state -/

/-- The function `vTCPWindowCreate` leaves the window with empty lists. -/
theorem vTCPWindowCreate_queues (N : Nat) (xAllocated xTCPSegmentsSet : Bool) (p : Pool)
    (w : TCPWindow)
    (ulRxWindowLength ulTxWindowLength ulAckNumber ulSequenceNumber ulMSS : Nat) :
    (vTCPWindowCreate N xAllocated xTCPSegmentsSet p w ulRxWindowLength ulTxWindowLength
        ulAckNumber ulSequenceNumber ulMSS).2.xRxSegments = [] ∧
    (vTCPWindowCreate N xAllocated xTCPSegmentsSet p w ulRxWindowLength ulTxWindowLength
        ulAckNumber ulSequenceNumber ulMSS).2.xPriorityQueue = [] ∧
    (vTCPWindowCreate N xAllocated xTCPSegmentsSet p w ulRxWindowLength ulTxWindowLength
        ulAckNumber ulSequenceNumber ulMSS).2.xWaitQueue = [] ∧
    (vTCPWindowCreate N xAllocated xTCPSegmentsSet p w ulRxWindowLength ulTxWindowLength
        ulAckNumber ulSequenceNumber ulMSS).2.xTxQueue = [] := by
  refine ⟨?_, ?_, ?_, ?_⟩ <;>
    simp only [vTCPWindowCreate, vTCPWindowInit] <;> split <;> (try split) <;> (try split) <;> rfl

/-- Every state of `TxReachable` has a sound transmit side. -/
theorem txReachable_sound (p : Pool) (w : TCPWindow) (hr : TxReachable p w) : txSound p w := by
  induction hr with
  | window_create N xa xs p w0 rxl txl ack seq mss hhead hnd hcount hpos hlt hseq =>
    have hw := txReachable_wellFormed _ _
      (TxReachable.window_create N xa xs p w0 rxl txl ack seq mss hhead hnd hcount hpos hlt hseq)
    obtain ⟨c1, c2, -, -⟩ := vTCPWindowCreate_tx N xa xs p w0 rxl txl ack seq mss
    obtain ⟨d1, d2, d3, d4⟩ := vTCPWindowCreate_queues N xa xs p w0 rxl txl ack seq mss
    refine ⟨hw, ?_, ?_, ?_, ?_⟩
    · unfold queuesLinked queueItems
      rw [d2, d3, d4]
      exact ⟨List.nodup_nil, fun i hi => absurd hi (List.not_mem_nil i)⟩
    · unfold heldSegments
      rw [c1, d1]
      simpa using hnd
    · intro j hj
      rw [d4] at hj
      exact absurd hj (List.not_mem_nil j)
    · intro i hi
      rw [c2, hhead] at hi
      exact Option.noConfusion hi
  | tx_add p w fuel h len pos mx r _ hlen hr ih =>
    exact lTCPWindowTxAdd_sound fuel h p w len pos mx r ih hlen hr
  | tx_get p w h ws _ ih => exact ulTCPWindowTxGet_sound h p w ws ih
  | tx_ack p w h seq _ ih => exact (ulTCPWindowTxAck_sound h p w ih).1 seq
  | tx_sack p w h first last _ ih => exact (ulTCPWindowTxAck_sound h p w ih).2 first last

/-- In every state of `TxReachable` the descriptors of `xTxQueue` were never sent: their
transmit count is 0 and they are not outstanding. -/
theorem txReachable_unsent (p : Pool) (w : TCPWindow) (hr : TxReachable p w) :
    ∀ j ∈ w.xTxQueue,
      (p.xTCPSegments j).ucTransmitCount = 0 ∧ (p.xTCPSegments j).bOutstanding = false :=
  (txReachable_sound p w hr).2.2.2.1

/-- In every state that one window reaches from `vTCPWindowCreate` by
`lTCPWindowTxAdd`, `ulTCPWindowTxGet`, `ulTCPWindowTxAck` and `ulTCPWindowTxSack` while
no other window takes descriptors from the pool (`TxReachable`), `pxHeadSegment` is null
or refers to a descriptor that is not outstanding and in neither the wait queue nor the
priority queue, and that is either the last descriptor of `xTxSegments`, not in the free
list, with `0 < len < max_len`, or a descriptor that was returned to the free list, in
neither `xTxSegments` nor `xTxQueue`, whose length is 0. -/
theorem txReachable_head_segment (p : Pool) (w : TCPWindow) (hr : TxReachable p w) (i : Nat)
    (hi : w.pxHeadSegment = some i) :
    (p.xTCPSegments i).bOutstanding = false ∧ i ∉ w.xWaitQueue ∧ i ∉ w.xPriorityQueue ∧
    ((w.xTxSegments.getLast? = some i ∧ i ∉ p.xSegmentList ∧
        0 < (p.xTCPSegments i).lDataLength ∧
        (p.xTCPSegments i).lDataLength < (p.xTCPSegments i).lMaxLength) ∨
      (i ∈ p.xSegmentList ∧ i ∉ w.xTxSegments ∧ i ∉ w.xTxQueue ∧
        (p.xTCPSegments i).lDataLength = 0)) := by
  obtain ⟨hw, hq, hnd, -, hh⟩ := txReachable_sound p w hr
  obtain ⟨a1, a2, a3, a4⟩ := hh i hi
  have hfree : ∀ j ∈ w.xTxSegments, j ∉ p.xSegmentList := hw.2.2.2.2.2.2.2.2.1
  refine ⟨a1, a2, a3, ?_⟩
  rcases a4 with ⟨b1, b2, b3⟩ | ⟨b1, b2⟩
  · left
    exact ⟨b1, hfree i (List.mem_of_getLast?_eq_some b1), b2, b3⟩
  · right
    have hiT : i ∉ w.xTxSegments := fun hx => hfree i hx b1
    refine ⟨b1, hiT, ?_, b2⟩
    intro hx
    exact hiT (hq.2 i (List.mem_append_right _ hx))

/-- Claim C40 fails in the code: `ulTCPWindowTxAck` frees the head segment and leaves
`pxHeadSegment` referring to it.  On a pool of 2 descriptors the first window queues 100
bytes in descriptor 0, its head segment, and `ulTCPWindowTxAck` for 2100 frees it
(`pairAcked`): `pxHeadSegment` still refers to descriptor 0, which is in the free list
and in neither `xTxQueue` nor `xTxSegments`.  A second window then queues 1560 bytes and
gets descriptor 0 for the last 100 bytes, `[8460, 8560)` (`pairRelent`).  Now
`lTCPWindowTxAdd` for 50 bytes on the first window finds 100 of 1460 bytes in its head
segment and returns 50 (`pairStale`): the first window still holds no segment, and the
descriptor of the second window holds 150 bytes, 50 more than that window has queued. -/
theorem C40_stale_head_segment :
    Reachable 2 pairAcked ∧
    pairAcked.windows.map (fun w => (w.pxHeadSegment, w.xTxSegments, w.xTxQueue))
      = [(some 0, [], [])] ∧
    pairAcked.pool.xSegmentList = [1, 0] ∧
    (pairAcked.pool.xTCPSegments 0).lDataLength = 0 ∧
    Reachable 2 pairRelent ∧
    pairRelent.windows.map
        (fun w => (w.pxHeadSegment, w.xTxSegments, w.xTxQueue, w.ulNextTxSequenceNumber))
      = [(some 0, [], [], 2100), (some 0, [1, 0], [1, 0], 8560)] ∧
    pairRelent.pool.xSegmentList = [] ∧
    (pairRelent.pool.xTCPSegments 0).ulSequenceNumber = 8460 ∧
    (pairRelent.pool.xTCPSegments 0).lDataLength = 100 ∧
    (pairRelent.pool.xTCPSegments 0).lMaxLength = 1460 ∧
    (pairRelent.pool.xTCPSegments 0).bOutstanding = false ∧
    Reachable 2 pairStale ∧
    pairStaleAdd.1 = 50 ∧
    pairStale.windows.map
        (fun w => (w.pxHeadSegment, w.xTxSegments, w.xTxQueue, w.ulNextTxSequenceNumber))
      = [(some 0, [], [], 2150), (some 0, [1, 0], [1, 0], 8560)] ∧
    (pairStale.pool.xTCPSegments 0).ulSequenceNumber = 8460 ∧
    (pairStale.pool.xTCPSegments 0).lDataLength = 150 :=
  have hcreated : Reachable 2 pairCreated :=
    Reachable.step _ _ (Reachable.pool_init demoPool)
      (Step.window_create _ true demoWindow 5840 5840 1000 2000 1460)
  have hadded : Reachable 2 pairAdded :=
    Reachable.step _ _ hcreated
      (Step.tx_add pairCreated 0 _ 1 demoHost 100 0 65536 pairFirstAdd rfl rfl)
  have hacked : Reachable 2 pairAcked :=
    Reachable.step _ _ hadded (Step.tx_ack pairAdded 0 pairFirstAdd.2.2 demoHost 2100 rfl)
  have hsecond : Reachable 2 pairSecond :=
    Reachable.step _ _ hacked
      (Step.window_create pairAcked true demoWindow 5840 5840 5000 7000 1460)
  have hrelent : Reachable 2 pairRelent :=
    Reachable.step _ _ hsecond
      (Step.tx_add pairSecond 1 _ 2 demoHost 1560 0 65536 pairSecondAdd rfl rfl)
  have hstale : Reachable 2 pairStale :=
    Reachable.step _ _ hrelent
      (Step.tx_add pairRelent 0 _ 0 demoHost 50 100 65536 pairStaleAdd rfl rfl)
  ⟨hacked, by decide, by decide, by decide, hrelent, by decide, by decide, by decide, by decide,
    by decide, by decide, hstale, by decide, by decide, by decide, by decide⟩

end TCPWin
